import Mathlib

/-!
# USB subsystem of PCSX2: save states, frame timer, port ownership

A shallow embedding of `pcsx2/USB/USB.cpp` (with the two peripheral `Freeze`
functions of `usb-pad/usb-pad.cpp` and `usb-lightgun/guncon2.cpp`) and the
properties proved about it.

Machine integers are `Nat` (unsigned) and `Int` (signed) with explicit
wrap-around; pointers to devices are natural-number addresses.
-/

namespace USB

/-! ## Bytes -/

/-- Little-endian bytes of the low `w` bytes of `v`. -/
def leBytes : Nat → Nat → List Nat
  | 0, _ => []
  | w + 1, v => (v % 256) :: leBytes w (v / 256)

/-- Value of a little-endian byte string. -/
def ofLE : List Nat → Nat
  | [] => 0
  | b :: bs => b + 256 * ofLE bs

/-- Bytes of an unsigned `w`-byte integer. -/
def encU (w : Nat) (v : Nat) : List Nat := leBytes w v

/-- Unsigned `w`-byte integer held by a byte string. -/
def decU (w : Nat) (bs : List Nat) : Nat := ofLE bs % 256 ^ w

/-- Bytes of a signed `w`-byte integer (two-complement). -/
def encS (w : Nat) (v : Int) : List Nat := leBytes w (v % (256 : Int) ^ w).toNat

/-- Signed `w`-byte integer held by a byte string. -/
def decS (w : Nat) (bs : List Nat) : Int :=
  let u := ofLE bs % 256 ^ w
  if 2 * u < 256 ^ w then (u : Int) else (u : Int) - (256 : Int) ^ w

/-- Byte written for a `bool`. -/
def encB (b : Bool) : List Nat := [if b then 1 else 0]

/-- Reading a `bool`: any nonzero byte is `true`. -/
def decB (bs : List Nat) : Bool := decide (ofLE bs % 256 ≠ 0)

/-- Force a byte string to length `n` (a C array has a fixed size). -/
def fit (n : Nat) (bs : List Nat) : List Nat := (bs ++ List.replicate n 0).take n

/-- The characters of a marker as bytes. -/
def markerBytes (s : String) : List Nat := s.toList.map Char.toNat

/-- C `strlen`-style truncation at the first NUL byte. -/
def cstr : List Nat → List Nat
  | [] => []
  | b :: bs => if b = 0 then [] else b :: cstr bs

/-! ## StateWrapper -/

/-- Direction of a `StateWrapper`. -/
inductive Mode
  | Read
  | Write
deriving DecidableEq, Repr

/-- Modelled from the spec: `StateWrapper` over a memory stream (StateWrapper.h is
not among the sources): the serializer context object of the design notes, with
typed read/write primitives, a marker checkpoint and a skip operation. `buf` is
the fixed-size memory buffer, `pos` the stream position, `error` the sticky
error flag reported by `HasError`. -/
structure StateWrapper where
  mode : Mode
  buf : List Nat
  pos : Nat
  error : Bool
deriving DecidableEq, Repr

namespace StateWrapper

def IsReading (sw : StateWrapper) : Bool := sw.mode = Mode.Read
def IsWriting (sw : StateWrapper) : Bool := sw.mode = Mode.Write
def HasError (sw : StateWrapper) : Bool := sw.error
def GetPosition (sw : StateWrapper) : Nat := sw.pos

/-- Modelled from the spec: stream `Read`: copies as many of the `count` bytes as
the buffer still holds and advances the position by that many. -/
def streamRead (sw : StateWrapper) (count : Nat) : List Nat × StateWrapper :=
  let n := min (sw.buf.length - sw.pos) count
  ((sw.buf.drop sw.pos).take n, { sw with pos := sw.pos + n })

/-- Modelled from the spec: stream `Write`: stores as many of the bytes as fit in
the fixed-size buffer and returns how many were stored. -/
def streamWrite (sw : StateWrapper) (data : List Nat) : Nat × StateWrapper :=
  let n := min (sw.buf.length - sw.pos) data.length
  (n, { sw with buf := sw.buf.take sw.pos ++ data.take n ++ sw.buf.drop (sw.pos + n),
                pos := sw.pos + n })

/-- Modelled from the spec: `SeekAbsolute`: fails past the end of the buffer. -/
def SeekAbsolute (sw : StateWrapper) (p : Nat) : Bool × StateWrapper :=
  if p > sw.buf.length then (false, sw) else (true, { sw with pos := p })

/-- Modelled from the spec: `SeekRelative` by a signed 32-bit count. -/
def SeekRelative (sw : StateWrapper) (count : Int) : Bool × StateWrapper :=
  if count < 0 then
    if (-count).toNat > sw.pos then (false, sw)
    else (true, { sw with pos := sw.pos - (-count).toNat })
  else
    if sw.pos + count.toNat > sw.buf.length then (false, sw)
    else (true, { sw with pos := sw.pos + count.toNat })

/-- Modelled from the spec: `DoBytes(data, length)`: in read mode the bytes are
replaced by what the stream holds, or zeroed when the stream is in error or too
short (which sets the error flag); in write mode they are written unless the
stream is already in error. -/
def DoBytes (sw : StateWrapper) (data : List Nat) : List Nat × StateWrapper :=
  match sw.mode with
  | Mode.Read =>
    if sw.error then (List.replicate data.length 0, sw)
    else
      let r := sw.streamRead data.length
      if r.1.length ≠ data.length then
        (List.replicate data.length 0, { r.2 with error := true })
      else (r.1, r.2)
  | Mode.Write =>
    if sw.error then (data, sw)
    else
      let r := sw.streamWrite data
      (data, { r.2 with error := decide (r.1 ≠ data.length) })

/-- Modelled from the spec: `Do(std::string*)`: a 32-bit length followed by the
characters; the string read back is cut at its first NUL. -/
def DoString (sw : StateWrapper) (s : List Nat) : List Nat × StateWrapper :=
  let r1 := sw.DoBytes (encU 4 s.length)
  let len := match sw.mode with
    | Mode.Read => decU 4 r1.1
    | Mode.Write => s.length
  let r2 := r1.2.DoBytes (fit len s)
  (cstr r2.1, r2.2)

/-- Modelled from the spec: `DoMarker(marker)`: the marker checkpoint. Writing
stores the marker; reading succeeds when the stored string is the marker. It
fails whenever the stream is in error. -/
def DoMarker (sw : StateWrapper) (marker : String) : Bool × StateWrapper :=
  let r := sw.DoString (markerBytes marker)
  if r.2.error then (false, r.2)
  else if sw.mode = Mode.Write ∨ r.1 = markerBytes marker then (true, r.2)
  else (false, r.2)

/-- Modelled from the spec: `SkipBytes(count)`: the skip operation, read mode only. -/
def SkipBytes (sw : StateWrapper) (count : Nat) : StateWrapper :=
  match sw.mode with
  | Mode.Write => { sw with error := true }
  | Mode.Read =>
    if sw.error then sw
    else
      let c : Int := decS 4 (encU 4 count)
      let r := sw.SeekRelative c
      { r.2 with error := !r.1 }

end StateWrapper

/-! ## Serialized fields -/

/-- One `sw.Do(&field)` call on a state of type `σ`: the bytes it writes and how
the bytes it reads are stored back. -/
structure Field (σ : Type) where
  enc : σ → List Nat
  dec : σ → List Nat → σ

namespace Field

/-- Field of an unsigned integer of `w` bytes. -/
def u {σ : Type} (w : Nat) (get : σ → Nat) (set : σ → Nat → σ) : Field σ :=
  ⟨fun s => encU w (get s), fun s bs => set s (decU w bs)⟩

/-- Field of a signed integer of `w` bytes. -/
def s {σ : Type} (w : Nat) (get : σ → Int) (set : σ → Int → σ) : Field σ :=
  ⟨fun s => encS w (get s), fun s bs => set s (decS w bs)⟩

/-- Field of a `bool`. -/
def b {σ : Type} (get : σ → Bool) (set : σ → Bool → σ) : Field σ :=
  ⟨fun s => encB (get s), fun s bs => set s (decB bs)⟩

/-- Field of a raw byte array (`DoBytes`, `DoArray`, `DoPOD`). -/
def bytes {σ : Type} (get : σ → List Nat) (set : σ → List Nat → σ) : Field σ :=
  ⟨get, set⟩

end Field

/-- The call `sw.Do(&field)`: write mode leaves the state alone and writes the
bytes of the field, read mode replaces the field by what `DoBytes` returns. -/
def doField {σ : Type} (f : Field σ) (st : σ) (sw : StateWrapper) : σ × StateWrapper :=
  let r := sw.DoBytes (f.enc st)
  match sw.mode with
  | Mode.Write => (st, r.2)
  | Mode.Read => (f.dec st r.1, r.2)

/-- Consecutive `sw.Do` calls, in order. -/
def doFields {σ : Type} : List (Field σ) → σ → StateWrapper → σ × StateWrapper
  | [], st, sw => (st, sw)
  | f :: fs, st, sw =>
    let r := doField f st sw
    doFields fs r.1 r.2

/-- A loop `for (i = 0; i < n; i++) body(&a[i], sw)` over the elements of an array. -/
def doArray {α : Type} (body : α → StateWrapper → α × StateWrapper) :
    List α → StateWrapper → List α × StateWrapper
  | [], sw => ([], sw)
  | a :: as, sw =>
    let r := body a sw
    let rs := doArray body as r.2
    (r.1 :: rs.1, rs.2)

/-! ## Data model -/

/-- Number of guest ports (`USB::NUM_PORTS`). -/
def NUM_PORTS : Nat := 2

/-- Endpoint slots of a device that are not the control endpoint, per direction
(`USB_MAX_ENDPOINTS` of the absent header qemu-usb/USBinternal.h). -/
def USB_MAX_ENDPOINTS : Nat := 15

/-- Size of the root hub port array `rhport` (`OHCI_MAX_PORTS` of the absent header
qemu-usb/USBinternal.h). -/
def OHCI_MAX_PORTS : Nat := 15

/-- Device type of an empty port (`DEVTYPE_NONE` of the absent header deviceproxy.h). -/
def DEVTYPE_NONE : Int := -1

/-- A two-element array indexed by guest port. -/
structure PortArr (α : Type) where
  p0 : α
  p1 : α
deriving DecidableEq, Repr

namespace PortArr

def get {α : Type} (a : PortArr α) (port : Nat) : α := if port = 0 then a.p0 else a.p1

def set {α : Type} (a : PortArr α) (port : Nat) (v : α) : PortArr α :=
  if port = 0 then { a with p0 := v } else { a with p1 := v }

end PortArr

/-- Which endpoint of a device: `ep_ctl`, `ep_in[k]` or `ep_out[k]`. -/
inductive EpSlot
  | ctl
  | epIn (k : Nat)
  | epOut (k : Nat)
deriving DecidableEq, Repr

/-- Pointer to an endpoint: the address of the device object holding it (which is
also what its `dev` back-pointer holds) and the slot inside that object. -/
structure EpRef where
  dev : Nat
  slot : EpSlot
deriving DecidableEq, Repr

/-- Pointer to a packet: the controller packet `s_qemu_ohci->usb_packet` or some
other packet object. -/
inductive PacketPtr
  | usb_packet
  | other (n : Nat)
deriving DecidableEq, Repr

/-- Where a packet buffer points: the controller scratch buffer `usb_buf` or
another address; `none` is the null pointer. -/
inductive BufPtr
  | usb_buf
  | other (n : Nat)
deriving DecidableEq, Repr

/-- The fields of `USBEndpoint` that the save state touches (the other fields are
assumed constant by the source). -/
structure USBEndpoint where
  pipeline : Bool
  halted : Bool
  queue : List PacketPtr
deriving DecidableEq, Repr

/-- The fields of `USBPacket`. -/
structure USBPacket where
  pid : Int
  id : Nat
  ep : Option EpRef
  stream : Nat
  buffer_ptr : Option BufPtr
  buffer_size : Int
  parameter : Nat
  short_not_ok : Bool
  int_req : Bool
  status : Int
  actual_length : Int
  state : Int
deriving DecidableEq, Repr

/-- The part of `PadState` that `PadDevice::Freeze` saves: `data.last_steering`
(16 bits) and the force-feedback state `mFFstate`, a plain struct kept as its bytes. -/
structure PadState where
  last_steering : Nat
  mFFstate : List Nat
deriving DecidableEq, Repr

/-- The fields of `GunCon2State` that `GunCon2Device::Freeze` reads or writes.
The four `float` fields are kept as their 32-bit patterns. -/
structure GunCon2State where
  custom_config : Bool
  screen_width : Nat
  screen_height : Nat
  center_x : Nat
  center_y : Nat
  scale_x : Nat
  scale_y : Nat
  param_x : Int
  param_y : Int
  param_mode : Nat
  calibration_timer : Nat
  calibration_pos_x : Int
  calibration_pos_y : Int
  auto_config_done : Bool
deriving DecidableEq, Repr

/-- The peripheral object that contains the `USBDevice` (`USB_CONTAINER_OF`). -/
inductive Peripheral
  | pad (st : PadState)
  | guncon2 (st : GunCon2State)
deriving DecidableEq, Repr

/-- The device proxies whose `Freeze` is among the sources. -/
inductive DeviceProxy
  | PadDevice
  | GunCon2Device
deriving DecidableEq, Repr

/-- The fields of `USBDevice` that USB.cpp reads or writes. `ptr` is the address of
the object (what `s_usb_device[port]` and `port.dev` hold), `periph` the fields of
the enclosing peripheral object. -/
structure USBDevice where
  ptr : Nat
  speed : Int
  addr : Nat
  state : Int
  setup_buf : List Nat
  data_buf : List Nat
  remote_wakeup : Int
  setup_state : Int
  setup_len : Int
  setup_index : Int
  configuration : Int
  altsetting : List Int
  ep_ctl : USBEndpoint
  ep_in : List USBEndpoint
  ep_out : List USBEndpoint
  attached : Bool
  periph : Peripheral
  /-- Whether `klass.unrealize` is set (not a null function pointer). -/
  klass_unrealize : Bool
deriving DecidableEq, Repr

/-- The fields of `OHCIState`. The root hub ports `rhport[i]` are kept as two
parallel arrays: the register `rhport[i].ctrl` and the pointer `rhport[i].port.dev`. -/
structure OHCIState where
  eof_timer : Nat
  sof_time : Int
  ctl : Nat
  status : Nat
  intr_status : Nat
  intr : Nat
  hcca : Nat
  ctrl_head : Nat
  ctrl_cur : Nat
  bulk_head : Nat
  bulk_cur : Nat
  per_cur : Nat
  done : Nat
  done_count : Int
  fsmps : Nat
  fit : Nat
  fi : Nat
  frt : Nat
  frame_number : Nat
  padding : Nat
  pstart : Nat
  lst : Nat
  rhdesc_a : Nat
  rhdesc_b : Nat
  rhstatus : Nat
  rhport_ctrl : List Nat
  rhport_dev : List (Option Nat)
  old_ctl : Nat
  usb_packet : USBPacket
  usb_buf : List Nat
  async_td : Nat
  async_complete : Bool
deriving DecidableEq, Repr

/-- One entry of `EmuConfig.USB.Ports`. -/
structure PortConfig where
  DeviceType : Int
  DeviceSubtype : Nat
deriving DecidableEq, Repr

/-- Calls into code outside USB.cpp, recorded in order. -/
inductive Event
  | unrealize (dev : Nat)
  | update_settings (port : Nat)
  | attach (rhport : Nat)
  | reattach (rhport : Nat)
  | hard_reset
  | frame_boundary
  | console_error (port : Nat)
deriving DecidableEq, Repr

/-- The file-scope state of USB.cpp together with the configuration it reads.
The device objects are stored where `s_usb_device` points; `next_ptr` is the
next fresh object address and `trace` the record of outside calls. `fault` is set
when the program reads an array outside its bounds: the behaviour of the C++ program
is undefined from that read on, so a state with `fault` set stands for a run that has
no defined result, and neither what the state holds nor a value returned with it says
anything about the program. -/
structure USBState where
  s_qemu_ohci : OHCIState
  s_usb_device : PortArr (Option USBDevice)
  s_usb_device_proxy : PortArr (Option DeviceProxy)
  s_usb_clocks : Int
  s_usb_remaining : Int
  g_usb_last_cycle : Int
  EmuConfig : PortArr PortConfig
  next_ptr : Nat
  trace : List Event
  fault : Bool := false
deriving DecidableEq, Repr

/-- The functions USB.cpp calls whose code is outside the sources, as parameters.
Each acts in place on the objects it is handed: the embedding keeps the address of
a device and the `port.dev` pointers of the root hub as they were. -/
structure Env where
  /-- The call `RegisterDevice::instance().Device(type)`. -/
  Device : Int → Option DeviceProxy
  /-- The call `proxy->CreateDevice(si, port, subtype)`: the new object or null. -/
  CreateDevice : DeviceProxy → Nat → Nat → Option USBDevice
  /-- The call `proxy->UpdateSettings(dev, si)`. -/
  UpdateSettings : DeviceProxy → USBDevice → USBDevice
  /-- The call `usb_attach(&rhport[i].port)` on the controller and the device of that port. -/
  usb_attach : OHCIState → Nat → USBDevice → OHCIState × USBDevice
  /-- The call `usb_reattach(&rhport[i].port)` on the controller and the device of that port. -/
  usb_reattach : OHCIState → Nat → USBDevice → OHCIState × USBDevice
  /-- The call `ohci_hard_reset(ohci)` on the controller and the devices of the two ports. -/
  ohci_hard_reset : OHCIState → PortArr (Option USBDevice) → OHCIState × PortArr (Option USBDevice)
  /-- The call `ohci_frame_boundary(ohci)`. -/
  ohci_frame_boundary : OHCIState → OHCIState
  /-- The call `usb_desc_set_config(dev, value)`. -/
  usb_desc_set_config : USBDevice → Int → USBDevice
  /-- The call `usb_desc_set_interface(dev, index, value)`. -/
  usb_desc_set_interface : USBDevice → Nat → Int → USBDevice

/-! ## Lifecycle: `GetOHCIPort`, `CreateDevice`, `DestroyDevice`, `UpdateDevice` -/

/-- Index of the root hub port that `GetOHCIPort(port)` returns:
`(port == 0) ? 1 : 0`. -/
def GetOHCIPort (port : Nat) : Nat := if port = 0 then 1 else 0

/-- An outside call acts on the device object in place. -/
def keepPtr (old new : USBDevice) : USBDevice := { new with ptr := old.ptr }

/-- An outside call does not re-link the `port.dev` pointers of the root hub. -/
def keepWiring (old new : OHCIState) : OHCIState := { new with rhport_dev := old.rhport_dev }

/-- An outside call on the devices of the two ports neither adds nor removes one. -/
def keepDev (old new : Option USBDevice) : Option USBDevice :=
  match old, new with
  | some d, some d1 => some (keepPtr d d1)
  | some d, none => some d
  | none, _ => none

/-- The effect of `GetOHCIPort(port).port.dev = dev`. -/
def setPortDev (o : OHCIState) (port : Nat) (dev : Option Nat) : OHCIState :=
  { o with rhport_dev := o.rhport_dev.set (GetOHCIPort port) dev }

/-- The value of `GetOHCIPort(port).port.dev`. -/
def getPortDev (o : OHCIState) (port : Nat) : Option Nat :=
  (o.rhport_dev.getD (GetOHCIPort port) none)

/-- The function `USB::CreateDevice(port)`. The result is `none` when the release
assertion "No device in OHCI when creating" fails. -/
def CreateDevice (env : Env) (st : USBState) (port : Nat) : Option (Bool × USBState) :=
  let portcfg := st.EmuConfig.get port
  match env.Device portcfg.DeviceType with
  | none => some (true, st)
  | some proxy =>
    match env.CreateDevice proxy port portcfg.DeviceSubtype with
    | none => some (false, { st with trace := st.trace ++ [Event.console_error port] })
    | some created =>
      if (getPortDev st.s_qemu_ohci port).isSome then none
      else
        let dev := { created with ptr := st.next_ptr, attached := true }
        let o := setPortDev st.s_qemu_ohci port (some dev.ptr)
        let r := env.usb_attach o (GetOHCIPort port) dev
        some (true, { st with
          s_qemu_ohci := keepWiring o r.1
          s_usb_device := st.s_usb_device.set port (some (keepPtr dev r.2))
          s_usb_device_proxy := st.s_usb_device_proxy.set port (some proxy)
          next_ptr := st.next_ptr + 1
          trace := st.trace ++ [Event.attach (GetOHCIPort port)] })

/-- The function `USB::DestroyDevice(port)`. The call `dev->klass.unrealize(dev)`,
made when the function pointer is set, is recorded in the trace. -/
def DestroyDevice (st : USBState) (port : Nat) : USBState :=
  match st.s_usb_device.get port with
  | none => st
  | some dev =>
    { st with
      s_qemu_ohci := setPortDev st.s_qemu_ohci port none
      s_usb_device := st.s_usb_device.set port none
      s_usb_device_proxy := st.s_usb_device_proxy.set port none
      trace := if dev.klass_unrealize then st.trace ++ [Event.unrealize dev.ptr] else st.trace }

/-- The function `USB::UpdateDevice(port)`. A null proxy next to a live device
would be a null dereference; the call is then left without effect. -/
def UpdateDevice (env : Env) (st : USBState) (port : Nat) : USBState :=
  match st.s_usb_device.get port with
  | none => st
  | some dev =>
    match st.s_usb_device_proxy.get port with
    | none => st
    | some proxy =>
      { st with
        s_usb_device := st.s_usb_device.set port (some (keepPtr dev (env.UpdateSettings proxy dev)))
        trace := st.trace ++ [Event.update_settings port] }

/-- The loop body of `USB::CheckForConfigChanges` for one port. -/
def checkPort (env : Env) (old_config : PortArr PortConfig) (st : USBState) (port : Nat) :
    Option USBState :=
  if st.EmuConfig.get port = old_config.get port then some (UpdateDevice env st port)
  else
    let st1 := if (st.s_usb_device.get port).isSome then DestroyDevice st port else st
    (CreateDevice env st1 port).map Prod.snd

/-- The function `USB::CheckForConfigChanges(old_config)`. -/
def CheckForConfigChanges (env : Env) (old_config : PortArr PortConfig) (st : USBState) :
    Option USBState :=
  (checkPort env old_config st 0).bind (fun st1 => checkPort env old_config st1 1)

/-- The effect of `ohci_hard_reset(s_qemu_ohci)` on the controller and the devices. -/
def hardReset (env : Env) (st : USBState) : USBState :=
  let r := env.ohci_hard_reset st.s_qemu_ohci st.s_usb_device
  { st with
    s_qemu_ohci := keepWiring st.s_qemu_ohci r.1
    s_usb_device := ⟨keepDev st.s_usb_device.p0 r.2.p0, keepDev st.s_usb_device.p1 r.2.p1⟩
    trace := st.trace ++ [Event.hard_reset] }

/-- The function `USBreset()`. -/
def USBreset (env : Env) (st : USBState) : USBState :=
  hardReset env { st with s_usb_clocks := 0, s_usb_remaining := 0, g_usb_last_cycle := 0 }

/-- The state `USBopen()` starts from: the controller `ohci_create` returned (with
no device on any root hub port), the clocks at zero, then `CreateDevice` on each port. -/
def USBopen (env : Env) (created : OHCIState) (cfg : PortArr PortConfig) : Option USBState :=
  let st0 : USBState :=
    { s_qemu_ohci := { created with rhport_dev := List.replicate OHCI_MAX_PORTS none }
      s_usb_device := ⟨none, none⟩
      s_usb_device_proxy := ⟨none, none⟩
      s_usb_clocks := 0
      s_usb_remaining := 0
      g_usb_last_cycle := 0
      EmuConfig := cfg
      next_ptr := 1
      trace := [] }
  (CreateDevice env st0 0).bind (fun r0 => (CreateDevice env r0.2 1).map Prod.snd)

/-! ## Save state: controller, endpoints, devices, peripherals -/

/-- Update of the controller inside the file-scope state. -/
def USBState.ohci (st : USBState) (f : OHCIState → OHCIState) : USBState :=
  { st with s_qemu_ohci := f st.s_qemu_ohci }

/-- The call `sw.Do(&s_qemu_ohci->rhport[i].ctrl)`. -/
def rhportCtrlField (i : Nat) : Field USBState :=
  Field.u 4 (fun st => st.s_qemu_ohci.rhport_ctrl.getD i 0)
    (fun st v => st.ohci (fun o => { o with rhport_ctrl := o.rhport_ctrl.set i v }))

/-- The `sw.Do` calls of `USB::DoOHCIState` from `g_usb_last_cycle` to `rhdesc_b`,
in source order. -/
def ohciFieldsHead : List (Field USBState) :=
  [ Field.s 8 (fun st => st.g_usb_last_cycle) (fun st v => { st with g_usb_last_cycle := v }),
    Field.s 8 (fun st => st.s_usb_clocks) (fun st v => { st with s_usb_clocks := v }),
    Field.s 8 (fun st => st.s_usb_remaining) (fun st v => { st with s_usb_remaining := v }),
    Field.u 8 (fun st => st.s_qemu_ohci.eof_timer) (fun st v => st.ohci (fun o => { o with eof_timer := v })),
    Field.s 8 (fun st => st.s_qemu_ohci.sof_time) (fun st v => st.ohci (fun o => { o with sof_time := v })),
    Field.u 4 (fun st => st.s_qemu_ohci.ctl) (fun st v => st.ohci (fun o => { o with ctl := v })),
    Field.u 4 (fun st => st.s_qemu_ohci.status) (fun st v => st.ohci (fun o => { o with status := v })),
    Field.u 4 (fun st => st.s_qemu_ohci.intr_status) (fun st v => st.ohci (fun o => { o with intr_status := v })),
    Field.u 4 (fun st => st.s_qemu_ohci.intr) (fun st v => st.ohci (fun o => { o with intr := v })),
    Field.u 4 (fun st => st.s_qemu_ohci.hcca) (fun st v => st.ohci (fun o => { o with hcca := v })),
    Field.u 4 (fun st => st.s_qemu_ohci.ctrl_head) (fun st v => st.ohci (fun o => { o with ctrl_head := v })),
    Field.u 4 (fun st => st.s_qemu_ohci.ctrl_cur) (fun st v => st.ohci (fun o => { o with ctrl_cur := v })),
    Field.u 4 (fun st => st.s_qemu_ohci.bulk_head) (fun st v => st.ohci (fun o => { o with bulk_head := v })),
    Field.u 4 (fun st => st.s_qemu_ohci.bulk_cur) (fun st v => st.ohci (fun o => { o with bulk_cur := v })),
    Field.u 4 (fun st => st.s_qemu_ohci.per_cur) (fun st v => st.ohci (fun o => { o with per_cur := v })),
    Field.u 4 (fun st => st.s_qemu_ohci.done) (fun st v => st.ohci (fun o => { o with done := v })),
    Field.s 4 (fun st => st.s_qemu_ohci.done_count) (fun st v => st.ohci (fun o => { o with done_count := v })),
    Field.u 4 (fun st => st.s_qemu_ohci.fsmps) (fun st v => st.ohci (fun o => { o with fsmps := v % 2 ^ 15 })),
    Field.u 4 (fun st => st.s_qemu_ohci.fit) (fun st v => st.ohci (fun o => { o with fit := v % 2 })),
    Field.u 4 (fun st => st.s_qemu_ohci.fi) (fun st v => st.ohci (fun o => { o with fi := v % 2 ^ 14 })),
    Field.u 4 (fun st => st.s_qemu_ohci.frt) (fun st v => st.ohci (fun o => { o with frt := v % 2 })),
    Field.u 2 (fun st => st.s_qemu_ohci.frame_number) (fun st v => st.ohci (fun o => { o with frame_number := v })),
    Field.u 2 (fun st => st.s_qemu_ohci.padding) (fun st v => st.ohci (fun o => { o with padding := v })),
    Field.u 4 (fun st => st.s_qemu_ohci.pstart) (fun st v => st.ohci (fun o => { o with pstart := v })),
    Field.u 4 (fun st => st.s_qemu_ohci.lst) (fun st v => st.ohci (fun o => { o with lst := v })),
    Field.u 4 (fun st => st.s_qemu_ohci.rhdesc_a) (fun st v => st.ohci (fun o => { o with rhdesc_a := v })),
    Field.u 4 (fun st => st.s_qemu_ohci.rhdesc_b) (fun st v => st.ohci (fun o => { o with rhdesc_b := v })) ]

/-- The `sw.Do` calls of `USB::DoOHCIState` from `old_ctl` to `async_complete`. -/
def ohciFieldsTail : List (Field USBState) :=
  [ Field.u 4 (fun st => st.s_qemu_ohci.old_ctl) (fun st v => st.ohci (fun o => { o with old_ctl := v })),
    Field.bytes (fun st => st.s_qemu_ohci.usb_buf) (fun st v => st.ohci (fun o => { o with usb_buf := v })),
    Field.u 4 (fun st => st.s_qemu_ohci.async_td) (fun st v => st.ohci (fun o => { o with async_td := v })),
    Field.b (fun st => st.s_qemu_ohci.async_complete) (fun st v => st.ohci (fun o => { o with async_complete := v })) ]

/-- The `sw.Do` calls of `USB::DoOHCIState` after the marker: the registers, the
loop over `rhport[i].ctrl` for `i < OHCI_MAX_PORTS`, and the rest. -/
def ohciFields : List (Field USBState) :=
  ohciFieldsHead ++ (List.range OHCI_MAX_PORTS).map rhportCtrlField ++ ohciFieldsTail

/-- The function `USB::DoOHCIState(sw)`. -/
def DoOHCIState (st : USBState) (sw : StateWrapper) : USBState × StateWrapper :=
  let m := sw.DoMarker "USBOHCI"
  if !m.1 then (st, m.2) else doFields ohciFields st m.2

/-- The two `sw.Do` calls of `USB::DoEndpointState`. -/
def endpointFields : List (Field USBEndpoint) :=
  [ Field.b (fun ep => ep.pipeline) (fun ep v => { ep with pipeline := v }),
    Field.b (fun ep => ep.halted) (fun ep v => { ep with halted := v }) ]

/-- The function `USB::DoEndpointState(ep, sw)`: the two flags, and when reading
the queue is emptied. -/
def DoEndpointState (ep : USBEndpoint) (sw : StateWrapper) : USBEndpoint × StateWrapper :=
  let r := doFields endpointFields ep sw
  if sw.IsReading then ({ r.1 with queue := [] }, r.2) else r

/-- The `sw.Do` calls of `USB::DoDeviceState` from `speed` to `configuration`. -/
def deviceFields : List (Field USBDevice) :=
  [ Field.s 4 (fun d => d.speed) (fun d v => { d with speed := v }),
    Field.u 1 (fun d => d.addr) (fun d v => { d with addr := v }),
    Field.s 4 (fun d => d.state) (fun d v => { d with state := v }),
    Field.bytes (fun d => d.setup_buf) (fun d v => { d with setup_buf := v }),
    Field.bytes (fun d => d.data_buf) (fun d v => { d with data_buf := v }),
    Field.s 4 (fun d => d.remote_wakeup) (fun d v => { d with remote_wakeup := v }),
    Field.s 4 (fun d => d.setup_state) (fun d v => { d with setup_state := v }),
    Field.s 4 (fun d => d.setup_len) (fun d v => { d with setup_len := v }),
    Field.s 4 (fun d => d.setup_index) (fun d v => { d with setup_index := v }),
    Field.s 4 (fun d => d.configuration) (fun d v => { d with configuration := v }) ]

/-- Bytes of an `int` array (`DoPODArray`). -/
def encInts : List Int → List Nat
  | [] => []
  | v :: vs => encS 4 v ++ encInts vs

/-- The `int` array of `n` entries held by a byte string. -/
def decInts : Nat → List Nat → List Int
  | 0, _ => []
  | n + 1, bs => decS 4 (bs.take 4) :: decInts n (bs.drop 4)

/-- The loop of `USB::DoDeviceState` over the interfaces, from index `i` on:
`dev->altsetting[i] = altsetting[i]; usb_desc_set_interface(dev, i, altsetting[i])`. -/
def setInterfaces (env : Env) : List Int → Nat → USBDevice → USBDevice
  | [], _, dev => dev
  | v :: vs, i, dev =>
    let d1 := { dev with altsetting := dev.altsetting.set i v }
    setInterfaces env vs (i + 1) (keepPtr d1 (env.usb_desc_set_interface d1 i v))

/-- The function `USB::DoDeviceState(dev, sw)`. -/
def DoDeviceState (env : Env) (dev : USBDevice) (sw : StateWrapper) : USBDevice × StateWrapper :=
  let m := sw.DoMarker "USBDevice"
  if !m.1 then (dev, m.2)
  else
    let r := doFields deviceFields dev m.2
    let d1 := keepPtr r.1 (env.usb_desc_set_config r.1 r.1.configuration)
    let a := r.2.DoBytes (encInts d1.altsetting)
    let d2 := setInterfaces env (decInts d1.altsetting.length a.1) 0 d1
    let e0 := DoEndpointState d2.ep_ctl a.2
    let e1 := doArray DoEndpointState d2.ep_in e0.2
    let e2 := doArray DoEndpointState d2.ep_out e1.2
    ({ d2 with ep_ctl := e0.1, ep_in := e1.1, ep_out := e2.1 }, e2.2)

/-- The two `sw.Do` calls of `PadDevice::Freeze` after the marker. -/
def padFields : List (Field PadState) :=
  [ Field.u 2 (fun p => p.last_steering) (fun p v => { p with last_steering := v }),
    Field.bytes (fun p => p.mFFstate) (fun p v => { p with mFFstate := v }) ]

/-- The function `PadDevice::Freeze(dev, sw)` on the pad state. -/
def PadDevice_Freeze (p : PadState) (sw : StateWrapper) : Bool × PadState × StateWrapper :=
  let m := sw.DoMarker "PadDevice"
  if !m.1 then (false, p, m.2)
  else
    let r := doFields padFields p m.2
    (true, r.1, r.2)

/-- The `sw.Do` calls of `GunCon2Device::Freeze` on fields of the device state. -/
def guncon2Fields : List (Field GunCon2State) :=
  [ Field.s 2 (fun g => g.param_x) (fun g v => { g with param_x := v }),
    Field.s 2 (fun g => g.param_y) (fun g v => { g with param_y := v }),
    Field.u 2 (fun g => g.param_mode) (fun g v => { g with param_mode := v }),
    Field.u 2 (fun g => g.calibration_timer) (fun g v => { g with calibration_timer := v }),
    Field.s 2 (fun g => g.calibration_pos_x) (fun g v => { g with calibration_pos_x := v }),
    Field.s 2 (fun g => g.calibration_pos_y) (fun g v => { g with calibration_pos_y := v }),
    Field.b (fun g => g.auto_config_done) (fun g v => { g with auto_config_done := v }) ]

/-- The local copies `scale_x` ... `screen_height` of `GunCon2Device::Freeze`. -/
structure GunCon2Locals where
  scale_x : Nat
  scale_y : Nat
  center_x : Nat
  center_y : Nat
  screen_width : Nat
  screen_height : Nat
deriving DecidableEq, Repr

/-- The `sw.Do` calls of `GunCon2Device::Freeze` on its local copies. -/
def guncon2LocalFields : List (Field GunCon2Locals) :=
  [ Field.u 4 (fun l => l.scale_x) (fun l v => { l with scale_x := v }),
    Field.u 4 (fun l => l.scale_y) (fun l v => { l with scale_y := v }),
    Field.u 4 (fun l => l.center_x) (fun l v => { l with center_x := v }),
    Field.u 4 (fun l => l.center_y) (fun l v => { l with center_y := v }),
    Field.u 4 (fun l => l.screen_width) (fun l v => { l with screen_width := v }),
    Field.u 4 (fun l => l.screen_height) (fun l v => { l with screen_height := v }) ]

/-- The function `GunCon2Device::Freeze(dev, sw)` on the light gun state. -/
def GunCon2Device_Freeze (g : GunCon2State) (sw : StateWrapper) :
    Bool × GunCon2State × StateWrapper :=
  let m := sw.DoMarker "GunCon2Device"
  if !m.1 then (false, g, m.2)
  else
    let r := doFields guncon2Fields g m.2
    let g1 := r.1
    let l := doFields guncon2LocalFields
      ⟨g1.scale_x, g1.scale_y, g1.center_x, g1.center_y, g1.screen_width, g1.screen_height⟩ r.2
    let g2 :=
      if sw.IsReading && !g1.custom_config && g1.auto_config_done then
        { g1 with scale_x := l.1.scale_x, scale_y := l.1.scale_y, center_x := l.1.center_x,
                  center_y := l.1.center_y, screen_width := l.1.screen_width,
                  screen_height := l.1.screen_height }
      else g1
    (!l.2.HasError, g2, l.2)

/-- The call `proxy->Freeze(dev, sw)`. The proxy casts the device to its own
peripheral type; on an object of another type the call is made to fail. -/
def DeviceProxy.Freeze (proxy : DeviceProxy) (dev : USBDevice) (sw : StateWrapper) :
    Bool × USBDevice × StateWrapper :=
  match proxy, dev.periph with
  | DeviceProxy.PadDevice, Peripheral.pad p =>
    let r := PadDevice_Freeze p sw
    (r.1, { dev with periph := Peripheral.pad r.2.1 }, r.2.2)
  | DeviceProxy.GunCon2Device, Peripheral.guncon2 g =>
    let r := GunCon2Device_Freeze g sw
    (r.1, { dev with periph := Peripheral.guncon2 r.2.1 }, r.2.2)
  | _, _ => (false, dev, sw)

/-! ## Save state: the outstanding packet -/

/-- The endpoint object a slot of a device names, when the slot is inside the arrays. -/
def USBDevice.endpoint (dev : USBDevice) : EpSlot → Option USBEndpoint
  | EpSlot.ctl => some dev.ep_ctl
  | EpSlot.epIn k => dev.ep_in.get? k
  | EpSlot.epOut k => dev.ep_out.get? k

/-- Replace the endpoint object a slot of a device names. -/
def USBDevice.setEndpoint (dev : USBDevice) (slot : EpSlot) (ep : USBEndpoint) : USBDevice :=
  match slot with
  | EpSlot.ctl => { dev with ep_ctl := ep }
  | EpSlot.epIn k => { dev with ep_in := dev.ep_in.set k ep }
  | EpSlot.epOut k => { dev with ep_out := dev.ep_out.set k ep }

/-- The index `DoPacketState` computes for an endpoint pointer inside `dev`:
0 for `ep_ctl`, `1 + k` for `ep_in[k]`, `1 + USB_MAX_ENDPOINTS + k` for `ep_out[k]`,
and -1 (the initial value) for a pointer outside the arrays. -/
def epIndexOf : EpSlot → Int
  | EpSlot.ctl => 0
  | EpSlot.epIn k => if k ≤ USB_MAX_ENDPOINTS - 1 then (k : Int) + 1 else -1
  | EpSlot.epOut k => if k ≤ USB_MAX_ENDPOINTS - 1 then (k : Int) + 1 + USB_MAX_ENDPOINTS else -1

/-- The endpoint `DoPacketState` resolves from an index when reading. -/
def slotOfIndex (ep_index : Int) : Option EpSlot :=
  if ep_index = 0 then some EpSlot.ctl
  else if ep_index < 1 + USB_MAX_ENDPOINTS then some (EpSlot.epIn (ep_index - 1).toNat)
  else if ep_index < 1 + USB_MAX_ENDPOINTS + USB_MAX_ENDPOINTS then
    some (EpSlot.epOut (ep_index - 1 - USB_MAX_ENDPOINTS).toNat)
  else none

/-- The locals `dev_index`, `ep_index`, `queued` of `DoPacketState`. -/
structure PacketLocals where
  dev_index : Int
  ep_index : Int
  queued : Bool
deriving DecidableEq, Repr

/-- The write-mode loop of `DoPacketState` over the ports, from port `i` on: the
first valid port whose device owns the endpoint fixes the three locals. -/
def findEndpoint (st : USBState) (valid_devices : PortArr Bool) (ep : EpRef) :
    List Nat → PacketLocals → PacketLocals
  | [], l => l
  | i :: rest, l =>
    match st.s_usb_device.get i with
    | some dev =>
      if valid_devices.get i && decide (ep.dev = dev.ptr) then
        { dev_index := (i : Int)
          ep_index := epIndexOf ep.slot
          queued := match dev.endpoint ep.slot with
            | some e => decide (PacketPtr.usb_packet ∈ e.queue)
            | none => false }
      else findEndpoint st valid_devices ep rest l
    | none => findEndpoint st valid_devices ep rest l

/-- The `sw.Do` calls of `DoPacketState`, on the packet and the three locals. -/
def packetFields : List (Field (USBPacket × PacketLocals)) :=
  [ Field.s 4 (fun x => x.2.dev_index) (fun x v => (x.1, { x.2 with dev_index := v })),
    Field.s 4 (fun x => x.2.ep_index) (fun x v => (x.1, { x.2 with ep_index := v })),
    Field.s 4 (fun x => x.1.buffer_size) (fun x v => ({ x.1 with buffer_size := v }, x.2)),
    Field.b (fun x => x.2.queued) (fun x v => (x.1, { x.2 with queued := v })),
    Field.s 4 (fun x => x.1.pid) (fun x v => ({ x.1 with pid := v }, x.2)),
    Field.u 8 (fun x => x.1.id) (fun x v => ({ x.1 with id := v }, x.2)),
    Field.u 4 (fun x => x.1.stream) (fun x v => ({ x.1 with stream := v }, x.2)),
    Field.u 8 (fun x => x.1.parameter) (fun x v => ({ x.1 with parameter := v }, x.2)),
    Field.b (fun x => x.1.short_not_ok) (fun x v => ({ x.1 with short_not_ok := v }, x.2)),
    Field.b (fun x => x.1.int_req) (fun x v => ({ x.1 with int_req := v }, x.2)),
    Field.s 4 (fun x => x.1.status) (fun x v => ({ x.1 with status := v }, x.2)),
    Field.s 4 (fun x => x.1.actual_length) (fun x v => ({ x.1 with actual_length := v }, x.2)),
    Field.s 4 (fun x => x.1.state) (fun x v => ({ x.1 with state := v }, x.2)) ]

/-- The read of `valid_devices[static_cast<u32>(dev_index)]` for a `dev_index` that is
not negative. The table has `NUM_PORTS` = 2 entries and the source puts no upper bound
on the index: a read at index 2 or more is outside the array and has no value. -/
def validAt (valid_devices : PortArr Bool) (dev_index : Int) : Option Bool :=
  if dev_index = 0 then some valid_devices.p0
  else if dev_index = 1 then some valid_devices.p1
  else none

/-- The read-mode tail of `DoPacketState`: resolve the indices back into pointers. The
condition `dev_index >= 0 && ep_index >= 0 && valid_devices[...]` reads the table when
the two comparisons hold; when that read is outside the table the run has no defined
result: `fault` is set, on the state of the `else` branch. -/
def resolvePacket (st : USBState) (p : USBPacket) (l : PacketLocals)
    (valid_devices : PortArr Bool) : USBState :=
  let p0 := { p with ep := none }
  if 0 ≤ l.dev_index ∧ 0 ≤ l.ep_index ∧ validAt valid_devices l.dev_index = none then
    { st with
      s_qemu_ohci :=
        { st.s_qemu_ohci with usb_packet := { p0 with buffer_ptr := none, buffer_size := 0 } }
      fault := true }
  else if 0 ≤ l.dev_index ∧ 0 ≤ l.ep_index ∧ validAt valid_devices l.dev_index = some true then
    let port := l.dev_index.toNat
    let p1 := { p0 with buffer_ptr := if 0 < p0.buffer_size then some BufPtr.usb_buf else none }
    match st.s_usb_device.get port, slotOfIndex l.ep_index with
    | some dev, some slot =>
      let p2 := { p1 with ep := some ⟨dev.ptr, slot⟩ }
      let dev1 :=
        if l.queued then
          match dev.endpoint slot with
          | some e => dev.setEndpoint slot { e with queue := e.queue ++ [PacketPtr.usb_packet] }
          | none => dev
        else dev
      { st with s_qemu_ohci := { st.s_qemu_ohci with usb_packet := p2 }
                s_usb_device := st.s_usb_device.set port (some dev1) }
    | _, _ => { st with s_qemu_ohci := { st.s_qemu_ohci with usb_packet := p1 } }
  else
    { st with s_qemu_ohci :=
        { st.s_qemu_ohci with usb_packet := { p0 with buffer_ptr := none, buffer_size := 0 } } }

/-- The function `USB::DoPacketState(&s_qemu_ohci->usb_packet, sw, valid_devices)`. -/
def DoPacketState (st : USBState) (sw : StateWrapper) (valid_devices : PortArr Bool) :
    USBState × StateWrapper :=
  let m := sw.DoMarker "USBPacket"
  if !m.1 then (st, m.2)
  else
    let p := st.s_qemu_ohci.usb_packet
    let l0 : PacketLocals := ⟨-1, -1, false⟩
    let l1 :=
      if sw.IsWriting then
        match p.ep with
        | some ep => findEndpoint st valid_devices ep [0, 1] l0
        | none => l0
      else l0
    let r := doFields packetFields (p, l1) m.2
    if sw.IsReading then (resolvePacket st r.1.1 r.1.2 valid_devices, r.2)
    else ({ st with s_qemu_ohci := { st.s_qemu_ohci with usb_packet := r.1.1 } }, r.2)

/-! ## `USBfreeze` -/

/-- The locals `state_devtype`, `state_devsubtype`, `state_size` of a port block. -/
structure PortHeader where
  state_devtype : Int
  state_devsubtype : Nat
  state_size : Nat
deriving DecidableEq, Repr

def devtypeField : Field PortHeader :=
  Field.s 4 (fun h => h.state_devtype) (fun h v => { h with state_devtype := v })

def devsubtypeField : Field PortHeader :=
  Field.u 4 (fun h => h.state_devsubtype) (fun h v => { h with state_devsubtype := v })

def sizeField : Field PortHeader :=
  Field.u 4 (fun h => h.state_size) (fun h v => { h with state_size := v })

/-- The call `usb_reattach(&USB::GetOHCIPort(port).port)`: it acts on the controller
and on the device that root hub port points to. -/
def reattachPort (env : Env) (st : USBState) (port : Nat) : USBState :=
  let st1 := { st with trace := st.trace ++ [Event.reattach (GetOHCIPort port)] }
  match getPortDev st.s_qemu_ohci port with
  | none => st1
  | some a =>
    let owner : Option Nat :=
      if (st.s_usb_device.p0.map (fun d => d.ptr)) = some a then some 0
      else if (st.s_usb_device.p1.map (fun d => d.ptr)) = some a then some 1
      else none
    match owner with
    | none => st1
    | some q =>
      match st.s_usb_device.get q with
      | none => st1
      | some dev =>
        let r := env.usb_reattach st.s_qemu_ohci (GetOHCIPort port) dev
        { st1 with s_qemu_ohci := keepWiring st.s_qemu_ohci r.1
                   s_usb_device := st.s_usb_device.set q (some (keepPtr dev r.2)) }

/-- Loop state of the port loops of `USBfreeze`. -/
structure FreezeLoop where
  st : USBState
  sw : StateWrapper
  valid_devices : PortArr Bool
deriving DecidableEq, Repr

/-- One iteration of the port loop of `USBfreeze` in `Load` mode. -/
def loadPort (env : Env) (x : FreezeLoop) (port : Nat) : FreezeLoop :=
  let h := doFields [devtypeField, devsubtypeField, sizeField] ⟨0, 0, 0⟩ x.sw
  let hdr := h.1
  let sw := h.2
  let cfg := x.st.EmuConfig.get port
  if sw.HasError ∨ cfg.DeviceType ≠ hdr.state_devtype ∨ cfg.DeviceSubtype ≠ hdr.state_devsubtype
      ∨ (hdr.state_devtype ≠ DEVTYPE_NONE ∧ (x.st.s_usb_device.get port).isNone) then
    let st1 := { x.st with trace := x.st.trace ++ [Event.console_error port] }
    let st2 := if (st1.s_usb_device.get port).isSome then reattachPort env st1 port else st1
    { x with st := st2, sw := sw.SkipBytes hdr.state_size }
  else
    match x.st.s_usb_device.get port with
    | none => { x with sw := sw.SkipBytes hdr.state_size }
    | some dev =>
      let d := DoDeviceState env dev sw
      let f : Bool × USBDevice × StateWrapper :=
        match x.st.s_usb_device_proxy.get port with
        | some proxy => proxy.Freeze d.1 d.2
        | none => (false, d.1, d.2)
      let st1 := { x.st with s_usb_device := x.st.s_usb_device.set port (some f.2.1) }
      if !f.1 || f.2.2.HasError then
        { x with st := DestroyDevice { st1 with trace := st1.trace ++ [Event.console_error port] } port,
                 sw := f.2.2 }
      else
        { st := st1, sw := f.2.2, valid_devices := x.valid_devices.set port true }

/-- The argument `freezeData* data`: a buffer and its size. -/
structure freezeData where
  size : Nat
  data : List Nat
deriving DecidableEq, Repr

/-- The argument `FreezeAction mode`. -/
inductive FreezeAction
  | Load
  | Save
  | Size
deriving DecidableEq, Repr

/-- The `Load` branch of `USBfreeze`. -/
def USBfreezeLoad (env : Env) (st : USBState) (data : freezeData) : Int × USBState :=
  let sw0 : StateWrapper := ⟨Mode.Read, fit data.size data.data, 0, false⟩
  let m := sw0.DoMarker "USB"
  if !m.1 then (0, USBreset env st)
  else
    let o := DoOHCIState st m.2
    let x0 : FreezeLoop := ⟨o.1, o.2, ⟨false, false⟩⟩
    let x1 := loadPort env x0 0
    let x2 := loadPort env x1 1
    let r := DoPacketState x2.st x2.sw x2.valid_devices
    if r.2.HasError then (0, USBreset env r.1) else (0, r.1)

/-- One iteration of the port loop of `USBfreeze` in `Save` mode; the first
component is `false` when the iteration ends in `return -1`. -/
def savePort (env : Env) (x : FreezeLoop) (port : Nat) : Bool × FreezeLoop :=
  let cfg := x.st.EmuConfig.get port
  let hdr : PortHeader := ⟨cfg.DeviceType, cfg.DeviceSubtype, 0⟩
  let h := doFields [devtypeField, devsubtypeField] hdr x.sw
  let size_pos := h.2.GetPosition
  let z := doField sizeField hdr h.2
  let sw := z.2
  if sw.HasError then (false, { x with sw := sw })
  else
    match x.st.s_usb_device.get port with
    | none => (true, { x with sw := sw })
    | some dev =>
      let start_pos := sw.GetPosition
      let d := DoDeviceState env dev sw
      let f : Bool × USBDevice × StateWrapper :=
        match x.st.s_usb_device_proxy.get port with
        | some proxy => proxy.Freeze d.1 d.2
        | none => (false, d.1, d.2)
      let st1 := { x.st with s_usb_device := x.st.s_usb_device.set port (some f.2.1) }
      if !f.1 || f.2.2.HasError then (false, { x with st := st1, sw := f.2.2 })
      else
        let end_pos := f.2.2.GetPosition
        let hdr1 := { hdr with state_size := (end_pos - start_pos) % 2 ^ 32 }
        let k1 := f.2.2.SeekAbsolute size_pos
        if !k1.1 then (false, { x with st := st1, sw := k1.2 })
        else
          let w := doField sizeField hdr1 k1.2
          if w.2.HasError then (false, { x with st := st1, sw := w.2 })
          else
            let k2 := w.2.SeekAbsolute end_pos
            if !k2.1 then (false, { x with st := st1, sw := k2.2 })
            else (true, { st := st1, sw := k2.2, valid_devices := x.valid_devices.set port true })

/-- The `Save` branch of `USBfreeze`: the return value, the state and the buffer. -/
def USBfreezeSave (env : Env) (st : USBState) (data : freezeData) :
    Int × USBState × freezeData :=
  let sw0 : StateWrapper := ⟨Mode.Write, List.replicate data.size 0, 0, false⟩
  let m := sw0.DoMarker "USB"
  if !m.1 then (-1, st, { data with data := m.2.buf })
  else
    let o := DoOHCIState st m.2
    let x0 : FreezeLoop := ⟨o.1, o.2, ⟨false, false⟩⟩
    let s1 := savePort env x0 0
    if !s1.1 then (-1, s1.2.st, { data with data := s1.2.sw.buf })
    else
      let s2 := savePort env s1.2 1
      if !s2.1 then (-1, s2.2.st, { data with data := s2.2.sw.buf })
      else
        let r := DoPacketState s2.2.st s2.2.sw s2.2.valid_devices
        if r.2.HasError then (-1, r.1, { data with data := r.2.buf })
        else (0, r.1, { data with data := r.2.buf })

/-- The function `USBfreeze(mode, data)`. -/
def USBfreeze (env : Env) (mode : FreezeAction) (st : USBState) (data : freezeData) :
    Int × USBState × freezeData :=
  match mode with
  | FreezeAction.Load => let r := USBfreezeLoad env st data; (r.1, r.2, data)
  | FreezeAction.Save => USBfreezeSave env st data
  | FreezeAction.Size => (0, st, { data with size := 0x10000 })

/-! ## `USBasync` -/

/-- Wrap-around of a signed 64-bit integer. -/
def wrapS64 (v : Int) : Int := (v + 2 ^ 63) % 2 ^ 64 - 2 ^ 63

/-- The cast `(uint64_t)v`. -/
def toU64 (v : Int) : Nat := (v % 2 ^ 64).toNat

/-- The `while` loop of `USBasync`, run for at most `fuel` iterations. Each
iteration takes at least one cycle off the accumulator, so `USBasync` hands it
more fuel than it can use. -/
def frameLoop (env : Env) : Nat → USBState → USBState
  | 0, st => st
  | fuel + 1, st =>
    if toU64 st.s_usb_remaining ≥ st.s_qemu_ohci.eof_timer then
      let o := keepWiring st.s_qemu_ohci
        (env.ohci_frame_boundary { st.s_qemu_ohci with eof_timer := 0 })
      let st1 := { st with
        s_usb_remaining := wrapS64 (st.s_usb_remaining - st.s_qemu_ohci.eof_timer)
        s_qemu_ohci := o
        trace := st.trace ++ [Event.frame_boundary] }
      if o.eof_timer = 0 then st1 else frameLoop env fuel st1
    else st

/-- The function `USBasync(cycles)`. -/
def USBasync (env : Env) (st : USBState) (cycles : Nat) : USBState :=
  let remaining := wrapS64 (st.s_usb_remaining + cycles)
  let st1 := { st with s_usb_remaining := remaining
                       s_usb_clocks := wrapS64 (st.s_usb_clocks + remaining) }
  if 0 < st1.s_qemu_ohci.eof_timer then
    let st2 := frameLoop env (toU64 remaining + 1) st1
    if 0 < st2.s_usb_remaining ∧ 0 < st2.s_qemu_ohci.eof_timer then
      let m0 := wrapS64 st2.s_qemu_ohci.eof_timer
      let m := if st2.s_usb_remaining < m0 then st2.s_usb_remaining else m0
      { st2 with
        s_qemu_ohci := { st2.s_qemu_ohci with
          eof_timer := toU64 ((st2.s_qemu_ohci.eof_timer : Int) - m) }
        s_usb_remaining := wrapS64 (st2.s_usb_remaining - m) }
    else st2
  else st1

/-- The function `usb_get_clock()`. -/
def usb_get_clock (st : USBState) : Int := st.s_usb_clocks

/-! ## Views of the stream and of a field list used to state the results -/

namespace StateWrapper

/-- The stream after `bs` has been stored at the position. -/
def put (sw : StateWrapper) (bs : List Nat) : StateWrapper :=
  { sw with buf := sw.buf.take sw.pos ++ bs ++ sw.buf.drop (sw.pos + bs.length),
            pos := sw.pos + bs.length }

/-- The stream after `n` bytes have been consumed. -/
def adv (sw : StateWrapper) (n : Nat) : StateWrapper := { sw with pos := sw.pos + n }

/-- The stream with its position moved to `p`. -/
def seekTo (sw : StateWrapper) (p : Nat) : StateWrapper := { sw with pos := p }

/-- The bytes from the position to the end of the buffer. -/
def rest (sw : StateWrapper) : List Nat := sw.buf.drop sw.pos

/-- A stream in write mode, not in error, with room for `n` more bytes. -/
def Writable (sw : StateWrapper) (n : Nat) : Prop :=
  sw.mode = Mode.Write ∧ sw.error = false ∧ sw.pos + n ≤ sw.buf.length

/-- A stream in read mode, not in error, whose next bytes are `bs` followed by `tl`. -/
def Readable (sw : StateWrapper) (bs tl : List Nat) : Prop :=
  sw.mode = Mode.Read ∧ sw.error = false ∧ sw.rest = bs ++ tl ∧ sw.pos ≤ sw.buf.length

end StateWrapper

/-- The bytes a field list writes for a state. -/
def encAll {σ : Type} : List (Field σ) → σ → List Nat
  | [], _ => []
  | f :: fs, st => f.enc st ++ encAll fs st

/-- The state after a field list has read the bytes written for `src`. -/
def decAll {σ : Type} : List (Field σ) → σ → σ → σ
  | [], st, _ => st
  | f :: fs, st, src => decAll fs (f.dec st (f.enc src)) src

/-- The fields of `st` have the sizes of those of `src` (arrays carry their size),
all along the reading of the bytes written for `src`. -/
def agree {σ : Type} : List (Field σ) → σ → σ → Prop
  | [], _, _ => True
  | f :: fs, st, src =>
    (f.enc st).length = (f.enc src).length ∧ agree fs (f.dec st (f.enc src)) src

/-- The bytes `DoMarker` writes: the length, then the characters. -/
def markerEnc (marker : String) : List Nat :=
  encU 4 (markerBytes marker).length ++ markerBytes marker

/-- A marker that `DoMarker` reads back as itself: no NUL character and a length
that fits 32 bits. -/
def GoodMarker (marker : String) : Prop :=
  (∀ b ∈ markerBytes marker, b ≠ 0) ∧ (markerBytes marker).length < 256 ^ 4

/-- A value of a signed integer type of `w` bytes. -/
def InS (w : Nat) (v : Int) : Prop := -((256 : Int) ^ w) ≤ 2 * v ∧ 2 * v < (256 : Int) ^ w

/-- A value of an unsigned integer type of `w` bytes. -/
def InU (w : Nat) (v : Nat) : Prop := v < 256 ^ w

instance (w : Nat) (v : Int) : Decidable (InS w v) := by unfold InS; infer_instance

instance (w : Nat) (v : Nat) : Decidable (InU w v) := by unfold InU; infer_instance

/-- The controller fields hold values of their C types, and the port array has
`OHCI_MAX_PORTS` entries. -/
structure OHCIState.WF (o : OHCIState) : Prop where
  eof_timer : InU 8 o.eof_timer
  sof_time : InS 8 o.sof_time
  ctl : InU 4 o.ctl
  status : InU 4 o.status
  intr_status : InU 4 o.intr_status
  intr : InU 4 o.intr
  hcca : InU 4 o.hcca
  ctrl_head : InU 4 o.ctrl_head
  ctrl_cur : InU 4 o.ctrl_cur
  bulk_head : InU 4 o.bulk_head
  bulk_cur : InU 4 o.bulk_cur
  per_cur : InU 4 o.per_cur
  done : InU 4 o.done
  done_count : InS 4 o.done_count
  fsmps : o.fsmps < 2 ^ 15
  fit : o.fit < 2
  fi : o.fi < 2 ^ 14
  frt : o.frt < 2
  frame_number : InU 2 o.frame_number
  padding : InU 2 o.padding
  pstart : InU 4 o.pstart
  lst : InU 4 o.lst
  rhdesc_a : InU 4 o.rhdesc_a
  rhdesc_b : InU 4 o.rhdesc_b
  rhport_ctrl_len : o.rhport_ctrl.length = OHCI_MAX_PORTS
  rhport_ctrl : ∀ v ∈ o.rhport_ctrl, InU 4 v
  old_ctl : InU 4 o.old_ctl
  async_td : InU 4 o.async_td

/-- The three file-scope counters hold 64-bit values and the controller is well formed. -/
structure USBState.WFregs (st : USBState) : Prop where
  last_cycle : InS 8 st.g_usb_last_cycle
  clocks : InS 8 st.s_usb_clocks
  remaining : InS 8 st.s_usb_remaining
  ohci : st.s_qemu_ohci.WF

/-- What `DoOHCIState` leaves of the live state `st` when it reads the record of
`src`: every serialized field is the one of `src`; the root hub wiring, the
root hub status and the packet are not part of the record. -/
def ohciLoaded (st src : USBState) : USBState :=
  { st with
    g_usb_last_cycle := src.g_usb_last_cycle
    s_usb_clocks := src.s_usb_clocks
    s_usb_remaining := src.s_usb_remaining
    s_qemu_ohci :=
      { src.s_qemu_ohci with
        rhstatus := st.s_qemu_ohci.rhstatus
        rhport_dev := st.s_qemu_ohci.rhport_dev
        usb_packet := st.s_qemu_ohci.usb_packet } }

/-- The bytes `DoOHCIState` writes. -/
def ohciBytes (st : USBState) : List Nat := markerEnc "USBOHCI" ++ encAll ohciFields st

/-- The bytes a loop over an array writes, given the bytes of one element. -/
def encList {α : Type} (enc : α → List Nat) : List α → List Nat
  | [] => []
  | a :: as => enc a ++ encList enc as

/-- The bytes `DoEndpointState` writes. -/
def epBytes (ep : USBEndpoint) : List Nat := encAll endpointFields ep

/-- The endpoint `DoEndpointState` leaves when it reads the record of `src`. -/
def epLoaded (_ep src : USBEndpoint) : USBEndpoint :=
  { pipeline := src.pipeline, halted := src.halted, queue := [] }

/-- The device fields hold values of their C types. -/
structure USBDevice.WF (d : USBDevice) : Prop where
  speed : InS 4 d.speed
  addr : InU 1 d.addr
  state : InS 4 d.state
  remote_wakeup : InS 4 d.remote_wakeup
  setup_state : InS 4 d.setup_state
  setup_len : InS 4 d.setup_len
  setup_index : InS 4 d.setup_index
  configuration : InS 4 d.configuration
  altsetting : ∀ v ∈ d.altsetting, InS 4 v

/-- The assumption on the two descriptor helpers, whose code is outside the
sources: applying to a device the configuration it already has, or to an
interface the alternate setting it already has, leaves the device fields of this
model as they are. -/
structure Env.Reapply (env : Env) : Prop where
  config : ∀ d : USBDevice, keepPtr d (env.usb_desc_set_config d d.configuration) = d
  interface : ∀ (d : USBDevice) (i : Nat), i < d.altsetting.length →
    keepPtr d (env.usb_desc_set_interface d i (d.altsetting.getD i 0)) = d

/-- The bytes `DoDeviceState` writes for a device the helpers leave alone. -/
def devBytes (d : USBDevice) : List Nat :=
  markerEnc "USBDevice" ++ encAll deviceFields d ++ encInts d.altsetting
    ++ epBytes d.ep_ctl ++ encList epBytes d.ep_in ++ encList epBytes d.ep_out

/-- The device `DoDeviceState` leaves when the live device `d` reads the record of
`src`: every serialized field is the one of `src` and the queues are empty. -/
def devLoaded (d src : USBDevice) : USBDevice :=
  { d with
    speed := src.speed
    addr := src.addr
    state := src.state
    setup_buf := src.setup_buf
    data_buf := src.data_buf
    remote_wakeup := src.remote_wakeup
    setup_state := src.setup_state
    setup_len := src.setup_len
    setup_index := src.setup_index
    configuration := src.configuration
    altsetting := src.altsetting
    ep_ctl := epLoaded d.ep_ctl src.ep_ctl
    ep_in := List.zipWith epLoaded d.ep_in src.ep_in
    ep_out := List.zipWith epLoaded d.ep_out src.ep_out }

/-- The arrays of the live device `d` have the sizes of those of `src`. -/
structure SameShape (d src : USBDevice) : Prop where
  setup_buf : d.setup_buf.length = src.setup_buf.length
  data_buf : d.data_buf.length = src.data_buf.length
  altsetting : d.altsetting.length = src.altsetting.length
  ep_in : d.ep_in.length = src.ep_in.length
  ep_out : d.ep_out.length = src.ep_out.length

/-- The bytes `PadDevice::Freeze` writes. -/
def padBytes (p : PadState) : List Nat := markerEnc "PadDevice" ++ encAll padFields p

/-- The local copies `GunCon2Device::Freeze` starts from. -/
def gunLocals (g : GunCon2State) : GunCon2Locals :=
  ⟨g.scale_x, g.scale_y, g.center_x, g.center_y, g.screen_width, g.screen_height⟩

/-- The bytes `GunCon2Device::Freeze` writes. -/
def gunBytes (g : GunCon2State) : List Nat :=
  markerEnc "GunCon2Device" ++ encAll guncon2Fields g ++ encAll guncon2LocalFields (gunLocals g)

/-- The light gun state `GunCon2Device::Freeze` leaves when the live state `g` reads
the record of `src`: the saved device state, and the saved screen parameters when
the configuration is automatic and was done. -/
def gunLoaded (g src : GunCon2State) : GunCon2State :=
  let g1 := { g with param_x := src.param_x, param_y := src.param_y, param_mode := src.param_mode,
                     calibration_timer := src.calibration_timer,
                     calibration_pos_x := src.calibration_pos_x,
                     calibration_pos_y := src.calibration_pos_y,
                     auto_config_done := src.auto_config_done }
  if !g.custom_config && src.auto_config_done then
    { g1 with scale_x := src.scale_x, scale_y := src.scale_y, center_x := src.center_x,
              center_y := src.center_y, screen_width := src.screen_width,
              screen_height := src.screen_height }
  else g1

/-- The fields of a peripheral hold values of their C types. -/
def Peripheral.WF : Peripheral → Prop
  | Peripheral.pad p => InU 2 p.last_steering
  | Peripheral.guncon2 g =>
    InS 2 g.param_x ∧ InS 2 g.param_y ∧ InU 2 g.param_mode ∧ InU 2 g.calibration_timer ∧
    InS 2 g.calibration_pos_x ∧ InS 2 g.calibration_pos_y ∧ InU 4 g.scale_x ∧ InU 4 g.scale_y ∧
    InU 4 g.center_x ∧ InU 4 g.center_y ∧ InU 4 g.screen_width ∧ InU 4 g.screen_height

/-- The proxy is the one of the type of the peripheral. -/
def ProxyOf : DeviceProxy → Peripheral → Prop
  | DeviceProxy.PadDevice, Peripheral.pad _ => True
  | DeviceProxy.GunCon2Device, Peripheral.guncon2 _ => True
  | _, _ => False

/-- The live peripheral `p` has the type and the sizes of `src`. -/
def PeriphShape : Peripheral → Peripheral → Prop
  | Peripheral.pad p, Peripheral.pad src => p.mFFstate.length = src.mFFstate.length
  | Peripheral.guncon2 _, Peripheral.guncon2 _ => True
  | _, _ => False

/-- The bytes `proxy->Freeze` writes for a peripheral. -/
def periphBytes : Peripheral → List Nat
  | Peripheral.pad p => padBytes p
  | Peripheral.guncon2 g => gunBytes g

/-- The peripheral `proxy->Freeze` leaves when the live peripheral reads the record of `src`. -/
def periphLoaded : Peripheral → Peripheral → Peripheral
  | Peripheral.pad _, Peripheral.pad src => Peripheral.pad src
  | Peripheral.guncon2 g, Peripheral.guncon2 src => Peripheral.guncon2 (gunLoaded g src)
  | p, _ => p

/-- The bytes of a port block after its length field: nothing for an empty port,
the device record and the peripheral record otherwise. -/
def blockBytes : Option USBDevice → List Nat
  | none => []
  | some d => devBytes d ++ periphBytes d.periph

/-- The bytes `USBfreeze` writes for a port in `Save` mode: configured type,
configured subtype, length of the block, block. -/
def portBytes (st : USBState) (port : Nat) : List Nat :=
  encS 4 (st.EmuConfig.get port).DeviceType ++ encU 4 (st.EmuConfig.get port).DeviceSubtype
    ++ encU 4 (blockBytes (st.s_usb_device.get port)).length
    ++ blockBytes (st.s_usb_device.get port)

/-- A port of a well-formed state: the configuration holds values of its C types,
and a device in the port is well formed and has the proxy of its type. -/
structure PortWF (st : USBState) (port : Nat) : Prop where
  devtype : InS 4 (st.EmuConfig.get port).DeviceType
  devsubtype : InU 4 (st.EmuConfig.get port).DeviceSubtype
  dev : ∀ d, st.s_usb_device.get port = some d →
    d.WF ∧ d.periph.WF ∧ ∃ proxy, st.s_usb_device_proxy.get port = some proxy ∧ ProxyOf proxy d.periph

/-- The header and block of a port as stored in a stream: recorded type, recorded
subtype, length of the block, block. -/
def portRecord (ty : Int) (sub : Nat) (block : List Nat) : List Nat :=
  encS 4 ty ++ encU 4 sub ++ encU 4 block.length ++ block

/-- The device a successful load leaves in a port: the record of `src` read into
the live device `d`. -/
def portLoaded (d src : USBDevice) : USBDevice :=
  { devLoaded d src with periph := periphLoaded d.periph src.periph }

/-- The state the `Load` loop leaves for a port whose block it skips: on a mismatch
the error is logged and the attached device, if any, is re-attached. -/
def skipState (env : Env) (st : USBState) (port : Nat) (ty : Int) (sub : Nat) : USBState :=
  if (st.EmuConfig.get port).DeviceType ≠ ty ∨ (st.EmuConfig.get port).DeviceSubtype ≠ sub
      ∨ (ty ≠ DEVTYPE_NONE ∧ (st.s_usb_device.get port).isNone) then
    let st1 := { st with trace := st.trace ++ [Event.console_error port] }
    if (st1.s_usb_device.get port).isSome then reattachPort env st1 port else st1
  else st

/-- The locals `DoPacketState` writes for the packet of a state. -/
def packetLocals (st : USBState) (valid_devices : PortArr Bool) : PacketLocals :=
  match st.s_qemu_ohci.usb_packet.ep with
  | some ep => findEndpoint st valid_devices ep [0, 1] ⟨-1, -1, false⟩
  | none => ⟨-1, -1, false⟩

/-- The bytes `DoPacketState` writes. -/
def packetBytes (st : USBState) (valid_devices : PortArr Bool) : List Nat :=
  markerEnc "USBPacket"
    ++ encAll packetFields (st.s_qemu_ohci.usb_packet, packetLocals st valid_devices)

/-- The packet fields hold values of their C types. -/
structure USBPacket.WF (p : USBPacket) : Prop where
  pid : InS 4 p.pid
  id : InU 8 p.id
  stream : InU 4 p.stream
  buffer_size : InS 4 p.buffer_size
  parameter : InU 8 p.parameter
  status : InS 4 p.status
  actual_length : InS 4 p.actual_length
  state : InS 4 p.state

/-- The packet after `DoPacketState` has read the fields of `src` into the live
packet `p`, before the pointers are resolved. -/
def packetLoaded (p src : USBPacket) : USBPacket :=
  { src with ep := p.ep, buffer_ptr := p.buffer_ptr }

/-- The table `valid_devices` at the end of a successful `Save`: the ports that hold a device. -/
def validOf (st : USBState) : PortArr Bool :=
  ⟨(st.s_usb_device.get 0).isSome, (st.s_usb_device.get 1).isSome⟩

/-- The bytes a successful `Save` writes: subsystem marker, controller record, the
two port blocks, packet record. -/
def saveBytes (st : USBState) : List Nat :=
  markerEnc "USB" ++ ohciBytes st ++ portBytes st 0 ++ portBytes st 1
    ++ packetBytes st (validOf st)

/-- A well-formed subsystem state: every serialized field holds a value of its C
type, and every device has the proxy of its type. -/
structure USBState.WF (st : USBState) : Prop where
  regs : st.WFregs
  port0 : PortWF st 0
  port1 : PortWF st 1
  packet : st.s_qemu_ohci.usb_packet.WF

/-- The live state `L` has the port configuration and the attached devices of `S`:
same configuration, same proxies, a device in the same ports with arrays of the
same sizes and a peripheral of the same type. -/
structure Compatible (L S : USBState) : Prop where
  config : L.EmuConfig = S.EmuConfig
  proxy : L.s_usb_device_proxy = S.s_usb_device_proxy
  dev : ∀ port : Nat,
    match L.s_usb_device.get port, S.s_usb_device.get port with
    | none, none => True
    | some d, some s => SameShape d s ∧ PeriphShape d.periph s.periph
    | _, _ => False
  rhport : L.s_qemu_ohci.rhport_ctrl.length = OHCI_MAX_PORTS
  usb_buf : L.s_qemu_ohci.usb_buf.length = S.s_qemu_ohci.usb_buf.length

/-- The two flags of an endpoint that the save state holds. -/
def epFlags (e : USBEndpoint) : Bool × Bool := (e.pipeline, e.halted)

/-- The serialized fields of a device. -/
structure DeviceRecord where
  speed : Int
  addr : Nat
  state : Int
  setup_buf : List Nat
  data_buf : List Nat
  remote_wakeup : Int
  setup_state : Int
  setup_len : Int
  setup_index : Int
  configuration : Int
  altsetting : List Int
  ep_ctl : Bool × Bool
  ep_in : List (Bool × Bool)
  ep_out : List (Bool × Bool)
deriving DecidableEq, Repr

/-- The serialized fields of a device, as `DoDeviceState` saves them. -/
def USBDevice.record (d : USBDevice) : DeviceRecord :=
  { speed := d.speed, addr := d.addr, state := d.state, setup_buf := d.setup_buf,
    data_buf := d.data_buf, remote_wakeup := d.remote_wakeup, setup_state := d.setup_state,
    setup_len := d.setup_len, setup_index := d.setup_index, configuration := d.configuration,
    altsetting := d.altsetting, ep_ctl := epFlags d.ep_ctl, ep_in := d.ep_in.map epFlags,
    ep_out := d.ep_out.map epFlags }

/-- A packet with every field zero. -/
def blankPacket : USBPacket := ⟨0, 0, none, 0, none, 0, 0, false, false, 0, 0, 0⟩

/-- The fields `DoOHCIState` serializes: the three counters and the controller
without its root hub status, its root hub wiring and its packet. -/
def USBState.controllerRecord (st : USBState) : Int × Int × Int × OHCIState :=
  (st.g_usb_last_cycle, st.s_usb_clocks, st.s_usb_remaining,
    { st.s_qemu_ohci with rhstatus := 0, rhport_dev := [], usb_packet := blankPacket })

/-- The device a successful load leaves in a port, from the live device and the
device whose record is read. -/
def loadedDev : Option USBDevice → Option USBDevice → Option USBDevice
  | some d, some src => some (portLoaded d src)
  | _, _ => none

/-- The state `USBfreeze` in `Load` mode reaches before it resolves the packet,
when the live state `L` reads the stream saved from `S`. -/
def loadedState (L S : USBState) (tr : List Event) : USBState :=
  { ohciLoaded L S with
    s_usb_device := ⟨loadedDev (L.s_usb_device.get 0) (S.s_usb_device.get 0),
                     loadedDev (L.s_usb_device.get 1) (S.s_usb_device.get 1)⟩
    trace := tr }

/-! ## A concrete environment and state, used to instantiate the results -/

/-- An environment whose descriptor helpers and bus calls leave their arguments as
they are, whose registry knows type 0 (pad) and type 1 (light gun), and whose frame
boundary reloads the frame timer with 12000. -/
def sampleEnv : Env :=
  { Device := fun t =>
      if t = 0 then some DeviceProxy.PadDevice
      else if t = 1 then some DeviceProxy.GunCon2Device else none
    CreateDevice := fun _ _ _ => none
    UpdateSettings := fun _ d => d
    usb_attach := fun o _ d => (o, d)
    usb_reattach := fun o _ d => (o, d)
    ohci_hard_reset := fun o d => (o, d)
    ohci_frame_boundary := fun o => { o with eof_timer := 12000 }
    usb_desc_set_config := fun d _ => d
    usb_desc_set_interface := fun d _ _ => d }

/-- An idle endpoint. -/
def sampleEndpoint : USBEndpoint := ⟨false, false, []⟩

/-- A device at address `ptr` in the addressed state, with the control endpoint
halted and the controller packet queued on it. -/
def sampleDevice (ptr : Nat) (p : Peripheral) : USBDevice :=
  { ptr := ptr, speed := 1, addr := 5, state := 3, setup_buf := List.replicate 8 7,
    data_buf := List.replicate 16 9, remote_wakeup := -1, setup_state := 2, setup_len := 3,
    setup_index := 4, configuration := 1, altsetting := [0, 0],
    ep_ctl := ⟨false, true, [PacketPtr.usb_packet]⟩,
    ep_in := List.replicate USB_MAX_ENDPOINTS sampleEndpoint,
    ep_out := List.replicate USB_MAX_ENDPOINTS sampleEndpoint,
    attached := true, periph := p, klass_unrealize := true }

/-- A light gun state with automatic configuration done. -/
def sampleGun : GunCon2State := ⟨false, 640, 240, 1, 2, 3, 4, -5, 6, 7, 8, 9, -10, true⟩

/-- A controller with a running frame timer and a packet on the control endpoint
of the device at address 2. -/
def sampleOHCI : OHCIState :=
  { eof_timer := 50, sof_time := 0, ctl := 1, status := 2, intr_status := 3, intr := 4, hcca := 5,
    ctrl_head := 6, ctrl_cur := 7, bulk_head := 8, bulk_cur := 9, per_cur := 10, done := 11,
    done_count := -3, fsmps := 12, fit := 1, fi := 13, frt := 0, frame_number := 14, padding := 0,
    pstart := 15, lst := 16, rhdesc_a := 17, rhdesc_b := 18, rhstatus := 0,
    rhport_ctrl := List.replicate OHCI_MAX_PORTS 3,
    rhport_dev := [some 2, some 1] ++ List.replicate 13 none, old_ctl := 19,
    usb_packet := { blankPacket with ep := some ⟨2, EpSlot.ctl⟩, buffer_size := 8,
                                     buffer_ptr := some BufPtr.usb_buf },
    usb_buf := List.replicate 8 1, async_td := 20, async_complete := true }

/-- A state with a pad in guest port 0 and a light gun in guest port 1. -/
def sampleState : USBState :=
  { s_qemu_ohci := sampleOHCI
    s_usb_device := ⟨some (sampleDevice 1 (Peripheral.pad ⟨77, [1, 2, 3]⟩)),
                     some (sampleDevice 2 (Peripheral.guncon2 sampleGun))⟩
    s_usb_device_proxy := ⟨some DeviceProxy.PadDevice, some DeviceProxy.GunCon2Device⟩
    s_usb_clocks := 1000, s_usb_remaining := 0, g_usb_last_cycle := 5
    EmuConfig := ⟨⟨0, 0⟩, ⟨1, 0⟩⟩, next_ptr := 3, trace := [] }

/-- The sample state with guest port 0 reconfigured to the light gun type. -/
def sampleMismatch : USBState := { sampleState with EmuConfig := ⟨⟨1, 0⟩, ⟨1, 0⟩⟩ }

/-- The loop state of `USBfreeze` in `Load` mode after the iteration for port 0
(when the subsystem marker was read). -/
def loadAfterPort0 (env : Env) (st : USBState) (data : freezeData) : FreezeLoop :=
  let sw0 : StateWrapper := ⟨Mode.Read, fit data.size data.data, 0, false⟩
  let m := sw0.DoMarker "USB"
  let o := DoOHCIState st m.2
  loadPort env ⟨o.1, o.2, ⟨false, false⟩⟩ 0

/-- The pad of guest port 0 of the sample state. -/
def samplePad : USBDevice := sampleDevice 1 (Peripheral.pad ⟨77, [1, 2, 3]⟩)

/-- The block of port 0 that a Save of the sample state produces, with its header,
except that the marker of the pad record reads "XadDevice" instead of "PadDevice". -/
def badPortRecord : List Nat :=
  encS 4 0 ++ encU 4 0 ++ encU 4 (blockBytes (some samplePad)).length
    ++ (devBytes samplePad ++ (markerEnc "XadDevice" ++ encAll padFields ⟨77, [1, 2, 3]⟩))

/-- The stream a Save of the sample state produces, except for that one character of
the pad record of port 0. -/
def badMarkerStream : List Nat :=
  markerEnc "USB" ++ ohciBytes sampleState ++ badPortRecord
    ++ portBytes sampleState 1 ++ packetBytes sampleState (validOf sampleState)

/-- A slot that names an endpoint of a device: the control endpoint, or an IN or OUT
slot below `USB_MAX_ENDPOINTS`. -/
def ValidSlot : EpSlot → Prop
  | EpSlot.ctl => True
  | EpSlot.epIn k => k < USB_MAX_ENDPOINTS
  | EpSlot.epOut k => k < USB_MAX_ENDPOINTS

/-- The endpoint index the claim states for a slot. -/
def statedIndex : EpSlot → Int
  | EpSlot.ctl => 0
  | EpSlot.epIn k => 1 + (k : Int)
  | EpSlot.epOut k => 1 + (USB_MAX_ENDPOINTS : Int) + (k : Int)

/-- The stream `b` comes after `a` in a run: it has the direction of `a`, and an
error `a` reports is still reported by `b` (the error flag is sticky). -/
def StateWrapper.Follows (a b : StateWrapper) : Prop :=
  b.mode = a.mode ∧ (a.error = true → b.error = true)

/-- The loop state `USBfreeze` in `Load` mode enters the port loop with (when the
subsystem marker was read): the controller record has been read. -/
def loadHead (st : USBState) (data : freezeData) : FreezeLoop :=
  let sw0 : StateWrapper := ⟨Mode.Read, fit data.size data.data, 0, false⟩
  let m := sw0.DoMarker "USB"
  let o := DoOHCIState st m.2
  ⟨o.1, o.2, ⟨false, false⟩⟩

/-- The loop state of `USBfreeze` in `Load` mode after the iterations for both ports. -/
def loadAfterPorts (env : Env) (st : USBState) (data : freezeData) : FreezeLoop :=
  loadPort env (loadPort env (loadHead st data) 0) 1

/-- The port header an iteration of the `Load` loop reads at the position of `x`. -/
def headerAt (x : FreezeLoop) : PortHeader × StateWrapper :=
  doFields [devtypeField, devsubtypeField, sizeField] ⟨0, 0, 0⟩ x.sw

/-- The block of `port` is skipped for a mismatch: the header cannot be read, the
recorded type or subtype is not the configured one, or a device is recorded and
none is attached. -/
def Skipped (x : FreezeLoop) (port : Nat) : Prop :=
  (headerAt x).2.HasError = true
  ∨ (x.st.EmuConfig.get port).DeviceType ≠ (headerAt x).1.state_devtype
  ∨ (x.st.EmuConfig.get port).DeviceSubtype ≠ (headerAt x).1.state_devsubtype
  ∨ ((headerAt x).1.state_devtype ≠ DEVTYPE_NONE ∧ (x.st.s_usb_device.get port).isNone = true)

/-- Nothing is attached to `port`. -/
def EmptyPort (x : FreezeLoop) (port : Nat) : Prop := x.st.s_usb_device.get port = none

/-- What `DoDeviceState` and the `Freeze` of the proxy return for the device `dev` of
`port`, after the port header. -/
def deserializeAt (env : Env) (x : FreezeLoop) (port : Nat) (dev : USBDevice) :
    Bool × USBDevice × StateWrapper :=
  match x.st.s_usb_device_proxy.get port with
  | some proxy =>
    proxy.Freeze (DoDeviceState env dev (headerAt x).2).1 (DoDeviceState env dev (headerAt x).2).2
  | none => (false, DoDeviceState env dev (headerAt x).2)

/-- The deserialize of the device attached to `port` fails: the `Freeze` call
returns false or the stream reports an error. -/
def FailedDeserialize (env : Env) (x : FreezeLoop) (port : Nat) : Prop :=
  ∃ dev, x.st.s_usb_device.get port = some dev
    ∧ ((deserializeAt env x port dev).1 = false
        ∨ (deserializeAt env x port dev).2.2.HasError = true)

/-- The iteration of the `Load` loop for `port` does not restore the port. -/
def NotRestored (env : Env) (x : FreezeLoop) (port : Nat) : Prop :=
  Skipped x port ∨ EmptyPort x port ∨ FailedDeserialize env x port

/-- The packet and the locals after the `sw.Do` calls of `DoPacketState` in read
mode at the position of `x`, behind the packet marker. -/
def packetReadAt (x : FreezeLoop) : (USBPacket × PacketLocals) × StateWrapper :=
  doFields packetFields (x.st.s_qemu_ohci.usb_packet, ⟨-1, -1, false⟩)
    (x.sw.DoMarker "USBPacket").2

/-- The sample state with the outstanding packet on the control endpoint of the pad
in guest port 0. -/
def samplePacketOnPad : USBState :=
  { sampleState with
    s_qemu_ohci := { sampleOHCI with
      usb_packet := { blankPacket with ep := some ⟨1, EpSlot.ctl⟩, buffer_size := 8,
                                       buffer_ptr := some BufPtr.usb_buf } } }

/-- The stream a Save of `samplePacketOnPad` produces, in a buffer of its size. -/
def samplePacketOnPadData : freezeData :=
  ⟨(saveBytes samplePacketOnPad).length, saveBytes samplePacketOnPad⟩

/-- One pass of the `while` loop of `USBasync`: the frame timer is taken off the
accumulator and `ohci_frame_boundary` runs on the controller with its timer at 0. -/
def frameStep (env : Env) (st : USBState) : USBState :=
  { st with
    s_usb_remaining := wrapS64 (st.s_usb_remaining - st.s_qemu_ohci.eof_timer)
    s_qemu_ohci := keepWiring st.s_qemu_ohci
      (env.ohci_frame_boundary { st.s_qemu_ohci with eof_timer := 0 })
    trace := st.trace ++ [Event.frame_boundary] }

/-- The guarded `while` loop of `USBasync`, with the fuel `USBasync` hands it. -/
def frames (env : Env) (st : USBState) : USBState :=
  if 0 < st.s_qemu_ohci.eof_timer then frameLoop env (toU64 st.s_usb_remaining + 1) st else st

/-- The adjustment of the frame timer that ends `USBasync`. -/
def postAdjust (st : USBState) : USBState :=
  if 0 < st.s_usb_remaining ∧ 0 < st.s_qemu_ohci.eof_timer then
    let m0 := wrapS64 st.s_qemu_ohci.eof_timer
    let m := if st.s_usb_remaining < m0 then st.s_usb_remaining else m0
    { st with
      s_qemu_ohci := { st.s_qemu_ohci with
        eof_timer := toU64 ((st.s_qemu_ohci.eof_timer : Int) - m) }
      s_usb_remaining := wrapS64 (st.s_usb_remaining - m) }
  else st

/-- The state with `c` more cycles in the accumulator. -/
def addCycles (st : USBState) (c : Nat) : USBState :=
  { st with s_usb_remaining := st.s_usb_remaining + c }

/-- The frame time `ohci_frame_boundary` sets is below 2^63 cycles. -/
structure Env.FrameTime (env : Env) : Prop where
  bound : ∀ o, (env.ohci_frame_boundary o).eof_timer < 2 ^ 63

/-- The accumulator is not negative and the frame timer is below 2^63: no
conversion between the signed accumulator and the unsigned timer wraps. -/
structure Timed (st : USBState) : Prop where
  nonneg : 0 ≤ st.s_usb_remaining
  below : st.s_usb_remaining < 2 ^ 63
  timer : st.s_qemu_ohci.eof_timer < 2 ^ 63

/-- The number of `ohci_frame_boundary` calls recorded in the trace. -/
def frameCount (st : USBState) : Nat := st.trace.count Event.frame_boundary

/-- The sample state with the bus stopped (frame timer 0). -/
def sampleStopped : USBState :=
  { sampleState with s_qemu_ohci := { sampleOHCI with eof_timer := 0 } }

/-- The state with the cycle clock `s_usb_clocks` left out of the comparison. -/
def noClock (st : USBState) : USBState := { st with s_usb_clocks := 0 }

/-- The state `USBasync(cycles)` enters its loop with: the cycles are added to the
accumulator and the accumulator to the clock. -/
def asyncEntry (st : USBState) (cycles : Nat) : USBState :=
  { st with
    s_usb_remaining := wrapS64 (st.s_usb_remaining + cycles)
    s_usb_clocks := wrapS64 (st.s_usb_clocks + wrapS64 (st.s_usb_remaining + cycles)) }

/-- The state after `k` passes of the loop of `USBasync`. -/
def frameSteps (env : Env) : Nat → USBState → USBState
  | 0, st => st
  | k + 1, st => frameSteps env k (frameStep env st)

/-- The sample environment with a frame boundary that stops the bus: it returns
with the frame timer still 0. -/
def stoppingEnv : Env := { sampleEnv with ohci_frame_boundary := fun o => o }

/-- The addresses of the devices recorded for the two guest ports. -/
def ptrs (a : PortArr (Option USBDevice)) : PortArr (Option Nat) :=
  ⟨a.p0.map (fun d => d.ptr), a.p1.map (fun d => d.ptr)⟩

/-- The wiring of a state: the `port.dev` pointers of the root hub, the addresses of
the devices recorded for the guest ports, and the recorded proxies. -/
def wiring (st : USBState) :
    List (Option Nat) × PortArr (Option Nat) × PortArr (Option DeviceProxy) :=
  (st.s_qemu_ohci.rhport_dev, ptrs st.s_usb_device, st.s_usb_device_proxy)

/-- The invariant of the wiring: the root hub has its `OHCI_MAX_PORTS` ports, root
hub port 1 holds the device of guest port 0 and root hub port 0 the device of guest
port 1, and a proxy is recorded exactly where a device is. -/
def Wired (w : List (Option Nat) × PortArr (Option Nat) × PortArr (Option DeviceProxy)) :
    Prop :=
  w.1.length = OHCI_MAX_PORTS
  ∧ w.1.getD 1 none = w.2.1.p0 ∧ w.1.getD 0 none = w.2.1.p1
  ∧ (w.2.2.p0.isSome = w.2.1.p0.isSome) ∧ (w.2.2.p1.isSome = w.2.1.p1.isSome)

/-- Port ownership: for each guest port `p`, the device recorded for `p` is the
device attached to root hub port `1 - p` (none when none), and a proxy is recorded
for `p` if and only if a device is. -/
def PortOwnership (st : USBState) : Prop :=
  ∀ p : Fin NUM_PORTS,
    st.s_qemu_ohci.rhport_dev.getD (1 - p.val) none
      = (st.s_usb_device.get p.val).map (fun d => d.ptr)
    ∧ ((st.s_usb_device_proxy.get p.val).isSome ↔ (st.s_usb_device.get p.val).isSome)

/-- The states the subsystem reaches from a freshly opened one by calls of
`CreateDevice`, `DestroyDevice`, `UpdateDevice`, `CheckForConfigChanges` and
`USBfreeze` on the guest ports, with the configuration changing in between. A
`CreateDevice` that fails its release assertion ends the run. -/
inductive Reachable (env : Env) : USBState → Prop
  | opened (created : OHCIState) (cfg : PortArr PortConfig) (st : USBState) :
      USBopen env created cfg = some st → Reachable env st
  | create (st : USBState) (port : Fin NUM_PORTS) (r : Bool × USBState) :
      Reachable env st → CreateDevice env st port.val = some r → Reachable env r.2
  | destroy (st : USBState) (port : Fin NUM_PORTS) :
      Reachable env st → Reachable env (DestroyDevice st port.val)
  | update (st : USBState) (port : Fin NUM_PORTS) :
      Reachable env st → Reachable env (UpdateDevice env st port.val)
  | configure (st : USBState) (cfg : PortArr PortConfig) :
      Reachable env st → Reachable env { st with EmuConfig := cfg }
  | check (st st1 : USBState) (old_config : PortArr PortConfig) :
      Reachable env st → CheckForConfigChanges env old_config st = some st1 →
      Reachable env st1
  | freeze (st : USBState) (mode : FreezeAction) (data : freezeData) :
      Reachable env st → Reachable env (USBfreeze env mode st data).2.1

/-- The state `USBopen()` calls `CreateDevice` from: the created controller with no
device on its root hub and nothing recorded for the guest ports. -/
def openState (created : OHCIState) (cfg : PortArr PortConfig) : USBState :=
  { s_qemu_ohci := { created with rhport_dev := List.replicate OHCI_MAX_PORTS none }
    s_usb_device := ⟨none, none⟩
    s_usb_device_proxy := ⟨none, none⟩
    s_usb_clocks := 0
    s_usb_remaining := 0
    g_usb_last_cycle := 0
    EmuConfig := cfg
    next_ptr := 1
    trace := [] }

/-- The sample environment with proxies that create a device of their type. -/
def creatingEnv : Env :=
  { sampleEnv with
    CreateDevice := fun proxy _ _ =>
      match proxy with
      | DeviceProxy.PadDevice => some (sampleDevice 0 (Peripheral.pad ⟨0, [0, 0, 0]⟩))
      | DeviceProxy.GunCon2Device => some (sampleDevice 0 (Peripheral.guncon2 sampleGun)) }

/-- The state `USBopen()` leaves with a pad configured for guest port 0 and a light
gun for guest port 1. -/
def openedSample : USBState :=
  (USBopen creatingEnv sampleOHCI ⟨⟨0, 0⟩, ⟨1, 0⟩⟩).getD sampleState

/-- The assumption on `usb_attach`, whose code is outside the sources: attaching a
device to its root hub port leaves the `attached` flag of the device as it is. -/
structure Env.AttachKeeps (env : Env) : Prop where
  attached : ∀ (o : OHCIState) (i : Nat) (d : USBDevice),
    (env.usb_attach o i d).2.attached = d.attached

/-- The slots of guest port `p`: the recorded device, the recorded proxy and the
device pointer of root hub port `1 - p`. -/
def slots (st : USBState) (p : Nat) : Option USBDevice × Option DeviceProxy × Option Nat :=
  (st.s_usb_device.get p, st.s_usb_device_proxy.get p,
    st.s_qemu_ohci.rhport_dev.getD (1 - p) none)

/-- The outside calls an operation on guest port `q` can record, from the state `a`:
a settings update of `q`, an error message for `q`, an attach on root hub port
`1 - q`, and the `unrealize` of the device `a` holds in `q`. -/
def PortEvents (a : USBState) (q : Nat) (evs : List Event) : Prop :=
  ∀ e ∈ evs, e = Event.update_settings q ∨ e = Event.console_error q
    ∨ e = Event.attach (1 - q) ∨ ∃ d, a.s_usb_device.get q = some d ∧ e = Event.unrealize d.ptr

/-- An operation on guest port `q` leads from `a` to `b`: the configuration and the
size of the root hub are kept, the slots of the other port are kept, and the trace
grows by events of port `q`. -/
def PortStep (q : Nat) (a b : USBState) : Prop :=
  b.EmuConfig = a.EmuConfig
  ∧ b.s_qemu_ohci.rhport_dev.length = a.s_qemu_ohci.rhport_dev.length
  ∧ (∀ p : Fin NUM_PORTS, p.val ≠ q → slots b p.val = slots a p.val)
  ∧ ∃ evs, b.trace = a.trace ++ evs ∧ PortEvents a q evs

/-- What `CheckForConfigChanges(old)` does to guest port `p`, from the state `a` to the
state `b`. With an unchanged configuration the device stays the same object, its
settings are updated when there is one, and it is not unrealized. With a changed
configuration the device is unrealized and the slots are those `CreateDevice` leaves
for the new configuration. -/
def Reconciled (env : Env) (old : PortArr PortConfig) (p : Nat) (a b : USBState) : Prop :=
  (a.EmuConfig.get p = old.get p →
    (∀ d proxy, a.s_usb_device.get p = some d → a.s_usb_device_proxy.get p = some proxy →
      b.s_usb_device.get p = some (keepPtr d (env.UpdateSettings proxy d)))
    ∧ (a.s_usb_device.get p = none → b.s_usb_device.get p = none)
    ∧ (b.s_usb_device.get p).map (fun d => d.ptr) = (a.s_usb_device.get p).map (fun d => d.ptr)
    ∧ b.s_usb_device_proxy.get p = a.s_usb_device_proxy.get p
    ∧ b.s_qemu_ohci.rhport_dev.getD (1 - p) none = a.s_qemu_ohci.rhport_dev.getD (1 - p) none
    ∧ b.trace.count (Event.update_settings p)
        = a.trace.count (Event.update_settings p)
          + (if (a.s_usb_device.get p).isSome then 1 else 0)
    ∧ (∀ d, a.s_usb_device.get p = some d →
        b.trace.count (Event.unrealize d.ptr) = a.trace.count (Event.unrealize d.ptr)))
  ∧ (a.EmuConfig.get p ≠ old.get p →
    (∀ d, a.s_usb_device.get p = some d →
      b.trace.count (Event.unrealize d.ptr)
        = a.trace.count (Event.unrealize d.ptr) + (if d.klass_unrealize then 1 else 0))
    ∧ b.trace.count (Event.update_settings p) = a.trace.count (Event.update_settings p)
    ∧ (env.Device (a.EmuConfig.get p).DeviceType = none → slots b p = (none, none, none))
    ∧ (∀ proxy, env.Device (a.EmuConfig.get p).DeviceType = some proxy →
        env.CreateDevice proxy p (a.EmuConfig.get p).DeviceSubtype = none →
        slots b p = (none, none, none))
    ∧ (∀ proxy created, env.Device (a.EmuConfig.get p).DeviceType = some proxy →
        env.CreateDevice proxy p (a.EmuConfig.get p).DeviceSubtype = some created →
        ∃ dev, slots b p = (some dev, some proxy, some dev.ptr)))

/-- The opened sample state with guest port 1 reconfigured to no device. -/
def unpluggedSample : USBState := { openedSample with EmuConfig := ⟨⟨0, 0⟩, ⟨-1, 0⟩⟩ }

/-- The state `CheckForConfigChanges` leaves after guest port 1 was reconfigured from
the light gun to no device. -/
def reconciledSample : USBState :=
  (CheckForConfigChanges creatingEnv ⟨⟨0, 0⟩, ⟨1, 0⟩⟩ unpluggedSample).getD sampleState

/-- A stream in write mode whose position is inside the buffer. -/
structure StateWrapper.Writing (sw : StateWrapper) : Prop where
  mode : sw.mode = Mode.Write
  inside : sw.pos ≤ sw.buf.length

/-- The stream function `f` writes the bytes `bs`: it keeps an error, stores `bs` at
the position when the stream is not in error and has room for them, and ends in
error when it has not. -/
def Emits (f : StateWrapper → StateWrapper) (bs : List Nat) : Prop :=
  ∀ sw : StateWrapper, sw.Writing →
    (f sw).Writing ∧ (f sw).buf.length = sw.buf.length
    ∧ (sw.error = true → f sw = sw)
    ∧ (sw.error = false → sw.pos + bs.length ≤ sw.buf.length → f sw = sw.put bs)
    ∧ (sw.buf.length < sw.pos + bs.length → (f sw).error = true)


/-- Sizes of the arrays the save state holds whole: `usb_buf` of the controller,
`setup_buf`, `data_buf` and `altsetting[USB_MAX_INTERFACES]` of a device, `mFFstate`
of a pad. They are declared in headers outside the sources, so they are a
parameter. -/
structure ArraySizes where
  usb_buf : Nat
  setup_buf : Nat
  data_buf : Nat
  interfaces : Nat
  mFFstate : Nat
deriving DecidableEq, Repr

/-- A device whose arrays have at most the declared sizes. -/
structure USBDevice.Sized (sz : ArraySizes) (d : USBDevice) : Prop where
  setup_buf : d.setup_buf.length ≤ sz.setup_buf
  data_buf : d.data_buf.length ≤ sz.data_buf
  altsetting : d.altsetting.length ≤ sz.interfaces
  ep_in : d.ep_in.length ≤ USB_MAX_ENDPOINTS
  ep_out : d.ep_out.length ≤ USB_MAX_ENDPOINTS
  mFFstate : ∀ p, d.periph = Peripheral.pad p → p.mFFstate.length ≤ sz.mFFstate

/-- A subsystem state whose arrays have at most the declared sizes. -/
structure USBState.Sized (sz : ArraySizes) (st : USBState) : Prop where
  usb_buf : st.s_qemu_ohci.usb_buf.length ≤ sz.usb_buf
  port0 : ∀ d, st.s_usb_device.get 0 = some d → d.Sized sz
  port1 : ∀ d, st.s_usb_device.get 1 = some d → d.Sized sz

/-- The number of bytes of the largest save state for arrays of the declared sizes:
subsystem marker, controller record, two port blocks (header, device record, the
larger of the two peripheral records), packet record. -/
def ArraySizes.saveSize (sz : ArraySizes) : Nat :=
  7 + (204 + sz.usb_buf)
    + 2 * (12 + (44 + sz.setup_buf + sz.data_buf + 4 * sz.interfaces + 4 * USB_MAX_ENDPOINTS)
        + max (15 + sz.mFFstate) 54)
    + 64

/-- Every endpoint queue of the device is empty. -/
def USBDevice.QueuesEmpty (d : USBDevice) : Prop :=
  ∀ (slot : EpSlot) (e : USBEndpoint), d.endpoint slot = some e → e.queue = []

/-- The loop state of `USBfreeze` in `Load` mode at the start of the iteration for
`port` (when the subsystem marker was read). -/
def loadBefore (env : Env) (st : USBState) (data : freezeData) (port : Nat) : FreezeLoop :=
  if port = 0 then loadHead st data else loadPort env (loadHead st data) 0

/-- The sample device with the controller packet on none of its queues. -/
def idleDevice (ptr : Nat) (p : Peripheral) : USBDevice :=
  { sampleDevice ptr p with ep_ctl := ⟨false, true, []⟩ }

/-- A state with a pad in guest port 0 and a light gun in guest port 1 and no
outstanding transaction: `async_td` is 0, the packet has no endpoint and is on no
queue. -/
def sampleIdle : USBState :=
  { sampleState with
    s_qemu_ohci := { sampleOHCI with async_td := 0, usb_packet := blankPacket }
    s_usb_device := ⟨some (idleDevice 1 (Peripheral.pad ⟨77, [1, 2, 3]⟩)),
                     some (idleDevice 2 (Peripheral.guncon2 sampleGun))⟩ }

/-- The stream a Save of `sampleIdle` produces, in a buffer of its size. -/
def sampleIdleData : freezeData := ⟨(saveBytes sampleIdle).length, saveBytes sampleIdle⟩

/-- A live state with the outstanding packet queued on the control endpoint of the
pad in guest port 0 and on no other endpoint, and guest port 0 reconfigured to the
light gun type. -/
def sampleQueuedOnPad : USBState :=
  { samplePacketOnPad with
    s_usb_device := ⟨some samplePad, some (idleDevice 2 (Peripheral.guncon2 sampleGun))⟩
    EmuConfig := ⟨⟨1, 0⟩, ⟨1, 0⟩⟩ }

/-- The result of a control handler: the device, the packet and the data buffer
after the call. -/
structure ControlResult where
  dev : USBDevice
  p : USBPacket
  data : List Nat
deriving DecidableEq, Repr

/-- What the control handlers take from outside the sources: the request and status
constants of the absent headers (qemu-usb/USBinternal.h, usb-pad.h), the pad types and
their report descriptor tables, the generic handler `usb_desc_handle_control` (its
return value and its effect on device, packet and data) and the game table lookup
of `GunCon2State::AutoConfigure`. -/
structure ControlEnv where
  USB_RET_STALL : Int
  DeviceRequest : Nat
  InterfaceRequest : Nat
  ClassInterfaceOutRequest : Nat
  USB_REQ_GET_DESCRIPTOR : Nat
  USB_DT_REPORT : Int
  SET_REPORT : Int
  SET_IDLE : Int
  WT_GENERIC : Nat
  WT_DRIVING_FORCE_PRO : Nat
  WT_DRIVING_FORCE_PRO_1102 : Nat
  WT_GT_FORCE : Nat
  WT_KEYBOARDMANIA_CONTROLLER : Nat
  WT_BUZZ_CONTROLLER : Nat
  pad_driving_force_pro_hid_report_descriptor : List Nat
  pad_gtforce_hid_report_descriptor : List Nat
  kbm_hid_report_descriptor : List Nat
  pad_driving_force_hid_separate_report_descriptor : List Nat
  buzz_hid_report_descriptor : List Nat
  usb_desc_handle_control : USBDevice → USBPacket → Int → Int → Int → Int → List Nat →
    Int × ControlResult
  AutoConfigure : GunCon2State → GunCon2State

/-- The call `memcpy(data, table, sizeof(table))`. -/
def memcpy (data table : List Nat) : List Nat := table ++ data.drop table.length

/-- The function `guncon2_handle_control(dev, p, request, value, index, length, data)`
on the device, the light gun state that contains it, the packet and the data. -/
def guncon2_handle_control (c : ControlEnv) (dev : USBDevice) (us : GunCon2State)
    (p : USBPacket) (request value index length : Int) (data : List Nat) :
    GunCon2State × ControlResult :=
  let us1 :=
    if !us.auto_config_done && !us.custom_config then
      { c.AutoConfigure us with auto_config_done := true }
    else us
  let r := c.usb_desc_handle_control dev p request value index length data
  if r.1 ≥ 0 then (us1, r.2)
  else if request = ((c.ClassInterfaceOutRequest ||| 0x09 : Nat) : Int) then
    ({ us1 with
        param_x := decS 2 [r.2.data.getD 0 0, r.2.data.getD 1 0]
        param_y := decS 2 [r.2.data.getD 2 0, r.2.data.getD 3 0]
        param_mode := decU 2 [r.2.data.getD 4 0, r.2.data.getD 5 0] }, r.2)
  else (us1, { r.2 with p := { r.2.p with status := c.USB_RET_STALL } })

/-- The report descriptor `pad_handle_control` copies for a pad of type `type`, when
it copies one. -/
def reportDescriptor (c : ControlEnv) (type : Nat) : Option (List Nat) :=
  if type = c.WT_DRIVING_FORCE_PRO ∨ type = c.WT_DRIVING_FORCE_PRO_1102 then
    some c.pad_driving_force_pro_hid_report_descriptor
  else if type = c.WT_GT_FORCE then some c.pad_gtforce_hid_report_descriptor
  else if type = c.WT_KEYBOARDMANIA_CONTROLLER then some c.kbm_hid_report_descriptor
  else if type = c.WT_GENERIC then some c.pad_driving_force_hid_separate_report_descriptor
  else if type = c.WT_BUZZ_CONTROLLER then some c.buzz_hid_report_descriptor
  else none

/-- The function `pad_handle_control(dev, p, request, value, index, length, data)` of
the pad family, on the device, the pad type `s->type`, the packet and the data. The
`switch` is read in source order. -/
def pad_handle_control (c : ControlEnv) (dev : USBDevice) (type : Nat) (p : USBPacket)
    (request value index length : Int) (data : List Nat) : ControlResult :=
  if request = ((c.DeviceRequest ||| c.USB_REQ_GET_DESCRIPTOR : Nat) : Int) then
    let r := c.usb_desc_handle_control dev p request value index length data
    if r.1 < 0 then { r.2 with p := { r.2.p with status := c.USB_RET_STALL } } else r.2
  else if request = ((c.InterfaceRequest ||| c.USB_REQ_GET_DESCRIPTOR : Nat) : Int) then
    if value >>> 8 = c.USB_DT_REPORT then
      match reportDescriptor c type with
      | some table =>
        ⟨dev, { p with actual_length := (table.length : Int) }, memcpy data table⟩
      | none => ⟨dev, { p with actual_length := 0 }, data⟩
    else ⟨dev, { p with status := c.USB_RET_STALL }, data⟩
  else if request = c.SET_REPORT then
    if length > 0 then ⟨dev, { p with actual_length := 0 }, data⟩ else ⟨dev, p, data⟩
  else if request = c.SET_IDLE then ⟨dev, p, data⟩
  else
    let r := c.usb_desc_handle_control dev p request value index length data
    if r.1 ≥ 0 then r.2 else { r.2 with p := { r.2.p with status := c.USB_RET_STALL } }

/-- Constants of the USB and HID specifications and a generic handler that serves
the device descriptor request and rejects every other request. -/
def sampleControl : ControlEnv :=
  { USB_RET_STALL := -3, DeviceRequest := 0x8000, InterfaceRequest := 0x8100,
    ClassInterfaceOutRequest := 0x2100, USB_REQ_GET_DESCRIPTOR := 6, USB_DT_REPORT := 0x22,
    SET_REPORT := 0x2109, SET_IDLE := 0x210a, WT_GENERIC := 0, WT_DRIVING_FORCE_PRO := 1,
    WT_DRIVING_FORCE_PRO_1102 := 2, WT_GT_FORCE := 3, WT_KEYBOARDMANIA_CONTROLLER := 7,
    WT_BUZZ_CONTROLLER := 5,
    pad_driving_force_pro_hid_report_descriptor := [5, 1], pad_gtforce_hid_report_descriptor := [5, 2],
    kbm_hid_report_descriptor := [5, 3],
    pad_driving_force_hid_separate_report_descriptor := [5, 4],
    buzz_hid_report_descriptor := [5, 5],
    usb_desc_handle_control := fun d p request _ _ _ data =>
      (if request = 0x8006 then 0 else -1, ⟨d, p, data⟩),
    AutoConfigure := fun g => g }

/-- The sample state with the frame timer at the largest 64-bit value. -/
def sampleHugeTimer : USBState :=
  { sampleState with s_qemu_ohci := { sampleOHCI with eof_timer := 2 ^ 64 - 1 } }

/-- The index at which the read-mode tail of `DoPacketState` reads the two-entry table
`valid_devices` (and then `s_usb_device`): `static_cast<u32>(dev_index)`, in the
condition `dev_index >= 0 && ep_index >= 0 && valid_devices[...]`, which evaluates the
table read only when the two comparisons before it hold. -/
def validDevicesIndex (l : PacketLocals) : Option Nat :=
  if 0 ≤ l.dev_index ∧ 0 ≤ l.ep_index then some (l.dev_index % 2 ^ 32).toNat else none

/-- A packet record that holds port index 2 and endpoint index 0. -/
def corruptPacketStream : List Nat :=
  markerEnc "USBPacket" ++ encAll packetFields (blankPacket, ⟨2, 0, false⟩)

/-! ## The GunCon2 data path (guncon2.cpp) -/

/-- The flag `GUNCON2_FLAG_PROGRESSIVE` of `param_mode`. -/
def GUNCON2_FLAG_PROGRESSIVE : Nat := 0x0100

/-- The number of polls a calibration takes, `GUNCON2_CALIBRATION_DELAY`. -/
def GUNCON2_CALIBRATION_DELAY : Nat := 9

/-- Bind index `BID_C`. -/
def BID_C : Nat := 1

/-- Bind index `BID_B`. -/
def BID_B : Nat := 2

/-- Bind index `BID_A`. -/
def BID_A : Nat := 3

/-- Bind index `BID_DPAD_UP`. -/
def BID_DPAD_UP : Nat := 4

/-- Bind index `BID_DPAD_RIGHT`. -/
def BID_DPAD_RIGHT : Nat := 5

/-- Bind index `BID_DPAD_DOWN`. -/
def BID_DPAD_DOWN : Nat := 6

/-- Bind index `BID_DPAD_LEFT`. -/
def BID_DPAD_LEFT : Nat := 7

/-- Bind index `BID_TRIGGER`. -/
def BID_TRIGGER : Nat := 13

/-- Bind index `BID_SELECT`. -/
def BID_SELECT : Nat := 14

/-- Bind index `BID_START`. -/
def BID_START : Nat := 15

/-- Bind index `BID_SHOOT_OFFSCREEN`. -/
def BID_SHOOT_OFFSCREEN : Nat := 16

/-- Bind index `BID_RECALIBRATE`. -/
def BID_RECALIBRATE : Nat := 17

/-- The cast `static_cast<s16>(v)`. -/
def toS16 (v : Int) : Int := (v + 2 ^ 15) % 2 ^ 16 - 2 ^ 15

/-- A 32-bit signed result, `(s32)v`. -/
def toS32 (v : Int) : Int := (v + 2 ^ 31) % 2 ^ 32 - 2 ^ 31

/-- The operand `~v` for a `u32` value. -/
def notU32 (v : Nat) : Nat := 2 ^ 32 - 1 - v % 2 ^ 32

/-- What `CalculatePosition` computes in `float` from the host pointer, the screen
size, the scale and the centre: whether `pointer_x < 0.0f`, whether `pointer_y < 0.0f`,
and the two values `static_cast<s32>(std::round(fx + center_x))` and
`static_cast<s32>(std::round(fy + center_y))`. -/
structure PointerSample where
  x_negative : Bool
  y_negative : Bool
  x : Int
  y : Int
deriving DecidableEq, Repr

/-- The function `GunCon2State::CalculatePosition()`, on the saved device state, the
host field `button_state` and the pointer sample. The off-screen test reads
`button_state & BID_SHOOT_OFFSCREEN` as the source has it. -/
def CalculatePosition (us : GunCon2State) (button_state : Nat) (q : PointerSample) :
    Int × Int :=
  if q.x_negative = true ∨ q.y_negative = true ∨ button_state &&& BID_SHOOT_OFFSCREEN ≠ 0 then
    (0, 0)
  else
    let d : Int × Int :=
      if us.param_mode &&& GUNCON2_FLAG_PROGRESSIVE ≠ 0 then
        (us.param_x.tdiv 2, us.param_y.tdiv 2)
      else (us.param_x, us.param_y)
    let x := toS32 (q.x - d.1)
    let y := toS32 (q.y - d.2)
    (toS16 (max x 1), toS16 (max y 1))

/-- The report `GunCon2Out`. -/
structure GunCon2Out where
  buttons : Nat
  pos_x : Int
  pos_y : Int
deriving DecidableEq, Repr

/-- What the data handlers take from outside the sources: the token and status
constants of the absent header qemu-usb/USBinternal.h and `usb_packet_copy`, given
the packet and the bytes to copy. -/
structure DataEnv where
  USB_TOKEN_IN : Int
  USB_TOKEN_OUT : Int
  USB_RET_STALL : Int
  usb_packet_copy : USBPacket → List Nat → USBPacket

/-- The bytes of a `GunCon2Out` report. -/
def GunCon2Out.bytes (o : GunCon2Out) : List Nat :=
  encU 2 o.buttons ++ encS 2 o.pos_x ++ encS 2 o.pos_y

/-- The result of `guncon2_handle_data`: the light gun state, the packet, and the
report handed to `usb_packet_copy` when one is sent. -/
structure GunData where
  us : GunCon2State
  p : USBPacket
  out : Option GunCon2Out
deriving DecidableEq, Repr

/-- The function `guncon2_handle_data(dev, p)` on the light gun state that contains
`dev`, the host field `button_state`, the pointer sample read by `CalculatePosition`
and the endpoint number `p->ep->nr`. An `IN` token on another endpoint falls through
to the `default` label. -/
def guncon2_handle_data (e : DataEnv) (us : GunCon2State) (button_state : Nat)
    (q : PointerSample) (p : USBPacket) (nr : Nat) : GunData :=
  if p.pid = e.USB_TOKEN_IN ∧ nr = 1 then
    let pos := CalculatePosition us button_state q
    let us1 : GunCon2State :=
      if button_state &&& (1 <<< BID_RECALIBRATE) ≠ 0 ∧ us.calibration_timer = 0 then
        { us with
          calibration_timer := GUNCON2_CALIBRATION_DELAY
          calibration_pos_x := pos.1
          calibration_pos_y := pos.2 }
      else us
    let buttons := (notU32 button_state % 2 ^ 16 ||| us1.param_mode &&& GUNCON2_FLAG_PROGRESSIVE)
      % 2 ^ 16
    let r : GunCon2State × GunCon2Out :=
      if 0 < us1.calibration_timer then
        let b := (buttons &&& notU32 (1 <<< BID_TRIGGER)) % 2 ^ 16
        let us2 := { us1 with calibration_timer := us1.calibration_timer - 1 }
        if us2.calibration_timer = 0 then (us2, ⟨b, 0, 0⟩)
        else (us2, ⟨b, us1.calibration_pos_x, us1.calibration_pos_y⟩)
      else if button_state &&& (1 <<< BID_SHOOT_OFFSCREEN) ≠ 0 then
        (us1, ⟨(buttons &&& notU32 (1 <<< BID_TRIGGER)) % 2 ^ 16, 0, 0⟩)
      else (us1, ⟨buttons, pos.1, pos.2⟩)
    ⟨r.1, e.usb_packet_copy p r.2.bytes, some r.2⟩
  else ⟨us, { p with status := e.USB_RET_STALL }, none⟩

/-- The light gun state after the polls `0 .. n-1` of endpoint 1, poll `k` being made
with the button state and pointer sample `ins k`. -/
def gunAfter (e : DataEnv) (p : USBPacket) (ins : Nat → Nat × PointerSample)
    (us : GunCon2State) : Nat → GunCon2State
  | 0 => us
  | n + 1 =>
    (guncon2_handle_data e (gunAfter e p ins us n) (ins n).1 (ins n).2 p 1).us

/-- The report of poll `n` in the sequence of `gunAfter`. -/
def gunReport (e : DataEnv) (p : USBPacket) (ins : Nat → Nat × PointerSample)
    (us : GunCon2State) (n : Nat) : Option GunCon2Out :=
  (guncon2_handle_data e (gunAfter e p ins us n) (ins n).1 (ins n).2 p 1).out

/-- Token and status constants of USB and a packet copy that counts the bytes. -/
def sampleData : DataEnv :=
  { USB_TOKEN_IN := 0x69, USB_TOKEN_OUT := 0xe1, USB_RET_STALL := -3,
    usb_packet_copy := fun p bs => { p with actual_length := p.actual_length + bs.length } }

/-- The light gun state of a newly created device: 640 by 240, no offset. -/
def newGun : GunCon2State := ⟨false, 640, 240, 0, 0, 0, 0, 0, 0, 0, 0, 0, 0, false⟩

/-- An `IN` packet. -/
def inPacket : USBPacket := { blankPacket with pid := 0x69 }

/-- A pointer in the middle of the screen. -/
def midScreen : PointerSample := ⟨false, false, 320, 120⟩

/-! ## The pad family: bindings, steering and the `IN` report (usb-pad.cpp) -/

/-- The enumerators of `PS2WheelTypes` that usb-pad.cpp names (the declaration is in
the absent header usb-pad.h). -/
inductive PS2WheelTypes
  | WT_GENERIC
  | WT_DRIVING_FORCE_PRO
  | WT_DRIVING_FORCE_PRO_1102
  | WT_GT_FORCE
  | WT_ROCKBAND1_DRUMKIT
  | WT_BUZZ_CONTROLLER
  | WT_SEGA_SEAMIC
  | WT_KEYBOARDMANIA_CONTROLLER
deriving DecidableEq, Repr

/-- The control identifiers `CID_*` of the absent header usb-pad.h, as `u32` values;
`CID_BUTTON k` is the enumerator `CID_BUTTONk`. -/
structure PadIds where
  CID_STEERING_L : Nat
  CID_STEERING_R : Nat
  CID_THROTTLE : Nat
  CID_BRAKE : Nat
  CID_DPAD_UP : Nat
  CID_DPAD_DOWN : Nat
  CID_DPAD_LEFT : Nat
  CID_DPAD_RIGHT : Nat
  CID_BUTTON : Nat → Nat

/-- The fields of `PadState` that the binding, steering and report functions read or
write: `type`, `steering_range`, `steering_step`, the members of `data` and the
force-feedback state `mFFstate` kept as its bytes. -/
structure PadControls where
  type : PS2WheelTypes
  steering_range : Nat
  steering_step : Nat
  steering_left : Int
  steering_right : Int
  steering : Nat
  last_steering : Nat
  throttle : Nat
  brake : Nat
  hat_up : Nat
  hat_down : Nat
  hat_left : Nat
  hat_right : Nat
  hatswitch : Nat
  buttons : Nat
  mFFstate : List Nat
deriving DecidableEq, Repr

/-- A `float` argument, through what the pad code computes from it: the comparison
`value >= 0.5f` and the rounding `std::lroundf(value * k)` for the factors `k` the code
uses (`255.0f` and `static_cast<float>(steering_range)`). -/
structure FloatArg where
  ge_half : Bool
  lround_times : Nat → Int

/-- A `float` result of `GetBindValue`, as the expression that computes it:
`static_cast<float>(n)` (with `1.0f` and `0.0f` as `ofInt 1` and `ofInt 0`),
`static_cast<float>(a) / static_cast<float>(b)`, and
`1.0f - (static_cast<float>(a) / 255.0f)`. -/
inductive BindFloat
  | ofInt (n : Int)
  | quot (a b : Int)
  | oneMinus (a : Int)
deriving DecidableEq, Repr

/-- The cast `static_cast<u8>(v)`. -/
def toU8 (v : Int) : Nat := (v % 2 ^ 8).toNat

/-- The cast `static_cast<u16>(v)`. -/
def toU16 (v : Int) : Nat := (v % 2 ^ 16).toNat

/-- The cast `static_cast<u32>(v)`. -/
def toU32 (v : Int) : Nat := (v % 2 ^ 32).toNat

/-- The call `std::clamp(v, lo, hi)`. -/
def clamp (v lo hi : Int) : Int := if v < lo then lo else if hi < v then hi else v

/-- The function `PadState::UpdateSteering()`. -/
def UpdateSteering (s : PadControls) : PadControls :=
  let value : Nat :=
    if 0 < s.steering_left then
      toU16 (max ((s.steering_range : Int) - s.steering_left) 0)
    else
      toU16 (min ((s.steering_range : Int) + s.steering_right) ((s.steering_range : Int) * 2))
  if value < s.steering then
    { s with steering := toU16 ((s.steering : Int)
        - min (toU16 ((s.steering : Int) - (value : Int))) (s.steering_step % 2 ^ 16)) }
  else if s.steering < value then
    { s with steering := toU16 ((s.steering : Int)
        + min (toU16 ((value : Int) - (s.steering : Int))) (s.steering_step % 2 ^ 16)) }
  else s

/-- The function `PadState::UpdateHatSwitch()`. -/
def UpdateHatSwitch (s : PadControls) : PadControls :=
  if s.hat_up ≠ 0 ∧ s.hat_right ≠ 0 then { s with hatswitch := 1 }
  else if s.hat_right ≠ 0 ∧ s.hat_down ≠ 0 then { s with hatswitch := 3 }
  else if s.hat_down ≠ 0 ∧ s.hat_left ≠ 0 then { s with hatswitch := 5 }
  else if s.hat_left ≠ 0 ∧ s.hat_up ≠ 0 then { s with hatswitch := 7 }
  else if s.hat_up ≠ 0 then { s with hatswitch := 0 }
  else if s.hat_right ≠ 0 then { s with hatswitch := 2 }
  else if s.hat_down ≠ 0 then { s with hatswitch := 4 }
  else if s.hat_left ≠ 0 then { s with hatswitch := 6 }
  else { s with hatswitch := 8 }

/-- The function `PadState::Reset()`. -/
def Reset (s : PadControls) : PadControls :=
  { s with steering := s.steering_range, mFFstate := List.replicate s.mFFstate.length 0 }

/-- The constructor `PadState::PadState(port, type)`; `init` holds the values the
members have before the constructor body runs (declared in the absent header). -/
def PadState.new (init : PadControls) (type : PS2WheelTypes) : PadControls :=
  let range : Nat :=
    if type = PS2WheelTypes.WT_DRIVING_FORCE_PRO
        ∨ type = PS2WheelTypes.WT_DRIVING_FORCE_PRO_1102 then 0x3FFF >>> 1
    else if type = PS2WheelTypes.WT_SEGA_SEAMIC then 0xFF >>> 1
    else 0x3FF >>> 1
  Reset { init with
    type := type
    steering_range := range
    steering_step := 65535
    last_steering := range
    steering := range
    throttle := 255
    brake := 255 }

/-- The steering part of `PadState::UpdateSettings(si, devname)`, on the value
`smoothing_percent` that `USB::GetConfigInt` returns for "SteeringSmoothing"; the part
that reopens the force-feedback device does not touch the fields of `PadControls`. -/
def UpdateSettings (s : PadControls) (smoothing_percent : Int) : PadControls :=
  if smoothing_percent ≤ 0 then { s with steering_step := 65535 }
  else
    { s with steering_step :=
        toU16 (clamp ((toS32 ((s.steering_range : Int) * smoothing_percent)).tdiv 100) 1 65535) }

/-- The mask `1u << (bind_index - CID_BUTTON0)`. -/
def buttonMask (c : PadIds) (bind_index : Nat) : Nat :=
  (1 <<< ((bind_index + 2 ^ 32 - c.CID_BUTTON 0 % 2 ^ 32) % 2 ^ 32)) % 2 ^ 32

/-- The function `PadState::GetBindValue(bind_index)`; the button labels are
`CID_BUTTON0` to `CID_BUTTON24`. -/
def GetBindValue (c : PadIds) (s : PadControls) (bind_index : Nat) : BindFloat :=
  if bind_index = c.CID_STEERING_L then BindFloat.quot s.steering_left s.steering_range
  else if bind_index = c.CID_STEERING_R then BindFloat.quot s.steering_right s.steering_range
  else if bind_index = c.CID_THROTTLE then BindFloat.oneMinus s.throttle
  else if bind_index = c.CID_BRAKE then BindFloat.oneMinus s.brake
  else if bind_index = c.CID_DPAD_UP then BindFloat.ofInt s.hat_up
  else if bind_index = c.CID_DPAD_DOWN then BindFloat.ofInt s.hat_down
  else if bind_index = c.CID_DPAD_LEFT then BindFloat.ofInt s.hat_left
  else if bind_index = c.CID_DPAD_RIGHT then BindFloat.ofInt s.hat_right
  else if bind_index ∈ (List.range 25).map c.CID_BUTTON then
    if s.buttons &&& buttonMask c bind_index ≠ 0 then BindFloat.ofInt 1 else BindFloat.ofInt 0
  else BindFloat.ofInt 0

/-- The function `PadState::SetBindValue(bind_index, value)`; the button labels are
`CID_BUTTON0` to `CID_BUTTON22`. -/
def SetBindValue (c : PadIds) (s : PadControls) (bind_index : Nat) (value : FloatArg) :
    PadControls :=
  if bind_index = c.CID_STEERING_L then
    UpdateSteering { s with steering_left := toS16 (value.lround_times s.steering_range) }
  else if bind_index = c.CID_STEERING_R then
    UpdateSteering { s with steering_right := toS16 (value.lround_times s.steering_range) }
  else if bind_index = c.CID_THROTTLE then
    { s with throttle := toU32 (255 - clamp (value.lround_times 255) 0 255) }
  else if bind_index = c.CID_BRAKE then
    { s with brake := toU32 (255 - clamp (value.lround_times 255) 0 255) }
  else if bind_index = c.CID_DPAD_UP then
    UpdateHatSwitch { s with hat_up := toU8 (clamp (value.lround_times 255) 0 255) }
  else if bind_index = c.CID_DPAD_DOWN then
    UpdateHatSwitch { s with hat_down := toU8 (clamp (value.lround_times 255) 0 255) }
  else if bind_index = c.CID_DPAD_LEFT then
    UpdateHatSwitch { s with hat_left := toU8 (clamp (value.lround_times 255) 0 255) }
  else if bind_index = c.CID_DPAD_RIGHT then
    UpdateHatSwitch { s with hat_right := toU8 (clamp (value.lround_times 255) 0 255) }
  else if bind_index ∈ (List.range 23).map c.CID_BUTTON then
    if value.ge_half = true then { s with buttons := (s.buttons ||| buttonMask c bind_index) % 2 ^ 32 }
    else { s with buttons := s.buttons &&& notU32 (buttonMask c bind_index) }
  else s

/-- The two words `wheel_lohi` at the start of the report buffer. -/
structure wheel_lohi where
  lo : Nat
  hi : Nat
deriving DecidableEq, Repr

/-- The words that hold the bytes `buf[0]` to `buf[4]` after `memset(w, 0, 8)`
(byte order of the host: little-endian). -/
def wordsOfBytes (b0 b1 b2 b3 b4 : Nat) : wheel_lohi :=
  ⟨decU 4 [b0 % 256, b1 % 256, b2 % 256, b3 % 256], decU 4 [b4 % 256, 0, 0, 0]⟩

/-- The function `PadState::TokenIn(buf, len)`: the state, the first eight bytes of
`buf` as the two words of `wheel_lohi`, and the return value. -/
def TokenIn (s : PadControls) (len : Int) : PadControls × wheel_lohi × Int :=
  match s.type with
  | PS2WheelTypes.WT_GENERIC =>
    let d := UpdateHatSwitch (UpdateSteering s)
    (d, ⟨(d.steering &&& 0x3FF ||| (d.buttons &&& 0xFFF) <<< 10 ||| 0xFF <<< 24) % 2 ^ 32,
      (d.hatswitch &&& 0xF ||| (d.throttle &&& 0xFF) <<< 8 ||| (d.brake &&& 0xFF) <<< 16)
        % 2 ^ 32⟩, len)
  | PS2WheelTypes.WT_GT_FORCE =>
    let d := UpdateHatSwitch (UpdateSteering s)
    (d, ⟨(d.steering &&& 0x3FF ||| (d.buttons &&& 0xFFF) <<< 10 ||| 0xFF <<< 24) % 2 ^ 32,
      (d.throttle &&& 0xFF ||| (d.brake &&& 0xFF) <<< 8) % 2 ^ 32⟩, len)
  | PS2WheelTypes.WT_DRIVING_FORCE_PRO =>
    let d := UpdateHatSwitch (UpdateSteering s)
    (d, ⟨(d.steering &&& 0x3FFF ||| (d.buttons &&& 0x3FFF) <<< 14 ||| (d.hatswitch &&& 0xF) <<< 28)
        % 2 ^ 32,
      (d.throttle <<< 8 ||| d.brake <<< 16 ||| 0x11 <<< 24) % 2 ^ 32⟩, len)
  | PS2WheelTypes.WT_DRIVING_FORCE_PRO_1102 =>
    let d := UpdateHatSwitch (UpdateSteering s)
    (d, ⟨(d.steering &&& 0x3FFF ||| (d.buttons &&& 0x3FFF) <<< 14 ||| (d.hatswitch &&& 0xF) <<< 28)
        % 2 ^ 32,
      ((1 ||| (d.throttle * 0x3F) / 0xFF) <<< 10 ||| 1 <<< 16
        ||| ((0x3F - ((d.brake : Int) * 0x3F) / 0xFF) % 0x40).toNat <<< 17
        ||| 1 <<< 23 ||| 0x11 <<< 24) % 2 ^ 32⟩, len)
  | PS2WheelTypes.WT_ROCKBAND1_DRUMKIT =>
    let d := UpdateHatSwitch s
    (d, ⟨(d.buttons &&& 0xFFF ||| (d.hatswitch &&& 0xF) <<< 16) % 2 ^ 32, 0⟩, len)
  | PS2WheelTypes.WT_BUZZ_CONTROLLER =>
    (s, wordsOfBytes 0x7f 0x7f (s.buttons &&& 0xff) (s.buttons >>> 8 &&& 0xff)
      (0xf0 ||| s.buttons >>> 16 &&& 0xf), 5)
  | PS2WheelTypes.WT_SEGA_SEAMIC =>
    let d := UpdateHatSwitch (UpdateSteering s)
    (d, wordsOfBytes (d.steering &&& 0xFF) (d.throttle &&& 0xFF) (d.brake &&& 0xFF)
      (d.hatswitch &&& 0x0F ||| (d.buttons &&& 0x0F) <<< 4) (d.buttons >>> 4 &&& 0x3F), len)
  | PS2WheelTypes.WT_KEYBOARDMANIA_CONTROLLER =>
    (s, wordsOfBytes 0x3F (s.buttons &&& 0xFF) (s.buttons >>> 8 &&& 0xFF)
      (s.buttons >>> 16 &&& 0xFF) (s.buttons >>> 24 &&& 0xFF), len)

/-- The pad states reached from construction by `SetBindValue`, `Reset`,
`UpdateSettings` and `TokenIn`. -/
inductive PadReachable (c : PadIds) : PadControls → Prop
  | create (init : PadControls) (type : PS2WheelTypes) :
      PadReachable c (PadState.new init type)
  | bind (s : PadControls) (bind_index : Nat) (value : FloatArg) :
      PadReachable c s → PadReachable c (SetBindValue c s bind_index value)
  | reset (s : PadControls) : PadReachable c s → PadReachable c (Reset s)
  | settings (s : PadControls) (smoothing_percent : Int) :
      PadReachable c s → PadReachable c (UpdateSettings s smoothing_percent)
  | poll (s : PadControls) (len : Int) :
      PadReachable c s → PadReachable c (TokenIn s len).1

/-- The control identifiers numbered in the order of the `case` labels, from 0. -/
def sampleIds : PadIds :=
  { CID_STEERING_L := 0, CID_STEERING_R := 1, CID_THROTTLE := 2, CID_BRAKE := 3,
    CID_DPAD_UP := 4, CID_DPAD_DOWN := 5, CID_DPAD_LEFT := 6, CID_DPAD_RIGHT := 7,
    CID_BUTTON := fun k => 8 + k }

/-- A pad state with every member zero. -/
def zeroPad : PadControls :=
  ⟨PS2WheelTypes.WT_GENERIC, 0, 0, 0, 0, 0, 0, 0, 0, 0, 0, 0, 0, 0, 0, []⟩

/-- The `float` value 1.0. -/
def floatOne : FloatArg := ⟨true, fun k => k⟩

/-- The `float` value 0.0. -/
def floatZero : FloatArg := ⟨false, fun _ => 0⟩

/-- The value `UpdateSteering` moves `data.steering` towards: `steering_range -
steering_left` when `steering_left > 0`, else `steering_range + steering_right`. -/
def steeringTarget (s : PadControls) : Int :=
  if 0 < s.steering_left then (s.steering_range : Int) - s.steering_left
  else (s.steering_range : Int) + s.steering_right

/-- A wheel turned left by 100 with a step of 30 per poll. -/
def sampleSteer : PadControls :=
  { PadState.new zeroPad PS2WheelTypes.WT_GENERIC with steering_left := 100, steering_step := 30 }

/-- A newly constructed Keyboardmania pad. -/
def sampleKeyboard : PadControls :=
  PadState.new zeroPad PS2WheelTypes.WT_KEYBOARDMANIA_CONTROLLER

/-- A newly constructed Driving Force Pro wheel (steering range 0x1FFF). -/
def sampleWheelPro : PadControls :=
  PadState.new zeroPad PS2WheelTypes.WT_DRIVING_FORCE_PRO

/-- The port loop of a `Load` at a port header that records device type 5 (configured:
0) and a declared block length of 0xFFFFFFF4, with nothing behind the header. -/
def sampleBackwardSkip : FreezeLoop :=
  ⟨sampleState, ⟨Mode.Read, encS 4 5 ++ encU 4 0 ++ encU 4 0xFFFFFFF4, 0, false⟩, ⟨false, false⟩⟩

/-- The port loop of a `Load` at a port header that records device type 5 (configured:
0) and a declared block length of 100, with 4 bytes behind the header. -/
def sampleShortBlock : FreezeLoop :=
  ⟨sampleState, ⟨Mode.Read, encS 4 5 ++ encU 4 0 ++ encU 4 100 ++ [0, 0, 0, 0], 0, false⟩,
    ⟨false, false⟩⟩

/-- The stream a Save of the sample state produces, with the packet record replaced by
one that holds port index 2 and endpoint index 0. -/
def corruptIndexStream : List Nat :=
  markerEnc "USB" ++ ohciBytes sampleState ++ portBytes sampleState 0 ++ portBytes sampleState 1
    ++ corruptPacketStream

/-- That stream in a buffer of its size. -/
def corruptIndexData : freezeData := ⟨corruptIndexStream.length, corruptIndexStream⟩

/-- The sample state at another moment: the cycle clock has another value and the
outstanding packet is on the control endpoint of the pad in guest port 0. -/
def sampleLaterOnPad : USBState := { samplePacketOnPad with s_usb_clocks := 5000 }

/-- The stream a Save of the sample state produces, except that the marker of the packet
record reads "USBPackeX" instead of "USBPacket". -/
def badPacketMarkerStream : List Nat :=
  markerEnc "USB" ++ ohciBytes sampleState ++ portBytes sampleState 0 ++ portBytes sampleState 1
    ++ (markerEnc "USBPackeX"
      ++ encAll packetFields (sampleState.s_qemu_ohci.usb_packet,
          packetLocals sampleState (validOf sampleState)))

/-- That stream in a buffer of its size. -/
def badPacketMarkerData : freezeData := ⟨badPacketMarkerStream.length, badPacketMarkerStream⟩

/-- A pad at address 2 whose saved fields are all zero. -/
def secondPad : USBDevice := sampleDevice 2 (Peripheral.pad ⟨0, [0, 0, 0]⟩)

/-- A state with a pad in each guest port; the outstanding packet is on the control
endpoint of the pad in guest port 1 (the object at address 2). -/
def sampleTwoPads : USBState :=
  { sampleState with
    s_usb_device := ⟨some samplePad, some secondPad⟩
    s_usb_device_proxy := ⟨some DeviceProxy.PadDevice, some DeviceProxy.PadDevice⟩
    EmuConfig := ⟨⟨0, 0⟩, ⟨0, 0⟩⟩ }

/-- The stream a Save of `sampleTwoPads` produces, except that the marker of the pad
record of port 1 reads "XadDevice" instead of "PadDevice". -/
def badSecondPadStream : List Nat :=
  markerEnc "USB" ++ ohciBytes sampleTwoPads ++ portBytes sampleTwoPads 0
    ++ (encS 4 0 ++ encU 4 0 ++ encU 4 (blockBytes (some secondPad)).length
      ++ (devBytes secondPad ++ (markerEnc "XadDevice" ++ encAll padFields ⟨0, [0, 0, 0]⟩)))
    ++ packetBytes sampleTwoPads (validOf sampleTwoPads)

/-- That stream in a buffer of its size. -/
def badSecondPadData : freezeData := ⟨badSecondPadStream.length, badSecondPadStream⟩

/-- A live state with the configuration of the sample state and the outstanding packet
queued on the control endpoint of the pad in guest port 0 and on no other endpoint. -/
def sampleQueuedMatch : USBState :=
  { sampleQueuedOnPad with EmuConfig := ⟨⟨0, 0⟩, ⟨1, 0⟩⟩ }

/-- The stream a Save of `sampleIdle` produces, except for the block of port 0: where
the device record starts it has the marker "USBDevicX", followed by the pad record. -/
def badDeviceMarkerStream : List Nat :=
  markerEnc "USB" ++ ohciBytes sampleIdle
    ++ (encS 4 0 ++ encU 4 0
      ++ encU 4 (markerEnc "USBDevicX" ++ periphBytes (Peripheral.pad ⟨77, [1, 2, 3]⟩)).length
      ++ (markerEnc "USBDevicX" ++ periphBytes (Peripheral.pad ⟨77, [1, 2, 3]⟩)))
    ++ portBytes sampleIdle 1 ++ packetBytes sampleIdle (validOf sampleIdle)

/-- That stream in a buffer of its size. -/
def badDeviceMarkerData : freezeData := ⟨badDeviceMarkerStream.length, badDeviceMarkerStream⟩

/-- The light gun state of the sample before its automatic configuration was done. -/
def sampleGunFresh : GunCon2State := { sampleGun with auto_config_done := false }

/-- The sample state with that light gun in guest port 1. -/
def sampleFresh : USBState :=
  { sampleState with
    s_usb_device := ⟨some samplePad, some (sampleDevice 2 (Peripheral.guncon2 sampleGunFresh))⟩ }

/-- A live state with guest port 0 reconfigured to the light gun type and, in guest port
1, the light gun of the sample after an automatic configuration to a screen of 800 by
600. -/
def sampleMismatchConfigured : USBState :=
  { sampleMismatch with
    s_usb_device := ⟨some samplePad,
      some (sampleDevice 2
        (Peripheral.guncon2 { sampleGun with screen_width := 800, screen_height := 600 }))⟩ }

end USB

namespace USB

theorem leBytes_length (w v : Nat) : (leBytes w v).length = w := by
  induction w generalizing v with
  | zero => rfl
  | succ n ih => simp [leBytes, ih]

theorem ofLE_leBytes (w v : Nat) : ofLE (leBytes w v) = v % 256 ^ w := by
  induction w generalizing v with
  | zero => simp [leBytes, ofLE, Nat.mod_one]
  | succ n ih =>
    simp only [leBytes, ofLE, ih]
    rw [pow_succ, mul_comm (256 ^ n) 256, Nat.mod_mul]

@[simp] theorem encU_length (w v : Nat) : (encU w v).length = w := leBytes_length w v

@[simp] theorem encS_length (w : Nat) (v : Int) : (encS w v).length = w := leBytes_length w _

@[simp] theorem encB_length (b : Bool) : (encB b).length = 1 := rfl

theorem decU_encU (w v : Nat) (h : v < 256 ^ w) : decU w (encU w v) = v := by
  simp [decU, encU, ofLE_leBytes, Nat.mod_eq_of_lt h]

theorem decS_encS (w : Nat) (v : Int) (h1 : -((256 : Int) ^ w) ≤ 2 * v) (h2 : 2 * v < (256 : Int) ^ w) :
    decS w (encS w v) = v := by
  have hp : (0 : Int) < (256 : Int) ^ w := by positivity
  have hcast : ((256 ^ w : Nat) : Int) = (256 : Int) ^ w := by push_cast; rfl
  have hnn : 0 ≤ v % (256 : Int) ^ w := Int.emod_nonneg _ (ne_of_gt hp)
  have hlt : v % (256 : Int) ^ w < (256 : Int) ^ w := Int.emod_lt_of_pos _ hp
  have hu : ofLE (encS w v) % 256 ^ w = (v % (256 : Int) ^ w).toNat := by
    unfold encS
    rw [ofLE_leBytes, Nat.mod_mod]
    apply Nat.mod_eq_of_lt
    have : ((v % (256 : Int) ^ w).toNat : Int) < ((256 ^ w : Nat) : Int) := by
      rw [Int.toNat_of_nonneg hnn, hcast]; exact hlt
    exact_mod_cast this
  unfold decS
  simp only [hu]
  have hcastu : (((v % (256 : Int) ^ w).toNat : Nat) : Int) = v % (256 : Int) ^ w :=
    Int.toNat_of_nonneg hnn
  by_cases hv : 0 ≤ v
  · have hm : v % (256 : Int) ^ w = v := Int.emod_eq_of_lt hv (by omega)
    have hlt2 : 2 * (v % (256 : Int) ^ w).toNat < 256 ^ w := by
      have : (2 * ((v % (256 : Int) ^ w).toNat : Int)) < ((256 ^ w : Nat) : Int) := by
        rw [hcastu, hcast, hm]; exact h2
      exact_mod_cast this
    rw [if_pos hlt2, hcastu, hm]
  · have hm : v % (256 : Int) ^ w = v + (256 : Int) ^ w := by
      rw [← Int.add_emod_self]
      exact Int.emod_eq_of_lt (by omega) (by omega)
    have hge : ¬ 2 * (v % (256 : Int) ^ w).toNat < 256 ^ w := by
      intro hc
      have : (2 * ((v % (256 : Int) ^ w).toNat : Int)) < ((256 ^ w : Nat) : Int) := by exact_mod_cast hc
      rw [hcastu, hcast, hm] at this
      omega
    rw [if_neg hge, hcastu, hm]; ring

theorem decB_encB (b : Bool) : decB (encB b) = b := by
  cases b <;> simp [decB, encB, ofLE]

/-! ## The stream -/

namespace StateWrapper

theorem DoBytes_write (sw : StateWrapper) (data : List Nat) (h : sw.Writable data.length) :
    sw.DoBytes data = (data, sw.put data) := by
  obtain ⟨hm, he, hfit⟩ := h
  have hmin : min (sw.buf.length - sw.pos) data.length = data.length := by omega
  simp [DoBytes, hm, he, streamWrite, put, hmin]

theorem DoBytes_read (sw : StateWrapper) (data bs tl : List Nat) (h : sw.Readable bs tl)
    (hl : data.length = bs.length) : sw.DoBytes data = (bs, sw.adv bs.length) := by
  obtain ⟨hm, he, hr, _⟩ := h
  unfold rest at hr
  have hlen : sw.buf.length - sw.pos = bs.length + tl.length := by
    have := congrArg List.length hr
    simpa using this
  have hmin : min (sw.buf.length - sw.pos) bs.length = bs.length := by omega
  have hnlt : ¬ sw.buf.length - sw.pos < bs.length := by omega
  simp [DoBytes, hm, he, streamRead, adv, hmin, hr, hl, hnlt]

theorem Readable.adv {sw : StateWrapper} {bs tl tl2 : List Nat} (h : sw.Readable (bs ++ tl) tl2) :
    (sw.adv bs.length).Readable tl tl2 := by
  obtain ⟨hm, he, hr, hp⟩ := h
  have hlen : sw.buf.length - sw.pos = bs.length + (tl.length + tl2.length) := by
    have := congrArg List.length hr
    simpa [StateWrapper.rest] using this
  refine ⟨hm, he, ?_, by simp only [StateWrapper.adv]; omega⟩
  unfold rest at hr ⊢
  simp only [StateWrapper.adv]
  rw [← List.drop_drop, hr]
  simp [List.append_assoc]

theorem Readable.left {sw : StateWrapper} {bs tl tl2 : List Nat} (h : sw.Readable (bs ++ tl) tl2) :
    sw.Readable bs (tl ++ tl2) := by
  obtain ⟨hm, he, hr, hp⟩ := h
  exact ⟨hm, he, by rw [hr, List.append_assoc], hp⟩

theorem Readable.next {sw : StateWrapper} {a b tl : List Nat} (h : sw.Readable a (b ++ tl)) :
    (sw.adv a.length).Readable b tl := by
  have h2 : sw.Readable (a ++ b) tl := by
    obtain ⟨m, e, r, p⟩ := h
    exact ⟨m, e, by rw [r, List.append_assoc], p⟩
  exact h2.adv

theorem Writable.after {sw : StateWrapper} {bs : List Nat} {n : Nat}
    (h : sw.Writable (bs.length + n)) : (sw.put bs).Writable n := by
  obtain ⟨hm, he, hfit⟩ := h
  refine ⟨hm, he, ?_⟩
  simp only [StateWrapper.put, List.length_append, List.length_take, List.length_drop]
  omega

theorem Writable.front {sw : StateWrapper} {m n : Nat} (h : sw.Writable (m + n)) :
    sw.Writable m := by
  obtain ⟨hm, he, hfit⟩ := h
  exact ⟨hm, he, by omega⟩

theorem put_put (sw : StateWrapper) (a b : List Nat) (h : sw.pos + a.length ≤ sw.buf.length) :
    (sw.put a).put b = sw.put (a ++ b) := by
  have hpos : sw.pos ≤ sw.buf.length := by omega
  simp only [put, List.length_append, StateWrapper.mk.injEq, true_and]
  refine ⟨?_, by omega, trivial⟩
  have h1 : (sw.buf.take sw.pos ++ a ++ sw.buf.drop (sw.pos + a.length)).take (sw.pos + a.length)
      = sw.buf.take sw.pos ++ a := by
    rw [List.take_append_of_le_length (by simp; omega)]
    rw [List.take_of_length_le (by simp)]
  have h2 : (sw.buf.take sw.pos ++ a ++ sw.buf.drop (sw.pos + a.length)).drop
      (sw.pos + a.length + b.length) = sw.buf.drop (sw.pos + (a.length + b.length)) := by
    have hl : (sw.buf.take sw.pos ++ a).length = sw.pos + a.length := by simp; omega
    rw [show sw.pos + a.length + b.length = (sw.buf.take sw.pos ++ a).length + b.length by rw [hl]]
    rw [List.drop_append, List.drop_drop]
    congr 1; omega
  rw [h1, h2]; simp [List.append_assoc]

theorem put_pos (sw : StateWrapper) (bs : List Nat) : (sw.put bs).pos = sw.pos + bs.length := rfl

theorem put_nil (sw : StateWrapper) : sw.put [] = sw := by
  simp [put]

end StateWrapper

namespace StateWrapper

theorem adv_adv (sw : StateWrapper) (a b : Nat) : (sw.adv a).adv b = sw.adv (a + b) := by
  simp [adv, Nat.add_assoc]

theorem adv_zero (sw : StateWrapper) : sw.adv 0 = sw := by simp [adv]

theorem DoBytes_error (sw : StateWrapper) (data : List Nat) (he : sw.error = true) :
    (sw.DoBytes data).2 = sw := by
  unfold DoBytes
  cases hm : sw.mode <;> simp [he]

theorem DoBytes_mode (sw : StateWrapper) (data : List Nat) :
    (sw.DoBytes data).2.mode = sw.mode := by
  unfold DoBytes
  cases hm : sw.mode <;> simp only [streamRead, streamWrite] <;> split <;> try split
  all_goals simp [hm]

end StateWrapper

/-! ## Field lists -/

theorem doField_write {σ : Type} (f : Field σ) (st : σ) (sw : StateWrapper)
    (h : sw.Writable (f.enc st).length) : doField f st sw = (st, sw.put (f.enc st)) := by
  unfold doField
  rw [StateWrapper.DoBytes_write sw _ h]
  simp [h.1]

theorem doFields_write {σ : Type} (fs : List (Field σ)) (st : σ) (sw : StateWrapper)
    (h : sw.Writable (encAll fs st).length) : doFields fs st sw = (st, sw.put (encAll fs st)) := by
  induction fs generalizing sw with
  | nil => simp [doFields, encAll, StateWrapper.put_nil]
  | cons f fs ih =>
    simp only [encAll, List.length_append] at h
    simp only [doFields, encAll]
    rw [doField_write f st sw h.front]
    simp only
    rw [ih _ h.after, StateWrapper.put_put]
    have := h.2.2
    omega

theorem doField_read {σ : Type} (f : Field σ) (st src : σ) (sw : StateWrapper) (tl : List Nat)
    (h : sw.Readable (f.enc src) tl) (hl : (f.enc st).length = (f.enc src).length) :
    doField f st sw = (f.dec st (f.enc src), sw.adv (f.enc src).length) := by
  unfold doField
  rw [StateWrapper.DoBytes_read sw _ _ tl h hl]
  simp [h.1]

theorem doFields_read {σ : Type} (fs : List (Field σ)) (st src : σ) (sw : StateWrapper)
    (tl : List Nat) (h : sw.Readable (encAll fs src) tl) (ha : agree fs st src) :
    doFields fs st sw = (decAll fs st src, sw.adv (encAll fs src).length) := by
  induction fs generalizing sw st with
  | nil => simp [doFields, encAll, decAll, StateWrapper.adv_zero]
  | cons f fs ih =>
    simp only [encAll] at h
    simp only [doFields, encAll, decAll, List.length_append]
    rw [doField_read f st src sw _ h.left ha.1]
    simp only
    rw [ih _ _ h.adv ha.2, StateWrapper.adv_adv]

/-! ## Markers -/

theorem fit_self (bs : List Nat) : fit bs.length bs = bs := by
  simp [fit]

@[simp] theorem fit_length (n : Nat) (bs : List Nat) : (fit n bs).length = n := by
  simp [fit]

theorem cstr_of_nonzero (bs : List Nat) (h : ∀ b ∈ bs, b ≠ 0) : cstr bs = bs := by
  induction bs with
  | nil => rfl
  | cons b bs ih =>
    have hb : b ≠ 0 := h b (List.mem_cons_self _ _)
    simp [cstr, hb, ih (fun x hx => h x (List.mem_cons_of_mem _ hx))]

theorem markerEnc_length (marker : String) :
    (markerEnc marker).length = 4 + (markerBytes marker).length := by
  simp [markerEnc]

namespace StateWrapper

theorem DoMarker_write (sw : StateWrapper) (marker : String)
    (h : sw.Writable (markerEnc marker).length) :
    sw.DoMarker marker = (true, sw.put (markerEnc marker)) := by
  have h4 : sw.Writable ((encU 4 (markerBytes marker).length).length
      + (markerBytes marker).length) := by
    simpa [markerEnc] using h
  unfold DoMarker DoString
  rw [DoBytes_write sw _ h4.front]
  simp only [h.1, fit_self]
  rw [DoBytes_write _ _ h4.after, put_put _ _ _ h4.front.2.2]
  simp [put, h.2.1, h.1, markerEnc]

theorem DoMarker_read (sw : StateWrapper) (marker : String) (tl : List Nat)
    (hg : GoodMarker marker) (h : sw.Readable (markerEnc marker) tl) :
    sw.DoMarker marker = (true, sw.adv (markerEnc marker).length) := by
  unfold markerEnc at h
  unfold DoMarker DoString
  rw [DoBytes_read sw _ _ _ h.left (by simp)]
  simp only [h.1, decU_encU _ _ hg.2]
  rw [DoBytes_read _ _ _ _ h.adv (by simp)]
  simp [adv, h.2.1, cstr_of_nonzero _ hg.1, markerEnc, Nat.add_assoc]

theorem DoMarker_error (sw : StateWrapper) (marker : String) (he : sw.error = true) :
    sw.DoMarker marker = (false, sw) := by
  unfold DoMarker DoString
  have h1 : (sw.DoBytes (encU 4 (markerBytes marker).length)).2 = sw := DoBytes_error _ _ he
  simp only [h1]
  have h2 : ∀ d, (sw.DoBytes d).2 = sw := fun d => DoBytes_error _ _ he
  simp [h2, he]

end StateWrapper

theorem good_USB : GoodMarker "USB" := by
  constructor <;> decide

theorem good_USBOHCI : GoodMarker "USBOHCI" := by
  constructor <;> decide

theorem good_USBDevice : GoodMarker "USBDevice" := by
  constructor <;> decide

theorem good_USBPacket : GoodMarker "USBPacket" := by
  constructor <;> decide

theorem good_PadDevice : GoodMarker "PadDevice" := by
  constructor <;> decide

theorem good_GunCon2Device : GoodMarker "GunCon2Device" := by
  constructor <;> decide

/-! ## The controller record -/

theorem range_ports : List.range OHCI_MAX_PORTS = [0, 1, 2, 3, 4, 5, 6, 7, 8, 9, 10, 11, 12, 13, 14] := by
  decide

theorem agree_ohci (st src : USBState)
    (h : st.s_qemu_ohci.usb_buf.length = src.s_qemu_ohci.usb_buf.length) :
    agree ohciFields st src := by
  simp [ohciFields, ohciFieldsHead, ohciFieldsTail, range_ports, rhportCtrlField, agree, Field.u,
    Field.s, Field.b, Field.bytes, USBState.ohci, h, encB]

theorem decAll_append {σ : Type} (a b : List (Field σ)) (st src : σ) :
    decAll (a ++ b) st src = decAll b (decAll a st src) src := by
  induction a generalizing st with
  | nil => rfl
  | cons f fs ih => simp [decAll, ih]

theorem encAll_append {σ : Type} (a b : List (Field σ)) (st : σ) :
    encAll (a ++ b) st = encAll a st ++ encAll b st := by
  induction a with
  | nil => rfl
  | cons f fs ih => simp [encAll, ih]

theorem set_take_drop (l s : List Nat) (n : Nat) (hl : l.length = s.length) (hn : n < s.length) :
    (s.take n ++ l.drop n).set n (s.getD n 0) = s.take (n + 1) ++ l.drop (n + 1) := by
  apply List.ext_getElem
  · simp; omega
  · intro i h1 h2
    simp only [List.length_set, List.length_append, List.length_take, List.length_drop] at h1
    rw [List.getElem_set]
    by_cases hi : n = i
    · subst hi
      simp only [if_true]
      rw [List.getElem_append_left (by simp; omega)]
      simp [List.getD_eq_getElem?_getD, List.getElem?_eq_getElem hn]
    · simp only [hi, if_false]
      by_cases hlt : i < n
      · rw [List.getElem_append_left (by simp; omega), List.getElem_append_left (by simp; omega)]
        simp
      · rw [List.getElem_append_right (by simp; omega), List.getElem_append_right (by simp; omega)]
        simp only [List.length_take, List.getElem_drop]
        congr 1
        omega

theorem decAll_rhports (n : Nat) (st src : USBState)
    (hsrc : ∀ v ∈ src.s_qemu_ohci.rhport_ctrl, InU 4 v)
    (hlen : st.s_qemu_ohci.rhport_ctrl.length = src.s_qemu_ohci.rhport_ctrl.length)
    (hn : n ≤ src.s_qemu_ohci.rhport_ctrl.length) :
    decAll ((List.range n).map rhportCtrlField) st src
      = st.ohci (fun o => { o with rhport_ctrl :=
          src.s_qemu_ohci.rhport_ctrl.take n ++ o.rhport_ctrl.drop n }) := by
  induction n with
  | zero => simp [decAll, USBState.ohci]
  | succ n ih =>
    rw [List.range_succ, List.map_append, decAll_append, ih (by omega)]
    have hb : InU 4 (src.s_qemu_ohci.rhport_ctrl.getD n 0) := by
      rw [List.getD_eq_getElem?_getD, List.getElem?_eq_getElem (by omega)]
      exact hsrc _ (List.getElem_mem _)
    simp only [List.map_cons, List.map_nil, decAll, rhportCtrlField, Field.u, USBState.ohci,
      decU_encU _ _ hb]
    rw [set_take_drop _ _ _ hlen (by omega)]

theorem decAll_ohci (st src : USBState) (hw : src.WFregs)
    (hlen : st.s_qemu_ohci.rhport_ctrl.length = OHCI_MAX_PORTS) :
    decAll ohciFields st src = ohciLoaded st src := by
  have ho := hw.ohci
  have hl2 : st.s_qemu_ohci.rhport_ctrl.length = src.s_qemu_ohci.rhport_ctrl.length := by
    rw [hlen, ho.rhport_ctrl_len]
  have hA : (decAll ohciFieldsHead st src).s_qemu_ohci.rhport_ctrl = st.s_qemu_ohci.rhport_ctrl := by
    simp only [ohciFieldsHead, decAll, Field.u, Field.s, USBState.ohci]
  unfold ohciFields
  rw [decAll_append, decAll_append]
  rw [decAll_rhports _ _ _ ho.rhport_ctrl (by rw [hA]; exact hl2)
    (by simp [ho.rhport_ctrl_len])]
  simp only [ohciFieldsHead, ohciFieldsTail, decAll, Field.u, Field.s, Field.b, Field.bytes,
    USBState.ohci,
    decS_encS _ _ hw.last_cycle.1 hw.last_cycle.2, decS_encS _ _ hw.clocks.1 hw.clocks.2,
    decS_encS _ _ hw.remaining.1 hw.remaining.2, decU_encU _ _ ho.eof_timer,
    decS_encS _ _ ho.sof_time.1 ho.sof_time.2, decU_encU _ _ ho.ctl, decU_encU _ _ ho.status,
    decU_encU _ _ ho.intr_status, decU_encU _ _ ho.intr, decU_encU _ _ ho.hcca,
    decU_encU _ _ ho.ctrl_head, decU_encU _ _ ho.ctrl_cur, decU_encU _ _ ho.bulk_head,
    decU_encU _ _ ho.bulk_cur, decU_encU _ _ ho.per_cur, decU_encU _ _ ho.done,
    decS_encS _ _ ho.done_count.1 ho.done_count.2,
    decU_encU _ _ (show InU 4 src.s_qemu_ohci.fsmps from lt_trans ho.fsmps (by norm_num)),
    decU_encU _ _ (show InU 4 src.s_qemu_ohci.fit from lt_trans ho.fit (by norm_num)),
    decU_encU _ _ (show InU 4 src.s_qemu_ohci.fi from lt_trans ho.fi (by norm_num)),
    decU_encU _ _ (show InU 4 src.s_qemu_ohci.frt from lt_trans ho.frt (by norm_num)),
    decU_encU _ _ ho.frame_number, decU_encU _ _ ho.padding, decU_encU _ _ ho.pstart,
    decU_encU _ _ ho.lst, decU_encU _ _ ho.rhdesc_a, decU_encU _ _ ho.rhdesc_b,
    decU_encU _ _ ho.old_ctl, decU_encU _ _ ho.async_td, decB_encB,
    Nat.mod_eq_of_lt ho.fsmps, Nat.mod_eq_of_lt ho.fit, Nat.mod_eq_of_lt ho.fi,
    Nat.mod_eq_of_lt ho.frt, ohciLoaded]
  have htd : List.take OHCI_MAX_PORTS src.s_qemu_ohci.rhport_ctrl
      ++ List.drop OHCI_MAX_PORTS st.s_qemu_ohci.rhport_ctrl = src.s_qemu_ohci.rhport_ctrl := by
    rw [List.take_of_length_le (by rw [ho.rhport_ctrl_len]),
      List.drop_of_length_le (by rw [hlen]), List.append_nil]
  simp only [htd]

theorem DoOHCIState_write (st : USBState) (sw : StateWrapper)
    (h : sw.Writable (ohciBytes st).length) :
    DoOHCIState st sw = (st, sw.put (ohciBytes st)) := by
  unfold ohciBytes at h
  rw [List.length_append] at h
  unfold DoOHCIState
  rw [StateWrapper.DoMarker_write _ _ h.front]
  simp only [Bool.not_true, Bool.false_eq_true, if_false]
  rw [doFields_write _ _ _ h.after, StateWrapper.put_put _ _ _ h.front.2.2]
  rfl

theorem DoOHCIState_read (st src : USBState) (sw : StateWrapper) (tl : List Nat)
    (h : sw.Readable (ohciBytes src) tl) (hw : src.WFregs)
    (hlen : st.s_qemu_ohci.rhport_ctrl.length = OHCI_MAX_PORTS)
    (hbuf : st.s_qemu_ohci.usb_buf.length = src.s_qemu_ohci.usb_buf.length) :
    DoOHCIState st sw = (ohciLoaded st src, sw.adv (ohciBytes src).length) := by
  unfold ohciBytes at h
  unfold DoOHCIState
  rw [StateWrapper.DoMarker_read _ _ _ good_USBOHCI h.left]
  simp only [Bool.not_true, Bool.false_eq_true, if_false]
  rw [doFields_read _ _ src _ tl h.adv (agree_ohci _ _ hbuf), StateWrapper.adv_adv,
    decAll_ohci _ _ hw hlen]
  simp [ohciBytes]

/-! ## Endpoints and arrays -/

theorem epBytes_length (ep : USBEndpoint) : (epBytes ep).length = 2 := by
  simp [epBytes, endpointFields, encAll, Field.b]

theorem DoEndpointState_write (ep : USBEndpoint) (sw : StateWrapper)
    (h : sw.Writable (epBytes ep).length) :
    DoEndpointState ep sw = (ep, sw.put (epBytes ep)) := by
  unfold DoEndpointState
  rw [doFields_write _ _ _ h]
  simp [StateWrapper.IsReading, h.1, epBytes]

theorem DoEndpointState_read (ep src : USBEndpoint) (sw : StateWrapper) (tl : List Nat)
    (h : sw.Readable (epBytes src) tl) :
    DoEndpointState ep sw = (epLoaded ep src, sw.adv (epBytes src).length) := by
  unfold DoEndpointState
  rw [doFields_read _ _ src _ tl h (by simp [agree, endpointFields, Field.b])]
  simp [StateWrapper.IsReading, h.1, decAll, endpointFields, Field.b, decB_encB, epLoaded, epBytes]

theorem doArray_write {α : Type} (body : α → StateWrapper → α × StateWrapper)
    (enc : α → List Nat)
    (hb : ∀ a sw, sw.Writable (enc a).length → body a sw = (a, sw.put (enc a)))
    (as : List α) (sw : StateWrapper) (h : sw.Writable (encList enc as).length) :
    doArray body as sw = (as, sw.put (encList enc as)) := by
  induction as generalizing sw with
  | nil => simp [doArray, encList, StateWrapper.put_nil]
  | cons a as ih =>
    simp only [encList, List.length_append] at h
    simp only [doArray, encList]
    rw [hb a sw h.front]
    simp only
    rw [ih _ h.after, StateWrapper.put_put _ _ _ h.front.2.2]

theorem doArray_read {α : Type} (body : α → StateWrapper → α × StateWrapper)
    (enc : α → List Nat) (ld : α → α → α)
    (hb : ∀ a src sw tl, sw.Readable (enc src) tl →
      body a sw = (ld a src, sw.adv (enc src).length))
    (as srcs : List α) (sw : StateWrapper) (tl : List Nat) (hlen : as.length = srcs.length)
    (h : sw.Readable (encList enc srcs) tl) :
    doArray body as sw = (List.zipWith ld as srcs, sw.adv (encList enc srcs).length) := by
  induction as generalizing sw srcs with
  | nil =>
    cases srcs with
    | nil => simp [doArray, encList, StateWrapper.adv_zero]
    | cons b bs => simp at hlen
  | cons a as ih =>
    cases srcs with
    | nil => simp at hlen
    | cons b bs =>
      simp only [encList] at h
      simp only [doArray, encList, List.zipWith_cons_cons, List.length_append]
      rw [hb a b sw _ h.left]
      simp only
      rw [ih bs _ (by simpa using hlen) h.adv, StateWrapper.adv_adv]

/-! ## Devices -/

theorem StateWrapper.Writable.mono {sw : StateWrapper} {m n : Nat} (h : sw.Writable n)
    (hmn : m ≤ n) : sw.Writable m :=
  ⟨h.1, h.2.1, by have := h.2.2; omega⟩

theorem StateWrapper.Writable.put_of {sw : StateWrapper} (bs : List Nat) {n N : Nat}
    (h : sw.Writable N) (hn : bs.length + n ≤ N) : (sw.put bs).Writable n :=
  StateWrapper.Writable.after (h.mono hn)

@[simp] theorem encInts_length (vs : List Int) : (encInts vs).length = 4 * vs.length := by
  induction vs with
  | nil => rfl
  | cons v vs ih => simp [encInts, ih]; omega

theorem decInts_encInts (vs : List Int) (h : ∀ v ∈ vs, InS 4 v) :
    decInts vs.length (encInts vs) = vs := by
  induction vs with
  | nil => rfl
  | cons v vs ih =>
    have hv := h v (List.mem_cons_self _ _)
    simp only [List.length_cons, decInts, encInts]
    rw [List.take_append_of_le_length (by simp), List.take_of_length_le (by simp),
      List.drop_append_of_le_length (by simp), List.drop_of_length_le (by simp),
      List.nil_append, decS_encS _ _ hv.1 hv.2, ih (fun x hx => h x (List.mem_cons_of_mem _ hx))]

theorem take_succ_set (l : List Int) (i : Nat) (v : Int) (hi : i < l.length) :
    (l.set i v).take (i + 1) = l.take i ++ [v] := by
  induction l generalizing i with
  | nil => simp at hi
  | cons a l ih =>
    cases i with
    | zero => simp
    | succ i => simp [ih i (by simpa using hi)]

theorem setInterfaces_eq (env : Env) (hr : env.Reapply) (vs : List Int) (i : Nat) (d : USBDevice)
    (h : i + vs.length ≤ d.altsetting.length) :
    setInterfaces env vs i d
      = { d with altsetting := d.altsetting.take i ++ vs ++ d.altsetting.drop (i + vs.length) } := by
  induction vs generalizing i d with
  | nil => simp [setInterfaces]
  | cons v vs ih =>
    simp only [List.length_cons] at h
    simp only [setInterfaces]
    have hi : i < d.altsetting.length := by omega
    have hget : ({ d with altsetting := d.altsetting.set i v } : USBDevice).altsetting.getD i 0 = v := by
      simp [List.getD_eq_getElem?_getD, hi]
    have hre := hr.interface { d with altsetting := d.altsetting.set i v } i (by simpa using hi)
    rw [hget] at hre
    rw [hre, ih (i + 1) _ (by simp; omega)]
    have hlist : (d.altsetting.set i v).take (i + 1) ++ vs
        ++ (d.altsetting.set i v).drop (i + 1 + vs.length)
        = d.altsetting.take i ++ v :: vs ++ d.altsetting.drop (i + (vs.length + 1)) := by
      rw [List.drop_set_of_lt _ _ (by omega), take_succ_set _ _ _ hi]
      simp [Nat.add_assoc, Nat.add_comm 1]
    simp only [List.length_cons, hlist]

theorem setInterfaces_all (env : Env) (hr : env.Reapply) (vs : List Int) (d : USBDevice)
    (h : vs.length = d.altsetting.length) :
    setInterfaces env vs 0 d = { d with altsetting := vs } := by
  rw [setInterfaces_eq env hr vs 0 d (by omega)]
  simp [h]

theorem agree_device (d src : USBDevice) (h : SameShape d src) : agree deviceFields d src := by
  simp [deviceFields, agree, Field.u, Field.s, Field.bytes, h.setup_buf, h.data_buf]

theorem decAll_device (d src : USBDevice) (hw : src.WF) :
    decAll deviceFields d src
      = { d with speed := src.speed, addr := src.addr, state := src.state,
                 setup_buf := src.setup_buf, data_buf := src.data_buf,
                 remote_wakeup := src.remote_wakeup, setup_state := src.setup_state,
                 setup_len := src.setup_len, setup_index := src.setup_index,
                 configuration := src.configuration } := by
  simp only [deviceFields, decAll, Field.u, Field.s, Field.bytes,
    decS_encS _ _ hw.speed.1 hw.speed.2, decU_encU _ _ hw.addr, decS_encS _ _ hw.state.1 hw.state.2,
    decS_encS _ _ hw.remote_wakeup.1 hw.remote_wakeup.2,
    decS_encS _ _ hw.setup_state.1 hw.setup_state.2, decS_encS _ _ hw.setup_len.1 hw.setup_len.2,
    decS_encS _ _ hw.setup_index.1 hw.setup_index.2,
    decS_encS _ _ hw.configuration.1 hw.configuration.2]

theorem encList_ep_length (eps : List USBEndpoint) :
    (encList epBytes eps).length = 2 * eps.length := by
  induction eps with
  | nil => rfl
  | cons e es ih => simp [encList, epBytes_length, ih]; omega

theorem DoDeviceState_write (env : Env) (hr : env.Reapply) (d : USBDevice) (hw : d.WF)
    (sw : StateWrapper) (h : sw.Writable (devBytes d).length) :
    DoDeviceState env d sw = (d, sw.put (devBytes d)) := by
  have hpos := h.2.2
  simp only [devBytes, List.length_append] at h hpos
  unfold DoDeviceState
  rw [StateWrapper.DoMarker_write _ _ (h.mono (by omega))]
  simp only [Bool.not_true, Bool.false_eq_true, if_false]
  rw [doFields_write _ _ _ (StateWrapper.Writable.put_of _ h (by omega)), StateWrapper.put_put _ _ _ (by omega)]
  simp only [hr.config d]
  rw [StateWrapper.DoBytes_write _ _ (StateWrapper.Writable.put_of _ h (by simp only [List.length_append]; omega)),
    StateWrapper.put_put _ _ _ (by simp only [List.length_append]; omega)]
  simp only [decInts_encInts _ hw.altsetting, setInterfaces_all env hr _ d rfl]
  rw [DoEndpointState_write _ _ (StateWrapper.Writable.put_of _ h (by simp only [List.length_append]; omega)),
    StateWrapper.put_put _ _ _ (by simp only [List.length_append]; omega)]
  simp only
  rw [doArray_write _ epBytes DoEndpointState_write _ _
      (StateWrapper.Writable.put_of _ h (by simp only [List.length_append]; omega)),
    StateWrapper.put_put _ _ _ (by simp only [List.length_append]; omega)]
  simp only
  rw [doArray_write _ epBytes DoEndpointState_write _ _
      (StateWrapper.Writable.put_of _ h (by simp only [List.length_append]; omega)),
    StateWrapper.put_put _ _ _ (by simp only [List.length_append]; omega)]
  simp only [devBytes]

theorem DoDeviceState_read (env : Env) (hr : env.Reapply) (d src : USBDevice) (hw : src.WF)
    (hs : SameShape d src) (sw : StateWrapper) (tl : List Nat)
    (h : sw.Readable (devBytes src) tl) :
    DoDeviceState env d sw = (devLoaded d src, sw.adv (devBytes src).length) := by
  simp only [devBytes, List.append_assoc] at h
  unfold DoDeviceState
  rw [StateWrapper.DoMarker_read _ _ _ good_USBDevice h.left]
  simp only [Bool.not_true, Bool.false_eq_true, if_false]
  have h1 := h.adv
  rw [doFields_read _ _ src _ _ h1.left (agree_device _ _ hs), decAll_device _ _ hw]
  simp only
  have h2 := h1.adv
  rw [hr.config]
  rw [StateWrapper.DoBytes_read _ _ _ _ h2.left (by simp [hs.altsetting])]
  simp only [hs.altsetting, decInts_encInts _ hw.altsetting]
  rw [setInterfaces_all env hr _ _ (by simp [hs.altsetting])]
  have h3 := h2.adv
  rw [DoEndpointState_read _ _ _ _ h3.left]
  simp only
  have h4 := h3.adv
  rw [doArray_read _ epBytes epLoaded DoEndpointState_read _ _ _ _ hs.ep_in h4.left]
  simp only
  have h5 := h4.adv
  have h6 : (((((sw.adv (markerEnc "USBDevice").length).adv (encAll deviceFields src).length).adv
      (encInts src.altsetting).length).adv (epBytes src.ep_ctl).length).adv
      (encList epBytes src.ep_in).length).Readable (encList epBytes src.ep_out) tl := by
    simpa using h5
  rw [doArray_read _ epBytes epLoaded DoEndpointState_read _ _ _ _ hs.ep_out h6]
  simp only [StateWrapper.adv_adv, devLoaded, devBytes, List.length_append, Nat.add_assoc]

/-! ## Peripherals -/

theorem PadDevice_Freeze_write (p : PadState) (sw : StateWrapper)
    (h : sw.Writable (padBytes p).length) :
    PadDevice_Freeze p sw = (true, p, sw.put (padBytes p)) := by
  have hpos := h.2.2
  simp only [padBytes, List.length_append] at h hpos
  unfold PadDevice_Freeze
  rw [StateWrapper.DoMarker_write _ _ (h.mono (by omega))]
  simp only [Bool.not_true, Bool.false_eq_true, if_false]
  rw [doFields_write _ _ _ (StateWrapper.Writable.put_of _ h (by omega)), StateWrapper.put_put _ _ _ (by omega)]
  simp only [padBytes]

theorem PadDevice_Freeze_read (p src : PadState) (sw : StateWrapper) (tl : List Nat)
    (hw : InU 2 src.last_steering) (hs : p.mFFstate.length = src.mFFstate.length)
    (h : sw.Readable (padBytes src) tl) :
    PadDevice_Freeze p sw = (true, src, sw.adv (padBytes src).length) := by
  simp only [padBytes] at h
  unfold PadDevice_Freeze
  rw [StateWrapper.DoMarker_read _ _ _ good_PadDevice h.left]
  simp only [Bool.not_true, Bool.false_eq_true, if_false]
  rw [doFields_read _ _ src _ _ h.adv (by simp [agree, padFields, Field.u, Field.bytes, hs])]
  simp [decAll, padFields, Field.u, Field.bytes, decU_encU _ _ hw, StateWrapper.adv_adv, padBytes]

theorem GunCon2Device_Freeze_write (g : GunCon2State) (sw : StateWrapper)
    (h : sw.Writable (gunBytes g).length) :
    GunCon2Device_Freeze g sw = (true, g, sw.put (gunBytes g)) := by
  have hpos := h.2.2
  simp only [gunBytes, List.length_append] at h hpos
  unfold GunCon2Device_Freeze
  rw [StateWrapper.DoMarker_write _ _ (h.mono (by omega))]
  simp only [Bool.not_true, Bool.false_eq_true, if_false]
  rw [doFields_write _ _ _ (StateWrapper.Writable.put_of _ h (by omega)), StateWrapper.put_put _ _ _ (by omega)]
  simp only
  have hl := doFields_write guncon2LocalFields (gunLocals g) _
    (StateWrapper.Writable.put_of (markerEnc "GunCon2Device" ++ encAll guncon2Fields g) h
      (by simp only [List.length_append]; omega))
  simp only [gunLocals] at hl
  rw [hl, StateWrapper.put_put _ _ _ (by simp only [List.length_append]; omega)]
  simp [StateWrapper.IsReading, h.1, StateWrapper.HasError, StateWrapper.put, h.2.1, gunBytes,
    gunLocals]

theorem GunCon2Device_Freeze_read (g src : GunCon2State) (sw : StateWrapper) (tl : List Nat)
    (hw : (Peripheral.guncon2 src).WF) (h : sw.Readable (gunBytes src) tl) :
    GunCon2Device_Freeze g sw = (true, gunLoaded g src, sw.adv (gunBytes src).length) := by
  obtain ⟨w1, w2, w3, w4, w5, w6, w7, w8, w9, w10, w11, w12⟩ := hw
  simp only [gunBytes, List.append_assoc] at h
  unfold GunCon2Device_Freeze
  rw [StateWrapper.DoMarker_read _ _ _ good_GunCon2Device h.left]
  simp only [Bool.not_true, Bool.false_eq_true, if_false]
  have h1 := h.adv
  rw [doFields_read _ _ src _ _ h1.left (by simp [agree, guncon2Fields, Field.u, Field.s, Field.b, encB])]
  simp only
  have h2 := h1.adv
  rw [doFields_read _ _ (gunLocals src) _ _ h2
    (by simp [agree, guncon2LocalFields, Field.u])]
  simp only [decAll, guncon2Fields, guncon2LocalFields, Field.u, Field.s, Field.b, gunLocals,
    decS_encS _ _ w1.1 w1.2, decS_encS _ _ w2.1 w2.2, decU_encU _ _ w3, decU_encU _ _ w4,
    decS_encS _ _ w5.1 w5.2, decS_encS _ _ w6.1 w6.2, decU_encU _ _ w7, decU_encU _ _ w8,
    decU_encU _ _ w9, decU_encU _ _ w10, decU_encU _ _ w11, decU_encU _ _ w12, decB_encB,
    StateWrapper.adv_adv, StateWrapper.IsReading, h.1, StateWrapper.HasError]
  simp [StateWrapper.adv, h.2.1, gunLoaded, gunBytes, gunLocals, guncon2LocalFields,
    guncon2Fields, encAll, Field.u, Field.s, Field.b, Nat.add_assoc]

theorem Freeze_write (proxy : DeviceProxy) (d : USBDevice) (hp : ProxyOf proxy d.periph)
    (sw : StateWrapper) (h : sw.Writable (periphBytes d.periph).length) :
    proxy.Freeze d sw = (true, d, sw.put (periphBytes d.periph)) := by
  obtain ⟨ptr, speed, addr, state, setup_buf, data_buf, remote_wakeup, setup_state, setup_len,
    setup_index, configuration, altsetting, ep_ctl, ep_in, ep_out, attached, periph⟩ := d
  cases proxy <;> cases periph <;> simp only [ProxyOf] at hp
  · simp only [periphBytes] at h
    simp only [DeviceProxy.Freeze, PadDevice_Freeze_write _ _ h, periphBytes]
  · simp only [periphBytes] at h
    simp only [DeviceProxy.Freeze, GunCon2Device_Freeze_write _ _ h, periphBytes]

theorem Freeze_read (proxy : DeviceProxy) (d : USBDevice) (src : Peripheral)
    (hp : ProxyOf proxy d.periph) (hs : PeriphShape d.periph src) (hw : src.WF)
    (sw : StateWrapper) (tl : List Nat) (h : sw.Readable (periphBytes src) tl) :
    proxy.Freeze d sw
      = (true, { d with periph := periphLoaded d.periph src }, sw.adv (periphBytes src).length) := by
  obtain ⟨ptr, speed, addr, state, setup_buf, data_buf, remote_wakeup, setup_state, setup_len,
    setup_index, configuration, altsetting, ep_ctl, ep_in, ep_out, attached, periph⟩ := d
  cases proxy <;> cases periph <;> simp only [ProxyOf] at hp <;> cases src <;>
    simp only [PeriphShape] at hs
  · simp only [periphBytes] at h
    simp only [DeviceProxy.Freeze, PadDevice_Freeze_read _ _ _ _ hw hs h, periphBytes,
      periphLoaded]
  · simp only [periphBytes] at h
    simp only [DeviceProxy.Freeze, GunCon2Device_Freeze_read _ _ _ _ hw h, periphBytes,
      periphLoaded]

/-! ## Port blocks -/

namespace StateWrapper
theorem backpatch (sw : StateWrapper) (A Z Z1 B : List Nat) (hZ : Z1.length = Z.length)
    (hfit : sw.pos + (A ++ Z ++ B).length ≤ sw.buf.length) :
    (((sw.put (A ++ Z ++ B)).seekTo (sw.pos + A.length)).put Z1).seekTo
      (sw.pos + (A ++ Z ++ B).length) = sw.put (A ++ Z1 ++ B) := by
  simp only [List.length_append] at hfit
  have hT : (sw.buf.take sw.pos).length = sw.pos := by simp; omega
  simp only [put, seekTo, List.length_append, StateWrapper.mk.injEq, true_and, hZ, and_true]
  have e1 : sw.buf.take sw.pos ++ (A ++ Z ++ B) ++ sw.buf.drop (sw.pos + (A.length + Z.length + B.length))
      = (sw.buf.take sw.pos ++ A) ++ (Z ++ (B ++ sw.buf.drop (sw.pos + (A.length + Z.length + B.length)))) := by
    simp [List.append_assoc]
  rw [e1, List.take_left' (by simp; omega)]
  have e2 : sw.pos + A.length + Z.length = (sw.buf.take sw.pos ++ A ++ Z).length := by
    simp; omega
  have e3 : (sw.buf.take sw.pos ++ A) ++ (Z ++ (B ++ sw.buf.drop (sw.pos + (A.length + Z.length + B.length))))
      = (sw.buf.take sw.pos ++ A ++ Z) ++ (B ++ sw.buf.drop (sw.pos + (A.length + Z.length + B.length))) := by
    simp [List.append_assoc]
  rw [e3, e2, List.drop_left]
  simp [List.append_assoc]

@[simp] theorem put_error (sw : StateWrapper) (bs : List Nat) : (sw.put bs).error = sw.error := rfl

@[simp] theorem put_mode (sw : StateWrapper) (bs : List Nat) : (sw.put bs).mode = sw.mode := rfl

@[simp] theorem seekTo_error (sw : StateWrapper) (p : Nat) : (sw.seekTo p).error = sw.error := rfl

@[simp] theorem seekTo_mode (sw : StateWrapper) (p : Nat) : (sw.seekTo p).mode = sw.mode := rfl

@[simp] theorem seekTo_pos (sw : StateWrapper) (p : Nat) : (sw.seekTo p).pos = p := rfl

@[simp] theorem seekTo_buf (sw : StateWrapper) (p : Nat) : (sw.seekTo p).buf = sw.buf := rfl

theorem put_buf_length (sw : StateWrapper) (bs : List Nat)
    (h : sw.pos + bs.length ≤ sw.buf.length) : (sw.put bs).buf.length = sw.buf.length := by
  simp [put]; omega

end StateWrapper

theorem PortArr.set_get_self {α : Type} (a : PortArr α) (port : Nat) (v : α)
    (h : a.get port = v) : a.set port v = a := by
  unfold PortArr.get at h
  unfold PortArr.set
  by_cases hp : port = 0
  · simp only [hp, if_true] at h ⊢; rw [← h]
  · simp only [hp, if_false] at h ⊢; rw [← h]

theorem PortArr.get_set_self {α : Type} (a : PortArr α) (port : Nat) (v : α) :
    (a.set port v).get port = v := by
  unfold PortArr.get PortArr.set
  by_cases hp : port = 0 <;> simp [hp]

theorem portBytes_length (st : USBState) (port : Nat) :
    (portBytes st port).length = 12 + (blockBytes (st.s_usb_device.get port)).length := by
  simp [portBytes]; omega

theorem SeekAbsolute_ok (sw : StateWrapper) (p : Nat) (h : p ≤ sw.buf.length) :
    sw.SeekAbsolute p = (true, sw.seekTo p) := by
  simp [StateWrapper.SeekAbsolute, Nat.not_lt.mpr h, StateWrapper.seekTo]

theorem savePort_ok (env : Env) (hr : env.Reapply) (x : FreezeLoop) (port : Nat)
    (hw : PortWF x.st port) (h : x.sw.Writable (portBytes x.st port).length)
    (hlt : x.sw.buf.length < 2 ^ 32) :
    savePort env x port
      = (true, { st := x.st, sw := x.sw.put (portBytes x.st port),
                 valid_devices := if (x.st.s_usb_device.get port).isSome
                   then x.valid_devices.set port true else x.valid_devices }) := by
  obtain ⟨st, sw, valid⟩ := x
  simp only at hw h hlt ⊢
  have hpos := h.2.2
  rw [portBytes_length] at h hpos
  generalize hT : (st.EmuConfig.get port).DeviceType = ty at *
  generalize hS : (st.EmuConfig.get port).DeviceSubtype = sub at *
  have hA : doFields [devtypeField, devsubtypeField] (⟨ty, sub, 0⟩ : PortHeader) sw
      = (⟨ty, sub, 0⟩, sw.put (encS 4 ty ++ encU 4 sub)) := by
    rw [doFields_write _ _ _ (h.mono (by
      simp only [encAll, devtypeField, devsubtypeField, Field.s, Field.u, List.length_append,
        encS_length, encU_length, List.length_nil]
      omega))]
    simp [encAll, devtypeField, devsubtypeField, Field.s, Field.u]
  have hZ : ∀ (hd : PortHeader) (s2 : StateWrapper), s2.Writable 4 →
      doField sizeField hd s2 = (hd, s2.put (encU 4 hd.state_size)) := by
    intro hd s2 h2
    rw [doField_write _ _ _ (by simpa [sizeField, Field.u] using h2)]
    simp [sizeField, Field.u]
  unfold savePort
  simp only [hT, hS, hA]
  rw [hZ _ _ (StateWrapper.Writable.put_of _ h (by
    simp only [List.length_append, encS_length, encU_length]
    omega))]
  simp only [StateWrapper.put_put _ _ _ (show sw.pos + (encS 4 ty ++ encU 4 sub).length
      ≤ sw.buf.length by
        simp only [List.length_append, encS_length, encU_length]
        omega)]
  cases hd : st.s_usb_device.get port with
  | none =>
    simp [StateWrapper.HasError, h.2.1, portBytes, hd, blockBytes, hT, hS]
  | some d =>
    obtain ⟨hdw, hpw, proxy, hproxy, hpo⟩ := hw.dev d hd
    simp only [hd, blockBytes, List.length_append] at h hpos
    simp only [StateWrapper.HasError, StateWrapper.put_error, h.2.1, Bool.false_eq_true, if_false,
      hproxy]
    rw [DoDeviceState_write env hr d hdw _ (StateWrapper.Writable.put_of _ h (by
      simp only [List.length_append, encS_length, encU_length]; omega))]
    simp only
    rw [StateWrapper.put_put _ _ _ (by
      simp only [List.length_append, encS_length, encU_length]; omega)]
    rw [Freeze_write proxy d hpo _ (StateWrapper.Writable.put_of _ h (by
      simp only [List.length_append, encS_length, encU_length]; omega))]
    simp only
    rw [StateWrapper.put_put _ _ _ (by
      simp only [List.length_append, encS_length, encU_length]; omega)]
    simp only [StateWrapper.put_error, h.2.1, Bool.not_true, Bool.or_false, Bool.false_eq_true,
      if_false, StateWrapper.GetPosition, StateWrapper.put_pos]
    rw [SeekAbsolute_ok _ _ (by
      rw [StateWrapper.put_buf_length _ _ (by
        simp only [List.length_append, encS_length, encU_length]; omega)]
      simp only [List.length_append, encS_length, encU_length]; omega)]
    simp only [Bool.not_true, Bool.false_eq_true, if_false]
    have hsz : (sw.pos + (encS 4 ty ++ encU 4 sub ++ encU 4 0 ++ devBytes d
        ++ periphBytes d.periph).length
        - (sw.pos + (encS 4 ty ++ encU 4 sub ++ encU 4 0).length)) % 2 ^ 32
        = (devBytes d ++ periphBytes d.periph).length := by
      simp only [List.length_append, encS_length, encU_length]
      rw [Nat.mod_eq_of_lt (by omega)]
      omega
    rw [hsz, hZ]
    swap
    · refine ⟨h.1, h.2.1, ?_⟩
      rw [StateWrapper.seekTo_buf, StateWrapper.seekTo_pos, StateWrapper.put_buf_length _ _ (by
        simp only [List.length_append, encS_length, encU_length]; omega)]
      simp only [List.length_append, encS_length, encU_length]; omega
    simp only [StateWrapper.put_error, StateWrapper.seekTo_error, h.2.1, Bool.false_eq_true,
      if_false]
    rw [SeekAbsolute_ok _ _ (by
      rw [StateWrapper.put_buf_length _ _ (by
        rw [StateWrapper.seekTo_buf, StateWrapper.seekTo_pos, StateWrapper.put_buf_length _ _ (by
          simp only [List.length_append, encS_length, encU_length]; omega)]
        simp only [List.length_append, encS_length, encU_length]; omega)]
      rw [StateWrapper.seekTo_buf, StateWrapper.put_buf_length _ _ (by
          simp only [List.length_append, encS_length, encU_length]; omega)]
      simp only [List.length_append, encS_length, encU_length]; omega)]
    simp only [Bool.not_true, Bool.false_eq_true, if_false, Option.isSome_some, if_true]
    have hbp := StateWrapper.backpatch sw (encS 4 ty ++ encU 4 sub)
      (encU 4 0) (encU 4 (devBytes d ++ periphBytes d.periph).length)
      (devBytes d ++ periphBytes d.periph) (by simp) (by
        simp only [List.length_append, encS_length, encU_length]; omega)
    simp only [List.append_assoc] at hbp
    simp only [PortArr.set_get_self _ _ _ hd, portBytes, hd, blockBytes, List.append_assoc, hT, hS]
    rw [hbp]

theorem decS_encU_small (n : Nat) (h : n < 2 ^ 31) : decS 4 (encU 4 n) = (n : Int) := by
  have h1 : n % 256 ^ 4 = n := Nat.mod_eq_of_lt (by omega)
  unfold decS encU
  simp only [ofLE_leBytes, Nat.mod_mod, h1]
  rw [if_pos (by omega)]

theorem SkipBytes_ok (sw : StateWrapper) (bs tl : List Nat) (h : sw.Readable bs tl)
    (hn : bs.length < 2 ^ 31) : sw.SkipBytes bs.length = sw.adv bs.length := by
  obtain ⟨hm, he, hrest, hp⟩ := h
  have hlen : sw.buf.length - sw.pos = bs.length + tl.length := by
    have := congrArg List.length hrest
    simpa [StateWrapper.rest] using this
  unfold StateWrapper.SkipBytes
  simp only [hm, he, Bool.false_eq_true, if_false, decS_encU_small _ hn]
  unfold StateWrapper.SeekRelative
  have h1 : ¬ ((bs.length : Int) < 0) := by omega
  have h2 : ¬ (sw.pos + bs.length > sw.buf.length) := by omega
  simp [h1, h2, StateWrapper.adv, he]

theorem portHeader_read (sw : StateWrapper) (ty : Int) (sub size : Nat) (tl : List Nat)
    (hty : InS 4 ty) (hsub : InU 4 sub) (hsize : InU 4 size)
    (h : sw.Readable (encS 4 ty ++ encU 4 sub ++ encU 4 size) tl) :
    doFields [devtypeField, devsubtypeField, sizeField] (⟨0, 0, 0⟩ : PortHeader) sw
      = (⟨ty, sub, size⟩, sw.adv 12) := by
  have h2 : sw.Readable (encAll [devtypeField, devsubtypeField, sizeField]
      (⟨ty, sub, size⟩ : PortHeader)) tl := by
    simpa [encAll, devtypeField, devsubtypeField, sizeField, Field.s, Field.u] using h
  rw [doFields_read _ _ ⟨ty, sub, size⟩ _ tl h2
    (by simp [agree, devtypeField, devsubtypeField, sizeField, Field.s, Field.u])]
  simp [decAll, encAll, devtypeField, devsubtypeField, sizeField, Field.s, Field.u,
    decS_encS _ _ hty.1 hty.2, decU_encU _ _ hsub, decU_encU _ _ hsize]

theorem portRecord_length (ty : Int) (sub : Nat) (block : List Nat) :
    (portRecord ty sub block).length = 12 + block.length := by
  simp [portRecord]; omega

theorem loadPort_match (env : Env) (hr : env.Reapply) (x : FreezeLoop) (port : Nat)
    (ty : Int) (sub : Nat) (d src : USBDevice) (proxy : DeviceProxy) (tl : List Nat)
    (hcfg : x.st.EmuConfig.get port = ⟨ty, sub⟩) (hd : x.st.s_usb_device.get port = some d)
    (hproxy : x.st.s_usb_device_proxy.get port = some proxy) (hpo : ProxyOf proxy d.periph)
    (hw : src.WF) (hpw : src.periph.WF) (hs : SameShape d src)
    (hps : PeriphShape d.periph src.periph) (hty : InS 4 ty) (hsub : InU 4 sub)
    (hsize : (blockBytes (some src)).length < 2 ^ 31)
    (h : x.sw.Readable (portRecord ty sub (blockBytes (some src))) tl) :
    loadPort env x port
      = { st := { x.st with s_usb_device := x.st.s_usb_device.set port (some (portLoaded d src)) },
          sw := x.sw.adv (portRecord ty sub (blockBytes (some src))).length,
          valid_devices := x.valid_devices.set port true } := by
  obtain ⟨st, sw, valid⟩ := x
  simp only at hcfg hd hproxy h ⊢
  simp only [portRecord, blockBytes, List.append_assoc] at h
  have hh : sw.Readable (encS 4 ty ++ encU 4 sub
      ++ encU 4 (devBytes src ++ periphBytes src.periph).length)
      (devBytes src ++ (periphBytes src.periph ++ tl)) := by
    obtain ⟨a, b, c, e⟩ := h
    exact ⟨a, b, by rw [c]; simp [List.append_assoc], e⟩
  have h1 : (sw.adv 12).Readable (devBytes src) (periphBytes src.periph ++ tl) := by
    simpa using hh.next
  have h2 : ((sw.adv 12).adv (devBytes src).length).Readable (periphBytes src.periph) tl :=
    h1.next
  unfold loadPort
  simp only [blockBytes] at hsize
  rw [portHeader_read sw ty sub _ _ hty hsub (by unfold InU; omega) hh]
  have hc : ¬ ((sw.adv 12).HasError = true ∨ (st.EmuConfig.get port).DeviceType ≠ ty
      ∨ (st.EmuConfig.get port).DeviceSubtype ≠ sub
      ∨ (ty ≠ DEVTYPE_NONE ∧ (st.s_usb_device.get port).isNone = true)) := by
    simp [StateWrapper.HasError, StateWrapper.adv, h.2.1, hcfg, hd]
  dsimp only
  rw [if_neg hc]
  simp only [hd, hproxy]
  rw [DoDeviceState_read env hr d src hw hs _ _ h1]
  simp only
  rw [Freeze_read proxy (devLoaded d src) src.periph hpo hps hpw _ _ h2]
  simp only [StateWrapper.HasError, StateWrapper.adv, h.2.1, Bool.not_true, Bool.or_false,
    Bool.false_eq_true, if_false, portLoaded, portRecord, blockBytes, List.length_append,
    encS_length, encU_length, devLoaded]
  simp [Nat.add_assoc]

theorem loadPort_skip (env : Env) (x : FreezeLoop) (port : Nat) (ty : Int) (sub : Nat)
    (block tl : List Nat) (hty : InS 4 ty) (hsub : InU 4 sub) (hsize : block.length < 2 ^ 31)
    (hc : (x.st.EmuConfig.get port).DeviceType ≠ ty ∨ (x.st.EmuConfig.get port).DeviceSubtype ≠ sub
      ∨ (x.st.s_usb_device.get port).isNone)
    (h : x.sw.Readable (portRecord ty sub block) tl) :
    loadPort env x port
      = { st := skipState env x.st port ty sub,
          sw := x.sw.adv (portRecord ty sub block).length,
          valid_devices := x.valid_devices } := by
  obtain ⟨st, sw, valid⟩ := x
  simp only at hc h ⊢
  simp only [portRecord, List.append_assoc] at h
  have hh : sw.Readable (encS 4 ty ++ encU 4 sub ++ encU 4 block.length) (block ++ tl) := by
    obtain ⟨a, b, c, e⟩ := h
    exact ⟨a, b, by rw [c]; simp [List.append_assoc], e⟩
  have h1 : (sw.adv 12).Readable block tl := by
    simpa using hh.next
  unfold loadPort
  rw [portHeader_read sw ty sub _ _ hty hsub (by unfold InU; omega) hh]
  dsimp only
  simp only [SkipBytes_ok _ _ _ h1 hsize, StateWrapper.adv_adv, portRecord_length]
  by_cases hm : (st.EmuConfig.get port).DeviceType ≠ ty ∨ (st.EmuConfig.get port).DeviceSubtype ≠ sub
      ∨ (ty ≠ DEVTYPE_NONE ∧ (st.s_usb_device.get port).isNone)
  · have hm2 : (sw.adv 12).HasError = true ∨ (st.EmuConfig.get port).DeviceType ≠ ty
        ∨ (st.EmuConfig.get port).DeviceSubtype ≠ sub
        ∨ (ty ≠ DEVTYPE_NONE ∧ (st.s_usb_device.get port).isNone = true) := Or.inr hm
    rw [if_pos hm2]
    simp only [skipState]
    rw [if_pos hm]
  · have hm2 : ¬ ((sw.adv 12).HasError = true ∨ (st.EmuConfig.get port).DeviceType ≠ ty
        ∨ (st.EmuConfig.get port).DeviceSubtype ≠ sub
        ∨ (ty ≠ DEVTYPE_NONE ∧ (st.s_usb_device.get port).isNone = true)) := by
      simp only [StateWrapper.HasError, StateWrapper.adv, h.2.1, Bool.false_eq_true, false_or]
      exact hm
    have hnone : st.s_usb_device.get port = none := by
      rcases hc with hc | hc | hc
      · exact absurd (Or.inl hc) hm
      · exact absurd (Or.inr (Or.inl hc)) hm
      · simpa using hc
    rw [if_neg hm2]
    simp only [skipState]
    rw [if_neg hm]
    simp only [hnone]

/-! ## The packet record -/

theorem epIndexOf_range (slot : EpSlot) : -1 ≤ epIndexOf slot ∧ epIndexOf slot ≤ 30 := by
  cases slot with
  | ctl => simp [epIndexOf]
  | epIn k =>
    simp only [epIndexOf, USB_MAX_ENDPOINTS]
    split <;> omega
  | epOut k =>
    simp only [epIndexOf, USB_MAX_ENDPOINTS]
    split
    · simp; omega
    · simp

theorem findEndpoint_range (st : USBState) (valid : PortArr Bool) (ep : EpRef) (ports : List Nat)
    (l : PacketLocals) (hp : ∀ i ∈ ports, i ≤ 1)
    (hl : (-1 ≤ l.dev_index ∧ l.dev_index ≤ 1) ∧ (-1 ≤ l.ep_index ∧ l.ep_index ≤ 30)) :
    (-1 ≤ (findEndpoint st valid ep ports l).dev_index
      ∧ (findEndpoint st valid ep ports l).dev_index ≤ 1)
    ∧ (-1 ≤ (findEndpoint st valid ep ports l).ep_index
      ∧ (findEndpoint st valid ep ports l).ep_index ≤ 30) := by
  induction ports with
  | nil => simpa [findEndpoint] using hl
  | cons i rest ih =>
    have hi : i ≤ 1 := hp i (List.mem_cons_self _ _)
    have ih2 := ih (fun j hj => hp j (List.mem_cons_of_mem _ hj))
    simp only [findEndpoint]
    cases hd : st.s_usb_device.get i with
    | none => simpa using ih2
    | some dev =>
      simp only
      split
      · refine ⟨⟨?_, ?_⟩, epIndexOf_range _⟩ <;> simp <;> omega
      · exact ih2

theorem packetLocals_range (st : USBState) (valid : PortArr Bool) :
    InS 4 (packetLocals st valid).dev_index ∧ InS 4 (packetLocals st valid).ep_index := by
  have key : (-1 ≤ (packetLocals st valid).dev_index ∧ (packetLocals st valid).dev_index ≤ 1)
      ∧ (-1 ≤ (packetLocals st valid).ep_index ∧ (packetLocals st valid).ep_index ≤ 30) := by
    unfold packetLocals
    cases st.s_qemu_ohci.usb_packet.ep with
    | none => simp
    | some ep =>
      exact findEndpoint_range st valid ep [0, 1] _ (by simp) (by simp)
  unfold InS
  norm_num
  omega

theorem DoPacketState_write (st : USBState) (sw : StateWrapper) (valid : PortArr Bool)
    (h : sw.Writable (packetBytes st valid).length) :
    DoPacketState st sw valid = (st, sw.put (packetBytes st valid)) := by
  have hpos := h.2.2
  simp only [packetBytes, List.length_append] at h hpos
  unfold DoPacketState
  rw [StateWrapper.DoMarker_write _ _ (h.mono (by omega))]
  simp only [Bool.not_true, Bool.false_eq_true, if_false, StateWrapper.IsWriting, h.1,
    decide_True, if_true, StateWrapper.IsReading]
  have hl : (match st.s_qemu_ohci.usb_packet.ep with
      | some ep => findEndpoint st valid ep [0, 1] ⟨-1, -1, false⟩
      | none => ⟨-1, -1, false⟩) = packetLocals st valid := rfl
  rw [hl, doFields_write _ _ _ (StateWrapper.Writable.put_of _ h (by omega)), StateWrapper.put_put _ _ _ (by omega)]
  simp [packetBytes]

theorem decAll_packet (p src : USBPacket) (l ls : PacketLocals) (hw : src.WF)
    (hd : InS 4 ls.dev_index) (he : InS 4 ls.ep_index) :
    decAll packetFields (p, l) (src, ls) = (packetLoaded p src, ls) := by
  simp only [packetFields, decAll, Field.u, Field.s, Field.b,
    decS_encS _ _ hd.1 hd.2, decS_encS _ _ he.1 he.2,
    decS_encS _ _ hw.buffer_size.1 hw.buffer_size.2, decB_encB,
    decS_encS _ _ hw.pid.1 hw.pid.2, decU_encU _ _ hw.id, decU_encU _ _ hw.stream,
    decU_encU _ _ hw.parameter, decS_encS _ _ hw.status.1 hw.status.2,
    decS_encS _ _ hw.actual_length.1 hw.actual_length.2, decS_encS _ _ hw.state.1 hw.state.2,
    packetLoaded]

theorem DoPacketState_read (st src : USBState) (sw : StateWrapper) (valid validS : PortArr Bool)
    (tl : List Nat) (hw : src.s_qemu_ohci.usb_packet.WF)
    (h : sw.Readable (packetBytes src validS) tl) :
    DoPacketState st sw valid
      = (resolvePacket st (packetLoaded st.s_qemu_ohci.usb_packet src.s_qemu_ohci.usb_packet)
          (packetLocals src validS) valid, sw.adv (packetBytes src validS).length) := by
  simp only [packetBytes] at h
  unfold DoPacketState
  rw [StateWrapper.DoMarker_read _ _ _ good_USBPacket h.left]
  simp only [Bool.not_true, Bool.false_eq_true, if_false, StateWrapper.IsWriting, h.1,
    StateWrapper.IsReading, decide_True, if_true, decide_False]
  rw [doFields_read _ _ (src.s_qemu_ohci.usb_packet, packetLocals src validS) _ tl h.adv
    (by simp [agree, packetFields, Field.u, Field.s, Field.b, encB])]
  rw [decAll_packet _ _ _ _ hw (packetLocals_range _ _).1 (packetLocals_range _ _).2]
  simp [StateWrapper.adv_adv, packetBytes]

/-! ## `USBfreeze` in `Save` mode -/

theorem save_state (env : Env) (hr : env.Reapply) (st : USBState) (hw : st.WF) (sw : StateWrapper)
    (h : sw.Writable (saveBytes st).length) (hlt : sw.buf.length < 2 ^ 32) :
    let m := sw.DoMarker "USB"
    let o := DoOHCIState st m.2
    let s1 := savePort env ⟨o.1, o.2, ⟨false, false⟩⟩ 0
    let s2 := savePort env s1.2 1
    let r := DoPacketState s2.2.st s2.2.sw s2.2.valid_devices
    m.1 = true ∧ s1.1 = true ∧ s2.1 = true ∧ r = (st, sw.put (saveBytes st)) := by
  have hpos := h.2.2
  simp only [saveBytes, List.length_append] at h hpos
  intro m o s1 s2 r
  have hm : m = (true, sw.put (markerEnc "USB")) :=
    StateWrapper.DoMarker_write _ _ (h.mono (by omega))
  have ho : o = (st, sw.put (markerEnc "USB" ++ ohciBytes st)) := by
    show DoOHCIState st m.2 = _
    rw [hm, DoOHCIState_write _ _ (StateWrapper.Writable.put_of _ h (by omega)), StateWrapper.put_put _ _ _ (by omega)]
  have hb1 : (sw.put (markerEnc "USB" ++ ohciBytes st)).buf.length = sw.buf.length :=
    StateWrapper.put_buf_length _ _ (by simp only [List.length_append]; omega)
  have hs1 : s1 = (true, FreezeLoop.mk st
      (sw.put (markerEnc "USB" ++ ohciBytes st ++ portBytes st 0))
      ⟨(st.s_usb_device.get 0).isSome, false⟩) := by
    show savePort env ⟨o.1, o.2, ⟨false, false⟩⟩ 0 = _
    rw [ho, savePort_ok env hr _ 0 hw.port0
      (StateWrapper.Writable.put_of _ h (by simp only [List.length_append]; omega)) (by rw [hb1]; exact hlt)]
    simp only [StateWrapper.put_put _ _ _
      (show sw.pos + (markerEnc "USB" ++ ohciBytes st).length ≤ sw.buf.length by
        simp only [List.length_append]; omega)]
    cases hd : st.s_usb_device.get 0 <;> simp [PortArr.set]
  have hb2 : (sw.put (markerEnc "USB" ++ ohciBytes st ++ portBytes st 0)).buf.length
      = sw.buf.length :=
    StateWrapper.put_buf_length _ _ (by simp only [List.length_append]; omega)
  have hs2 : s2 = (true, FreezeLoop.mk st
      (sw.put (markerEnc "USB" ++ ohciBytes st ++ portBytes st 0 ++ portBytes st 1))
      (validOf st)) := by
    show savePort env s1.2 1 = _
    rw [hs1, savePort_ok env hr _ 1 hw.port1
      (StateWrapper.Writable.put_of _ h (by simp only [List.length_append]; omega)) (by rw [hb2]; exact hlt)]
    simp only [StateWrapper.put_put _ _ _
      (show sw.pos + (markerEnc "USB" ++ ohciBytes st ++ portBytes st 0).length ≤ sw.buf.length by
        simp only [List.length_append]; omega)]
    cases hd : st.s_usb_device.get 1 <;> simp [PortArr.set, validOf, hd]
  refine ⟨by rw [hm], by rw [hs1], by rw [hs2], ?_⟩
  show DoPacketState s2.2.st s2.2.sw s2.2.valid_devices = _
  rw [hs2]
  simp only
  rw [DoPacketState_write _ _ _ (StateWrapper.Writable.put_of _ h (by simp only [List.length_append]; omega)),
    StateWrapper.put_put _ _ _ (by simp only [List.length_append]; omega)]
  simp only [saveBytes]

theorem USBfreezeSave_ok (env : Env) (hr : env.Reapply) (st : USBState) (hw : st.WF)
    (data : freezeData) (hsize : (saveBytes st).length ≤ data.size) (hlt : data.size < 2 ^ 32) :
    USBfreezeSave env st data
      = (0, st, freezeData.mk data.size
          (saveBytes st ++ List.replicate (data.size - (saveBytes st).length) 0)) := by
  have hW : (⟨Mode.Write, List.replicate data.size 0, 0, false⟩ : StateWrapper).Writable
      (saveBytes st).length := ⟨rfl, rfl, by simpa using hsize⟩
  obtain ⟨h1, h2, h3, h4⟩ := save_state env hr st hw _ hW (by simpa using hlt)
  unfold USBfreezeSave
  simp only [h1, h2, h3, h4, Bool.not_true, Bool.false_eq_true, if_false, StateWrapper.HasError,
    StateWrapper.put_error]
  simp [StateWrapper.put]

/-! ## `USBfreeze` in `Load` mode -/

theorem ProxyOf_shape (proxy : DeviceProxy) (p src : Peripheral) (h : ProxyOf proxy src)
    (hs : PeriphShape p src) : ProxyOf proxy p := by
  cases proxy <;> cases p <;> cases src <;> simp_all [ProxyOf, PeriphShape]

theorem portBytes_eq (st : USBState) (port : Nat) :
    portBytes st port = portRecord (st.EmuConfig.get port).DeviceType
      (st.EmuConfig.get port).DeviceSubtype (blockBytes (st.s_usb_device.get port)) := rfl

theorem loadPort_compat (env : Env) (hr : env.Reapply) (x : FreezeLoop) (S : USBState)
    (port : Nat) (tl : List Nat) (hw : PortWF S port)
    (hcfg : x.st.EmuConfig.get port = S.EmuConfig.get port)
    (hproxy : x.st.s_usb_device_proxy.get port = S.s_usb_device_proxy.get port)
    (hdev : match x.st.s_usb_device.get port, S.s_usb_device.get port with
      | none, none => True
      | some d, some s => SameShape d s ∧ PeriphShape d.periph s.periph
      | _, _ => False)
    (hsize : (blockBytes (S.s_usb_device.get port)).length < 2 ^ 31)
    (h : x.sw.Readable (portBytes S port) tl) :
    ∃ tr, loadPort env x port
      = FreezeLoop.mk
          { x.st with
            s_usb_device := x.st.s_usb_device.set port
              (loadedDev (x.st.s_usb_device.get port) (S.s_usb_device.get port))
            trace := tr }
          (x.sw.adv (portBytes S port).length)
          (if (S.s_usb_device.get port).isSome then x.valid_devices.set port true
            else x.valid_devices) := by
  rw [portBytes_eq] at h
  cases hL : x.st.s_usb_device.get port with
  | none =>
    cases hS : S.s_usb_device.get port with
    | some s => simp [hL, hS] at hdev
    | none =>
      rw [hS] at h hsize
      rw [loadPort_skip env x port _ _ _ tl hw.devtype hw.devsubtype hsize
        (Or.inr (Or.inr (by simp [hL]))) h]
      simp only [skipState, hL, Option.isNone_none, and_true, Option.isSome_none,
        Bool.false_eq_true, if_false, loadedDev, portBytes_eq, hS]
      have hset : x.st.s_usb_device.set port none = x.st.s_usb_device :=
        PortArr.set_get_self _ _ _ hL
      rw [hset]
      split
      · exact ⟨_, rfl⟩
      · exact ⟨x.st.trace, rfl⟩
  | some d =>
    cases hS : S.s_usb_device.get port with
    | none => simp [hL, hS] at hdev
    | some s =>
      rw [hL, hS] at hdev
      obtain ⟨hwd, hwp, proxy, hpr, hpo⟩ := hw.dev s hS
      rw [hS] at h hsize
      rw [loadPort_match env hr x port _ _ d s proxy tl (by rw [hcfg]) hL (by rw [hproxy, hpr])
        (ProxyOf_shape _ _ _ hpo hdev.2) hwd hwp hdev.1 hdev.2 hw.devtype hw.devsubtype hsize h]
      exact ⟨x.st.trace, by simp [loadedDev, portBytes_eq, hS]⟩

theorem USBfreezeLoad_ok (env : Env) (hr : env.Reapply) (S L : USBState) (hS : S.WF)
    (hc : Compatible L S) (hb0 : (blockBytes (S.s_usb_device.get 0)).length < 2 ^ 31)
    (hb1 : (blockBytes (S.s_usb_device.get 1)).length < 2 ^ 31) (data : freezeData)
    (tl : List Nat) (hdata : fit data.size data.data = saveBytes S ++ tl) :
    ∃ tr, USBfreezeLoad env L data
      = (0, resolvePacket (loadedState L S tr)
          (packetLoaded L.s_qemu_ohci.usb_packet S.s_qemu_ohci.usb_packet)
          (packetLocals S (validOf S)) (validOf S)) := by
  have hR : (⟨Mode.Read, fit data.size data.data, 0, false⟩ : StateWrapper).Readable
      (saveBytes S) tl := ⟨rfl, rfl, by simp [StateWrapper.rest, hdata], by simp⟩
  obtain ⟨sw, hsw⟩ : ∃ sw, sw = (⟨Mode.Read, fit data.size data.data, 0, false⟩ : StateWrapper) :=
    ⟨_, rfl⟩
  rw [← hsw] at hR
  simp only [saveBytes, List.append_assoc] at hR
  have h1 := hR.left
  have h2 := hR.adv
  have h3 := h2.adv
  have h4 := h3.adv
  have h5 := h4.adv
  have e0 := StateWrapper.DoMarker_read _ _ _ good_USB h1
  have e1 := DoOHCIState_read L S _ _ h2.left hS.regs hc.rhport hc.usb_buf
  have hd0 := hc.dev 0
  have hd1 := hc.dev 1
  obtain ⟨tr0, e2⟩ := loadPort_compat env hr
    ⟨ohciLoaded L S, (sw.adv (markerEnc "USB").length).adv (ohciBytes S).length, ⟨false, false⟩⟩
    S 0 _ hS.port0 (by simp [ohciLoaded, hc.config]) (by simp [ohciLoaded, hc.proxy])
    (by simpa [ohciLoaded] using hd0) hb0 h3.left
  have e2b : loadPort env
      ⟨ohciLoaded L S, (sw.adv (markerEnc "USB").length).adv (ohciBytes S).length, ⟨false, false⟩⟩ 0
      = FreezeLoop.mk
          { ohciLoaded L S with
            s_usb_device := ⟨loadedDev (L.s_usb_device.get 0) (S.s_usb_device.get 0),
                             L.s_usb_device.p1⟩
            trace := tr0 }
          (((sw.adv (markerEnc "USB").length).adv (ohciBytes S).length).adv (portBytes S 0).length)
          ⟨(S.s_usb_device.get 0).isSome, false⟩ := by
    rw [e2]
    generalize (S.s_usb_device.get 0).isSome = a
    cases a <;> simp [PortArr.set, ohciLoaded, PortArr.get]
  obtain ⟨tr1, e3⟩ := loadPort_compat env hr
    (FreezeLoop.mk
          { ohciLoaded L S with
            s_usb_device := ⟨loadedDev (L.s_usb_device.get 0) (S.s_usb_device.get 0),
                             L.s_usb_device.p1⟩
            trace := tr0 }
          (((sw.adv (markerEnc "USB").length).adv (ohciBytes S).length).adv (portBytes S 0).length)
          ⟨(S.s_usb_device.get 0).isSome, false⟩) S 1 _ hS.port1
    (by simp [ohciLoaded, hc.config]) (by simp [ohciLoaded, hc.proxy])
    (by simpa [ohciLoaded, PortArr.get, PortArr.set] using hd1) hb1 h4.left
  refine ⟨tr1, ?_⟩
  unfold USBfreezeLoad
  simp only [← hsw, e0, Bool.not_true, Bool.false_eq_true, if_false, e1, e2b, e3]
  have hv : (if (S.s_usb_device.get 1).isSome = true then
      PortArr.set (⟨(S.s_usb_device.get 0).isSome, false⟩ : PortArr Bool) 1 true
      else ⟨(S.s_usb_device.get 0).isSome, false⟩) = validOf S := by
    simp only [validOf]
    generalize (S.s_usb_device.get 0).isSome = a
    generalize (S.s_usb_device.get 1).isSome = b
    cases a <;> cases b <;> simp [PortArr.set]
  rw [hv]
  rw [DoPacketState_read _ S _ _ (validOf S) tl hS.packet h5]
  simp only [StateWrapper.HasError, StateWrapper.adv, hR.2.1, Bool.false_eq_true, if_false]
  congr 2

/-! ## What a load restores -/

theorem PortArr.get_set {α : Type} (a : PortArr α) (p q : Nat) (v : α) :
    (a.set p v).get q = if (p = 0 ↔ q = 0) then v else a.get q := by
  unfold PortArr.get PortArr.set
  by_cases hp : p = 0 <;> by_cases hq : q = 0 <;> simp [hp, hq]

theorem map_epFlags_set (l : List USBEndpoint) (k : Nat) (e : USBEndpoint)
    (q : List PacketPtr) (h : l.get? k = some e) :
    (l.set k { e with queue := q }).map epFlags = l.map epFlags := by
  induction l generalizing k with
  | nil => simp
  | cons a l ih =>
    cases k with
    | zero =>
      simp only [List.get?_cons_zero, Option.some.injEq] at h
      subst h
      simp [epFlags]
    | succ k =>
      simp only [List.get?_cons_succ] at h
      simp [ih k h]

theorem record_setEndpoint (dev : USBDevice) (slot : EpSlot) (e : USBEndpoint)
    (q : List PacketPtr) (h : dev.endpoint slot = some e) :
    (dev.setEndpoint slot { e with queue := q }).record = dev.record := by
  cases slot with
  | ctl =>
    simp only [USBDevice.endpoint, Option.some.injEq] at h
    subst h
    simp [USBDevice.setEndpoint, USBDevice.record, epFlags]
  | epIn k =>
    simp only [USBDevice.endpoint] at h
    simp [USBDevice.setEndpoint, USBDevice.record, map_epFlags_set _ _ _ _ h]
  | epOut k =>
    simp only [USBDevice.endpoint] at h
    simp [USBDevice.setEndpoint, USBDevice.record, map_epFlags_set _ _ _ _ h]

theorem resolvePacket_controller (st : USBState) (p : USBPacket) (l : PacketLocals)
    (v : PortArr Bool) : (resolvePacket st p l v).controllerRecord = st.controllerRecord := by
  unfold resolvePacket
  simp only
  by_cases hf : 0 ≤ l.dev_index ∧ 0 ≤ l.ep_index ∧ validAt v l.dev_index = none
  · rw [if_pos hf]
    simp [USBState.controllerRecord]
  rw [if_neg hf]
  split
  · split <;> simp [USBState.controllerRecord]
  · simp [USBState.controllerRecord]

theorem resolvePacket_devices (st : USBState) (p : USBPacket) (l : PacketLocals)
    (v : PortArr Bool) (port : Nat) :
    ((resolvePacket st p l v).s_usb_device.get port).map USBDevice.record
      = (st.s_usb_device.get port).map USBDevice.record := by
  unfold resolvePacket
  simp only
  by_cases hf : 0 ≤ l.dev_index ∧ 0 ≤ l.ep_index ∧ validAt v l.dev_index = none
  · rw [if_pos hf]
  rw [if_neg hf]
  split
  · split
    · rename_i dev slot hdev hslot
      simp only [PortArr.get_set]
      split
      · rename_i hpq
        have hget : st.s_usb_device.get port = some dev := by
          rw [← hdev]
          unfold PortArr.get
          by_cases h0 : port = 0
          · simp [h0, hpq.mpr h0]
          · have : ¬ l.dev_index.toNat = 0 := fun hh => h0 (hpq.mp hh)
            simp [h0, this]
        rw [hget]
        simp only [Option.map_some', Option.some.injEq]
        split
        · split
          · rename_i e he
            exact record_setEndpoint _ _ _ _ he
          · rfl
        · rfl
      · rfl
    · rfl
  · rfl

theorem map_epFlags_zipWith (l src : List USBEndpoint) (h : l.length = src.length) :
    (List.zipWith epLoaded l src).map epFlags = src.map epFlags := by
  induction l generalizing src with
  | nil =>
    cases src with
    | nil => rfl
    | cons b bs => simp at h
  | cons a l ih =>
    cases src with
    | nil => simp at h
    | cons b bs =>
      simp only [List.zipWith_cons_cons, List.map_cons, ih bs (by simpa using h)]
      simp [epLoaded, epFlags]

theorem portLoaded_record (d src : USBDevice) (hs : SameShape d src) :
    (portLoaded d src).record = src.record := by
  simp [portLoaded, devLoaded, USBDevice.record, map_epFlags_zipWith _ _ hs.ep_in,
    map_epFlags_zipWith _ _ hs.ep_out, epLoaded, epFlags]

theorem loadedState_controller (L S : USBState) (tr : List Event) :
    (loadedState L S tr).controllerRecord = S.controllerRecord := by
  simp [loadedState, ohciLoaded, USBState.controllerRecord]

theorem loadedState_devices (L S : USBState) (tr : List Event) (hc : Compatible L S)
    (port : Nat) :
    ((loadedState L S tr).s_usb_device.get port).map USBDevice.record
      = (S.s_usb_device.get port).map USBDevice.record := by
  have key : ∀ q : Nat, (loadedDev (L.s_usb_device.get q) (S.s_usb_device.get q)).map
      USBDevice.record = (S.s_usb_device.get q).map USBDevice.record := by
    intro q
    have hd := hc.dev q
    cases hL : L.s_usb_device.get q with
    | none =>
      cases hS : S.s_usb_device.get q with
      | none => rfl
      | some s => simp [hL, hS] at hd
    | some d =>
      cases hS : S.s_usb_device.get q with
      | none => simp [hL, hS] at hd
      | some s =>
        rw [hL, hS] at hd
        simp [loadedDev, portLoaded_record _ _ hd.1]
  by_cases h0 : port = 0
  · subst h0
    simpa [loadedState, PortArr.get] using key 0
  · have h1 := key 1
    simp only [loadedState, PortArr.get, h0, if_false] at h1 ⊢
    simpa using h1

/-! ## The concrete environment and state -/

theorem sampleEnv_reapply : sampleEnv.Reapply :=
  ⟨fun _ => rfl, fun _ _ _ => rfl⟩

theorem sampleState_wf : sampleState.WF := by
  refine ⟨⟨by decide, by decide, by decide, ?_⟩, ?_, ?_, ?_⟩
  · constructor <;> decide
  · refine ⟨by decide, by decide, ?_⟩
    intro d hd
    have : d = sampleDevice 1 (Peripheral.pad ⟨77, [1, 2, 3]⟩) := by
      simpa [sampleState, PortArr.get] using hd.symm
    subst this
    refine ⟨?_, by simp only [sampleDevice, Peripheral.WF]; decide, DeviceProxy.PadDevice, rfl,
      trivial⟩
    constructor <;> decide
  · refine ⟨by decide, by decide, ?_⟩
    intro d hd
    have : d = sampleDevice 2 (Peripheral.guncon2 sampleGun) := by
      simpa [sampleState, PortArr.get] using hd.symm
    subst this
    refine ⟨?_, by simp only [sampleDevice, Peripheral.WF, sampleGun]; decide,
      DeviceProxy.GunCon2Device, rfl, trivial⟩
    constructor <;> decide
  · constructor <;> decide

theorem sampleState_compatible : Compatible sampleState sampleState := by
  refine ⟨rfl, rfl, ?_, by decide, rfl⟩
  intro port
  by_cases h0 : port = 0
  · subst h0
    exact ⟨⟨rfl, rfl, rfl, rfl, rfl⟩, rfl⟩
  · simp only [sampleState, PortArr.get, h0, if_false]
    exact ⟨⟨rfl, rfl, rfl, rfl, rfl⟩, trivial⟩

set_option maxRecDepth 100000 in
theorem sampleState_size : (saveBytes sampleState).length ≤ 1000 := by
  decide

/-! ## Round trip -/

theorem fit_saved (n : Nat) (bs : List Nat) (h : bs.length ≤ n) :
    fit n (bs ++ List.replicate (n - bs.length) 0) = bs ++ List.replicate (n - bs.length) 0 := by
  unfold fit
  rw [List.take_append_of_le_length (by simp; omega), List.take_of_length_le (by simp; omega)]

theorem blockBytes_le (st : USBState) (port : Nat) (hp : port = 0 ∨ port = 1) :
    (blockBytes (st.s_usb_device.get port)).length ≤ (saveBytes st).length := by
  rcases hp with hp | hp <;> subst hp <;>
    simp only [saveBytes, List.length_append, portBytes_length] <;> omega

/-- C1: a Save followed by a Load of the bytes it produced, into a live state with the
same port configuration and the same attached devices, returns 0 both times, leaves
the saved state as it was, and restores every controller field that `DoOHCIState`
serializes and, for each port, every serialized field of the attached device (speed,
address, state, setup buffers and setup state, configuration, alternate settings,
pipeline and halted flag of every endpoint) to its value at save time. The buffer
holds the stream, and the two descriptor helpers, whose code is outside the sources,
are assumed to leave a device alone when they re-apply its own configuration. -/
theorem USBfreeze_round_trip (env : Env) (hr : env.Reapply) (S L : USBState)
    (data : freezeData) (hS : S.WF) (hc : Compatible L S)
    (hsize : (saveBytes S).length ≤ data.size) (hlt : data.size < 2 ^ 31) :
    (USBfreeze env FreezeAction.Save S data).1 = 0
    ∧ (USBfreeze env FreezeAction.Save S data).2.1 = S
    ∧ (USBfreeze env FreezeAction.Load L (USBfreeze env FreezeAction.Save S data).2.2).1 = 0
    ∧ (USBfreeze env FreezeAction.Load L
        (USBfreeze env FreezeAction.Save S data).2.2).2.1.controllerRecord = S.controllerRecord
    ∧ ∀ port : Nat,
        ((USBfreeze env FreezeAction.Load L
          (USBfreeze env FreezeAction.Save S data).2.2).2.1.s_usb_device.get port).map
            USBDevice.record
        = (S.s_usb_device.get port).map USBDevice.record := by
  have hsave := USBfreezeSave_ok env hr S hS data hsize (by omega)
  have hb0 := blockBytes_le S 0 (Or.inl rfl)
  have hb1 := blockBytes_le S 1 (Or.inr rfl)
  obtain ⟨tr, hload⟩ := USBfreezeLoad_ok env hr S L hS hc (by omega) (by omega)
    (freezeData.mk data.size (saveBytes S ++ List.replicate (data.size - (saveBytes S).length) 0))
    _ (fit_saved _ _ hsize)
  simp only [USBfreeze, hsave, hload, resolvePacket_controller, resolvePacket_devices,
    loadedState_controller, true_and]
  exact fun port => loadedState_devices L S tr hc port

/-- Witness of C1 on the sample state, saved into a buffer of 1000 bytes and loaded
back into the same live state. -/
theorem USBfreeze_round_trip_witness :
    (USBfreeze sampleEnv FreezeAction.Load sampleState
        (USBfreeze sampleEnv FreezeAction.Save sampleState ⟨1000, []⟩).2.2).2.1.controllerRecord
      = sampleState.controllerRecord :=
  (USBfreeze_round_trip sampleEnv sampleEnv_reapply sampleState sampleState ⟨1000, []⟩
    sampleState_wf sampleState_compatible sampleState_size (by decide)).2.2.2.1

/-! ## Load with a configuration mismatch on port 0 -/

theorem reattachPort_config (env : Env) (st : USBState) (port : Nat) :
    (reattachPort env st port).EmuConfig = st.EmuConfig
    ∧ (reattachPort env st port).s_usb_device_proxy = st.s_usb_device_proxy := by
  unfold reattachPort
  simp only
  split
  · exact ⟨rfl, rfl⟩
  · split
    · exact ⟨rfl, rfl⟩
    · split <;> exact ⟨rfl, rfl⟩

theorem reattachPort_other (env : Env) (st : USBState)
    (hw : getPortDev st.s_qemu_ohci 0 = (st.s_usb_device.get 0).map (fun d => d.ptr)) :
    (reattachPort env st 0).s_usb_device.get 1 = st.s_usb_device.get 1 := by
  unfold reattachPort
  simp only
  cases hg : getPortDev st.s_qemu_ohci 0 with
  | none => rfl
  | some a =>
    rw [hg] at hw
    have h0 : st.s_usb_device.p0.map (fun d => d.ptr) = some a := by
      simpa [PortArr.get] using hw.symm
    simp only [h0, if_true]
    cases hd : st.s_usb_device.get 0 with
    | none => rfl
    | some dev => simp [PortArr.get, PortArr.set]

theorem skipState_frame (env : Env) (st : USBState) (ty : Int) (sub : Nat)
    (hw : getPortDev st.s_qemu_ohci 0 = (st.s_usb_device.get 0).map (fun d => d.ptr)) :
    (skipState env st 0 ty sub).EmuConfig = st.EmuConfig
    ∧ (skipState env st 0 ty sub).s_usb_device_proxy = st.s_usb_device_proxy
    ∧ (skipState env st 0 ty sub).s_usb_device.get 1 = st.s_usb_device.get 1 := by
  unfold skipState
  split
  · simp only
    split
    · refine ⟨(reattachPort_config env _ 0).1, (reattachPort_config env _ 0).2, ?_⟩
      exact reattachPort_other env _ hw
    · exact ⟨rfl, rfl, rfl⟩
  · exact ⟨rfl, rfl, rfl⟩

theorem USBfreezeLoad_mismatch (env : Env) (hr : env.Reapply) (S L : USBState) (hS : S.WF)
    (hmis : (L.EmuConfig.get 0).DeviceType ≠ (S.EmuConfig.get 0).DeviceType
      ∨ (L.EmuConfig.get 0).DeviceSubtype ≠ (S.EmuConfig.get 0).DeviceSubtype)
    (hcfg : L.EmuConfig.get 1 = S.EmuConfig.get 1)
    (hproxy : L.s_usb_device_proxy.get 1 = S.s_usb_device_proxy.get 1)
    (hdev : match L.s_usb_device.get 1, S.s_usb_device.get 1 with
      | none, none => True
      | some d, some s => SameShape d s ∧ PeriphShape d.periph s.periph
      | _, _ => False)
    (hwire : getPortDev L.s_qemu_ohci 0 = (L.s_usb_device.get 0).map (fun d => d.ptr))
    (hrh : L.s_qemu_ohci.rhport_ctrl.length = OHCI_MAX_PORTS)
    (hbuf : L.s_qemu_ohci.usb_buf.length = S.s_qemu_ohci.usb_buf.length)
    (hb0 : (blockBytes (S.s_usb_device.get 0)).length < 2 ^ 31)
    (hb1 : (blockBytes (S.s_usb_device.get 1)).length < 2 ^ 31) (data : freezeData)
    (tl : List Nat) (hdata : fit data.size data.data = saveBytes S ++ tl) :
    ∃ st2 : USBState,
      USBfreezeLoad env L data
        = (0, resolvePacket st2
            (packetLoaded L.s_qemu_ohci.usb_packet S.s_qemu_ohci.usb_packet)
            (packetLocals S (validOf S)) ⟨false, (S.s_usb_device.get 1).isSome⟩)
      ∧ st2.s_usb_device.get 1 = loadedDev (L.s_usb_device.get 1) (S.s_usb_device.get 1)
      ∧ st2.s_usb_device.get 0
          = (skipState env (ohciLoaded L S) 0 (S.EmuConfig.get 0).DeviceType
              (S.EmuConfig.get 0).DeviceSubtype).s_usb_device.get 0 := by
  have hR : (⟨Mode.Read, fit data.size data.data, 0, false⟩ : StateWrapper).Readable
      (saveBytes S) tl := ⟨rfl, rfl, by simp [StateWrapper.rest, hdata], by simp⟩
  obtain ⟨sw, hsw⟩ : ∃ sw, sw = (⟨Mode.Read, fit data.size data.data, 0, false⟩ : StateWrapper) :=
    ⟨_, rfl⟩
  rw [← hsw] at hR
  simp only [saveBytes, List.append_assoc] at hR
  have h1 := hR.left
  have h2 := hR.adv
  have h3 := h2.adv
  have h4 := h3.adv
  have h5 := h4.adv
  have e0 := StateWrapper.DoMarker_read _ _ _ good_USB h1
  have e1 := DoOHCIState_read L S _ _ h2.left hS.regs hrh hbuf
  have h3l := h3.left
  rw [portBytes_eq] at h3l
  have e2 := loadPort_skip env
    ⟨ohciLoaded L S, (sw.adv (markerEnc "USB").length).adv (ohciBytes S).length, ⟨false, false⟩⟩
    0 _ _ _ _ hS.port0.devtype hS.port0.devsubtype hb0
    (by
      rcases hmis with hm | hm
      · exact Or.inl (by simpa [ohciLoaded] using hm)
      · exact Or.inr (Or.inl (by simpa [ohciLoaded] using hm))) h3l
  simp only at e2
  have hfr := skipState_frame env (ohciLoaded L S) (S.EmuConfig.get 0).DeviceType
    (S.EmuConfig.get 0).DeviceSubtype (by simpa [ohciLoaded] using hwire)
  obtain ⟨tr1, e3⟩ := loadPort_compat env hr
    (FreezeLoop.mk
      (skipState env (ohciLoaded L S) 0 (S.EmuConfig.get 0).DeviceType
        (S.EmuConfig.get 0).DeviceSubtype)
      (((sw.adv (markerEnc "USB").length).adv (ohciBytes S).length).adv
        (portRecord (S.EmuConfig.get 0).DeviceType (S.EmuConfig.get 0).DeviceSubtype
          (blockBytes (S.s_usb_device.get 0))).length)
      ⟨false, false⟩) S 1 _ hS.port1
    (by simp only [hfr.1]; simpa [ohciLoaded] using hcfg)
    (by simp only [hfr.2.1]; simpa [ohciLoaded] using hproxy)
    (by simp only [hfr.2.2]; simpa [ohciLoaded] using hdev) hb1
    (by rw [← portBytes_eq]; exact h4.left)
  refine ⟨{ skipState env (ohciLoaded L S) 0 (S.EmuConfig.get 0).DeviceType
                (S.EmuConfig.get 0).DeviceSubtype with
            s_usb_device := (skipState env (ohciLoaded L S) 0 (S.EmuConfig.get 0).DeviceType
                (S.EmuConfig.get 0).DeviceSubtype).s_usb_device.set 1
              (loadedDev ((skipState env (ohciLoaded L S) 0 (S.EmuConfig.get 0).DeviceType
                (S.EmuConfig.get 0).DeviceSubtype).s_usb_device.get 1) (S.s_usb_device.get 1))
            trace := tr1 }, ?_, ?_, ?_⟩
  rotate_left
  · simp only [PortArr.get_set_self, hfr.2.2]
    simp [ohciLoaded]
  · simp [PortArr.get_set]
  unfold USBfreezeLoad
  simp only [← hsw, e0, Bool.not_true, Bool.false_eq_true, if_false, e1, e2, e3]
  have hv : (if (S.s_usb_device.get 1).isSome = true then
      PortArr.set (⟨false, false⟩ : PortArr Bool) 1 true
      else ⟨false, false⟩) = ⟨false, (S.s_usb_device.get 1).isSome⟩ := by
    generalize (S.s_usb_device.get 1).isSome = b
    cases b <;> simp [PortArr.set]
  rw [hv]
  have h5b : ((((sw.adv (markerEnc "USB").length).adv (ohciBytes S).length).adv
      (portRecord (S.EmuConfig.get 0).DeviceType (S.EmuConfig.get 0).DeviceSubtype
        (blockBytes (S.s_usb_device.get 0))).length).adv (portBytes S 1).length).Readable
      (packetBytes S (validOf S)) tl := by
    rw [← portBytes_eq]; exact h5
  rw [DoPacketState_read _ S _ _ (validOf S) tl hS.packet h5b]
  simp only [StateWrapper.HasError, StateWrapper.adv, hR.2.1, Bool.false_eq_true, if_false]
  rfl

theorem setEndpoint_periph (dev : USBDevice) (slot : EpSlot) (e : USBEndpoint) :
    (dev.setEndpoint slot e).periph = dev.periph := by
  cases slot <;> rfl

theorem resolvePacket_periph (st : USBState) (p : USBPacket) (l : PacketLocals)
    (v : PortArr Bool) (port : Nat) :
    ((resolvePacket st p l v).s_usb_device.get port).map (fun d => d.periph)
      = (st.s_usb_device.get port).map (fun d => d.periph) := by
  unfold resolvePacket
  simp only
  by_cases hf : 0 ≤ l.dev_index ∧ 0 ≤ l.ep_index ∧ validAt v l.dev_index = none
  · rw [if_pos hf]
  rw [if_neg hf]
  split
  · split
    · rename_i dev slot hdev hslot
      simp only [PortArr.get_set]
      split
      · rename_i hpq
        have hget : st.s_usb_device.get port = some dev := by
          rw [← hdev]
          unfold PortArr.get
          by_cases h0 : port = 0
          · simp [h0, hpq.mpr h0]
          · have : ¬ l.dev_index.toNat = 0 := fun hh => h0 (hpq.mp hh)
            simp [h0, this]
        rw [hget]
        simp only [Option.map_some', Option.some.injEq]
        split
        · split
          · exact setEndpoint_periph _ _ _
          · rfl
        · rfl
      · rfl
    · rfl
  · rfl

theorem resolvePacket_invalid0 (st : USBState) (p : USBPacket) (l : PacketLocals)
    (v : PortArr Bool) (hv : v.p0 = false) :
    (resolvePacket st p l v).s_usb_device.get 0 = st.s_usb_device.get 0 := by
  unfold resolvePacket
  simp only
  by_cases hf : 0 ≤ l.dev_index ∧ 0 ≤ l.ep_index ∧ validAt v l.dev_index = none
  · rw [if_pos hf]
  rw [if_neg hf]
  split
  · rename_i hc
    have h1 : l.dev_index = 1 := by
      have hva := hc.2.2
      unfold validAt at hva
      by_cases h0 : l.dev_index = 0
      · simp [h0, hv] at hva
      · by_cases h1 : l.dev_index = 1
        · exact h1
        · simp [h0, h1] at hva
    split
    · simp [h1, PortArr.get_set]
    · rfl
  · rfl

theorem periphLoaded_self (p : Peripheral) : periphLoaded p p = p := by
  cases p with
  | pad st => rfl
  | guncon2 g =>
    simp only [periphLoaded, gunLoaded]
    split <;> rfl

/-- A `Load` of the stream saved from `S` into a live state whose port 0 is configured
with another device type or subtype: both calls return 0, the block of port 0 is
skipped, and the device of port 1 is the live device with the saved record read into
it, as `loadedDev` describes. -/
theorem load_mismatch_restores_port1 (env : Env) (hr : env.Reapply) (S L : USBState)
    (data : freezeData) (hS : S.WF) (hsize : (saveBytes S).length ≤ data.size)
    (hlt : data.size < 2 ^ 31)
    (hmis : (L.EmuConfig.get 0).DeviceType ≠ (S.EmuConfig.get 0).DeviceType
      ∨ (L.EmuConfig.get 0).DeviceSubtype ≠ (S.EmuConfig.get 0).DeviceSubtype)
    (hcfg : L.EmuConfig.get 1 = S.EmuConfig.get 1)
    (hproxy : L.s_usb_device_proxy.get 1 = S.s_usb_device_proxy.get 1)
    (hdev : match L.s_usb_device.get 1, S.s_usb_device.get 1 with
      | none, none => True
      | some d, some s => SameShape d s ∧ PeriphShape d.periph s.periph
      | _, _ => False)
    (hwire : getPortDev L.s_qemu_ohci 0 = (L.s_usb_device.get 0).map (fun d => d.ptr))
    (hrh : L.s_qemu_ohci.rhport_ctrl.length = OHCI_MAX_PORTS)
    (hbuf : L.s_qemu_ohci.usb_buf.length = S.s_qemu_ohci.usb_buf.length) :
    (USBfreeze env FreezeAction.Save S data).1 = 0
    ∧ (USBfreeze env FreezeAction.Load L (USBfreeze env FreezeAction.Save S data).2.2).1 = 0
    ∧ ((USBfreeze env FreezeAction.Load L
          (USBfreeze env FreezeAction.Save S data).2.2).2.1.s_usb_device.get 1).map
            USBDevice.record
        = (S.s_usb_device.get 1).map USBDevice.record
    ∧ ((USBfreeze env FreezeAction.Load L
          (USBfreeze env FreezeAction.Save S data).2.2).2.1.s_usb_device.get 1).map
            (fun d => d.periph)
        = (loadedDev (L.s_usb_device.get 1) (S.s_usb_device.get 1)).map (fun d => d.periph)
    ∧ (L.s_usb_device.get 1 = S.s_usb_device.get 1 →
        ((USBfreeze env FreezeAction.Load L
          (USBfreeze env FreezeAction.Save S data).2.2).2.1.s_usb_device.get 1).map
            (fun d => d.periph)
        = (S.s_usb_device.get 1).map (fun d => d.periph))
    ∧ (USBfreeze env FreezeAction.Load L
          (USBfreeze env FreezeAction.Save S data).2.2).2.1.s_usb_device.get 0
        = (skipState env (ohciLoaded L S) 0 (S.EmuConfig.get 0).DeviceType
            (S.EmuConfig.get 0).DeviceSubtype).s_usb_device.get 0 := by
  have hsave := USBfreezeSave_ok env hr S hS data hsize (by omega)
  have hb0 := blockBytes_le S 0 (Or.inl rfl)
  have hb1 := blockBytes_le S 1 (Or.inr rfl)
  obtain ⟨st2, hload, h1, h0⟩ := USBfreezeLoad_mismatch env hr S L hS hmis hcfg hproxy hdev hwire
    hrh hbuf (by omega) (by omega)
    (freezeData.mk data.size (saveBytes S ++ List.replicate (data.size - (saveBytes S).length) 0))
    _ (fit_saved _ _ hsize)
  have hrec : (loadedDev (L.s_usb_device.get 1) (S.s_usb_device.get 1)).map USBDevice.record
      = (S.s_usb_device.get 1).map USBDevice.record := by
    cases hL : L.s_usb_device.get 1 with
    | none =>
      cases hSd : S.s_usb_device.get 1 with
      | none => rfl
      | some s => simp [hL, hSd] at hdev
    | some d =>
      cases hSd : S.s_usb_device.get 1 with
      | none => simp [hL, hSd] at hdev
      | some s =>
        rw [hL, hSd] at hdev
        simp [loadedDev, portLoaded_record _ _ hdev.1]
  have hinv := resolvePacket_invalid0 st2
    (packetLoaded L.s_qemu_ohci.usb_packet S.s_qemu_ohci.usb_packet)
    (packetLocals S (validOf S)) ⟨false, (S.s_usb_device.get 1).isSome⟩ rfl
  simp only [USBfreeze, hsave, hload, resolvePacket_devices, resolvePacket_periph,
    hinv, h1, h0, hrec, true_and, and_true]
  intro heq
  rw [heq]
  cases S.s_usb_device.get 1 with
  | none => rfl
  | some s => simp [loadedDev, portLoaded, periphLoaded_self]

/-- The light gun state `GunCon2Device::Freeze` leaves, field by field. -/
theorem gunLoaded_fields (g gs : GunCon2State) :
    (gunLoaded g gs).param_x = gs.param_x ∧ (gunLoaded g gs).param_y = gs.param_y
    ∧ (gunLoaded g gs).param_mode = gs.param_mode
    ∧ (gunLoaded g gs).calibration_timer = gs.calibration_timer
    ∧ (gunLoaded g gs).calibration_pos_x = gs.calibration_pos_x
    ∧ (gunLoaded g gs).calibration_pos_y = gs.calibration_pos_y
    ∧ (gunLoaded g gs).auto_config_done = gs.auto_config_done
    ∧ (gunLoaded g gs).custom_config = g.custom_config
    ∧ (g.custom_config = false → gs.auto_config_done = true →
        gunLocals (gunLoaded g gs) = gunLocals gs)
    ∧ (g.custom_config = true ∨ gs.auto_config_done = false →
        gunLocals (gunLoaded g gs) = gunLocals g) := by
  unfold gunLoaded
  cases hc : g.custom_config <;> cases ha : gs.auto_config_done <;> simp [gunLocals]

theorem sampleFresh_wf : sampleFresh.WF := by
  refine ⟨⟨by decide, by decide, by decide, ?_⟩, ?_, ?_, ?_⟩
  · constructor <;> decide
  · refine ⟨by decide, by decide, ?_⟩
    intro d hd
    have : d = sampleDevice 1 (Peripheral.pad ⟨77, [1, 2, 3]⟩) := by
      simpa [sampleFresh, samplePad, PortArr.get] using hd.symm
    subst this
    refine ⟨?_, by simp only [sampleDevice, Peripheral.WF]; decide, DeviceProxy.PadDevice, rfl,
      trivial⟩
    constructor <;> decide
  · refine ⟨by decide, by decide, ?_⟩
    intro d hd
    have : d = sampleDevice 2 (Peripheral.guncon2 sampleGunFresh) := by
      simpa [sampleFresh, PortArr.get] using hd.symm
    subst this
    refine ⟨?_, by simp only [sampleDevice, Peripheral.WF, sampleGunFresh, sampleGun]; decide,
      DeviceProxy.GunCon2Device, rfl, trivial⟩
    constructor <;> decide
  · constructor <;> decide

set_option maxRecDepth 100000 in
theorem sampleFresh_size : (saveBytes sampleFresh).length ≤ 1000 := by
  decide

/-- C2 as stated fails for the peripheral state of a light gun: its `Freeze` loads the
screen configuration only when the gun has no custom configuration and the saved
`auto_config_done` flag is set. The stream is saved from a state whose light gun in
guest port 1 has a screen of 640 by 240 and the automatic configuration not done. It is
loaded into a state with guest port 0 reconfigured and the same light gun object in
guest port 1, configured since to a screen of 800 by 600. After the `Load` the light
gun has the saved parameters and the saved flag, and the screen of 800 by 600. -/
theorem load_gun_screen_counterexample :
    (sampleFresh.s_usb_device.get 1).map (fun d => d.periph)
      = some (Peripheral.guncon2 sampleGunFresh)
    ∧ sampleGunFresh.screen_width = 640 ∧ sampleGunFresh.screen_height = 240
    ∧ ((USBfreeze sampleEnv FreezeAction.Load sampleMismatchConfigured
          (USBfreeze sampleEnv FreezeAction.Save sampleFresh ⟨1000, []⟩).2.2).2.1.s_usb_device.get
            1).map (fun d => d.periph)
        = some (Peripheral.guncon2
            { sampleGunFresh with screen_width := 800, screen_height := 600 }) := by
  refine ⟨rfl, rfl, rfl, ?_⟩
  rw [(load_mismatch_restores_port1 sampleEnv sampleEnv_reapply sampleFresh
    sampleMismatchConfigured ⟨1000, []⟩ sampleFresh_wf sampleFresh_size (by decide)
    (Or.inl (by decide)) rfl rfl ⟨⟨rfl, rfl, rfl, rfl, rfl⟩, trivial⟩ (by decide) (by decide)
    rfl).2.2.2.1]
  decide

/-- C2: for a stream produced by a successful Save of `S`, a Load into a live state whose
port 0 is configured with another device type or subtype than the one recorded, while
port 1 has the recorded configuration, the recorded proxy and a device of the saved
shape, returns 0, skips the block of port 0 (the device of port 0 is the live one, at
most re-attached, with nothing read into it) and restores the device of port 1 as a
matching port 0 would: every serialized device field has the saved value, and the
peripheral state is the one its `Freeze` loads from the saved record. For a pad that
is the saved state. For a light gun it is the saved parameters, calibration state and
`auto_config_done` flag, with the `custom_config` flag of the live gun, and the six
screen values are the saved ones when the live gun has no custom configuration and the
saved `auto_config_done` flag is set, and the live ones otherwise. When the device of
port 1 is the saved object itself its peripheral state is exactly the saved one. The
descriptor helpers are assumed to re-apply a configuration without effect, and the root
hub port of guest port 0 points to the device of guest port 0. -/
theorem load_skips_mismatched_port0 (env : Env) (hr : env.Reapply) (S L : USBState)
    (data : freezeData) (hS : S.WF) (hsize : (saveBytes S).length ≤ data.size)
    (hlt : data.size < 2 ^ 31)
    (hmis : (L.EmuConfig.get 0).DeviceType ≠ (S.EmuConfig.get 0).DeviceType
      ∨ (L.EmuConfig.get 0).DeviceSubtype ≠ (S.EmuConfig.get 0).DeviceSubtype)
    (hcfg : L.EmuConfig.get 1 = S.EmuConfig.get 1)
    (hproxy : L.s_usb_device_proxy.get 1 = S.s_usb_device_proxy.get 1)
    (hdev : match L.s_usb_device.get 1, S.s_usb_device.get 1 with
      | none, none => True
      | some d, some s => SameShape d s ∧ PeriphShape d.periph s.periph
      | _, _ => False)
    (hwire : getPortDev L.s_qemu_ohci 0 = (L.s_usb_device.get 0).map (fun d => d.ptr))
    (hrh : L.s_qemu_ohci.rhport_ctrl.length = OHCI_MAX_PORTS)
    (hbuf : L.s_qemu_ohci.usb_buf.length = S.s_qemu_ohci.usb_buf.length) :
    (USBfreeze env FreezeAction.Save S data).1 = 0
    ∧ (USBfreeze env FreezeAction.Load L (USBfreeze env FreezeAction.Save S data).2.2).1 = 0
    ∧ ((USBfreeze env FreezeAction.Load L
          (USBfreeze env FreezeAction.Save S data).2.2).2.1.s_usb_device.get 1).map
            USBDevice.record
        = (S.s_usb_device.get 1).map USBDevice.record
    ∧ ((USBfreeze env FreezeAction.Load L
          (USBfreeze env FreezeAction.Save S data).2.2).2.1.s_usb_device.get 1).map
            (fun d => d.periph)
        = (loadedDev (L.s_usb_device.get 1) (S.s_usb_device.get 1)).map (fun d => d.periph)
    ∧ (L.s_usb_device.get 1 = S.s_usb_device.get 1 →
        ((USBfreeze env FreezeAction.Load L
          (USBfreeze env FreezeAction.Save S data).2.2).2.1.s_usb_device.get 1).map
            (fun d => d.periph)
        = (S.s_usb_device.get 1).map (fun d => d.periph))
    ∧ (USBfreeze env FreezeAction.Load L
          (USBfreeze env FreezeAction.Save S data).2.2).2.1.s_usb_device.get 0
        = (skipState env (ohciLoaded L S) 0 (S.EmuConfig.get 0).DeviceType
            (S.EmuConfig.get 0).DeviceSubtype).s_usb_device.get 0
    ∧ (∀ (s : USBDevice) (p : PadState), S.s_usb_device.get 1 = some s →
        s.periph = Peripheral.pad p →
        ((USBfreeze env FreezeAction.Load L
          (USBfreeze env FreezeAction.Save S data).2.2).2.1.s_usb_device.get 1).map
            (fun d => d.periph)
        = some (Peripheral.pad p))
    ∧ (∀ (d s : USBDevice) (g gs : GunCon2State), L.s_usb_device.get 1 = some d →
        S.s_usb_device.get 1 = some s → d.periph = Peripheral.guncon2 g →
        s.periph = Peripheral.guncon2 gs →
        ∃ r : GunCon2State,
          ((USBfreeze env FreezeAction.Load L
            (USBfreeze env FreezeAction.Save S data).2.2).2.1.s_usb_device.get 1).map
              (fun d => d.periph)
            = some (Peripheral.guncon2 r)
          ∧ r.param_x = gs.param_x ∧ r.param_y = gs.param_y ∧ r.param_mode = gs.param_mode
          ∧ r.calibration_timer = gs.calibration_timer
          ∧ r.calibration_pos_x = gs.calibration_pos_x
          ∧ r.calibration_pos_y = gs.calibration_pos_y
          ∧ r.auto_config_done = gs.auto_config_done
          ∧ r.custom_config = g.custom_config
          ∧ (g.custom_config = false → gs.auto_config_done = true → gunLocals r = gunLocals gs)
          ∧ (g.custom_config = true ∨ gs.auto_config_done = false →
              gunLocals r = gunLocals g)) := by
  obtain ⟨h1, h2, h3, h4, h5, h6⟩ := load_mismatch_restores_port1 env hr S L data hS hsize hlt hmis
    hcfg hproxy hdev hwire hrh hbuf
  refine ⟨h1, h2, h3, h4, h5, h6, ?_, ?_⟩
  · intro s p hs hp
    rw [h4]
    cases hL : L.s_usb_device.get 1 with
    | none => simp [hL, hs] at hdev
    | some d =>
      rw [hL, hs] at hdev
      rw [hs]
      have hshape := hdev.2
      rw [hp] at hshape
      cases hdp : d.periph with
      | pad q => simp [loadedDev, portLoaded, periphLoaded, hdp, hp]
      | guncon2 q => simp [hdp, PeriphShape] at hshape
  · intro d s g gs hd hs hg hgs
    refine ⟨gunLoaded g gs, ?_, gunLoaded_fields g gs⟩
    rw [h4, hd, hs]
    simp [loadedDev, portLoaded, periphLoaded, hg, hgs]

/-- Witness of C2 on the sample state saved into 1000 bytes and loaded into the
sample state with port 0 reconfigured. -/
theorem load_skips_mismatched_port0_witness :
    ((USBfreeze sampleEnv FreezeAction.Load sampleMismatch
        (USBfreeze sampleEnv FreezeAction.Save sampleState ⟨1000, []⟩).2.2).2.1.s_usb_device.get
          1).map USBDevice.record
      = (sampleState.s_usb_device.get 1).map USBDevice.record :=
  (load_skips_mismatched_port0 sampleEnv sampleEnv_reapply sampleState sampleMismatch
    ⟨1000, []⟩ sampleState_wf sampleState_size (by decide) (Or.inl (by decide)) rfl rfl
    ⟨⟨rfl, rfl, rfl, rfl, rfl⟩, trivial⟩ (by decide) (by decide) rfl).2.2.1

/-! ## A port whose peripheral record cannot be read -/

theorem DoMarker_other (sw : StateWrapper) (marker stored : String) (tl : List Nat)
    (hg : GoodMarker stored) (hne : markerBytes stored ≠ markerBytes marker)
    (h : sw.Readable (markerEnc stored) tl) :
    sw.DoMarker marker = (false, sw.adv (markerEnc stored).length) := by
  unfold markerEnc at h
  unfold StateWrapper.DoMarker StateWrapper.DoString
  rw [StateWrapper.DoBytes_read sw _ _ _ h.left (by simp)]
  simp only [h.1, decU_encU _ _ hg.2]
  rw [StateWrapper.DoBytes_read _ _ _ _ h.adv (by simp)]
  simp [StateWrapper.adv, h.2.1, cstr_of_nonzero _ hg.1, markerEnc, Nat.add_assoc, hne]

theorem getPortDev_setPortDev (o : OHCIState) (port : Nat) :
    getPortDev (setPortDev o port none) port = none := by
  unfold getPortDev setPortDev
  simp only [List.getD_eq_getElem?_getD]
  by_cases h : GetOHCIPort port < o.rhport_dev.length
  · simp [List.getElem?_set_self h]
  · rw [List.getElem?_eq_none (by simpa using h)]
    rfl

theorem DestroyDevice_port (st : USBState) (port : Nat) :
    (DestroyDevice st port).s_usb_device.get port = none
    ∧ (st.s_usb_device.get port ≠ none →
        (DestroyDevice st port).s_usb_device_proxy.get port = none
        ∧ getPortDev (DestroyDevice st port).s_qemu_ohci port = none) := by
  unfold DestroyDevice
  cases hd : st.s_usb_device.get port with
  | none => simp [hd]
  | some dev =>
    simp only [PortArr.get_set_self, true_and]
    intro _
    exact getPortDev_setPortDev _ _

/-- What the failure branch of the `Load` loop does (the part of C3 that holds): for a
port whose recorded type and subtype match the live configuration and that has a device
attached, if the peripheral `Freeze` call fails or the stream reports an error, then
the iteration destroys that device (its device slot, its proxy slot and the device of
its root hub port are null afterwards), does not mark the port valid, and leaves the
device slot of the other port as it was; the load goes on with the next port. -/
theorem load_failed_port_destroyed (env : Env) (x : FreezeLoop) (port : Nat) (dev : USBDevice)
    (hdev : x.st.s_usb_device.get port = some dev)
    (hmatch : ¬ ((doFields [devtypeField, devsubtypeField, sizeField] (⟨0, 0, 0⟩ : PortHeader)
          x.sw).2.HasError = true
      ∨ (x.st.EmuConfig.get port).DeviceType
          ≠ (doFields [devtypeField, devsubtypeField, sizeField] (⟨0, 0, 0⟩ : PortHeader)
              x.sw).1.state_devtype
      ∨ (x.st.EmuConfig.get port).DeviceSubtype
          ≠ (doFields [devtypeField, devsubtypeField, sizeField] (⟨0, 0, 0⟩ : PortHeader)
              x.sw).1.state_devsubtype
      ∨ ((doFields [devtypeField, devsubtypeField, sizeField] (⟨0, 0, 0⟩ : PortHeader)
              x.sw).1.state_devtype ≠ DEVTYPE_NONE
          ∧ (x.st.s_usb_device.get port).isNone = true)))
    (hfail : (match x.st.s_usb_device_proxy.get port with
        | some proxy => proxy.Freeze
            (DoDeviceState env dev (doFields [devtypeField, devsubtypeField, sizeField]
              (⟨0, 0, 0⟩ : PortHeader) x.sw).2).1
            (DoDeviceState env dev (doFields [devtypeField, devsubtypeField, sizeField]
              (⟨0, 0, 0⟩ : PortHeader) x.sw).2).2
        | none => (false, DoDeviceState env dev (doFields [devtypeField, devsubtypeField,
              sizeField] (⟨0, 0, 0⟩ : PortHeader) x.sw).2)).1 = false
      ∨ (match x.st.s_usb_device_proxy.get port with
        | some proxy => proxy.Freeze
            (DoDeviceState env dev (doFields [devtypeField, devsubtypeField, sizeField]
              (⟨0, 0, 0⟩ : PortHeader) x.sw).2).1
            (DoDeviceState env dev (doFields [devtypeField, devsubtypeField, sizeField]
              (⟨0, 0, 0⟩ : PortHeader) x.sw).2).2
        | none => (false, DoDeviceState env dev (doFields [devtypeField, devsubtypeField,
              sizeField] (⟨0, 0, 0⟩ : PortHeader) x.sw).2)).2.2.HasError = true) :
    (loadPort env x port).st.s_usb_device.get port = none
    ∧ (loadPort env x port).st.s_usb_device_proxy.get port = none
    ∧ getPortDev (loadPort env x port).st.s_qemu_ohci port = none
    ∧ (loadPort env x port).valid_devices = x.valid_devices
    ∧ ∀ q : Nat, ¬ (port = 0 ↔ q = 0) →
        (loadPort env x port).st.s_usb_device.get q = x.st.s_usb_device.get q := by
  generalize hh : doFields [devtypeField, devsubtypeField, sizeField] (⟨0, 0, 0⟩ : PortHeader)
    x.sw = h at hmatch hfail
  generalize hf : (match x.st.s_usb_device_proxy.get port with
        | some proxy => proxy.Freeze (DoDeviceState env dev h.2).1 (DoDeviceState env dev h.2).2
        | none => (false, DoDeviceState env dev h.2)) = f at hfail
  have hcond : (!f.1 || f.2.2.HasError) = true := by
    rcases hfail with h1 | h1 <;> simp [h1]
  have hlp : loadPort env x port
      = { x with
          st := DestroyDevice
            { x.st with s_usb_device := x.st.s_usb_device.set port (some f.2.1)
                        trace := x.st.trace ++ [Event.console_error port] } port
          sw := f.2.2 } := by
    unfold loadPort
    simp only [hh]
    rw [if_neg hmatch]
    simp only [hdev]
    cases hp : x.st.s_usb_device_proxy.get port with
    | none =>
      rw [hp] at hf
      simp only at hf
      subst hf
      simp
    | some proxy =>
      rw [hp] at hf
      simp only at hf
      simp only [hf, hcond, if_true]
  rw [hlp]
  have hD := DestroyDevice_port
    { x.st with s_usb_device := x.st.s_usb_device.set port (some f.2.1)
                trace := x.st.trace ++ [Event.console_error port] } port
  refine ⟨hD.1, (hD.2 (by simp [PortArr.get_set_self])).1,
    (hD.2 (by simp [PortArr.get_set_self])).2, rfl, ?_⟩
  · intro q hq
    simp [DestroyDevice, PortArr.get_set_self, PortArr.get_set, hq]

theorem Freeze_bad_marker (dv : USBDevice) (p : PadState) (sw : StateWrapper) (stored : String)
    (tl : List Nat) (hpad : dv.periph = Peripheral.pad p) (hg : GoodMarker stored)
    (hne : markerBytes stored ≠ markerBytes "PadDevice")
    (h : sw.Readable (markerEnc stored) tl) :
    DeviceProxy.PadDevice.Freeze dv sw = (false, dv, sw.adv (markerEnc stored).length) := by
  unfold DeviceProxy.Freeze
  simp only [hpad, PadDevice_Freeze, DoMarker_other _ _ _ _ hg hne h, Bool.not_false, if_true]
  rw [← hpad]

theorem loadPort_bad_marker (env : Env) (hr : env.Reapply) (x : FreezeLoop) (port : Nat)
    (ty : Int) (sub size : Nat) (d src : USBDevice) (p : PadState) (stored : String)
    (tl : List Nat)
    (hcfg : x.st.EmuConfig.get port = ⟨ty, sub⟩) (hd : x.st.s_usb_device.get port = some d)
    (hpad : d.periph = Peripheral.pad p)
    (hproxy : x.st.s_usb_device_proxy.get port = some DeviceProxy.PadDevice)
    (hw : src.WF) (hs : SameShape d src) (hty : InS 4 ty) (hsub : InU 4 sub)
    (hsize : InU 4 size) (hg : GoodMarker stored)
    (hne : markerBytes stored ≠ markerBytes "PadDevice")
    (h : x.sw.Readable (encS 4 ty ++ encU 4 sub ++ encU 4 size
      ++ (devBytes src ++ markerEnc stored)) tl) :
    (loadPort env x port).st.s_usb_device.get port = none
    ∧ (loadPort env x port).sw
        = x.sw.adv (12 + (devBytes src).length + (markerEnc stored).length) := by
  obtain ⟨st, sw, valid⟩ := x
  simp only at hcfg hd hproxy h ⊢
  have hh : sw.Readable (encS 4 ty ++ encU 4 sub ++ encU 4 size)
      (devBytes src ++ (markerEnc stored ++ tl)) := by
    obtain ⟨a, b, c, e⟩ := h
    exact ⟨a, b, by rw [c]; simp [List.append_assoc], e⟩
  have h1 : (sw.adv 12).Readable (devBytes src) (markerEnc stored ++ tl) := by
    simpa using hh.next
  have h2 : ((sw.adv 12).adv (devBytes src).length).Readable (markerEnc stored) tl := h1.next
  have hfr : DeviceProxy.PadDevice.Freeze (devLoaded d src)
      ((sw.adv 12).adv (devBytes src).length)
      = (false, devLoaded d src,
          ((sw.adv 12).adv (devBytes src).length).adv (markerEnc stored).length) := by
    exact Freeze_bad_marker _ p _ stored tl (by simpa [devLoaded] using hpad) hg hne h2
  have hc : ¬ ((sw.adv 12).HasError = true ∨ (st.EmuConfig.get port).DeviceType ≠ ty
      ∨ (st.EmuConfig.get port).DeviceSubtype ≠ sub
      ∨ (ty ≠ DEVTYPE_NONE ∧ (st.s_usb_device.get port).isNone = true)) := by
    simp [StateWrapper.HasError, StateWrapper.adv, h.2.1, hcfg, hd]
  unfold loadPort
  rw [portHeader_read sw ty sub size _ hty hsub hsize hh]
  dsimp only
  rw [if_neg hc]
  simp only [hd, hproxy]
  rw [DoDeviceState_read env hr d src hw hs _ _ h1]
  simp only [hfr]
  simp only [Bool.not_false, Bool.true_or, ↓reduceIte, StateWrapper.adv_adv]
  exact ⟨(DestroyDevice_port _ port).1, by simp [Nat.add_assoc]⟩

theorem fit_pad (n : Nat) (bs : List Nat) (h : bs.length ≤ n) :
    fit n bs = bs ++ List.replicate (n - bs.length) 0 := by
  unfold fit
  rw [List.take_append_eq_append_take, List.take_of_length_le h]
  simp

set_option maxRecDepth 100000 in
theorem badMarkerStream_size : badMarkerStream.length ≤ 1000 := by
  decide

theorem good_XadDevice : GoodMarker "XadDevice" := by
  constructor <;> decide

theorem samplePad_wf : samplePad.WF :=
  (sampleState_wf.port0.dev samplePad rfl).1

theorem loadAfterPort0_bad :
    (loadAfterPort0 sampleEnv sampleState ⟨1000, badMarkerStream⟩).st.s_usb_device.get 0 = none
    ∧ (loadAfterPort0 sampleEnv sampleState ⟨1000, badMarkerStream⟩).sw
        = (⟨Mode.Read, fit 1000 badMarkerStream, 0, false⟩ : StateWrapper).adv
            ((markerEnc "USB").length + (ohciBytes sampleState).length
              + (12 + (devBytes samplePad).length + (markerEnc "XadDevice").length)) := by
  obtain ⟨tl, hfit⟩ : ∃ tl, fit 1000 badMarkerStream = badMarkerStream ++ tl :=
    ⟨_, fit_pad 1000 badMarkerStream badMarkerStream_size⟩
  obtain ⟨sw, hsw⟩ : ∃ sw, sw = (⟨Mode.Read, fit 1000 badMarkerStream, 0, false⟩ : StateWrapper) :=
    ⟨_, rfl⟩
  have hR : sw.Readable badMarkerStream tl := by
    rw [hsw]
    exact ⟨rfl, rfl, by simp only [StateWrapper.rest, List.drop_zero, hfit], Nat.zero_le _⟩
  have hbm : badMarkerStream = markerEnc "USB" ++ (ohciBytes sampleState ++ (badPortRecord
      ++ (portBytes sampleState 1 ++ packetBytes sampleState (validOf sampleState)))) := by
    simp only [badMarkerStream, List.append_assoc]
  rw [hbm] at hR
  have h1 := hR.left
  have h2 := hR.adv
  have h3 := h2.adv
  have e0 := StateWrapper.DoMarker_read _ _ _ good_USB h1
  have e1 := DoOHCIState_read sampleState sampleState _ _ h2.left sampleState_wf.regs
    (by decide) rfl
  have h3b : ((sw.adv (markerEnc "USB").length).adv (ohciBytes sampleState).length).Readable
      (encS 4 0 ++ encU 4 0 ++ encU 4 (blockBytes (some samplePad)).length
        ++ (devBytes samplePad ++ markerEnc "XadDevice"))
      (encAll padFields ⟨77, [1, 2, 3]⟩ ++ (portBytes sampleState 1
        ++ packetBytes sampleState (validOf sampleState)) ++ tl) := by
    obtain ⟨a, b, c, e⟩ := h3
    exact ⟨a, b, by rw [c]; simp only [badPortRecord, List.append_assoc], e⟩
  have hsz : InU 4 (blockBytes (some samplePad)).length := by
    have := blockBytes_le sampleState 0 (Or.inl rfl)
    have h2 := sampleState_size
    have h3 : (blockBytes (some samplePad)).length ≤ 1000 := le_trans this h2
    unfold InU
    omega
  have key := loadPort_bad_marker sampleEnv sampleEnv_reapply
    ⟨ohciLoaded sampleState sampleState,
      (sw.adv (markerEnc "USB").length).adv (ohciBytes sampleState).length, ⟨false, false⟩⟩
    0 0 0 _ samplePad samplePad ⟨77, [1, 2, 3]⟩ "XadDevice" _ rfl rfl rfl rfl samplePad_wf
    ⟨rfl, rfl, rfl, rfl, rfl⟩ (by decide) (by decide) hsz good_XadDevice (by decide) h3b
  unfold loadAfterPort0
  simp only [← hsw, e0, e1]
  refine ⟨key.1, ?_⟩
  rw [key.2]
  simp [StateWrapper.adv_adv, Nat.add_assoc]

/-- C3: the failure branch of the `Load` loop does not move the read position to the
end of the block. The stream a Save of the sample state produces, with one character
of the pad marker of port 0 changed, is loaded into the sample state. The recorded type
and subtype of port 0 match and a pad is attached; its `Freeze` fails (without a stream
error) and the device is destroyed, but the read position the load continues from is 5
bytes before the end of the length field plus the declared block length: the bytes of
the pad record after its marker are left unread. -/
theorem load_failed_port_keeps_position :
    (loadAfterPort0 sampleEnv sampleState ⟨1000, badMarkerStream⟩).st.s_usb_device.get 0 = none
    ∧ (loadAfterPort0 sampleEnv sampleState ⟨1000, badMarkerStream⟩).sw.HasError = false
    ∧ (loadAfterPort0 sampleEnv sampleState ⟨1000, badMarkerStream⟩).sw.pos + 5
        = (markerEnc "USB" ++ ohciBytes sampleState).length + 12
            + (blockBytes (some samplePad)).length := by
  obtain ⟨h0, h1⟩ := loadAfterPort0_bad
  refine ⟨h0, by rw [h1]; rfl, ?_⟩
  rw [h1]
  have hm1 : (markerBytes "XadDevice").length = 9 := by decide
  have hm2 : (markerBytes "PadDevice").length = 9 := by decide
  simp only [StateWrapper.adv, blockBytes, List.length_append, markerEnc_length, hm1, samplePad,
    sampleDevice, periphBytes, padBytes, hm2, encAll, padFields, Field.u, Field.bytes,
    encU_length, List.length_cons, List.length_nil]
  omega

/-- The failure branch on the block of port 0 whose pad marker was changed, in the
sample state. -/
theorem load_failed_port_destroyed_witness :
    (loadPort sampleEnv ⟨sampleState, ⟨Mode.Read, badPortRecord, 0, false⟩, ⟨false, false⟩⟩
      0).st.s_usb_device.get 0 = none := by
  have hR : (⟨Mode.Read, badPortRecord, 0, false⟩ : StateWrapper).Readable
      (encS 4 0 ++ encU 4 0 ++ encU 4 (blockBytes (some samplePad)).length)
      (devBytes samplePad ++ (markerEnc "XadDevice" ++ encAll padFields ⟨77, [1, 2, 3]⟩)) :=
    ⟨rfl, rfl, by simp only [StateWrapper.rest, List.drop_zero, badPortRecord], Nat.zero_le _⟩
  have hsz : InU 4 (blockBytes (some samplePad)).length := by
    have h1 := blockBytes_le sampleState 0 (Or.inl rfl)
    have h2 := sampleState_size
    have h3 : (blockBytes (some samplePad)).length ≤ 1000 := le_trans h1 h2
    unfold InU
    omega
  have hhdr := portHeader_read _ 0 0 _ _ (by decide) (by decide) hsz hR
  have h1 := hR.next
  have h1b : ((⟨Mode.Read, badPortRecord, 0, false⟩ : StateWrapper).adv 12).Readable
      (devBytes samplePad) (markerEnc "XadDevice" ++ encAll padFields ⟨77, [1, 2, 3]⟩) := by
    simpa using h1
  have hdv := DoDeviceState_read sampleEnv sampleEnv_reapply samplePad samplePad samplePad_wf
    ⟨rfl, rfl, rfl, rfl, rfl⟩ _ _ h1b
  have hfz := Freeze_bad_marker (devLoaded samplePad samplePad) ⟨77, [1, 2, 3]⟩ _ "XadDevice" _
    rfl good_XadDevice (by decide) h1b.next
  refine (load_failed_port_destroyed sampleEnv
    ⟨sampleState, ⟨Mode.Read, badPortRecord, 0, false⟩, ⟨false, false⟩⟩ 0 samplePad rfl ?_ ?_).1
  · simp only [hhdr]
    simp [StateWrapper.HasError, StateWrapper.adv, sampleState, PortArr.get, DEVTYPE_NONE]
  · left
    simp only [hhdr]
    have hp : sampleState.s_usb_device_proxy.get 0 = some DeviceProxy.PadDevice := rfl
    simp only [hp, hdv, hfz]

/-! ## Packet references -/

theorem epIndexOf_valid (slot : EpSlot) (h : ValidSlot slot) :
    epIndexOf slot = statedIndex slot := by
  cases slot with
  | ctl => rfl
  | epIn k =>
    simp only [ValidSlot, USB_MAX_ENDPOINTS] at h
    simp only [epIndexOf, statedIndex, USB_MAX_ENDPOINTS]
    rw [if_pos (by omega)]
    omega
  | epOut k =>
    simp only [ValidSlot, USB_MAX_ENDPOINTS] at h
    simp only [epIndexOf, statedIndex, USB_MAX_ENDPOINTS]
    rw [if_pos (by omega)]
    push_cast
    omega

theorem statedIndex_injective (a b : EpSlot) (ha : ValidSlot a) (hb : ValidSlot b)
    (h : statedIndex a = statedIndex b) : a = b := by
  cases a <;> cases b <;> simp only [ValidSlot, USB_MAX_ENDPOINTS] at ha hb <;>
    simp only [statedIndex, USB_MAX_ENDPOINTS] at h <;> first
      | rfl
      | (congr 1; omega)

theorem slotOfIndex_stated (slot : EpSlot) (h : ValidSlot slot) :
    slotOfIndex (statedIndex slot) = some slot := by
  cases slot with
  | ctl => rfl
  | epIn k =>
    simp only [ValidSlot, USB_MAX_ENDPOINTS] at h
    simp only [slotOfIndex, statedIndex, USB_MAX_ENDPOINTS]
    rw [if_neg (by omega), if_pos (by push_cast; omega)]
    simp
  | epOut k =>
    simp only [ValidSlot, USB_MAX_ENDPOINTS] at h
    simp only [slotOfIndex, statedIndex, USB_MAX_ENDPOINTS]
    rw [if_neg (by push_cast; omega), if_neg (by push_cast; omega), if_pos (by push_cast; omega)]
    simp
    omega

theorem packetLocals_found (st : USBState) (valid : PortArr Bool) (i : Nat) (dev : USBDevice)
    (slot : EpSlot) (hi : i = 0 ∨ i = 1) (hdev : st.s_usb_device.get i = some dev)
    (hvalid : valid.get i = true)
    (hep : st.s_qemu_ohci.usb_packet.ep = some ⟨dev.ptr, slot⟩)
    (hfirst : i = 1 → ∀ d0, st.s_usb_device.get 0 = some d0 → valid.get 0 = true →
      d0.ptr ≠ dev.ptr) :
    (packetLocals st valid).dev_index = (i : Int)
    ∧ (packetLocals st valid).ep_index = epIndexOf slot := by
  unfold packetLocals
  rw [hep]
  simp only [findEndpoint]
  rcases hi with hi | hi
  · subst hi
    simp [hdev, hvalid]
  · subst hi
    cases h0 : st.s_usb_device.get 0 with
    | none => simp [hdev, hvalid]
    | some d0 =>
      by_cases hv0 : valid.get 0 = true
      · have hne := hfirst rfl d0 h0 hv0
        have hne2 : ¬ dev.ptr = d0.ptr := fun h => hne h.symm
        simp [hdev, hvalid, hv0, hne2]
      · simp [hdev, hvalid, hv0]

theorem resolvePacket_ep (L : USBState) (p : USBPacket) (i : Nat) (devL : USBDevice)
    (slot : EpSlot) (q : Bool) (validL : PortArr Bool) (hi : i = 0 ∨ i = 1)
    (hslot : ValidSlot slot) (hdev : L.s_usb_device.get i = some devL)
    (hvalid : validL.get i = true) :
    (resolvePacket L p ⟨(i : Int), statedIndex slot, q⟩ validL).s_qemu_ohci.usb_packet.ep
      = some ⟨devL.ptr, slot⟩ := by
  have hnn : (0 : Int) ≤ statedIndex slot := by
    cases slot <;> simp [statedIndex] <;> omega
  have hva : validAt validL (i : Int) = some true := by
    rcases hi with hi | hi <;> subst hi <;> simpa [validAt, PortArr.get] using hvalid
  have hc : (0 : Int) ≤ (i : Int) ∧ 0 ≤ statedIndex slot
      ∧ validAt validL (i : Int) = some true := ⟨by omega, hnn, hva⟩
  have hnf : ¬ ((0 : Int) ≤ (i : Int) ∧ 0 ≤ statedIndex slot ∧ validAt validL (i : Int) = none) := by
    rw [hva]
    exact fun h => by cases h.2.2
  unfold resolvePacket
  simp only []
  rw [if_neg hnf, if_pos hc]
  simp only [Int.toNat_ofNat, hdev, slotOfIndex_stated slot hslot]

/-- C4: for a port `i` that holds a valid device and an endpoint `e` of that device
(the control endpoint, IN slot `k` or OUT slot `k` with `k < USB_MAX_ENDPOINTS`), the
record `DoPacketState` writes for a packet whose endpoint is `e` carries the pair
(dev_index, ep_index) = (i, 0), (i, 1 + k) or (i, 1 + USB_MAX_ENDPOINTS + k); the pair
determines the port and the endpoint; and `DoPacketState` in read mode, with port `i`
valid, resolves the record back to the same endpoint of the device in port `i`. The
two device objects have different addresses. -/
theorem packet_reference_round_trip (st L : USBState) (valid validL : PortArr Bool) (i : Nat)
    (dev devL : USBDevice) (slot : EpSlot) (hi : i = 0 ∨ i = 1) (hslot : ValidSlot slot)
    (hdev : st.s_usb_device.get i = some dev) (hvalid : valid.get i = true)
    (hep : st.s_qemu_ohci.usb_packet.ep = some ⟨dev.ptr, slot⟩)
    (hfirst : i = 1 → ∀ d0, st.s_usb_device.get 0 = some d0 → valid.get 0 = true →
      d0.ptr ≠ dev.ptr)
    (hw : st.s_qemu_ohci.usb_packet.WF)
    (hdevL : L.s_usb_device.get i = some devL) (hvalidL : validL.get i = true) :
    (∀ sw : StateWrapper, sw.Writable (packetBytes st valid).length →
      (DoPacketState st sw valid).2 = sw.put (markerEnc "USBPacket"
        ++ encAll packetFields (st.s_qemu_ohci.usb_packet,
            ⟨(i : Int), statedIndex slot, (packetLocals st valid).queued⟩)))
    ∧ (∀ (j : Nat) (slot2 : EpSlot), ValidSlot slot2 →
        ((j : Int), statedIndex slot2) = ((i : Int), statedIndex slot) → j = i ∧ slot2 = slot)
    ∧ (∀ (sw : StateWrapper) (tl : List Nat), sw.Readable (packetBytes st valid) tl →
        (DoPacketState L sw validL).1.s_qemu_ohci.usb_packet.ep = some ⟨devL.ptr, slot⟩) := by
  obtain ⟨hdi, hei⟩ := packetLocals_found st valid i dev slot hi hdev hvalid hep hfirst
  rw [epIndexOf_valid slot hslot] at hei
  have hloc : packetLocals st valid
      = ⟨(i : Int), statedIndex slot, (packetLocals st valid).queued⟩ := by
    rw [← hdi, ← hei]
  refine ⟨?_, ?_, ?_⟩
  · intro sw hsw
    rw [DoPacketState_write st sw valid hsw, ← hloc]
    rfl
  · intro j slot2 hs2 heq
    simp only [Prod.mk.injEq] at heq
    exact ⟨by exact_mod_cast heq.1, statedIndex_injective _ _ hs2 hslot heq.2⟩
  · intro sw tl hr
    rw [DoPacketState_read L st sw validL valid tl hw hr, hloc]
    exact resolvePacket_ep L _ i devL slot _ validL hi hslot hdevL hvalidL

/-- Witness of C4: the packet of the sample state is on the control endpoint of the
light gun in guest port 1; its record is read back from a stream holding it. -/
theorem packet_reference_round_trip_witness :
    (DoPacketState sampleState ⟨Mode.Read, packetBytes sampleState ⟨true, true⟩, 0, false⟩
      ⟨true, true⟩).1.s_qemu_ohci.usb_packet.ep = some ⟨2, EpSlot.ctl⟩ :=
  (packet_reference_round_trip sampleState sampleState ⟨true, true⟩ ⟨true, true⟩ 1
    (sampleDevice 2 (Peripheral.guncon2 sampleGun)) (sampleDevice 2 (Peripheral.guncon2 sampleGun))
    EpSlot.ctl (Or.inr rfl) trivial rfl rfl rfl
    (by
      intro _ d0 h0 _
      have : d0 = samplePad := by simpa [sampleState, PortArr.get] using h0.symm
      subst this
      decide)
    sampleState_wf.packet rfl rfl).2.2
    ⟨Mode.Read, packetBytes sampleState ⟨true, true⟩, 0, false⟩ []
    ⟨rfl, rfl, by simp [StateWrapper.rest], Nat.zero_le _⟩

/-! ## The direction of a stream is fixed and its error flag is sticky -/

theorem StateWrapper.Follows.same (a : StateWrapper) : a.Follows a := ⟨rfl, id⟩

theorem StateWrapper.Follows.trans {a b c : StateWrapper} (h1 : a.Follows b) (h2 : b.Follows c) :
    a.Follows c :=
  ⟨h2.1.trans h1.1, fun h => h2.2 (h1.2 h)⟩

theorem DoBytes_follows (sw : StateWrapper) (data : List Nat) :
    sw.Follows (sw.DoBytes data).2 := by
  refine ⟨StateWrapper.DoBytes_mode sw data, fun he => ?_⟩
  rw [StateWrapper.DoBytes_error sw data he]
  exact he

theorem DoString_follows (sw : StateWrapper) (s : List Nat) :
    sw.Follows (sw.DoString s).2 := by
  unfold StateWrapper.DoString
  exact (DoBytes_follows sw _).trans (DoBytes_follows _ _)

theorem DoMarker_follows (sw : StateWrapper) (marker : String) :
    sw.Follows (sw.DoMarker marker).2 := by
  have h := DoString_follows sw (markerBytes marker)
  unfold StateWrapper.DoMarker
  simp only
  split
  · exact h
  · split <;> exact h

theorem SkipBytes_follows (sw : StateWrapper) (count : Nat) :
    sw.Follows (sw.SkipBytes count) := by
  unfold StateWrapper.Follows StateWrapper.SkipBytes StateWrapper.SeekRelative
  cases hm : sw.mode
  · cases he : sw.error
    · refine ⟨?_, fun h => by simp at h⟩
      simp only [Bool.false_eq_true, if_false]
      split <;> split <;> simp [hm]
    · simp [hm, he]
  · simp

theorem doField_follows {σ : Type} (f : Field σ) (st : σ) (sw : StateWrapper) :
    sw.Follows (doField f st sw).2 := by
  have h := DoBytes_follows sw (f.enc st)
  unfold doField
  cases hm : sw.mode <;> exact h

theorem doFields_follows {σ : Type} (fs : List (Field σ)) (st : σ) (sw : StateWrapper) :
    sw.Follows (doFields fs st sw).2 := by
  induction fs generalizing st sw with
  | nil => exact StateWrapper.Follows.same sw
  | cons f fs ih => exact (doField_follows f st sw).trans (ih _ _)

theorem doArray_follows {α : Type} (body : α → StateWrapper → α × StateWrapper)
    (hb : ∀ (a : α) (sw : StateWrapper), sw.Follows (body a sw).2) (as : List α) (sw : StateWrapper) :
    sw.Follows (doArray body as sw).2 := by
  induction as generalizing sw with
  | nil => exact StateWrapper.Follows.same sw
  | cons a as ih => exact (hb a sw).trans (ih _)

theorem DoEndpointState_follows (ep : USBEndpoint) (sw : StateWrapper) :
    sw.Follows (DoEndpointState ep sw).2 := by
  have h := doFields_follows endpointFields ep sw
  unfold DoEndpointState
  simp only
  split <;> exact h

theorem DoOHCIState_follows (st : USBState) (sw : StateWrapper) :
    sw.Follows (DoOHCIState st sw).2 := by
  have h := DoMarker_follows sw "USBOHCI"
  unfold DoOHCIState
  simp only
  split
  · exact h
  · exact h.trans (doFields_follows _ _ _)

theorem DoDeviceState_follows (env : Env) (dev : USBDevice) (sw : StateWrapper) :
    sw.Follows (DoDeviceState env dev sw).2 := by
  have h := DoMarker_follows sw "USBDevice"
  unfold DoDeviceState
  simp only
  split
  · exact h
  · exact h.trans ((doFields_follows _ _ _).trans ((DoBytes_follows _ _).trans
      ((DoEndpointState_follows _ _).trans ((doArray_follows _ DoEndpointState_follows _ _).trans
        (doArray_follows _ DoEndpointState_follows _ _)))))

theorem PadDevice_Freeze_follows (p : PadState) (sw : StateWrapper) :
    sw.Follows (PadDevice_Freeze p sw).2.2 := by
  have h := DoMarker_follows sw "PadDevice"
  unfold PadDevice_Freeze
  simp only
  split
  · exact h
  · exact h.trans (doFields_follows _ _ _)

theorem GunCon2Device_Freeze_follows (g : GunCon2State) (sw : StateWrapper) :
    sw.Follows (GunCon2Device_Freeze g sw).2.2 := by
  have h := DoMarker_follows sw "GunCon2Device"
  unfold GunCon2Device_Freeze
  simp only
  split
  · exact h
  · exact h.trans ((doFields_follows _ _ _).trans (doFields_follows _ _ _))

theorem Freeze_follows (proxy : DeviceProxy) (dev : USBDevice) (sw : StateWrapper) :
    sw.Follows (proxy.Freeze dev sw).2.2 := by
  unfold DeviceProxy.Freeze
  split
  · exact PadDevice_Freeze_follows _ _
  · exact GunCon2Device_Freeze_follows _ _
  · exact StateWrapper.Follows.same sw

theorem DoPacketState_follows (st : USBState) (sw : StateWrapper) (valid : PortArr Bool) :
    sw.Follows (DoPacketState st sw valid).2 := by
  have h := DoMarker_follows sw "USBPacket"
  unfold DoPacketState
  simp only
  split
  · exact h
  · split <;> exact h.trans (doFields_follows _ _ _)

theorem loadPort_follows (env : Env) (x : FreezeLoop) (port : Nat) :
    x.sw.Follows (loadPort env x port).sw := by
  have h := doFields_follows [devtypeField, devsubtypeField, sizeField] (⟨0, 0, 0⟩ : PortHeader)
    x.sw
  unfold loadPort
  simp only
  split
  · exact h.trans (SkipBytes_follows _ _)
  · split
    · exact h.trans (SkipBytes_follows _ _)
    · rename_i dev hdev
      have h2 := h.trans (DoDeviceState_follows env dev _)
      split
      · split
        · exact h2.trans (Freeze_follows _ _ _)
        · exact h2
      · split
        · exact h2.trans (Freeze_follows _ _ _)
        · exact h2

/-! ## The packet of a port that was not restored -/

theorem USBfreezeLoad_eq (env : Env) (L : USBState) (data : freezeData)
    (hm : ((⟨Mode.Read, fit data.size data.data, 0, false⟩ : StateWrapper).DoMarker "USB").1
      = true) :
    USBfreezeLoad env L data
      = if (DoPacketState (loadAfterPorts env L data).st (loadAfterPorts env L data).sw
            (loadAfterPorts env L data).valid_devices).2.HasError = true
        then (0, USBreset env (DoPacketState (loadAfterPorts env L data).st
            (loadAfterPorts env L data).sw (loadAfterPorts env L data).valid_devices).1)
        else (0, (DoPacketState (loadAfterPorts env L data).st
            (loadAfterPorts env L data).sw (loadAfterPorts env L data).valid_devices).1) := by
  unfold USBfreezeLoad
  simp only [hm, Bool.not_true, Bool.false_eq_true, if_false]
  rfl

theorem loadHead_follows (L : USBState) (data : freezeData) :
    (⟨Mode.Read, fit data.size data.data, 0, false⟩ : StateWrapper).Follows
      (loadHead L data).sw :=
  (DoMarker_follows _ "USB").trans (DoOHCIState_follows _ _)

theorem loadAfterPorts_follows (env : Env) (L : USBState) (data : freezeData) :
    (loadHead L data).sw.Follows (loadAfterPorts env L data).sw :=
  (loadPort_follows env _ 0).trans (loadPort_follows env _ 1)

theorem DoPacketState_readAt (x : FreezeLoop) (hmode : x.sw.mode = Mode.Read)
    (hpm : (x.sw.DoMarker "USBPacket").1 = true) :
    DoPacketState x.st x.sw x.valid_devices
      = (resolvePacket x.st (packetReadAt x).1.1 (packetReadAt x).1.2 x.valid_devices,
          (packetReadAt x).2) := by
  unfold DoPacketState packetReadAt
  simp [hpm, StateWrapper.IsWriting, StateWrapper.IsReading, hmode]

theorem loadPort_valid (env : Env) (x : FreezeLoop) (port : Nat) :
    (loadPort env x port).valid_devices = x.valid_devices
    ∨ (loadPort env x port).valid_devices = x.valid_devices.set port true := by
  unfold loadPort
  simp only
  split
  · exact Or.inl rfl
  · split
    · exact Or.inl rfl
    · split
      · exact Or.inl rfl
      · exact Or.inr rfl

theorem loadPort_not_restored (env : Env) (x : FreezeLoop) (port : Nat)
    (h : NotRestored env x port) : (loadPort env x port).valid_devices = x.valid_devices := by
  unfold loadPort
  simp only
  split
  · rfl
  · rename_i hc
    split
    · rfl
    · rename_i dev hdev
      split
      · rfl
      · rename_i hf
        exfalso
        rcases h with h | h | ⟨d, hd, h⟩
        · exact hc h
        · rw [EmptyPort, hdev] at h
          cases h
        · rw [hdev] at hd
          cases hd
          apply hf
          unfold deserializeAt headerAt at h
          rcases h with h | h
          · simp only [h, Bool.not_false, Bool.true_or]
          · simp only [h, Bool.or_true]

theorem resolvePacket_cancel (st : USBState) (p : USBPacket) (l : PacketLocals)
    (v : PortArr Bool)
    (h : l.dev_index < 0 ∨ l.ep_index < 0 ∨ validAt v l.dev_index = some false) :
    resolvePacket st p l v
      = { st with s_qemu_ohci := { st.s_qemu_ohci with
            usb_packet := { p with ep := none, buffer_ptr := none, buffer_size := 0 } } } := by
  unfold resolvePacket
  have hc : ¬ (0 ≤ l.dev_index ∧ 0 ≤ l.ep_index ∧ validAt v l.dev_index = some true) := by
    rintro ⟨h1, h2, h3⟩
    rcases h with h | h | h
    · omega
    · omega
    · rw [h3] at h
      cases h
  have hf : ¬ (0 ≤ l.dev_index ∧ 0 ≤ l.ep_index ∧ validAt v l.dev_index = none) := by
    rintro ⟨h1, h2, h3⟩
    rcases h with h | h | h
    · omega
    · omega
    · rw [h3] at h
      cases h
  simp only [hc, hf, if_false]

theorem packetReadAt_saved (x : FreezeLoop) (S : USBState) (valid : PortArr Bool)
    (tl : List Nat) (hw : S.s_qemu_ohci.usb_packet.WF)
    (h : x.sw.Readable (packetBytes S valid) tl) :
    (x.sw.DoMarker "USBPacket").1 = true
    ∧ (packetReadAt x).1.2 = packetLocals S valid
    ∧ (packetReadAt x).2.HasError = false := by
  simp only [packetBytes] at h
  unfold packetReadAt
  rw [StateWrapper.DoMarker_read _ _ _ good_USBPacket h.left]
  rw [doFields_read _ _ (S.s_qemu_ohci.usb_packet, packetLocals S valid) _ tl h.adv
    (by simp [agree, packetFields, Field.u, Field.s, Field.b, encB])]
  rw [decAll_packet _ _ _ _ hw (packetLocals_range _ _).1 (packetLocals_range _ _).2]
  exact ⟨rfl, rfl, by simp [StateWrapper.HasError, StateWrapper.adv, h.2.1]⟩

theorem loadAfterPorts_mismatch (env : Env) (hr : env.Reapply) (S L : USBState) (hS : S.WF)
    (hmis : (L.EmuConfig.get 0).DeviceType ≠ (S.EmuConfig.get 0).DeviceType
      ∨ (L.EmuConfig.get 0).DeviceSubtype ≠ (S.EmuConfig.get 0).DeviceSubtype)
    (hcfg : L.EmuConfig.get 1 = S.EmuConfig.get 1)
    (hproxy : L.s_usb_device_proxy.get 1 = S.s_usb_device_proxy.get 1)
    (hdev : match L.s_usb_device.get 1, S.s_usb_device.get 1 with
      | none, none => True
      | some d, some s => SameShape d s ∧ PeriphShape d.periph s.periph
      | _, _ => False)
    (hwire : getPortDev L.s_qemu_ohci 0 = (L.s_usb_device.get 0).map (fun d => d.ptr))
    (hrh : L.s_qemu_ohci.rhport_ctrl.length = OHCI_MAX_PORTS)
    (hbuf : L.s_qemu_ohci.usb_buf.length = S.s_qemu_ohci.usb_buf.length)
    (hb0 : (blockBytes (S.s_usb_device.get 0)).length < 2 ^ 31)
    (hb1 : (blockBytes (S.s_usb_device.get 1)).length < 2 ^ 31) (data : freezeData)
    (tl : List Nat) (hdata : fit data.size data.data = saveBytes S ++ tl) :
    ((⟨Mode.Read, fit data.size data.data, 0, false⟩ : StateWrapper).DoMarker "USB").1 = true
    ∧ Skipped (loadHead L data) 0
    ∧ (loadAfterPorts env L data).sw.Readable (packetBytes S (validOf S)) tl := by
  have hR : (⟨Mode.Read, fit data.size data.data, 0, false⟩ : StateWrapper).Readable
      (saveBytes S) tl := ⟨rfl, rfl, by simp [StateWrapper.rest, hdata], by simp⟩
  obtain ⟨sw, hsw⟩ : ∃ sw, sw = (⟨Mode.Read, fit data.size data.data, 0, false⟩ : StateWrapper) :=
    ⟨_, rfl⟩
  rw [← hsw] at hR
  simp only [saveBytes, List.append_assoc] at hR
  have h1 := hR.left
  have h2 := hR.adv
  have h3 := h2.adv
  have h4 := h3.adv
  have h5 := h4.adv
  have e0 := StateWrapper.DoMarker_read _ _ _ good_USB h1
  have e1 := DoOHCIState_read L S _ _ h2.left hS.regs hrh hbuf
  have h3l := h3.left
  rw [portBytes_eq] at h3l
  have hmis2 : ((ohciLoaded L S).EmuConfig.get 0).DeviceType ≠ (S.EmuConfig.get 0).DeviceType
      ∨ ((ohciLoaded L S).EmuConfig.get 0).DeviceSubtype ≠ (S.EmuConfig.get 0).DeviceSubtype := by
    simpa [ohciLoaded] using hmis
  have e2 := loadPort_skip env
    ⟨ohciLoaded L S, (sw.adv (markerEnc "USB").length).adv (ohciBytes S).length, ⟨false, false⟩⟩
    0 _ _ _ _ hS.port0.devtype hS.port0.devsubtype hb0
    (by
      rcases hmis2 with hm | hm
      · exact Or.inl hm
      · exact Or.inr (Or.inl hm)) h3l
  simp only at e2
  have hfr := skipState_frame env (ohciLoaded L S) (S.EmuConfig.get 0).DeviceType
    (S.EmuConfig.get 0).DeviceSubtype (by simpa [ohciLoaded] using hwire)
  obtain ⟨tr1, e3⟩ := loadPort_compat env hr
    (FreezeLoop.mk
      (skipState env (ohciLoaded L S) 0 (S.EmuConfig.get 0).DeviceType
        (S.EmuConfig.get 0).DeviceSubtype)
      (((sw.adv (markerEnc "USB").length).adv (ohciBytes S).length).adv
        (portRecord (S.EmuConfig.get 0).DeviceType (S.EmuConfig.get 0).DeviceSubtype
          (blockBytes (S.s_usb_device.get 0))).length)
      ⟨false, false⟩) S 1 _ hS.port1
    (by simp only [hfr.1]; simpa [ohciLoaded] using hcfg)
    (by simp only [hfr.2.1]; simpa [ohciLoaded] using hproxy)
    (by simp only [hfr.2.2]; simpa [ohciLoaded] using hdev) hb1
    (by rw [← portBytes_eq]; exact h4.left)
  have hh : ((sw.adv (markerEnc "USB").length).adv (ohciBytes S).length).Readable
      (encS 4 (S.EmuConfig.get 0).DeviceType ++ encU 4 (S.EmuConfig.get 0).DeviceSubtype
        ++ encU 4 (blockBytes (S.s_usb_device.get 0)).length)
      (blockBytes (S.s_usb_device.get 0) ++ (portBytes S 1 ++ (packetBytes S (validOf S) ++ tl))) := by
    obtain ⟨a, b, c, e⟩ := h3
    exact ⟨a, b, by rw [c]; simp [portBytes, List.append_assoc], e⟩
  have hhdr := portHeader_read _ _ _ _ _ hS.port0.devtype hS.port0.devsubtype
    (by unfold InU; omega) hh
  refine ⟨by rw [← hsw, e0], ?_, ?_⟩
  · unfold Skipped headerAt loadHead
    simp only [← hsw, e0, e1, hhdr]
    rcases hmis2 with hm | hm
    · exact Or.inr (Or.inl hm)
    · exact Or.inr (Or.inr (Or.inl hm))
  · unfold loadAfterPorts loadHead
    simp only [← hsw, e0, e1, e2, e3]
    rw [← portBytes_eq]
    exact h5

theorem samplePacketOnPad_wf : samplePacketOnPad.WF := by
  refine ⟨⟨by decide, by decide, by decide, ?_⟩, ?_, ?_, ?_⟩
  · constructor <;> decide
  · refine ⟨by decide, by decide, ?_⟩
    intro d hd
    have : d = sampleDevice 1 (Peripheral.pad ⟨77, [1, 2, 3]⟩) := by
      simpa [samplePacketOnPad, sampleState, PortArr.get] using hd.symm
    subst this
    refine ⟨?_, by simp only [sampleDevice, Peripheral.WF]; decide, DeviceProxy.PadDevice, rfl,
      trivial⟩
    constructor <;> decide
  · refine ⟨by decide, by decide, ?_⟩
    intro d hd
    have : d = sampleDevice 2 (Peripheral.guncon2 sampleGun) := by
      simpa [samplePacketOnPad, sampleState, PortArr.get] using hd.symm
    subst this
    refine ⟨?_, by simp only [sampleDevice, Peripheral.WF, sampleGun]; decide,
      DeviceProxy.GunCon2Device, rfl, trivial⟩
    constructor <;> decide
  · constructor <;> decide

set_option maxRecDepth 100000 in
theorem samplePacketOnPad_size : (saveBytes samplePacketOnPad).length ≤ 1000 := by
  decide

theorem samplePacketOnPad_load :
    ((⟨Mode.Read, fit samplePacketOnPadData.size samplePacketOnPadData.data, 0, false⟩ :
        StateWrapper).DoMarker "USB").1 = true
    ∧ Skipped (loadHead sampleMismatch samplePacketOnPadData) 0
    ∧ (loadAfterPorts sampleEnv sampleMismatch samplePacketOnPadData).sw.Readable
        (packetBytes samplePacketOnPad (validOf samplePacketOnPad)) [] := by
  have hsz := samplePacketOnPad_size
  have hb0 := blockBytes_le samplePacketOnPad 0 (Or.inl rfl)
  have hb1 := blockBytes_le samplePacketOnPad 1 (Or.inr rfl)
  exact loadAfterPorts_mismatch sampleEnv sampleEnv_reapply samplePacketOnPad sampleMismatch
    samplePacketOnPad_wf (Or.inl (by decide)) rfl rfl ⟨⟨rfl, rfl, rfl, rfl, rfl⟩, trivial⟩
    (by decide) (by decide) rfl (by omega) (by omega) samplePacketOnPadData []
    (by simp only [samplePacketOnPadData, fit_self, List.append_nil])

/-- Where the packet is cancelled (the part of C5 that holds): in `Load` mode, when the
subsystem marker and the packet record are read and
the recorded port index or endpoint index of the packet is negative, or the recorded
port is a port the loop did not restore (its block was skipped for a mismatch, the
port is empty, or its device was destroyed after a failed deserialize), `USBfreeze`
returns 0 with a packet that has no endpoint, a null buffer pointer and buffer size
0, and the devices with their endpoint queues are those the port loop left: the
packet is put on no queue. -/
theorem load_packet_cancelled (env : Env) (L : USBState) (data : freezeData)
    (hm : ((⟨Mode.Read, fit data.size data.data, 0, false⟩ : StateWrapper).DoMarker "USB").1
      = true)
    (hpm : ((loadAfterPorts env L data).sw.DoMarker "USBPacket").1 = true)
    (hok : (packetReadAt (loadAfterPorts env L data)).2.HasError = false)
    (hbad : (packetReadAt (loadAfterPorts env L data)).1.2.dev_index < 0
      ∨ (packetReadAt (loadAfterPorts env L data)).1.2.ep_index < 0
      ∨ ((packetReadAt (loadAfterPorts env L data)).1.2.dev_index = 0
          ∧ NotRestored env (loadHead L data) 0)
      ∨ ((packetReadAt (loadAfterPorts env L data)).1.2.dev_index = 1
          ∧ NotRestored env (loadPort env (loadHead L data) 0) 1)) :
    (USBfreeze env FreezeAction.Load L data).1 = 0
    ∧ (USBfreeze env FreezeAction.Load L data).2.1.s_qemu_ohci.usb_packet.ep = none
    ∧ (USBfreeze env FreezeAction.Load L data).2.1.s_qemu_ohci.usb_packet.buffer_ptr = none
    ∧ (USBfreeze env FreezeAction.Load L data).2.1.s_qemu_ohci.usb_packet.buffer_size = 0
    ∧ (USBfreeze env FreezeAction.Load L data).2.1.s_usb_device
        = (loadAfterPorts env L data).st.s_usb_device := by
  have hmode : (loadAfterPorts env L data).sw.mode = Mode.Read :=
    ((loadHead_follows L data).trans (loadAfterPorts_follows env L data)).1
  have hcancel : (packetReadAt (loadAfterPorts env L data)).1.2.dev_index < 0
      ∨ (packetReadAt (loadAfterPorts env L data)).1.2.ep_index < 0
      ∨ validAt (loadAfterPorts env L data).valid_devices
          (packetReadAt (loadAfterPorts env L data)).1.2.dev_index = some false := by
    rcases hbad with h | h | ⟨hi, hn⟩ | ⟨hi, hn⟩
    · exact Or.inl h
    · exact Or.inr (Or.inl h)
    · refine Or.inr (Or.inr ?_)
      have h0 := loadPort_not_restored env (loadHead L data) 0 hn
      have h1 := loadPort_valid env (loadPort env (loadHead L data) 0) 1
      rw [h0] at h1
      rw [hi]
      unfold loadAfterPorts
      rcases h1 with h1 | h1 <;> rw [h1] <;> rfl
    · refine Or.inr (Or.inr ?_)
      have h1 := loadPort_not_restored env (loadPort env (loadHead L data) 0) 1 hn
      have h0 := loadPort_valid env (loadHead L data) 0
      rw [hi]
      unfold loadAfterPorts
      rw [h1]
      rcases h0 with h0 | h0 <;> rw [h0] <;> rfl
  have hfin : USBfreeze env FreezeAction.Load L data
      = (0, resolvePacket (loadAfterPorts env L data).st
          (packetReadAt (loadAfterPorts env L data)).1.1
          (packetReadAt (loadAfterPorts env L data)).1.2
          (loadAfterPorts env L data).valid_devices, data) := by
    unfold USBfreeze
    simp only [USBfreezeLoad_eq env L data hm, DoPacketState_readAt _ hmode hpm, hok,
      Bool.false_eq_true, if_false]
  rw [hfin, resolvePacket_cancel _ _ _ _ hcancel]
  exact ⟨rfl, rfl, rfl, rfl, rfl⟩

/-- The packet is cancelled on the stream saved from the sample state with the packet on
the pad of guest port 0, loaded into the sample state with port 0 reconfigured. -/
theorem load_packet_cancelled_witness :
    (USBfreeze sampleEnv FreezeAction.Load sampleMismatch
      samplePacketOnPadData).2.1.s_qemu_ohci.usb_packet.ep = none :=
  (load_packet_cancelled sampleEnv sampleMismatch samplePacketOnPadData
    samplePacketOnPad_load.1
    (packetReadAt_saved _ samplePacketOnPad _ [] samplePacketOnPad_wf.packet
      samplePacketOnPad_load.2.2).1
    (packetReadAt_saved _ samplePacketOnPad _ [] samplePacketOnPad_wf.packet
      samplePacketOnPad_load.2.2).2.2
    (Or.inr (Or.inr (Or.inl ⟨by
      rw [(packetReadAt_saved _ samplePacketOnPad _ [] samplePacketOnPad_wf.packet
        samplePacketOnPad_load.2.2).2.1]
      exact (packetLocals_found samplePacketOnPad (validOf samplePacketOnPad) 0 samplePad
        EpSlot.ctl (Or.inl rfl) rfl rfl rfl (fun h => absurd h (by decide))).1,
      Or.inl samplePacketOnPad_load.2.1⟩)))).2.1

/-! ## A load that cannot read the stream -/

theorem USBreset_regs (env : Env) (st : USBState) :
    (USBreset env st).s_usb_clocks = 0 ∧ (USBreset env st).s_usb_remaining = 0
    ∧ (USBreset env st).g_usb_last_cycle = 0
    ∧ (USBreset env st).s_qemu_ohci
        = keepWiring st.s_qemu_ohci (env.ohci_hard_reset st.s_qemu_ohci st.s_usb_device).1
    ∧ (USBreset env st).trace = st.trace ++ [Event.hard_reset] :=
  ⟨rfl, rfl, rfl, rfl, rfl⟩

/-- Where the load ends in `USBreset` (the part of C6 that holds): in `Load` mode, when
the leading subsystem marker is not read, or the stream reports an error while the
controller record (its marker or one of its fields) is read, or the stream reports an
error while the packet record (its marker or one of its fields) is read, `USBfreeze`
returns 0 and the state it leaves is the one `USBreset` produces: the cycle clock, the
remaining-cycle accumulator and the last-cycle value are 0 and the controller is the one
`ohci_hard_reset` returns. A marker that is read without a stream error and is not the
expected one is not among these cases. -/
theorem load_unreadable_resets (env : Env) (L : USBState) (data : freezeData)
    (h : ((⟨Mode.Read, fit data.size data.data, 0, false⟩ : StateWrapper).DoMarker "USB").1
        = false
      ∨ (loadHead L data).sw.HasError = true
      ∨ (DoPacketState (loadAfterPorts env L data).st (loadAfterPorts env L data).sw
          (loadAfterPorts env L data).valid_devices).2.HasError = true) :
    (USBfreeze env FreezeAction.Load L data).1 = 0
    ∧ (∃ st1 : USBState, (USBfreeze env FreezeAction.Load L data).2.1 = USBreset env st1
        ∧ (USBfreeze env FreezeAction.Load L data).2.1.s_qemu_ohci
            = keepWiring st1.s_qemu_ohci
                (env.ohci_hard_reset st1.s_qemu_ohci st1.s_usb_device).1
        ∧ (USBfreeze env FreezeAction.Load L data).2.1.trace = st1.trace ++ [Event.hard_reset])
    ∧ (USBfreeze env FreezeAction.Load L data).2.1.s_usb_clocks = 0
    ∧ (USBfreeze env FreezeAction.Load L data).2.1.s_usb_remaining = 0
    ∧ (USBfreeze env FreezeAction.Load L data).2.1.g_usb_last_cycle = 0 := by
  have key : ∃ st1 : USBState, USBfreezeLoad env L data = (0, USBreset env st1) := by
    by_cases hm : ((⟨Mode.Read, fit data.size data.data, 0, false⟩ :
        StateWrapper).DoMarker "USB").1 = true
    · have herr : (DoPacketState (loadAfterPorts env L data).st (loadAfterPorts env L data).sw
          (loadAfterPorts env L data).valid_devices).2.HasError = true := by
        rcases h with h | h | h
        · rw [hm] at h
          cases h
        · exact (DoPacketState_follows _ _ _).2 ((loadAfterPorts_follows env L data).2 h)
        · exact h
      exact ⟨_, by rw [USBfreezeLoad_eq env L data hm, if_pos herr]⟩
    · refine ⟨L, ?_⟩
      unfold USBfreezeLoad
      simp only [Bool.not_eq_true] at hm
      simp only [hm, Bool.not_false, if_true]
  obtain ⟨st1, hst⟩ := key
  have hfin : USBfreeze env FreezeAction.Load L data = (0, USBreset env st1, data) := by
    unfold USBfreeze
    simp only [hst]
  rw [hfin]
  exact ⟨rfl, ⟨st1, rfl, rfl, rfl⟩, rfl, rfl, rfl⟩

/-- A load from an empty buffer, whose subsystem marker cannot be read, ends in
`USBreset`. -/
theorem load_unreadable_resets_witness :
    (USBfreeze sampleEnv FreezeAction.Load sampleState ⟨0, []⟩).1 = 0
    ∧ (USBfreeze sampleEnv FreezeAction.Load sampleState ⟨0, []⟩).2.1.s_usb_clocks = 0 :=
  ⟨(load_unreadable_resets sampleEnv sampleState ⟨0, []⟩ (Or.inl (by decide))).1,
    (load_unreadable_resets sampleEnv sampleState ⟨0, []⟩ (Or.inl (by decide))).2.2.1⟩

/-! ## `USBasync` -/

theorem wrapS64_id (v : Int) (h0 : -2 ^ 63 ≤ v) (h1 : v < 2 ^ 63) : wrapS64 v = v := by
  unfold wrapS64
  omega

theorem toU64_id (v : Int) (h0 : 0 ≤ v) (h1 : v < 2 ^ 64) : toU64 v = v.toNat := by
  unfold toU64
  rw [Int.emod_eq_of_lt h0 h1]

theorem USBasync_eq (env : Env) (st : USBState) (c : Nat) :
    USBasync env st c
      = postAdjust (frames env { st with
          s_usb_remaining := wrapS64 (st.s_usb_remaining + c)
          s_usb_clocks := wrapS64 (st.s_usb_clocks + wrapS64 (st.s_usb_remaining + c)) }) := by
  unfold USBasync frames postAdjust
  simp only
  split
  · rfl
  · rename_i h
    simp only [h, and_false, if_false]

theorem frameLoop_succ (env : Env) (fuel : Nat) (st : USBState) :
    frameLoop env (fuel + 1) st
      = if toU64 st.s_usb_remaining ≥ st.s_qemu_ohci.eof_timer then
          (if (frameStep env st).s_qemu_ohci.eof_timer = 0 then frameStep env st
            else frameLoop env fuel (frameStep env st))
        else st := rfl

theorem frameStep_timed (env : Env) (hb : env.FrameTime) (st : USBState) (ht : Timed st)
    (hge : toU64 st.s_usb_remaining ≥ st.s_qemu_ohci.eof_timer) :
    Timed (frameStep env st)
    ∧ (frameStep env st).s_usb_remaining = st.s_usb_remaining - st.s_qemu_ohci.eof_timer := by
  obtain ⟨h0, h1, h2⟩ := ht
  rw [toU64_id _ h0 (by omega)] at hge
  have hr : wrapS64 (st.s_usb_remaining - st.s_qemu_ohci.eof_timer)
      = st.s_usb_remaining - st.s_qemu_ohci.eof_timer := wrapS64_id _ (by omega) (by omega)
  refine ⟨⟨?_, ?_, hb.bound _⟩, hr⟩
  · show 0 ≤ wrapS64 _
    rw [hr]; omega
  · show wrapS64 _ < 2 ^ 63
    rw [hr]; omega

theorem frameLoop_fuel (env : Env) (hb : env.FrameTime) (f1 : Nat) :
    ∀ (f2 : Nat) (st : USBState), Timed st → 0 < st.s_qemu_ohci.eof_timer →
      st.s_usb_remaining.toNat < f1 → st.s_usb_remaining.toNat < f2 →
      frameLoop env f1 st = frameLoop env f2 st := by
  induction f1 with
  | zero => intro f2 st _ _ h; omega
  | succ n ih =>
    intro f2 st ht hpos h1 h2
    obtain ⟨m, rfl⟩ : ∃ m, f2 = m + 1 := ⟨f2 - 1, by omega⟩
    rw [frameLoop_succ, frameLoop_succ]
    split
    · rename_i hge
      obtain ⟨ht1, hr1⟩ := frameStep_timed env hb st ht hge
      split
      · rfl
      · rename_i hne
        have hlt : (frameStep env st).s_usb_remaining.toNat < st.s_usb_remaining.toNat := by
          rw [hr1]
          have := ht.nonneg
          rw [toU64_id _ ht.nonneg (by have := ht.below; omega)] at hge
          omega
        exact ih m _ ht1 (by omega) (by omega) (by omega)
    · rfl

theorem frames_stopped (env : Env) (st : USBState) (h : st.s_qemu_ohci.eof_timer = 0) :
    frames env st = st := by
  unfold frames
  simp [h]

theorem frames_short (env : Env) (st : USBState) (ht : Timed st)
    (h : st.s_usb_remaining.toNat < st.s_qemu_ohci.eof_timer) : frames env st = st := by
  unfold frames
  split
  · rw [frameLoop_succ, toU64_id _ ht.nonneg (by have := ht.below; omega)]
    rw [if_neg (by omega)]
  · rfl

theorem frames_step (env : Env) (hb : env.FrameTime) (st : USBState) (ht : Timed st)
    (hpos : 0 < st.s_qemu_ohci.eof_timer)
    (h : st.s_qemu_ohci.eof_timer ≤ st.s_usb_remaining.toNat) :
    frames env st
      = if (frameStep env st).s_qemu_ohci.eof_timer = 0 then frameStep env st
        else frames env (frameStep env st) := by
  have hu : toU64 st.s_usb_remaining = st.s_usb_remaining.toNat :=
    toU64_id _ ht.nonneg (by have := ht.below; omega)
  have hge : toU64 st.s_usb_remaining ≥ st.s_qemu_ohci.eof_timer := by rw [hu]; exact h
  obtain ⟨ht1, hr1⟩ := frameStep_timed env hb st ht hge
  have hu1 : toU64 (frameStep env st).s_usb_remaining = (frameStep env st).s_usb_remaining.toNat :=
    toU64_id _ ht1.nonneg (by have := ht1.below; omega)
  unfold frames
  rw [if_pos hpos, frameLoop_succ, if_pos hge]
  split
  · rfl
  · rename_i hne
    rw [if_pos (by omega)]
    have := ht.nonneg
    exact frameLoop_fuel env hb _ _ _ ht1 (by omega) (by rw [hu, hr1]; omega) (by rw [hu1]; omega)

theorem addCycles_timed (st : USBState) (c : Nat) (ht : Timed st)
    (h : st.s_usb_remaining + c < 2 ^ 63) : Timed (addCycles st c) := by
  obtain ⟨h0, h1, h2⟩ := ht
  exact ⟨by show 0 ≤ st.s_usb_remaining + c; omega, h, h2⟩

theorem frameStep_addCycles (env : Env) (st : USBState) (c : Nat) (ht : Timed st)
    (h : st.s_usb_remaining + c < 2 ^ 63) :
    frameStep env (addCycles st c) = addCycles (frameStep env st) c := by
  obtain ⟨h0, h1, h2⟩ := ht
  unfold frameStep addCycles
  simp only
  rw [wrapS64_id _ (by omega) (by omega), wrapS64_id _ (by omega) (by omega)]
  congr 1
  omega

theorem frames_timed (env : Env) (hb : env.FrameTime) (n : Nat) :
    ∀ st : USBState, Timed st → st.s_usb_remaining.toNat < n →
      Timed (frames env st) ∧ (frames env st).s_usb_remaining ≤ st.s_usb_remaining
      ∧ ((frames env st).s_qemu_ohci.eof_timer = 0
          ∨ (frames env st).s_usb_remaining.toNat < (frames env st).s_qemu_ohci.eof_timer) := by
  induction n with
  | zero => intro st _ h; omega
  | succ n ih =>
    intro st ht hn
    by_cases hpos : 0 < st.s_qemu_ohci.eof_timer
    · by_cases hge : st.s_qemu_ohci.eof_timer ≤ st.s_usb_remaining.toNat
      · have hu : toU64 st.s_usb_remaining = st.s_usb_remaining.toNat :=
          toU64_id _ ht.nonneg (by have := ht.below; omega)
        obtain ⟨ht1, hr1⟩ := frameStep_timed env hb st ht (by rw [hu]; exact hge)
        rw [frames_step env hb st ht hpos hge]
        have := ht.nonneg
        split
        · rename_i hz
          exact ⟨ht1, by rw [hr1]; omega, Or.inl hz⟩
        · obtain ⟨a, b, c⟩ := ih _ ht1 (by rw [hr1]; omega)
          exact ⟨a, by rw [hr1] at b; omega, c⟩
      · rw [frames_short env st ht (by omega)]
        exact ⟨ht, le_refl _, Or.inr (by omega)⟩
    · rw [frames_stopped env st (by omega)]
      exact ⟨ht, le_refl _, Or.inl (by omega)⟩

theorem frames_addCycles (env : Env) (hb : env.FrameTime) (n : Nat) :
    ∀ (st : USBState) (c : Nat), Timed st → st.s_usb_remaining.toNat < n →
      st.s_usb_remaining + c < 2 ^ 63 →
      frames env (addCycles st c) = frames env (addCycles (frames env st) c) := by
  induction n with
  | zero => intro st _ _ h; omega
  | succ n ih =>
    intro st c ht hn hc
    by_cases hpos : 0 < st.s_qemu_ohci.eof_timer
    · by_cases hge : st.s_qemu_ohci.eof_timer ≤ st.s_usb_remaining.toNat
      · have hu : toU64 st.s_usb_remaining = st.s_usb_remaining.toNat :=
          toU64_id _ ht.nonneg (by have := ht.below; omega)
        obtain ⟨ht1, hr1⟩ := frameStep_timed env hb st ht (by rw [hu]; exact hge)
        have hta := addCycles_timed st c ht hc
        have h0 := ht.nonneg
        rw [frames_step env hb (addCycles st c) hta hpos
          (by show st.s_qemu_ohci.eof_timer ≤ (st.s_usb_remaining + c).toNat; omega)]
        rw [frameStep_addCycles env st c ht hc, frames_step env hb st ht hpos hge]
        by_cases hz : (frameStep env st).s_qemu_ohci.eof_timer = 0
        · have hz2 : (addCycles (frameStep env st) c).s_qemu_ohci.eof_timer = 0 := hz
          rw [if_pos hz2, if_pos hz, frames_stopped env _ hz2]
        · have hz2 : ¬ (addCycles (frameStep env st) c).s_qemu_ohci.eof_timer = 0 := hz
          rw [if_neg hz2, if_neg hz]
          exact ih _ c ht1 (by rw [hr1]; omega) (by rw [hr1]; omega)
      · rw [frames_short env st ht (by omega)]
    · rw [frames_stopped env st (by omega)]

theorem postAdjust_eq (st : USBState) (ht : Timed st) :
    postAdjust st
      = { st with
          s_qemu_ohci := { st.s_qemu_ohci with
            eof_timer := st.s_qemu_ohci.eof_timer
              - min st.s_usb_remaining.toNat st.s_qemu_ohci.eof_timer }
          s_usb_remaining := st.s_usb_remaining
              - (min st.s_usb_remaining.toNat st.s_qemu_ohci.eof_timer : Nat) } := by
  obtain ⟨h0, h1, h2⟩ := ht
  unfold postAdjust
  have hm0 : wrapS64 (st.s_qemu_ohci.eof_timer : Int) = st.s_qemu_ohci.eof_timer :=
    wrapS64_id _ (by omega) (by omega)
  by_cases hc : 0 < st.s_usb_remaining ∧ 0 < st.s_qemu_ohci.eof_timer
  · rw [if_pos hc]
    simp only [hm0]
    by_cases hlt : st.s_usb_remaining < (st.s_qemu_ohci.eof_timer : Int)
    · have hmin : min st.s_usb_remaining.toNat st.s_qemu_ohci.eof_timer
          = st.s_usb_remaining.toNat := by omega
      rw [if_pos hlt, hmin, wrapS64_id _ (by omega) (by omega), toU64_id _ (by omega) (by omega)]
      have e1 : ((st.s_qemu_ohci.eof_timer : Int) - st.s_usb_remaining).toNat
          = st.s_qemu_ohci.eof_timer - st.s_usb_remaining.toNat := by omega
      have e2 : st.s_usb_remaining - st.s_usb_remaining
          = st.s_usb_remaining - (st.s_usb_remaining.toNat : Int) := by omega
      rw [e1, e2]
    · have hmin : min st.s_usb_remaining.toNat st.s_qemu_ohci.eof_timer
          = st.s_qemu_ohci.eof_timer := by omega
      rw [if_neg hlt, hmin, wrapS64_id _ (by omega) (by omega), toU64_id _ (by omega) (by omega)]
      have e1 : ((st.s_qemu_ohci.eof_timer : Int) - st.s_qemu_ohci.eof_timer).toNat
          = st.s_qemu_ohci.eof_timer - st.s_qemu_ohci.eof_timer := by omega
      rw [e1]
  · rw [if_neg hc]
    have hmin : min st.s_usb_remaining.toNat st.s_qemu_ohci.eof_timer = 0 := by omega
    rw [hmin]
    simp

theorem postAdjust_timed (st : USBState) (ht : Timed st) :
    Timed (postAdjust st) ∧ (postAdjust st).s_usb_remaining ≤ st.s_usb_remaining := by
  rw [postAdjust_eq st ht]
  obtain ⟨h0, h1, h2⟩ := ht
  refine ⟨⟨?_, ?_, ?_⟩, ?_⟩
  · show 0 ≤ st.s_usb_remaining - (min st.s_usb_remaining.toNat st.s_qemu_ohci.eof_timer : Nat)
    omega
  · show st.s_usb_remaining - (min st.s_usb_remaining.toNat st.s_qemu_ohci.eof_timer : Nat) < _
    omega
  · show st.s_qemu_ohci.eof_timer - min st.s_usb_remaining.toNat st.s_qemu_ohci.eof_timer < _
    omega
  · show st.s_usb_remaining - (min st.s_usb_remaining.toNat st.s_qemu_ohci.eof_timer : Nat) ≤ _
    omega

theorem postAdjust_id (st : USBState)
    (h : ¬ (0 < st.s_usb_remaining ∧ 0 < st.s_qemu_ohci.eof_timer)) : postAdjust st = st := by
  unfold postAdjust
  rw [if_neg h]

theorem settle_addCycles (env : Env) (hb : env.FrameTime) (s : USBState) (c : Nat)
    (ht : Timed s)
    (hs : s.s_qemu_ohci.eof_timer = 0 ∨ s.s_usb_remaining.toNat < s.s_qemu_ohci.eof_timer)
    (hc : s.s_usb_remaining + c < 2 ^ 63) :
    postAdjust (frames env (addCycles (postAdjust s) c))
      = postAdjust (frames env (addCycles s c)) := by
  by_cases hp : 0 < s.s_usb_remaining ∧ 0 < s.s_qemu_ohci.eof_timer
  swap
  · rw [postAdjust_id s hp]
  obtain ⟨hr, he⟩ := hp
  have hlt : s.s_usb_remaining.toNat < s.s_qemu_ohci.eof_timer := by
    rcases hs with hs | hs
    · omega
    · exact hs
  obtain ⟨h0, h1, h2⟩ := ht
  have ht1 := (postAdjust_timed s ⟨h0, h1, h2⟩).1
  have hmin : min s.s_usb_remaining.toNat s.s_qemu_ohci.eof_timer = s.s_usb_remaining.toNat := by
    omega
  have hpe : (postAdjust s).s_qemu_ohci.eof_timer
      = s.s_qemu_ohci.eof_timer - s.s_usb_remaining.toNat := by
    rw [postAdjust_eq s ⟨h0, h1, h2⟩, hmin]
  have hpr : (postAdjust s).s_usb_remaining = 0 := by
    rw [postAdjust_eq s ⟨h0, h1, h2⟩, hmin]
    show s.s_usb_remaining - (s.s_usb_remaining.toNat : Int) = 0
    omega
  have hta1 : Timed (addCycles (postAdjust s) c) :=
    addCycles_timed _ c ht1 (by rw [hpr]; omega)
  have hta : Timed (addCycles s c) := addCycles_timed _ c ⟨h0, h1, h2⟩ hc
  have hr1 : (addCycles (postAdjust s) c).s_usb_remaining = c := by
    show (postAdjust s).s_usb_remaining + c = c
    rw [hpr]; omega
  have he1 : (addCycles (postAdjust s) c).s_qemu_ohci.eof_timer
      = s.s_qemu_ohci.eof_timer - s.s_usb_remaining.toNat := hpe
  have hr2 : (addCycles s c).s_usb_remaining = s.s_usb_remaining + c := rfl
  have he2 : (addCycles s c).s_qemu_ohci.eof_timer = s.s_qemu_ohci.eof_timer := rfl
  by_cases hge : s.s_qemu_ohci.eof_timer ≤ s.s_usb_remaining.toNat + c
  · have hstep : frameStep env (addCycles (postAdjust s) c) = frameStep env (addCycles s c) := by
      have hw1 : wrapS64 ((addCycles (postAdjust s) c).s_usb_remaining
            - (addCycles (postAdjust s) c).s_qemu_ohci.eof_timer)
          = wrapS64 ((addCycles s c).s_usb_remaining - (addCycles s c).s_qemu_ohci.eof_timer) := by
        rw [hr1, he1, hr2, he2]
        congr 1
        omega
      unfold frameStep
      rw [hw1]
      rw [postAdjust_eq s ⟨h0, h1, h2⟩]
      rfl
    rw [frames_step env hb _ hta1 (by rw [he1]; omega) (by rw [he1, hr1]; omega),
      frames_step env hb _ hta (by rw [he2]; omega) (by rw [he2, hr2]; omega), hstep]
  · rw [frames_short env _ hta1 (by rw [he1, hr1]; omega),
      frames_short env _ hta (by rw [he2, hr2]; omega)]
    rw [postAdjust_eq _ hta1, postAdjust_eq _ hta]
    have hm1 : min (addCycles (postAdjust s) c).s_usb_remaining.toNat
        (addCycles (postAdjust s) c).s_qemu_ohci.eof_timer = c := by
      rw [hr1, he1]; omega
    have hm2 : min (addCycles s c).s_usb_remaining.toNat (addCycles s c).s_qemu_ohci.eof_timer
        = s.s_usb_remaining.toNat + c := by
      rw [hr2, he2]; omega
    rw [hm1, hm2, he1, hr1, he2, hr2, postAdjust_eq s ⟨h0, h1, h2⟩, hmin]
    simp only [addCycles]
    have e1 : s.s_qemu_ohci.eof_timer - s.s_usb_remaining.toNat - c
        = s.s_qemu_ohci.eof_timer - (s.s_usb_remaining.toNat + c) := by omega
    have e2 : ((c : Nat) : Int) - (c : Nat)
        = s.s_usb_remaining + (c : Nat) - ((s.s_usb_remaining.toNat + c : Nat) : Int) := by
      omega
    rw [e1, e2]

theorem frameLoop_noClock (env : Env) (fuel : Nat) :
    ∀ st : USBState, frameLoop env fuel (noClock st) = noClock (frameLoop env fuel st) := by
  induction fuel with
  | zero => intro st; rfl
  | succ n ih =>
    intro st
    rw [frameLoop_succ, frameLoop_succ]
    have hs : frameStep env (noClock st) = noClock (frameStep env st) := rfl
    have hr : (noClock st).s_usb_remaining = st.s_usb_remaining := rfl
    have he : (noClock st).s_qemu_ohci = st.s_qemu_ohci := rfl
    rw [hs, hr, he, ih]
    have he2 : (noClock (frameStep env st)).s_qemu_ohci = (frameStep env st).s_qemu_ohci := rfl
    rw [he2]
    split
    · split <;> rfl
    · rfl

theorem frames_noClock (env : Env) (st : USBState) :
    frames env (noClock st) = noClock (frames env st) := by
  unfold frames
  have hr : (noClock st).s_usb_remaining = st.s_usb_remaining := rfl
  have he : (noClock st).s_qemu_ohci = st.s_qemu_ohci := rfl
  rw [hr, he, frameLoop_noClock]
  split <;> rfl

theorem postAdjust_noClock (st : USBState) :
    postAdjust (noClock st) = noClock (postAdjust st) := by
  unfold postAdjust
  have hr : (noClock st).s_usb_remaining = st.s_usb_remaining := rfl
  have he : (noClock st).s_qemu_ohci = st.s_qemu_ohci := rfl
  rw [hr, he]
  split <;> rfl

theorem USBasync_noClock (env : Env) (st : USBState) (c : Nat) (h0 : 0 ≤ st.s_usb_remaining)
    (hc : st.s_usb_remaining + c < 2 ^ 63) :
    noClock (USBasync env st c) = postAdjust (frames env (addCycles (noClock st) c)) := by
  rw [USBasync_eq, ← postAdjust_noClock, ← frames_noClock,
    wrapS64_id (st.s_usb_remaining + c) (by omega) hc]
  rfl

theorem USBasync_timed (env : Env) (hb : env.FrameTime) (st : USBState) (c : Nat)
    (ht : Timed st) (hc : st.s_usb_remaining + c < 2 ^ 63) :
    Timed (noClock (USBasync env st c))
    ∧ (noClock (USBasync env st c)).s_usb_remaining ≤ st.s_usb_remaining + c := by
  rw [USBasync_noClock env st c ht.nonneg hc]
  have hta : Timed (addCycles (noClock st) c) := addCycles_timed _ c ⟨ht.1, ht.2, ht.3⟩ hc
  obtain ⟨hf, hle, _⟩ := frames_timed env hb _ _ hta (Nat.lt_succ_self _)
  obtain ⟨hp, hle2⟩ := postAdjust_timed _ hf
  refine ⟨hp, le_trans hle2 (le_trans hle ?_)⟩
  exact le_refl _

/-- C7 (amended): when the accumulator is not negative, the frame timer and every
frame time `ohci_frame_boundary` sets are below 2^63 and the accumulator plus `a + b`
stays below 2^63, calling `USBasync(a)` then `USBasync(b)` executes the same number
of frame-boundary steps as the single call `USBasync(a + b)` and ends with the same
frame timer, the same remaining-cycle accumulator and the same controller state; the
two final states agree in everything but the cycle clock `s_usb_clocks`. The
frame-boundary step is a function of the controller state. -/
theorem USBasync_split (env : Env) (hb : env.FrameTime) (st : USBState) (a b : Nat)
    (h0 : 0 ≤ st.s_usb_remaining) (hE : st.s_qemu_ohci.eof_timer < 2 ^ 63)
    (hsum : st.s_usb_remaining + a + b < 2 ^ 63) :
    frameCount (USBasync env (USBasync env st a) b) = frameCount (USBasync env st (a + b))
    ∧ (USBasync env (USBasync env st a) b).s_qemu_ohci.eof_timer
        = (USBasync env st (a + b)).s_qemu_ohci.eof_timer
    ∧ (USBasync env (USBasync env st a) b).s_usb_remaining
        = (USBasync env st (a + b)).s_usb_remaining
    ∧ (USBasync env (USBasync env st a) b).s_qemu_ohci = (USBasync env st (a + b)).s_qemu_ohci
    ∧ noClock (USBasync env (USBasync env st a) b) = noClock (USBasync env st (a + b)) := by
  have ht : Timed st := ⟨h0, by omega, hE⟩
  have key : noClock (USBasync env (USBasync env st a) b) = noClock (USBasync env st (a + b)) := by
    obtain ⟨ht1, hle1⟩ := USBasync_timed env hb st a ht (by omega)
    have hq1 : (noClock (USBasync env st a)).s_usb_remaining
        = (USBasync env st a).s_usb_remaining := rfl
    have hq2 : (noClock st).s_usb_remaining = st.s_usb_remaining := rfl
    have hnn : noClock (USBasync env (USBasync env st a) b)
        = noClock (USBasync env (noClock (USBasync env st a)) b) := by
      rw [USBasync_noClock env _ b ht1.nonneg (by omega)]
      exact USBasync_noClock env (USBasync env st a) b (by rw [← hq1]; exact ht1.nonneg)
        (by omega)
    rw [hnn, USBasync_noClock env _ b ht1.nonneg (by omega)]
    have hnc : noClock (noClock (USBasync env st a)) = noClock (USBasync env st a) := rfl
    rw [hnc, USBasync_noClock env st a h0 (by omega),
      USBasync_noClock env st (a + b) h0 (by push_cast; omega)]
    have hta : Timed (addCycles (noClock st) a) :=
      addCycles_timed _ a ⟨ht.1, ht.2, ht.3⟩ (by omega)
    obtain ⟨hf, hle, hs⟩ := frames_timed env hb _ _ hta (Nat.lt_succ_self _)
    have hle3 : (frames env (addCycles (noClock st) a)).s_usb_remaining
        ≤ st.s_usb_remaining + a := hle
    rw [settle_addCycles env hb _ b hf hs (by omega),
      ← frames_addCycles env hb _ _ b hta (Nat.lt_succ_self _)
        (by show st.s_usb_remaining + a + b < 2 ^ 63; exact hsum)]
    have hadd : addCycles (addCycles (noClock st) a) b = addCycles (noClock st) (a + b) := by
      unfold addCycles
      simp only [Nat.cast_add, add_assoc]
    rw [hadd]
  have hcount := congrArg frameCount key
  have hohci := congrArg USBState.s_qemu_ohci key
  have hrem := congrArg USBState.s_usb_remaining key
  exact ⟨hcount, congrArg OHCIState.eof_timer hohci, hrem, hohci, key⟩

theorem sampleEnv_frameTime : sampleEnv.FrameTime :=
  ⟨fun _ => by show (12000 : Nat) < 2 ^ 63; decide⟩

/-- Witness of C7 (amended): 30 then 40 cycles against 70 cycles on the sample state,
whose frame timer is at 50. -/
theorem USBasync_split_witness :
    noClock (USBasync sampleEnv (USBasync sampleEnv sampleState 30) 40)
      = noClock (USBasync sampleEnv sampleState (30 + 40)) :=
  (USBasync_split sampleEnv sampleEnv_frameTime sampleState 30 40 (by decide) (by decide)
    (by decide)).2.2.2.2

/-- C7 (counterexample): with the bus stopped (frame timer 0) the cycles stay in the
accumulator and every call adds the whole accumulator to the clock: two calls of 1
cycle move the clock of the sample state from 1000 to 1003, one call of 2 cycles
moves it to 1002. -/
theorem USBasync_clock_counterexample :
    (USBasync sampleEnv (USBasync sampleEnv sampleStopped 1) 1).s_usb_clocks = 1003
    ∧ (USBasync sampleEnv sampleStopped (1 + 1)).s_usb_clocks = 1002 := by
  decide

/-! ## A frame boundary that stops the bus -/

theorem toU64_step (r : Int) (e : Nat) (h : e ≤ toU64 r) :
    toU64 (wrapS64 (r - e)) = toU64 r - e := by
  unfold toU64 wrapS64 at *
  omega

theorem frameLoop_stops (env : Env) (k : Nat) :
    ∀ (s : USBState) (fuel : Nat), k + 1 ≤ fuel →
      (∀ j, j ≤ k → (frameSteps env j s).s_qemu_ohci.eof_timer
        ≤ toU64 (frameSteps env j s).s_usb_remaining) →
      (∀ j, j < k → (frameSteps env (j + 1) s).s_qemu_ohci.eof_timer ≠ 0) →
      (frameSteps env (k + 1) s).s_qemu_ohci.eof_timer = 0 →
      frameLoop env fuel s = frameSteps env (k + 1) s := by
  induction k with
  | zero =>
    intro s fuel hf hc _ hz
    obtain ⟨m, rfl⟩ : ∃ m, fuel = m + 1 := ⟨fuel - 1, by omega⟩
    have h0 : toU64 s.s_usb_remaining ≥ s.s_qemu_ohci.eof_timer := hc 0 (le_refl _)
    have hz1 : (frameStep env s).s_qemu_ohci.eof_timer = 0 := hz
    rw [frameLoop_succ, if_pos h0, if_pos hz1]
    rfl
  | succ n ih =>
    intro s fuel hf hc hr hz
    obtain ⟨m, rfl⟩ : ∃ m, fuel = m + 1 := ⟨fuel - 1, by omega⟩
    have h0 : toU64 s.s_usb_remaining ≥ s.s_qemu_ohci.eof_timer := hc 0 (Nat.zero_le _)
    have hn1 : ¬ (frameStep env s).s_qemu_ohci.eof_timer = 0 := hr 0 (Nat.succ_pos _)
    rw [frameLoop_succ, if_pos h0, if_neg hn1]
    exact ih (frameStep env s) m (by omega)
      (fun j hj => hc (j + 1) (by omega))
      (fun j hj => hr (j + 1) (by omega)) hz

theorem frameSteps_measure (env : Env) (k : Nat) :
    ∀ s : USBState, 0 < s.s_qemu_ohci.eof_timer →
      (∀ j, j ≤ k → (frameSteps env j s).s_qemu_ohci.eof_timer
        ≤ toU64 (frameSteps env j s).s_usb_remaining) →
      (∀ j, j < k → (frameSteps env (j + 1) s).s_qemu_ohci.eof_timer ≠ 0) →
      toU64 (frameSteps env (k + 1) s).s_usb_remaining + (k + 1) ≤ toU64 s.s_usb_remaining := by
  induction k with
  | zero =>
    intro s hpos hc _
    have h0 := hc 0 (le_refl _)
    have h1 : toU64 (frameStep env s).s_usb_remaining
        = toU64 s.s_usb_remaining - s.s_qemu_ohci.eof_timer := toU64_step _ _ h0
    have h0b : s.s_qemu_ohci.eof_timer ≤ toU64 s.s_usb_remaining := h0
    show toU64 (frameStep env s).s_usb_remaining + 1 ≤ _
    omega
  | succ n ih =>
    intro s hpos hc hr
    have h0 : s.s_qemu_ohci.eof_timer ≤ toU64 s.s_usb_remaining := hc 0 (Nat.zero_le _)
    have h1 : toU64 (frameStep env s).s_usb_remaining
        = toU64 s.s_usb_remaining - s.s_qemu_ohci.eof_timer := toU64_step _ _ h0
    have hn1 : (frameStep env s).s_qemu_ohci.eof_timer ≠ 0 := hr 0 (Nat.succ_pos _)
    have := ih (frameStep env s) (by omega) (fun j hj => hc (j + 1) (by omega))
      (fun j hj => hr (j + 1) (by omega))
    have e : frameSteps env (n + 1 + 1) s = frameSteps env (n + 1) (frameStep env s) := rfl
    rw [e]
    omega

theorem frameSteps_count (env : Env) (k : Nat) :
    ∀ s : USBState, frameCount (frameSteps env k s) = frameCount s + k := by
  induction k with
  | zero => intro s; rfl
  | succ n ih =>
    intro s
    have e : frameSteps env (n + 1) s = frameSteps env n (frameStep env s) := rfl
    rw [e, ih]
    have : frameCount (frameStep env s) = frameCount s + 1 := by
      simp [frameCount, frameStep]
    omega

/-- C8: when the frame timer is 0 on entry, `USBasync` executes no frame-boundary step
and only adds the cycles to the accumulator (and the accumulator to the clock). When
the timer runs and the step number `k + 1` of the call is the first to return with
the frame timer at 0, the call ends in the state that step left: it has executed
exactly `k + 1` frame-boundary steps and the cycles not consumed by them are in the
remaining-cycle accumulator. -/
theorem USBasync_bus_stopped (env : Env) (st : USBState) (cycles : Nat) :
    (st.s_qemu_ohci.eof_timer = 0 →
      USBasync env st cycles = asyncEntry st cycles
      ∧ frameCount (USBasync env st cycles) = frameCount st)
    ∧ (∀ k : Nat, 0 < st.s_qemu_ohci.eof_timer →
        (∀ j, j ≤ k → (frameSteps env j (asyncEntry st cycles)).s_qemu_ohci.eof_timer
          ≤ toU64 (frameSteps env j (asyncEntry st cycles)).s_usb_remaining) →
        (∀ j, j < k →
          (frameSteps env (j + 1) (asyncEntry st cycles)).s_qemu_ohci.eof_timer ≠ 0) →
        (frameSteps env (k + 1) (asyncEntry st cycles)).s_qemu_ohci.eof_timer = 0 →
        USBasync env st cycles = frameSteps env (k + 1) (asyncEntry st cycles)
        ∧ frameCount (USBasync env st cycles) = frameCount st + (k + 1)
        ∧ (USBasync env st cycles).s_usb_remaining
            = (frameSteps env (k + 1) (asyncEntry st cycles)).s_usb_remaining) := by
  have hE : USBasync env st cycles = postAdjust (frames env (asyncEntry st cycles)) :=
    USBasync_eq env st cycles
  refine ⟨fun h0 => ?_, fun k hpos hc hr hz => ?_⟩
  · have h1 : (asyncEntry st cycles).s_qemu_ohci.eof_timer = 0 := h0
    rw [hE, frames_stopped env _ h1, postAdjust_id _ (by omega)]
    exact ⟨rfl, rfl⟩
  · have hpos1 : 0 < (asyncEntry st cycles).s_qemu_ohci.eof_timer := hpos
    have hm := frameSteps_measure env k (asyncEntry st cycles) hpos1 hc hr
    have hfr : frames env (asyncEntry st cycles) = frameSteps env (k + 1) (asyncEntry st cycles) := by
      unfold frames
      rw [if_pos hpos1]
      exact frameLoop_stops env k _ _ (by omega) hc hr hz
    have hfin : USBasync env st cycles = frameSteps env (k + 1) (asyncEntry st cycles) := by
      rw [hE, hfr, postAdjust_id _ (by omega)]
    rw [hfin, frameSteps_count]
    exact ⟨rfl, rfl, rfl⟩

/-- Witness of C8: 100 cycles on the sample state (frame timer 50) with a frame
boundary that stops the bus: one step, 50 cycles left in the accumulator. -/
theorem USBasync_bus_stopped_witness :
    USBasync stoppingEnv sampleState 100 = frameSteps stoppingEnv 1 (asyncEntry sampleState 100)
    ∧ frameCount (USBasync stoppingEnv sampleState 100) = frameCount sampleState + 1
    ∧ (USBasync stoppingEnv sampleState 100).s_usb_remaining = 50 := by
  have h := (USBasync_bus_stopped stoppingEnv sampleState 100).2 0 (by decide)
    (fun j hj => by
      obtain rfl : j = 0 := by omega
      decide)
    (fun j hj => by omega) (by decide)
  exact ⟨h.1, h.2.1, by rw [h.2.2]; decide⟩

/-! ## The root hub port of a guest port -/

/-- C9: `GetOHCIPort` sends guest port 0 to root hub port 1 and guest port 1 to root
hub port 0; on the two guest ports it is an involution without a fixed point; and for
every port value the root hub index it gives is 0 or 1. The accessors of the attach
path and of the save state path (`setPortDev`, `getPortDev`) address the root hub
through this index. -/
theorem GetOHCIPort_swap :
    GetOHCIPort 0 = 1 ∧ GetOHCIPort 1 = 0
    ∧ (∀ p : Fin NUM_PORTS, GetOHCIPort (GetOHCIPort p.val) = p.val)
    ∧ (∀ p : Fin NUM_PORTS, GetOHCIPort p.val ≠ p.val)
    ∧ (∀ port : Nat, GetOHCIPort port = 0 ∨ GetOHCIPort port = 1)
    ∧ (∀ (o : OHCIState) (port : Nat) (dev : Option Nat),
        (setPortDev o port dev).rhport_dev = o.rhport_dev.set (GetOHCIPort port) dev
        ∧ getPortDev o port = o.rhport_dev.getD (GetOHCIPort port) none) := by
  refine ⟨rfl, rfl, ?_, ?_, ?_, fun _ _ _ => ⟨rfl, rfl⟩⟩
  · intro p
    fin_cases p <;> rfl
  · intro p
    fin_cases p <;> decide
  · intro port
    unfold GetOHCIPort
    by_cases h : port = 0
    · exact Or.inr (by simp [h])
    · exact Or.inl (by simp [h])

/-! ## Port ownership -/

theorem doFields_keep {σ β : Type} (g : σ → β) (fs : List (Field σ))
    (h : ∀ f ∈ fs, ∀ (s : σ) (bs : List Nat), g (f.dec s bs) = g s) (s : σ)
    (sw : StateWrapper) : g (doFields fs s sw).1 = g s := by
  induction fs generalizing s sw with
  | nil => rfl
  | cons f fs ih =>
    have hf := h f (List.mem_cons_self _ _)
    have ht := ih (fun f1 h1 => h f1 (List.mem_cons_of_mem _ h1))
    simp only [doFields]
    rw [ht]
    unfold doField
    cases sw.mode
    · exact hf _ _
    · rfl

theorem ohciFields_wiring :
    ∀ f ∈ ohciFields, ∀ (s : USBState) (bs : List Nat), wiring (f.dec s bs) = wiring s := by
  intro f hf
  simp only [ohciFields, List.mem_append, List.mem_map] at hf
  rcases hf with (hf | ⟨i, _, rfl⟩) | hf
  · revert f
    simp only [ohciFieldsHead, List.forall_mem_cons]
    refine ⟨?_, ?_, ?_, ?_, ?_, ?_, ?_, ?_, ?_, ?_, ?_, ?_, ?_, ?_, ?_, ?_, ?_, ?_, ?_, ?_, ?_,
      ?_, ?_, ?_, ?_, ?_, ?_, ?_⟩
    all_goals first
      | (intro s bs; rfl)
      | (intro f hf; cases hf)
  · intro s bs
    rfl
  · revert f
    simp only [ohciFieldsTail, List.forall_mem_cons]
    refine ⟨?_, ?_, ?_, ?_, ?_⟩
    all_goals first
      | (intro s bs; rfl)
      | (intro f hf; cases hf)

theorem DoOHCIState_wiring (st : USBState) (sw : StateWrapper) :
    wiring (DoOHCIState st sw).1 = wiring st := by
  unfold DoOHCIState
  simp only
  split
  · rfl
  · exact doFields_keep wiring ohciFields ohciFields_wiring st _

theorem deviceFields_ptr :
    ∀ f ∈ deviceFields, ∀ (d : USBDevice) (bs : List Nat), (f.dec d bs).ptr = d.ptr := by
  simp only [deviceFields, List.forall_mem_cons]
  refine ⟨?_, ?_, ?_, ?_, ?_, ?_, ?_, ?_, ?_, ?_, ?_⟩
  all_goals first
    | (intro s bs; rfl)
    | (intro f hf; cases hf)

theorem setInterfaces_ptr (env : Env) (vs : List Int) :
    ∀ (i : Nat) (dev : USBDevice), (setInterfaces env vs i dev).ptr = dev.ptr := by
  induction vs with
  | nil => intro i dev; rfl
  | cons v vs ih =>
    intro i dev
    simp only [setInterfaces]
    rw [ih]
    rfl

theorem DoDeviceState_ptr (env : Env) (dev : USBDevice) (sw : StateWrapper) :
    (DoDeviceState env dev sw).1.ptr = dev.ptr := by
  unfold DoDeviceState
  simp only
  split
  · rfl
  · show (setInterfaces env _ 0 _).ptr = dev.ptr
    rw [setInterfaces_ptr]
    show (doFields deviceFields dev _).1.ptr = dev.ptr
    exact doFields_keep (fun d => d.ptr) deviceFields deviceFields_ptr dev _

theorem Freeze_ptr (proxy : DeviceProxy) (dev : USBDevice) (sw : StateWrapper) :
    (proxy.Freeze dev sw).2.1.ptr = dev.ptr := by
  unfold DeviceProxy.Freeze
  split <;> rfl

theorem setEndpoint_ptr (dev : USBDevice) (slot : EpSlot) (e : USBEndpoint) :
    (dev.setEndpoint slot e).ptr = dev.ptr := by
  cases slot <;> rfl

theorem ptrs_set_same (a : PortArr (Option USBDevice)) (port : Nat) (d d1 : USBDevice)
    (h : a.get port = some d) (hp : d1.ptr = d.ptr) : ptrs (a.set port (some d1)) = ptrs a := by
  unfold PortArr.get at h
  unfold PortArr.set ptrs
  by_cases h0 : port = 0
  · simp only [h0, if_true] at h ⊢
    simp [h, hp]
  · simp only [h0, if_false] at h ⊢
    simp [h, hp]

theorem UpdateDevice_wiring (env : Env) (st : USBState) (port : Nat) :
    wiring (UpdateDevice env st port) = wiring st := by
  unfold UpdateDevice
  split
  · rfl
  · rename_i dev hdev
    split
    · rfl
    · unfold wiring
      simp only
      rw [ptrs_set_same _ _ dev _ hdev (by rfl)]

theorem reattachPort_wiring (env : Env) (st : USBState) (port : Nat) :
    wiring (reattachPort env st port) = wiring st := by
  unfold reattachPort
  simp only
  split
  · rfl
  · split
    · rfl
    · split
      · rfl
      · rename_i q _ dev hdev
        unfold wiring
        simp only [keepWiring]
        rw [ptrs_set_same _ _ dev _ hdev (by rfl)]

theorem resolvePacket_wiring (st : USBState) (p : USBPacket) (l : PacketLocals)
    (v : PortArr Bool) : wiring (resolvePacket st p l v) = wiring st := by
  unfold resolvePacket
  simp only
  by_cases hf : 0 ≤ l.dev_index ∧ 0 ≤ l.ep_index ∧ validAt v l.dev_index = none
  · rw [if_pos hf]
    rfl
  rw [if_neg hf]
  split
  · split
    · rename_i dev slot hdev hslot
      unfold wiring
      simp only
      have hp : (if l.queued = true then
          match dev.endpoint slot with
          | some e => dev.setEndpoint slot { e with queue := e.queue ++ [PacketPtr.usb_packet] }
          | none => dev
          else dev).ptr = dev.ptr := by
        split
        · split
          · exact setEndpoint_ptr _ _ _
          · rfl
        · rfl
      rw [ptrs_set_same _ _ dev _ hdev hp]
    · rfl
  · rfl

theorem DoPacketState_wiring (st : USBState) (sw : StateWrapper) (v : PortArr Bool) :
    wiring (DoPacketState st sw v).1 = wiring st := by
  unfold DoPacketState
  simp only
  split
  · rfl
  · split
    · exact resolvePacket_wiring _ _ _ _
    · rfl

theorem hardReset_wiring (env : Env) (st : USBState) : wiring (hardReset env st) = wiring st := by
  unfold hardReset wiring
  simp only [keepWiring]
  have hk : ∀ (o n : Option USBDevice),
      (keepDev o n).map (fun d => d.ptr) = o.map (fun d => d.ptr) := by
    intro o n
    cases o <;> cases n <;> rfl
  simp only [ptrs, hk]

theorem USBreset_wiring (env : Env) (st : USBState) : wiring (USBreset env st) = wiring st := by
  unfold USBreset
  rw [hardReset_wiring]
  rfl

theorem savePort_wiring (env : Env) (x : FreezeLoop) (port : Nat) :
    wiring (savePort env x port).2.st = wiring x.st := by
  unfold savePort
  simp only
  split
  · rfl
  · split
    · rfl
    · rename_i dev hdev
      have hp : ∀ sw : StateWrapper,
          (match x.st.s_usb_device_proxy.get port with
            | some proxy => proxy.Freeze (DoDeviceState env dev sw).1 (DoDeviceState env dev sw).2
            | none => (false, (DoDeviceState env dev sw).1, (DoDeviceState env dev sw).2)).2.1.ptr
            = dev.ptr := by
        intro sw
        split
        · rw [Freeze_ptr, DoDeviceState_ptr]
        · exact DoDeviceState_ptr env dev sw
      have hw : ∀ sw : StateWrapper, wiring { x.st with
          s_usb_device := x.st.s_usb_device.set port (some
            (match x.st.s_usb_device_proxy.get port with
            | some proxy => proxy.Freeze (DoDeviceState env dev sw).1 (DoDeviceState env dev sw).2
            | none => (false, (DoDeviceState env dev sw).1,
                (DoDeviceState env dev sw).2)).2.1) } = wiring x.st := by
        intro sw
        unfold wiring
        simp only
        rw [ptrs_set_same _ _ dev _ hdev (hp sw)]
      split
      · exact hw _
      · split
        · exact hw _
        · split
          · exact hw _
          · split
            · exact hw _
            · exact hw _

theorem USBfreezeSave_wiring (env : Env) (st : USBState) (data : freezeData) :
    wiring (USBfreezeSave env st data).2.1 = wiring st := by
  unfold USBfreezeSave
  simp only
  have h0 := DoOHCIState_wiring st
    ((⟨Mode.Write, List.replicate data.size 0, 0, false⟩ : StateWrapper).DoMarker "USB").2
  split
  · rfl
  · split
    · rw [savePort_wiring]
      exact h0
    · split
      · rw [savePort_wiring, savePort_wiring]
        exact h0
      · split
        · rw [DoPacketState_wiring, savePort_wiring, savePort_wiring]
          exact h0
        · rw [DoPacketState_wiring, savePort_wiring, savePort_wiring]
          exact h0

theorem getD_set_same {α : Type} (l : List α) (i : Nat) (v d : α) (h : i < l.length) :
    (l.set i v).getD i d = v := by
  simp [List.getD_eq_getElem?_getD, List.getElem?_set, h]

theorem getD_set_other {α : Type} (l : List α) (i j : Nat) (v d : α) (h : i ≠ j) :
    (l.set i v).getD j d = l.getD j d := by
  simp [List.getD_eq_getElem?_getD, List.getElem?_set, h]

theorem DestroyDevice_wired (st : USBState) (port : Fin NUM_PORTS) (h : Wired (wiring st)) :
    Wired (wiring (DestroyDevice st port.val)) := by
  unfold DestroyDevice
  split
  · exact h
  · obtain ⟨hl, h1, h0, hp0, hp1⟩ := h
    simp only [wiring] at hl h1 h0 hp0 hp1
    have hl2 : 1 < st.s_qemu_ohci.rhport_dev.length := by rw [hl]; decide
    fin_cases port
    · refine ⟨?_, ?_, ?_, ?_, ?_⟩
      · simpa [wiring, setPortDev] using hl
      · exact getD_set_same _ 1 none none hl2
      · exact (getD_set_other _ 1 0 none none (by decide)).trans h0
      · rfl
      · exact hp1
    · refine ⟨?_, ?_, ?_, ?_, ?_⟩
      · simpa [wiring, setPortDev] using hl
      · exact (getD_set_other _ 0 1 none none (by decide)).trans h1
      · exact getD_set_same _ 0 none none (by omega)
      · exact hp0
      · rfl

theorem CreateDevice_wired (env : Env) (st : USBState) (port : Fin NUM_PORTS)
    (r : Bool × USBState) (hc : CreateDevice env st port.val = some r) (h : Wired (wiring st)) :
    Wired (wiring r.2) := by
  unfold CreateDevice at hc
  simp only at hc
  split at hc
  · cases hc
    exact h
  · split at hc
    · cases hc
      exact h
    · split at hc
      · cases hc
      · cases hc
        obtain ⟨hl, h1, h0, hp0, hp1⟩ := h
        simp only [wiring] at hl h1 h0 hp0 hp1
        have hl2 : 1 < st.s_qemu_ohci.rhport_dev.length := by rw [hl]; decide
        fin_cases port
        · refine ⟨?_, ?_, ?_, ?_, ?_⟩
          · simpa [wiring, setPortDev, keepWiring] using hl
          · exact getD_set_same _ 1 _ none hl2
          · exact (getD_set_other _ 1 0 _ none (by decide)).trans h0
          · rfl
          · exact hp1
        · refine ⟨?_, ?_, ?_, ?_, ?_⟩
          · simpa [wiring, setPortDev, keepWiring] using hl
          · exact (getD_set_other _ 0 1 _ none (by decide)).trans h1
          · exact getD_set_same _ 0 _ none (by omega)
          · exact hp0
          · rfl

theorem wired_of_wiring (a b : USBState) (h : wiring b = wiring a) (ha : Wired (wiring a)) :
    Wired (wiring b) := by
  rw [h]
  exact ha

theorem loadPort_wired (env : Env) (x : FreezeLoop) (port : Fin NUM_PORTS)
    (h : Wired (wiring x.st)) : Wired (wiring (loadPort env x port.val).st) := by
  unfold loadPort
  simp only
  split
  · split
    · exact wired_of_wiring _ _ (reattachPort_wiring env _ port.val) h
    · exact h
  · split
    · exact h
    · rename_i dev hdev
      have hp : (match x.st.s_usb_device_proxy.get port.val with
            | some proxy => proxy.Freeze
                (DoDeviceState env dev (doFields [devtypeField, devsubtypeField, sizeField]
                  (⟨0, 0, 0⟩ : PortHeader) x.sw).2).1
                (DoDeviceState env dev (doFields [devtypeField, devsubtypeField, sizeField]
                  (⟨0, 0, 0⟩ : PortHeader) x.sw).2).2
            | none => (false, DoDeviceState env dev (doFields [devtypeField, devsubtypeField,
                  sizeField] (⟨0, 0, 0⟩ : PortHeader) x.sw).2)).2.1.ptr = dev.ptr := by
        split
        · rw [Freeze_ptr, DoDeviceState_ptr]
        · exact DoDeviceState_ptr env dev _
      have hw : Wired (wiring { x.st with
          s_usb_device := x.st.s_usb_device.set port.val (some
            (match x.st.s_usb_device_proxy.get port.val with
            | some proxy => proxy.Freeze
                (DoDeviceState env dev (doFields [devtypeField, devsubtypeField, sizeField]
                  (⟨0, 0, 0⟩ : PortHeader) x.sw).2).1
                (DoDeviceState env dev (doFields [devtypeField, devsubtypeField, sizeField]
                  (⟨0, 0, 0⟩ : PortHeader) x.sw).2).2
            | none => (false, DoDeviceState env dev (doFields [devtypeField, devsubtypeField,
                  sizeField] (⟨0, 0, 0⟩ : PortHeader) x.sw).2)).2.1) }) := by
        refine wired_of_wiring x.st _ ?_ h
        unfold wiring
        simp only
        rw [ptrs_set_same _ _ dev _ hdev hp]
      split
      · exact DestroyDevice_wired _ port hw
      · exact hw

theorem USBfreeze_wired (env : Env) (mode : FreezeAction) (st : USBState) (data : freezeData)
    (h : Wired (wiring st)) : Wired (wiring (USBfreeze env mode st data).2.1) := by
  cases mode with
  | Load =>
    show Wired (wiring (USBfreezeLoad env st data).2)
    unfold USBfreezeLoad
    simp only
    split
    · exact wired_of_wiring _ _ (USBreset_wiring env st) h
    · have h0 : Wired (wiring (DoOHCIState st
          ((⟨Mode.Read, fit data.size data.data, 0, false⟩ : StateWrapper).DoMarker "USB").2).1) :=
        wired_of_wiring _ _ (DoOHCIState_wiring _ _) h
      have h1 := loadPort_wired env ⟨_, (DoOHCIState st
          ((⟨Mode.Read, fit data.size data.data, 0, false⟩ : StateWrapper).DoMarker "USB").2).2,
          ⟨false, false⟩⟩ ⟨0, by decide⟩ h0
      have h2 := loadPort_wired env _ ⟨1, by decide⟩ h1
      have h3 : ∀ (sw : StateWrapper) (v : PortArr Bool), Wired (wiring (DoPacketState _ sw v).1) :=
        fun sw v => wired_of_wiring _ _ (DoPacketState_wiring _ sw v) h2
      split
      · exact wired_of_wiring _ _ (USBreset_wiring env _) (h3 _ _)
      · exact h3 _ _
  | Save => exact wired_of_wiring _ _ (USBfreezeSave_wiring env st data) h
  | Size => exact h

theorem checkPort_wired (env : Env) (old_config : PortArr PortConfig) (st st1 : USBState)
    (port : Fin NUM_PORTS) (hc : checkPort env old_config st port.val = some st1)
    (h : Wired (wiring st)) : Wired (wiring st1) := by
  unfold checkPort at hc
  split at hc
  · cases hc
    exact wired_of_wiring _ _ (UpdateDevice_wiring env st port.val) h
  · have hw : Wired (wiring (if (st.s_usb_device.get port.val).isSome = true
        then DestroyDevice st port.val else st)) := by
      split
      · exact DestroyDevice_wired st port h
      · exact h
    cases hr : CreateDevice env (if (st.s_usb_device.get port.val).isSome = true
        then DestroyDevice st port.val else st) port.val with
    | none => simp [hr] at hc
    | some r =>
      simp only [hr] at hc
      have e : r.2 = st1 := Option.some.inj hc
      subst e
      exact CreateDevice_wired env _ port r hr hw

theorem CheckForConfigChanges_wired (env : Env) (old_config : PortArr PortConfig)
    (st st1 : USBState) (hc : CheckForConfigChanges env old_config st = some st1)
    (h : Wired (wiring st)) : Wired (wiring st1) := by
  unfold CheckForConfigChanges at hc
  cases h0 : checkPort env old_config st 0 with
  | none => simp [h0] at hc
  | some s0 =>
    simp only [h0, Option.some_bind] at hc
    exact checkPort_wired env old_config s0 st1 ⟨1, by decide⟩ hc
      (checkPort_wired env old_config st s0 ⟨0, by decide⟩ h0 h)

theorem USBopen_wired (env : Env) (created : OHCIState) (cfg : PortArr PortConfig)
    (st : USBState) (ho : USBopen env created cfg = some st) : Wired (wiring st) := by
  have hw0 : Wired (wiring (openState created cfg)) :=
    ⟨by simp [wiring, openState, OHCI_MAX_PORTS], rfl, rfl, rfl, rfl⟩
  have ho1 : (CreateDevice env (openState created cfg) 0).bind
      (fun r0 => (CreateDevice env r0.2 1).map Prod.snd) = some st := ho
  cases h0 : CreateDevice env (openState created cfg) 0 with
  | none => simp [h0] at ho1
  | some r0 =>
    rw [h0] at ho1
    have ho2 : (CreateDevice env r0.2 1).map Prod.snd = some st := ho1
    cases h1 : CreateDevice env r0.2 1 with
    | none => simp [h1] at ho2
    | some r1 =>
      rw [h1] at ho2
      have e : r1.2 = st := Option.some.inj ho2
      subst e
      exact CreateDevice_wired env _ ⟨1, by decide⟩ r1 h1
        (CreateDevice_wired env _ ⟨0, by decide⟩ r0 h0 hw0)

theorem reachable_wired (env : Env) (st : USBState) (h : Reachable env st) :
    Wired (wiring st) := by
  induction h with
  | opened created cfg st ho => exact USBopen_wired env created cfg st ho
  | create st port r _ hc ih => exact CreateDevice_wired env st port r hc ih
  | destroy st port _ ih => exact DestroyDevice_wired st port ih
  | update st port _ ih => exact wired_of_wiring _ _ (UpdateDevice_wiring env st port.val) ih
  | configure st cfg _ ih => exact ih
  | check st st1 old _ hc ih => exact CheckForConfigChanges_wired env old st st1 hc ih
  | freeze st mode data _ ih => exact USBfreeze_wired env mode st data ih

/-- C10: in every state reached from a freshly opened subsystem by calls of
`CreateDevice`, `DestroyDevice`, `UpdateDevice`, `CheckForConfigChanges` and `USBfreeze`
(in any mode, on any buffer), for each guest port `p` in {0, 1} the device recorded
for `p` is the device attached to root hub port `1 - p` (none when none), and a proxy
is recorded for `p` if and only if a device is. -/
theorem port_ownership (env : Env) (st : USBState) (h : Reachable env st) :
    PortOwnership st := by
  obtain ⟨hl, h1, h0, hp0, hp1⟩ := reachable_wired env st h
  simp only [wiring, ptrs] at hl h1 h0 hp0 hp1
  intro p
  fin_cases p
  · refine ⟨h1, ?_⟩
    show (st.s_usb_device_proxy.p0.isSome = true ↔ st.s_usb_device.p0.isSome = true)
    rw [hp0]
    simp
  · refine ⟨h0, ?_⟩
    show (st.s_usb_device_proxy.p1.isSome = true ↔ st.s_usb_device.p1.isSome = true)
    rw [hp1]
    simp

theorem openedSample_eq :
    USBopen creatingEnv sampleOHCI ⟨⟨0, 0⟩, ⟨1, 0⟩⟩ = some openedSample := by
  rfl

/-- Witness of C10: the subsystem opened with a pad and a light gun, after the device
of guest port 0 was destroyed and a state was loaded from an empty buffer. -/
theorem port_ownership_witness :
    PortOwnership (USBfreeze creatingEnv FreezeAction.Load
      (DestroyDevice openedSample 0) ⟨0, []⟩).2.1 :=
  port_ownership creatingEnv _
    (Reachable.freeze _ FreezeAction.Load ⟨0, []⟩
      (Reachable.destroy _ ⟨0, by decide⟩
        (Reachable.opened sampleOHCI ⟨⟨0, 0⟩, ⟨1, 0⟩⟩ openedSample openedSample_eq)))

/-! ## `USBfreeze` in `Size` mode -/

/-- C13: in `Size` mode `USBfreeze` returns 0 and sets the reported size to 0x10000
(65536) for every state, whatever the ports hold; the subsystem state and the bytes
of the buffer are left as they are. -/
theorem USBfreeze_size (env : Env) (st : USBState) (data : freezeData) :
    USBfreeze env FreezeAction.Size st data = (0, st, ⟨0x10000, data.data⟩)
    ∧ (USBfreeze env FreezeAction.Size st data).1 = 0
    ∧ (USBfreeze env FreezeAction.Size st data).2.2.size = 65536
    ∧ (USBfreeze env FreezeAction.Size st data).2.1 = st
    ∧ (USBfreeze env FreezeAction.Size st data).2.2.data = data.data :=
  ⟨rfl, rfl, rfl, rfl, rfl⟩

/-! ## `CreateDevice` and `DestroyDevice` on one port -/

theorem getD_set_none {α : Type} (l : List (Option α)) (i : Nat) :
    (l.set i none).getD i none = none := by
  by_cases h : i < l.length
  · exact getD_set_same l i none none h
  · simp [List.getD_eq_getElem?_getD, List.getElem?_set, h]

/-- C15: `CreateDevice(port)` on an empty port. When the configured type has no proxy
the call returns true and the state is unchanged. When the factory of the proxy
returns null the call returns false and the device slots, the proxy slots and the
controller are unchanged. Otherwise the call returns true, the new device (at a fresh
address, flagged attached) is recorded for the port with its proxy and is the device
of root hub port `1 - port`. The slots of the other port are unchanged in every
case. `usb_attach` is assumed to leave the `attached` flag alone. -/
theorem CreateDevice_empty_port (env : Env) (hat : env.AttachKeeps) (st : USBState)
    (port : Fin NUM_PORTS) (hdev : st.s_usb_device.get port.val = none)
    (hrh : getPortDev st.s_qemu_ohci port.val = none)
    (hlen : st.s_qemu_ohci.rhport_dev.length = OHCI_MAX_PORTS) :
    (env.Device (st.EmuConfig.get port.val).DeviceType = none →
      CreateDevice env st port.val = some (true, st))
    ∧ (∀ proxy, env.Device (st.EmuConfig.get port.val).DeviceType = some proxy →
        env.CreateDevice proxy port.val (st.EmuConfig.get port.val).DeviceSubtype = none →
        ∃ st1, CreateDevice env st port.val = some (false, st1)
          ∧ st1.s_usb_device = st.s_usb_device
          ∧ st1.s_usb_device_proxy = st.s_usb_device_proxy
          ∧ st1.s_qemu_ohci = st.s_qemu_ohci)
    ∧ (∀ proxy created, env.Device (st.EmuConfig.get port.val).DeviceType = some proxy →
        env.CreateDevice proxy port.val (st.EmuConfig.get port.val).DeviceSubtype
          = some created →
        ∃ st1 dev, CreateDevice env st port.val = some (true, st1)
          ∧ st1.s_usb_device.get port.val = some dev
          ∧ dev.ptr = st.next_ptr ∧ dev.attached = true
          ∧ st1.s_usb_device_proxy.get port.val = some proxy
          ∧ st1.s_qemu_ohci.rhport_dev.getD (1 - port.val) none = some dev.ptr
          ∧ st1.trace = st.trace ++ [Event.attach (1 - port.val)])
    ∧ (∀ (r : Bool × USBState) (q : Fin NUM_PORTS), CreateDevice env st port.val = some r →
        q ≠ port →
        r.2.s_usb_device.get q.val = st.s_usb_device.get q.val
        ∧ r.2.s_usb_device_proxy.get q.val = st.s_usb_device_proxy.get q.val
        ∧ r.2.s_qemu_ohci.rhport_dev.getD (1 - q.val) none
            = st.s_qemu_ohci.rhport_dev.getD (1 - q.val) none) := by
  have hl2 : 1 < st.s_qemu_ohci.rhport_dev.length := by rw [hlen]; decide
  refine ⟨?_, ?_, ?_, ?_⟩
  · intro h
    unfold CreateDevice
    simp only [h]
  · intro proxy h1 h2
    refine ⟨{ st with trace := st.trace ++ [Event.console_error port.val] }, ?_, rfl, rfl, rfl⟩
    unfold CreateDevice
    simp only [h1, h2]
  · intro proxy created h1 h2
    have hc : CreateDevice env st port.val = some (true,
        { st with
          s_qemu_ohci := keepWiring (setPortDev st.s_qemu_ohci port.val (some st.next_ptr))
            (env.usb_attach (setPortDev st.s_qemu_ohci port.val (some st.next_ptr))
              (GetOHCIPort port.val) { created with ptr := st.next_ptr, attached := true }).1
          s_usb_device := st.s_usb_device.set port.val (some
            (keepPtr { created with ptr := st.next_ptr, attached := true }
              (env.usb_attach (setPortDev st.s_qemu_ohci port.val (some st.next_ptr))
                (GetOHCIPort port.val) { created with ptr := st.next_ptr, attached := true }).2))
          s_usb_device_proxy := st.s_usb_device_proxy.set port.val (some proxy)
          next_ptr := st.next_ptr + 1
          trace := st.trace ++ [Event.attach (GetOHCIPort port.val)] }) := by
      unfold CreateDevice
      simp only [h1, h2, hrh, Option.isSome_none, Bool.false_eq_true, if_false]
    refine ⟨_, _, hc, PortArr.get_set_self _ _ _, rfl, ?_, PortArr.get_set_self _ _ _, ?_, ?_⟩
    · show (env.usb_attach _ _ _).2.attached = true
      rw [hat.attached]
    · fin_cases port
      · exact getD_set_same _ 1 _ none hl2
      · exact getD_set_same _ 0 _ none (by omega)
    · fin_cases port <;> rfl
  · intro r q hc hq
    unfold CreateDevice at hc
    simp only at hc
    split at hc
    · cases hc
      exact ⟨rfl, rfl, rfl⟩
    · split at hc
      · cases hc
        exact ⟨rfl, rfl, rfl⟩
      · split at hc
        · cases hc
        · cases hc
          fin_cases port <;> fin_cases q
          · exact absurd rfl hq
          · exact ⟨rfl, rfl, getD_set_other _ 1 0 _ none (by decide)⟩
          · exact ⟨rfl, rfl, getD_set_other _ 0 1 _ none (by decide)⟩
          · exact absurd rfl hq

/-- Witness of C15: a pad is created in guest port 0 of a freshly created controller. -/
theorem CreateDevice_empty_port_witness :
    ∃ st1 dev, CreateDevice creatingEnv (openState sampleOHCI ⟨⟨0, 0⟩, ⟨1, 0⟩⟩) 0
        = some (true, st1)
      ∧ st1.s_usb_device.get 0 = some dev
      ∧ dev.ptr = 1 ∧ dev.attached = true
      ∧ st1.s_usb_device_proxy.get 0 = some DeviceProxy.PadDevice
      ∧ st1.s_qemu_ohci.rhport_dev.getD 1 none = some dev.ptr
      ∧ st1.trace = [Event.attach 1] :=
  (CreateDevice_empty_port creatingEnv ⟨fun _ _ _ => rfl⟩ (openState sampleOHCI ⟨⟨0, 0⟩, ⟨1, 0⟩⟩)
    ⟨0, by decide⟩ rfl rfl (by decide)).2.2.1 DeviceProxy.PadDevice
      (sampleDevice 0 (Peripheral.pad ⟨0, [0, 0, 0]⟩)) rfl rfl

/-- C16: `DestroyDevice(port)` on a port that holds a device calls the `unrealize`
function of the device when it is set, and leaves the device slot, the proxy slot
and the device of root hub port `1 - port` null. On an empty port it changes nothing,
so calling it twice is calling it once. The slots of the other port are unchanged in
both cases. -/
theorem DestroyDevice_effect (st : USBState) (port : Fin NUM_PORTS) :
    (∀ dev, st.s_usb_device.get port.val = some dev →
      (DestroyDevice st port.val).s_usb_device.get port.val = none
      ∧ (DestroyDevice st port.val).s_usb_device_proxy.get port.val = none
      ∧ (DestroyDevice st port.val).s_qemu_ohci.rhport_dev.getD (1 - port.val) none = none
      ∧ (dev.klass_unrealize = true →
          (DestroyDevice st port.val).trace = st.trace ++ [Event.unrealize dev.ptr])
      ∧ (dev.klass_unrealize = false → (DestroyDevice st port.val).trace = st.trace))
    ∧ (st.s_usb_device.get port.val = none → DestroyDevice st port.val = st)
    ∧ DestroyDevice (DestroyDevice st port.val) port.val = DestroyDevice st port.val
    ∧ (∀ q : Fin NUM_PORTS, q ≠ port →
        (DestroyDevice st port.val).s_usb_device.get q.val = st.s_usb_device.get q.val
        ∧ (DestroyDevice st port.val).s_usb_device_proxy.get q.val
            = st.s_usb_device_proxy.get q.val
        ∧ (DestroyDevice st port.val).s_qemu_ohci.rhport_dev.getD (1 - q.val) none
            = st.s_qemu_ohci.rhport_dev.getD (1 - q.val) none) := by
  have hnone : st.s_usb_device.get port.val = none → DestroyDevice st port.val = st := by
    intro h
    unfold DestroyDevice
    simp only [h]
  have hsome : ∀ dev, st.s_usb_device.get port.val = some dev →
      DestroyDevice st port.val = { st with
        s_qemu_ohci := setPortDev st.s_qemu_ohci port.val none
        s_usb_device := st.s_usb_device.set port.val none
        s_usb_device_proxy := st.s_usb_device_proxy.set port.val none
        trace := if dev.klass_unrealize then st.trace ++ [Event.unrealize dev.ptr]
          else st.trace } := by
    intro dev h
    unfold DestroyDevice
    simp only [h]
  refine ⟨?_, hnone, ?_, ?_⟩
  · intro dev h
    rw [hsome dev h]
    refine ⟨PortArr.get_set_self _ _ _, PortArr.get_set_self _ _ _, ?_, ?_, ?_⟩
    · fin_cases port
      · exact getD_set_none _ 1
      · exact getD_set_none _ 0
    · intro hk
      simp only [hk, if_true]
    · intro hk
      simp [hk]
  · cases h : st.s_usb_device.get port.val with
    | none => rw [hnone h, hnone h]
    | some dev =>
      have h2 : (DestroyDevice st port.val).s_usb_device.get port.val = none := by
        rw [hsome dev h]
        exact PortArr.get_set_self _ _ _
      unfold DestroyDevice at h2 ⊢
      simp only [h] at h2 ⊢
      simp only [h2]
  · intro q hq
    cases h : st.s_usb_device.get port.val with
    | none =>
      rw [hnone h]
      exact ⟨rfl, rfl, rfl⟩
    | some dev =>
      rw [hsome dev h]
      fin_cases port <;> fin_cases q
      · exact absurd rfl hq
      · exact ⟨rfl, rfl, getD_set_other _ 1 0 _ none (by decide)⟩
      · exact ⟨rfl, rfl, getD_set_other _ 0 1 _ none (by decide)⟩
      · exact absurd rfl hq

/-- Witness of C16: the light gun of guest port 1 of the sample state is destroyed. -/
theorem DestroyDevice_effect_witness :
    (DestroyDevice sampleState 1).s_usb_device.get 1 = none
    ∧ (DestroyDevice sampleState 1).s_usb_device_proxy.get 1 = none
    ∧ (DestroyDevice sampleState 1).s_qemu_ohci.rhport_dev.getD 0 none = none
    ∧ (DestroyDevice sampleState 1).trace = [Event.unrealize 2] := by
  have h := (DestroyDevice_effect sampleState ⟨1, by decide⟩).1
    (sampleDevice 2 (Peripheral.guncon2 sampleGun)) rfl
  exact ⟨h.1, h.2.1, h.2.2.1, h.2.2.2.1 rfl⟩

/-! ## `CheckForConfigChanges` -/

theorem slots_set_other (st : USBState) (q : Fin NUM_PORTS) (p : Fin NUM_PORTS)
    (hp : p.val ≠ q.val) (devs : Option USBDevice) (prox : Option DeviceProxy)
    (rh : Option Nat) (st1 : USBState)
    (h1 : st1.s_usb_device = st.s_usb_device.set q.val devs)
    (h2 : st1.s_usb_device_proxy = st.s_usb_device_proxy.set q.val prox)
    (h3 : st1.s_qemu_ohci.rhport_dev = st.s_qemu_ohci.rhport_dev.set (1 - q.val) rh) :
    slots st1 p.val = slots st p.val := by
  unfold slots
  rw [h1, h2, h3]
  fin_cases q <;> fin_cases p
  · exact absurd rfl hp
  · exact congrArg _ (congrArg _ (getD_set_other _ 1 0 _ none (by decide)))
  · exact congrArg _ (congrArg _ (getD_set_other _ 0 1 _ none (by decide)))
  · exact absurd rfl hp

theorem slots_dev_other (st : USBState) (q : Fin NUM_PORTS) (p : Fin NUM_PORTS)
    (hp : p.val ≠ q.val) (devs : Option USBDevice) (st1 : USBState)
    (h1 : st1.s_usb_device = st.s_usb_device.set q.val devs)
    (h2 : st1.s_usb_device_proxy = st.s_usb_device_proxy)
    (h3 : st1.s_qemu_ohci.rhport_dev = st.s_qemu_ohci.rhport_dev) :
    slots st1 p.val = slots st p.val := by
  unfold slots
  rw [h1, h2, h3]
  fin_cases q <;> fin_cases p
  · exact absurd rfl hp
  · rfl
  · rfl
  · exact absurd rfl hp

theorem UpdateDevice_step (env : Env) (st : USBState) (q : Fin NUM_PORTS) :
    PortStep q.val st (UpdateDevice env st q.val) := by
  unfold UpdateDevice
  split
  · exact ⟨rfl, rfl, fun _ _ => rfl, [], by simp, fun e he => by cases he⟩
  · split
    · exact ⟨rfl, rfl, fun _ _ => rfl, [], by simp, fun e he => by cases he⟩
    · refine ⟨rfl, rfl, fun p hp => slots_dev_other st q p hp _ _ rfl rfl rfl,
        [Event.update_settings q.val], rfl, fun e he => ?_⟩
      simp only [List.mem_singleton] at he
      exact Or.inl he

theorem DestroyDevice_step (st : USBState) (q : Fin NUM_PORTS) :
    PortStep q.val st (DestroyDevice st q.val) := by
  unfold DestroyDevice
  split
  · exact ⟨rfl, rfl, fun _ _ => rfl, [], by simp, fun e he => by cases he⟩
  · rename_i dev hdev
    have hg : GetOHCIPort q.val = 1 - q.val := by fin_cases q <;> rfl
    refine ⟨rfl, by simp [setPortDev], fun p hp => slots_set_other st q p hp none none none _
      rfl rfl (by rw [← hg]; rfl), ?_⟩
    by_cases hk : dev.klass_unrealize = true
    · refine ⟨[Event.unrealize dev.ptr], by simp [hk], fun e he => ?_⟩
      simp only [List.mem_singleton] at he
      exact Or.inr (Or.inr (Or.inr ⟨dev, hdev, he⟩))
    · exact ⟨[], by simp [hk], fun e he => by cases he⟩

theorem CreateDevice_step (env : Env) (st : USBState) (q : Fin NUM_PORTS)
    (r : Bool × USBState) (hc : CreateDevice env st q.val = some r) :
    r.2.EmuConfig = st.EmuConfig
    ∧ r.2.s_qemu_ohci.rhport_dev.length = st.s_qemu_ohci.rhport_dev.length
    ∧ (∀ p : Fin NUM_PORTS, p.val ≠ q.val → slots r.2 p.val = slots st p.val)
    ∧ (r.2.trace = st.trace ∨ r.2.trace = st.trace ++ [Event.console_error q.val]
        ∨ r.2.trace = st.trace ++ [Event.attach (1 - q.val)]) := by
  have hg : GetOHCIPort q.val = 1 - q.val := by fin_cases q <;> rfl
  unfold CreateDevice at hc
  simp only at hc
  split at hc
  · cases hc
    exact ⟨rfl, rfl, fun _ _ => rfl, Or.inl rfl⟩
  · split at hc
    · cases hc
      exact ⟨rfl, rfl, fun _ _ => rfl, Or.inr (Or.inl rfl)⟩
    · split at hc
      · cases hc
      · cases hc
        refine ⟨rfl, by simp [setPortDev, keepWiring], fun p hp =>
          slots_set_other st q p hp _ _ (some st.next_ptr) _ rfl rfl (by rw [← hg]; rfl),
          Or.inr (Or.inr (by rw [← hg]))⟩

theorem checkPort_same (env : Env) (old : PortArr PortConfig) (st : USBState) (q : Nat)
    (h : st.EmuConfig.get q = old.get q) :
    checkPort env old st q = some (UpdateDevice env st q) := by
  unfold checkPort
  rw [if_pos h]

theorem checkPort_changed (env : Env) (old : PortArr PortConfig) (st : USBState) (q : Nat)
    (h : st.EmuConfig.get q ≠ old.get q) :
    checkPort env old st q = (CreateDevice env (DestroyDevice st q) q).map Prod.snd := by
  unfold checkPort
  rw [if_neg h]
  cases hd : st.s_usb_device.get q with
  | none =>
    have : DestroyDevice st q = st := by
      unfold DestroyDevice
      simp only [hd]
    simp [this]
  | some d => simp

theorem PortStep.comp {q : Nat} {a b c : USBState} (h1 : PortStep q a b)
    (h2 : c.EmuConfig = b.EmuConfig
      ∧ c.s_qemu_ohci.rhport_dev.length = b.s_qemu_ohci.rhport_dev.length
      ∧ (∀ p : Fin NUM_PORTS, p.val ≠ q → slots c p.val = slots b p.val)
      ∧ (c.trace = b.trace ∨ c.trace = b.trace ++ [Event.console_error q]
          ∨ c.trace = b.trace ++ [Event.attach (1 - q)])) : PortStep q a c := by
  obtain ⟨e1, l1, s1, evs, t1, pe⟩ := h1
  obtain ⟨e2, l2, s2, t2⟩ := h2
  refine ⟨e2.trans e1, l2.trans l1, fun p hp => (s2 p hp).trans (s1 p hp), ?_⟩
  rcases t2 with t2 | t2 | t2
  · exact ⟨evs, by rw [t2, t1], pe⟩
  · refine ⟨evs ++ [Event.console_error q], by rw [t2, t1, List.append_assoc], fun e he => ?_⟩
    rcases List.mem_append.mp he with he | he
    · exact pe e he
    · exact Or.inr (Or.inl (List.mem_singleton.mp he))
  · refine ⟨evs ++ [Event.attach (1 - q)], by rw [t2, t1, List.append_assoc], fun e he => ?_⟩
    rcases List.mem_append.mp he with he | he
    · exact pe e he
    · exact Or.inr (Or.inr (Or.inl (List.mem_singleton.mp he)))

theorem checkPort_step (env : Env) (old : PortArr PortConfig) (st b : USBState)
    (q : Fin NUM_PORTS) (hc : checkPort env old st q.val = some b) : PortStep q.val st b := by
  by_cases h : st.EmuConfig.get q.val = old.get q.val
  · rw [checkPort_same env old st q.val h] at hc
    cases hc
    exact UpdateDevice_step env st q
  · rw [checkPort_changed env old st q.val h] at hc
    cases hr : CreateDevice env (DestroyDevice st q.val) q.val with
    | none => simp [hr] at hc
    | some r =>
      rw [hr] at hc
      have e : r.2 = b := Option.some.inj hc
      subst e
      exact (DestroyDevice_step st q).comp (CreateDevice_step env _ q r hr)

theorem count_step (e : Event) (q : Nat) (a b : USBState) (h : PortStep q a b)
    (h1 : e ≠ Event.update_settings q) (h2 : e ≠ Event.console_error q)
    (h3 : e ≠ Event.attach (1 - q))
    (h4 : ∀ d, a.s_usb_device.get q = some d → e ≠ Event.unrealize d.ptr) :
    b.trace.count e = a.trace.count e := by
  obtain ⟨_, _, _, evs, t, pe⟩ := h
  rw [t, List.count_append]
  have : evs.count e = 0 := by
    rw [List.count_eq_zero]
    intro hm
    rcases pe e hm with h | h | h | ⟨d, hd, h⟩
    · exact h1 h
    · exact h2 h
    · exact h3 h
    · exact h4 d hd h
  omega

theorem CreateDevice_slots (env : Env) (st : USBState) (q : Fin NUM_PORTS)
    (r : Bool × USBState) (hc : CreateDevice env st q.val = some r)
    (hlen : st.s_qemu_ohci.rhport_dev.length = OHCI_MAX_PORTS) :
    (env.Device (st.EmuConfig.get q.val).DeviceType = none → slots r.2 q.val = slots st q.val)
    ∧ (∀ proxy, env.Device (st.EmuConfig.get q.val).DeviceType = some proxy →
        env.CreateDevice proxy q.val (st.EmuConfig.get q.val).DeviceSubtype = none →
        slots r.2 q.val = slots st q.val)
    ∧ (∀ proxy created, env.Device (st.EmuConfig.get q.val).DeviceType = some proxy →
        env.CreateDevice proxy q.val (st.EmuConfig.get q.val).DeviceSubtype = some created →
        ∃ dev, slots r.2 q.val = (some dev, some proxy, some dev.ptr)) := by
  have hl2 : 1 < st.s_qemu_ohci.rhport_dev.length := by rw [hlen]; decide
  unfold CreateDevice at hc
  simp only at hc
  refine ⟨?_, ?_, ?_⟩
  · intro h
    simp only [h] at hc
    cases hc
    rfl
  · intro proxy h1 h2
    simp only [h1, h2] at hc
    cases hc
    rfl
  · intro proxy created h1 h2
    simp only [h1, h2] at hc
    split at hc
    · cases hc
    · cases hc
      refine ⟨keepPtr { created with ptr := st.next_ptr, attached := true }
        (env.usb_attach (setPortDev st.s_qemu_ohci q.val (some st.next_ptr)) (GetOHCIPort q.val)
          { created with ptr := st.next_ptr, attached := true }).2, ?_⟩
      unfold slots
      simp only [PortArr.get_set_self, keepWiring, setPortDev]
      fin_cases q
      · exact congrArg _ (congrArg _ (getD_set_same _ 1 _ none hl2))
      · exact congrArg _ (congrArg _ (getD_set_same _ 0 _ none (by omega)))

theorem checkPort_self (env : Env) (old : PortArr PortConfig) (a b : USBState)
    (p : Fin NUM_PORTS) (hc : checkPort env old a p.val = some b)
    (hprox : (a.s_usb_device_proxy.get p.val).isSome = (a.s_usb_device.get p.val).isSome)
    (hrh : a.s_qemu_ohci.rhport_dev.getD (1 - p.val) none
      = (a.s_usb_device.get p.val).map (fun d => d.ptr))
    (hlen : a.s_qemu_ohci.rhport_dev.length = OHCI_MAX_PORTS) :
    Reconciled env old p.val a b := by
  refine ⟨fun h => ?_, fun h => ?_⟩
  · rw [checkPort_same env old a p.val h] at hc
    cases hc
    cases hd : a.s_usb_device.get p.val with
    | none =>
      have hu : UpdateDevice env a p.val = a := by
        unfold UpdateDevice
        simp only [hd]
      rw [hu]
      refine ⟨fun d proxy h1 => (by cases h1), fun _ => hd, (by rw [hd]), rfl, rfl, (by simp),
        fun d h1 => (by cases h1)⟩
    | some d =>
      rw [hd] at hprox
      cases hp : a.s_usb_device_proxy.get p.val with
      | none => simp [hp] at hprox
      | some proxy =>
        have hu : UpdateDevice env a p.val = { a with
            s_usb_device := a.s_usb_device.set p.val
              (some (keepPtr d (env.UpdateSettings proxy d)))
            trace := a.trace ++ [Event.update_settings p.val] } := by
          unfold UpdateDevice
          simp only [hd, hp]
        rw [hu]
        refine ⟨?_, fun h1 => (by cases h1), ?_, hp, rfl, ?_, ?_⟩
        · intro d1 proxy1 h1 h2
          cases h1
          cases h2
          exact PortArr.get_set_self _ _ _
        · simp only [PortArr.get_set_self]
          rfl
        · simp [List.count_append]
        · intro d1 _
          simp [List.count_append]
  · rw [checkPort_changed env old a p.val h] at hc
    cases hr : CreateDevice env (DestroyDevice a p.val) p.val with
    | none => simp [hr] at hc
    | some r =>
      rw [hr] at hc
      have e : r.2 = b := Option.some.inj hc
      subst e
      have hcfg : (DestroyDevice a p.val).EmuConfig = a.EmuConfig := (DestroyDevice_step a p).1
      have hlen2 : (DestroyDevice a p.val).s_qemu_ohci.rhport_dev.length = OHCI_MAX_PORTS :=
        (DestroyDevice_step a p).2.1.trans hlen
      have hslot : slots (DestroyDevice a p.val) p.val = (none, none, none) := by
        cases hd : a.s_usb_device.get p.val with
        | none =>
          have hu : DestroyDevice a p.val = a := by
            unfold DestroyDevice
            simp only [hd]
          rw [hu]
          unfold slots
          rw [hd] at hprox hrh
          rw [hd, hrh]
          cases hp : a.s_usb_device_proxy.get p.val with
          | none => rfl
          | some proxy => simp [hp] at hprox
        | some d =>
          unfold DestroyDevice slots
          simp only [hd, PortArr.get_set_self, setPortDev]
          fin_cases p
          · exact congrArg _ (congrArg _ (getD_set_none _ 1))
          · exact congrArg _ (congrArg _ (getD_set_none _ 0))
      have htr : ∀ e, (∀ q, e ≠ Event.console_error q) → (∀ q, e ≠ Event.attach q) →
          r.2.trace.count e = (DestroyDevice a p.val).trace.count e := by
        intro e h1 h2
        rcases (CreateDevice_step env _ p r hr).2.2.2 with t | t | t
        · rw [t]
        · rw [t, List.count_append, List.count_singleton]
          simp [(h1 p.val).symm]
        · rw [t, List.count_append, List.count_singleton]
          simp [(h2 (1 - p.val)).symm]
      obtain ⟨c1, c2, c3⟩ := CreateDevice_slots env _ p r hr hlen2
      rw [hcfg] at c1 c2 c3
      refine ⟨?_, ?_, fun h1 => (c1 h1).trans hslot, fun proxy h1 h2 => (c2 proxy h1 h2).trans hslot,
        c3⟩
      · intro d hd
        rw [htr _ (fun q => by simp) (fun q => by simp)]
        unfold DestroyDevice
        simp only [hd]
        by_cases hk : d.klass_unrealize = true
        · simp [hk, List.count_append]
        · simp [hk]
      · rw [htr _ (fun q => by simp) (fun q => by simp)]
        cases hd : a.s_usb_device.get p.val with
        | none =>
          unfold DestroyDevice
          simp only [hd]
        | some d =>
          unfold DestroyDevice
          simp only [hd]
          by_cases hk : d.klass_unrealize = true
          · simp [hk, List.count_append]
          · simp [hk]

theorem slots_eq {a b : USBState} {p : Nat} (h : slots b p = slots a p) :
    b.s_usb_device.get p = a.s_usb_device.get p
    ∧ b.s_usb_device_proxy.get p = a.s_usb_device_proxy.get p
    ∧ b.s_qemu_ohci.rhport_dev.getD (1 - p) none = a.s_qemu_ohci.rhport_dev.getD (1 - p) none := by
  unfold slots at h
  simp only [Prod.mk.injEq] at h
  exact h

theorem Reconciled.then_other (env : Env) (old : PortArr PortConfig) (p q : Fin NUM_PORTS)
    (hpq : p.val ≠ q.val) (a b c : USBState) (h : Reconciled env old p.val a b)
    (h1 : PortStep p.val a b) (h2 : PortStep q.val b c)
    (hdist : ∀ d dq, a.s_usb_device.get p.val = some d → a.s_usb_device.get q.val = some dq →
      d.ptr ≠ dq.ptr) :
    Reconciled env old p.val a c := by
  obtain ⟨sd, sp, sr⟩ := slots_eq (h2.2.2.1 p hpq)
  have hq := (slots_eq (h1.2.2.1 q (Ne.symm hpq))).1
  have hone : (1 : Nat) - p.val ≠ 1 - q.val := by
    fin_cases p <;> fin_cases q <;> simp at hpq ⊢
  have cu : c.trace.count (Event.update_settings p.val)
      = b.trace.count (Event.update_settings p.val) :=
    count_step _ q.val b c h2 (by simpa using hpq) (by simp) (by simp) (fun d _ => by simp)
  have cd : ∀ d, a.s_usb_device.get p.val = some d →
      c.trace.count (Event.unrealize d.ptr) = b.trace.count (Event.unrealize d.ptr) := by
    intro d hd
    refine count_step _ q.val b c h2 (by simp) (by simp) (by simp) (fun dq hdq => ?_)
    rw [hq] at hdq
    simpa using hdist d dq hd hdq
  have hs : slots c p.val = slots b p.val := h2.2.2.1 p hpq
  refine ⟨fun he => ?_, fun he => ?_⟩
  · obtain ⟨s1, s2, s3, s4, s5, s6, s7⟩ := h.1 he
    refine ⟨fun d proxy hd hp => sd.trans (s1 d proxy hd hp), fun hd => sd.trans (s2 hd),
      (by rw [sd]; exact s3), sp.trans s4, sr.trans s5, cu.trans s6,
      fun d hd => (cd d hd).trans (s7 d hd)⟩
  · obtain ⟨d1, d2, d3, d4, d5⟩ := h.2 he
    refine ⟨fun d hd => (cd d hd).trans (d1 d hd), cu.trans d2, fun hn => hs.trans (d3 hn),
      fun proxy hx hy => hs.trans (d4 proxy hx hy), fun proxy created hx hy => ?_⟩
    obtain ⟨dev, hdev⟩ := d5 proxy created hx hy
    exact ⟨dev, hs.trans hdev⟩

theorem Reconciled.after_other (env : Env) (old : PortArr PortConfig) (p q : Fin NUM_PORTS)
    (hpq : p.val ≠ q.val) (a b c : USBState) (h1 : PortStep q.val a b)
    (h : Reconciled env old p.val b c)
    (hdist : ∀ d dq, a.s_usb_device.get p.val = some d → a.s_usb_device.get q.val = some dq →
      d.ptr ≠ dq.ptr) :
    Reconciled env old p.val a c := by
  obtain ⟨sd, sp, sr⟩ := slots_eq (h1.2.2.1 p hpq)
  have hcfg : b.EmuConfig = a.EmuConfig := h1.1
  have cu : b.trace.count (Event.update_settings p.val)
      = a.trace.count (Event.update_settings p.val) :=
    count_step _ q.val a b h1 (by simpa using hpq) (by simp) (by simp) (fun d _ => by simp)
  have cd : ∀ d, a.s_usb_device.get p.val = some d →
      b.trace.count (Event.unrealize d.ptr) = a.trace.count (Event.unrealize d.ptr) := by
    intro d hd
    refine count_step _ q.val a b h1 (by simp) (by simp) (by simp) (fun dq hdq => ?_)
    simpa using hdist d dq hd hdq
  refine ⟨fun he => ?_, fun he => ?_⟩
  · obtain ⟨s1, s2, s3, s4, s5, s6, s7⟩ := h.1 (by rw [hcfg]; exact he)
    rw [sd] at s1 s2 s3 s6 s7
    rw [sp] at s1 s4
    rw [sr] at s5
    rw [cu] at s6
    exact ⟨s1, s2, s3, s4, s5, s6, fun d hd => (s7 d hd).trans (cd d hd)⟩
  · obtain ⟨d1, d2, d3, d4, d5⟩ := h.2 (by rw [hcfg]; exact he)
    rw [sd] at d1
    rw [hcfg] at d3 d4 d5
    rw [cu] at d2
    exact ⟨fun d hd => by rw [d1 d hd, cd d hd], d2, d3, d4, d5⟩

theorem CheckForConfigChanges_reconciled (env : Env) (old : PortArr PortConfig)
    (st st1 : USBState) (hw : Wired (wiring st))
    (hdist : ∀ d0 d1, st.s_usb_device.get 0 = some d0 → st.s_usb_device.get 1 = some d1 →
      d0.ptr ≠ d1.ptr)
    (hcc : CheckForConfigChanges env old st = some st1) (p : Fin NUM_PORTS) :
    Reconciled env old p.val st st1 := by
  obtain ⟨hl, w1, w0, wp0, wp1⟩ := hw
  simp only [wiring, ptrs] at hl w1 w0 wp0 wp1
  unfold CheckForConfigChanges at hcc
  cases h0 : checkPort env old st 0 with
  | none => simp [h0] at hcc
  | some s0 =>
    simp only [h0, Option.some_bind] at hcc
    have st0 := checkPort_step env old st s0 ⟨0, by decide⟩ h0
    have st1s := checkPort_step env old s0 st1 ⟨1, by decide⟩ hcc
    fin_cases p
    · have r0 := checkPort_self env old st s0 ⟨0, by decide⟩ h0
        (by simpa [PortArr.get] using wp0) w1 hl
      exact Reconciled.then_other env old ⟨0, by decide⟩ ⟨1, by decide⟩ (by decide) st s0 st1
        r0 st0 st1s hdist
    · obtain ⟨sd, sp, sr⟩ := slots_eq (st0.2.2.1 ⟨1, by decide⟩ (by decide))
      have r1 := checkPort_self env old s0 st1 ⟨1, by decide⟩ hcc
        (by
          show (s0.s_usb_device_proxy.get 1).isSome = (s0.s_usb_device.get 1).isSome
          rw [sd, sp]
          simpa [PortArr.get] using wp1)
        (by
          show s0.s_qemu_ohci.rhport_dev.getD (1 - 1) none = _
          rw [sr]
          show st.s_qemu_ohci.rhport_dev.getD 0 none = (s0.s_usb_device.get 1).map _
          rw [sd]
          exact w0)
        (st0.2.1.trans hl)
      exact Reconciled.after_other env old ⟨1, by decide⟩ ⟨0, by decide⟩ (by decide) st s0 st1
        st0 r1 (fun d dq hd hdq => (hdist dq d hdq hd).symm)

/-- C17: `CheckForConfigChanges(old)` from a state with the port ownership invariant
and two distinct device objects, for each guest port `p`. When the configuration of
`p` equals the old one, the device of `p` is the same object afterwards (same
address, same proxy, same root hub port, never unrealized), it is the device
`UpdateSettings` returns, and `UpdateSettings` is called once when a device is present
and not at all when the port is empty. When the configuration differs, the device of
`p` (if any) is unrealized, no settings update is made, and the slots of `p` are
those `CreateDevice` leaves for the new configuration: empty when the type has no
proxy or the factory fails, the new device with its proxy otherwise. -/
theorem CheckForConfigChanges_ports (env : Env) (old : PortArr PortConfig)
    (st st1 : USBState) (hw : Wired (wiring st))
    (hdist : ∀ d0 d1, st.s_usb_device.get 0 = some d0 → st.s_usb_device.get 1 = some d1 →
      d0.ptr ≠ d1.ptr)
    (hcc : CheckForConfigChanges env old st = some st1) (p : Fin NUM_PORTS) :
    (st.EmuConfig.get p.val = old.get p.val →
      (∀ d proxy, st.s_usb_device.get p.val = some d →
        st.s_usb_device_proxy.get p.val = some proxy →
        st1.s_usb_device.get p.val = some (keepPtr d (env.UpdateSettings proxy d)))
      ∧ (st.s_usb_device.get p.val = none → st1.s_usb_device.get p.val = none)
      ∧ (st1.s_usb_device.get p.val).map (fun d => d.ptr)
          = (st.s_usb_device.get p.val).map (fun d => d.ptr)
      ∧ st1.s_usb_device_proxy.get p.val = st.s_usb_device_proxy.get p.val
      ∧ st1.s_qemu_ohci.rhport_dev.getD (1 - p.val) none
          = st.s_qemu_ohci.rhport_dev.getD (1 - p.val) none
      ∧ st1.trace.count (Event.update_settings p.val)
          = st.trace.count (Event.update_settings p.val)
            + (if (st.s_usb_device.get p.val).isSome then 1 else 0)
      ∧ (∀ d, st.s_usb_device.get p.val = some d →
          st1.trace.count (Event.unrealize d.ptr) = st.trace.count (Event.unrealize d.ptr)))
    ∧ (st.EmuConfig.get p.val ≠ old.get p.val →
      (∀ d, st.s_usb_device.get p.val = some d →
        st1.trace.count (Event.unrealize d.ptr)
          = st.trace.count (Event.unrealize d.ptr) + (if d.klass_unrealize then 1 else 0))
      ∧ st1.trace.count (Event.update_settings p.val)
          = st.trace.count (Event.update_settings p.val)
      ∧ (env.Device (st.EmuConfig.get p.val).DeviceType = none →
          slots st1 p.val = (none, none, none))
      ∧ (∀ proxy, env.Device (st.EmuConfig.get p.val).DeviceType = some proxy →
          env.CreateDevice proxy p.val (st.EmuConfig.get p.val).DeviceSubtype = none →
          slots st1 p.val = (none, none, none))
      ∧ (∀ proxy created, env.Device (st.EmuConfig.get p.val).DeviceType = some proxy →
          env.CreateDevice proxy p.val (st.EmuConfig.get p.val).DeviceSubtype = some created →
          ∃ dev, slots st1 p.val = (some dev, some proxy, some dev.ptr))) :=
  CheckForConfigChanges_reconciled env old st st1 hw hdist hcc p

theorem reconciledSample_eq :
    CheckForConfigChanges creatingEnv ⟨⟨0, 0⟩, ⟨1, 0⟩⟩ unpluggedSample
      = some reconciledSample := by
  rfl

/-- Witness of C17: guest port 1 of the opened sample state is reconfigured from the
light gun to no device; the port ends empty and the pad of port 0 stays. -/
theorem CheckForConfigChanges_ports_witness :
    slots reconciledSample 1 = (none, none, none)
    ∧ (reconciledSample.s_usb_device.get 0).map (fun d => d.ptr)
        = (unpluggedSample.s_usb_device.get 0).map (fun d => d.ptr) := by
  have hw : Wired (wiring unpluggedSample) :=
    reachable_wired creatingEnv _ (Reachable.configure _ _
      (Reachable.opened sampleOHCI ⟨⟨0, 0⟩, ⟨1, 0⟩⟩ openedSample openedSample_eq))
  have hdist : ∀ d0 d1, unpluggedSample.s_usb_device.get 0 = some d0 →
      unpluggedSample.s_usb_device.get 1 = some d1 → d0.ptr ≠ d1.ptr := by
    intro d0 d1 h0 h1
    have e0 : (unpluggedSample.s_usb_device.get 0).map (fun d => d.ptr) = some 1 := rfl
    have e1 : (unpluggedSample.s_usb_device.get 1).map (fun d => d.ptr) = some 2 := rfl
    rw [h0] at e0
    rw [h1] at e1
    simp only [Option.map_some', Option.some.injEq] at e0 e1
    omega
  exact ⟨((CheckForConfigChanges_ports creatingEnv ⟨⟨0, 0⟩, ⟨1, 0⟩⟩ unpluggedSample
      reconciledSample hw hdist reconciledSample_eq ⟨1, by decide⟩).2 (by decide)).2.2.1 rfl,
    ((CheckForConfigChanges_ports creatingEnv ⟨⟨0, 0⟩, ⟨1, 0⟩⟩ unpluggedSample
      reconciledSample hw hdist reconciledSample_eq ⟨0, by decide⟩).1 rfl).2.2.1⟩

/-! ## Writing into a buffer that is too small -/

theorem Writing.put {sw : StateWrapper} (h : sw.Writing) (bs : List Nat)
    (hfit : sw.pos + bs.length ≤ sw.buf.length) :
    (sw.put bs).Writing ∧ (sw.put bs).buf.length = sw.buf.length := by
  have hl : (sw.put bs).buf.length = sw.buf.length := StateWrapper.put_buf_length sw bs hfit
  exact ⟨⟨h.mode, by rw [hl]; exact hfit⟩, hl⟩

theorem Emits.nil : Emits (fun sw => sw) [] := by
  intro sw h
  refine ⟨h, rfl, fun _ => rfl, fun _ _ => (StateWrapper.put_nil sw).symm, fun hlt => ?_⟩
  have := h.inside
  simp at hlt
  omega

theorem Emits.seq {f g : StateWrapper → StateWrapper} {a b : List Nat} (hf : Emits f a)
    (hg : Emits g b) : Emits (fun sw => g (f sw)) (a ++ b) := by
  intro sw h
  obtain ⟨f1, f2, f3, f4, f5⟩ := hf sw h
  obtain ⟨g1, g2, g3, g4, g5⟩ := hg (f sw) f1
  have hee : sw.error = true → g (f sw) = sw := by
    intro he
    have e1 := f3 he
    have e2 := g3 (by rw [e1]; exact he)
    rw [e2, e1]
  refine ⟨g1, g2.trans f2, hee, fun he hfit => ?_, fun hlt => ?_⟩
  · simp only [List.length_append] at hfit
    have e1 : f sw = sw.put a := f4 he (by omega)
    have e2 : g (sw.put a) = (sw.put a).put b := by
      have := g4
      rw [e1] at this
      refine this he ?_
      rw [StateWrapper.put_buf_length sw a (by omega)]
      show sw.pos + a.length + b.length ≤ sw.buf.length
      omega
    show g (f sw) = _
    rw [e1, e2, StateWrapper.put_put _ _ _ (by omega)]
  · simp only [List.length_append] at hlt
    show (g (f sw)).error = true
    by_cases he : sw.error = true
    · rw [hee he]
      exact he
    · by_cases hfa : sw.pos + a.length ≤ sw.buf.length
      · have e1 : f sw = sw.put a := f4 (by simpa using he) hfa
        refine g5 ?_
        rw [e1, StateWrapper.put_buf_length sw a hfa]
        show sw.buf.length < sw.pos + a.length + b.length
        omega
      · have e3 := f5 (by omega)
        rw [g3 e3]
        exact e3

theorem Emits.congr {f g : StateWrapper → StateWrapper} {bs : List Nat}
    (h : ∀ sw : StateWrapper, sw.Writing → f sw = g sw) (hg : Emits g bs) : Emits f bs := by
  intro sw hw
  rw [h sw hw]
  exact hg sw hw

theorem DoBytes_emits (data : List Nat) : Emits (fun sw => (sw.DoBytes data).2) data := by
  intro sw h
  have hm := h.mode
  have hi := h.inside
  by_cases he : sw.error = true
  · have e : (sw.DoBytes data).2 = sw := StateWrapper.DoBytes_error sw data he
    dsimp only
    rw [e]
    exact ⟨h, rfl, fun _ => rfl, fun h0 => (by rw [he] at h0; cases h0), fun _ => he⟩
  · have he0 : sw.error = false := by simpa using he
    by_cases hfit : sw.pos + data.length ≤ sw.buf.length
    · have e : (sw.DoBytes data).2 = sw.put data := by
        rw [StateWrapper.DoBytes_write sw data ⟨hm, he0, hfit⟩]
      dsimp only
      rw [e]
      obtain ⟨w1, w2⟩ := Writing.put h data hfit
      exact ⟨w1, w2, fun h1 => absurd h1 he, fun _ _ => rfl, fun hlt => by omega⟩
    · have hmin : min (sw.buf.length - sw.pos) data.length = sw.buf.length - sw.pos := by omega
      have hne : ¬ sw.buf.length - sw.pos = data.length := by omega
      have e : (sw.DoBytes data).2
          = { sw with buf := sw.buf.take sw.pos ++ data.take (sw.buf.length - sw.pos)
                        ++ sw.buf.drop (sw.pos + (sw.buf.length - sw.pos)),
                      pos := sw.pos + (sw.buf.length - sw.pos), error := true } := by
        simp [StateWrapper.DoBytes, hm, he0, StateWrapper.streamWrite, hmin, hne]
      dsimp only
      rw [e]
      have hlen : (sw.buf.take sw.pos ++ data.take (sw.buf.length - sw.pos)
          ++ sw.buf.drop (sw.pos + (sw.buf.length - sw.pos))).length = sw.buf.length := by
        simp only [List.length_append, List.length_take, List.length_drop]
        omega
      exact ⟨⟨hm, by show sw.pos + (sw.buf.length - sw.pos) ≤ _; rw [hlen]; omega⟩, hlen,
        fun h1 => absurd h1 he, fun _ hf => absurd hf hfit, fun _ => rfl⟩

theorem DoBytes_val (sw : StateWrapper) (data : List Nat) (hm : sw.mode = Mode.Write) :
    (sw.DoBytes data).1 = data := by
  unfold StateWrapper.DoBytes
  simp only [hm]
  split <;> rfl

theorem DoMarker_emits (marker : String) :
    Emits (fun sw => (sw.DoMarker marker).2) (markerEnc marker) := by
  have h1 := DoBytes_emits (encU 4 (markerBytes marker).length)
  have h2 := DoBytes_emits (markerBytes marker)
  refine Emits.congr (fun sw hw => ?_) (h1.seq h2)
  have hs : (sw.DoMarker marker).2 = (sw.DoString (markerBytes marker)).2 := by
    unfold StateWrapper.DoMarker
    simp only
    split
    · rfl
    · split <;> rfl
  rw [hs]
  unfold StateWrapper.DoString
  simp only [hw.mode, fit_self]

theorem DoMarker_ok (sw : StateWrapper) (marker : String) (hm : sw.mode = Mode.Write) :
    (sw.DoMarker marker).1 = !(sw.DoMarker marker).2.error := by
  unfold StateWrapper.DoMarker
  simp only
  cases he : (sw.DoString (markerBytes marker)).2.error <;> simp [hm, he]

theorem doField_val {σ : Type} (f : Field σ) (st : σ) (sw : StateWrapper)
    (hm : sw.mode = Mode.Write) : (doField f st sw).1 = st := by
  unfold doField
  simp only [hm]

theorem doFields_val {σ : Type} (fs : List (Field σ)) (st : σ) (sw : StateWrapper)
    (hm : sw.mode = Mode.Write) : (doFields fs st sw).1 = st := by
  induction fs generalizing sw with
  | nil => rfl
  | cons f fs ih =>
    simp only [doFields, doField_val f st sw hm]
    exact ih _ ((doField_follows f st sw).1.trans hm)

theorem doFields_emits {σ : Type} (fs : List (Field σ)) (st : σ) :
    Emits (fun sw => (doFields fs st sw).2) (encAll fs st) := by
  induction fs with
  | nil => exact Emits.nil
  | cons f fs ih =>
    have h1 : Emits (fun sw => (doField f st sw).2) (f.enc st) := by
      refine Emits.congr (fun sw hw => ?_) (DoBytes_emits (f.enc st))
      unfold doField
      simp only [hw.mode]
    refine Emits.congr (fun sw hw => ?_) (h1.seq ih)
    simp only [doFields, doField_val f st sw hw.mode]

theorem doArray_val {α : Type} (body : α → StateWrapper → α × StateWrapper)
    (hv : ∀ (a : α) (sw : StateWrapper), sw.mode = Mode.Write → (body a sw).1 = a)
    (hf : ∀ (a : α) (sw : StateWrapper), sw.Follows (body a sw).2)
    (as : List α) (sw : StateWrapper) (hm : sw.mode = Mode.Write) :
    (doArray body as sw).1 = as := by
  induction as generalizing sw with
  | nil => rfl
  | cons a as ih =>
    simp only [doArray, hv a sw hm, ih _ ((hf a sw).1.trans hm)]

theorem doArray_emits {α : Type} (body : α → StateWrapper → α × StateWrapper)
    (enc : α → List Nat) (he : ∀ a : α, Emits (fun sw => (body a sw).2) (enc a))
    (as : List α) : Emits (fun sw => (doArray body as sw).2) (encList enc as) := by
  induction as with
  | nil => exact Emits.nil
  | cons a as ih =>
    refine Emits.congr (fun sw hw => ?_) ((he a).seq ih)
    simp only [doArray]

theorem DoEndpointState_val (ep : USBEndpoint) (sw : StateWrapper)
    (hm : sw.mode = Mode.Write) : (DoEndpointState ep sw).1 = ep := by
  unfold DoEndpointState
  simp only [StateWrapper.IsReading, hm]
  exact doFields_val _ _ _ hm

theorem DoEndpointState_emits (ep : USBEndpoint) :
    Emits (fun sw => (DoEndpointState ep sw).2) (epBytes ep) := by
  refine Emits.congr (fun sw hw => ?_) (doFields_emits endpointFields ep)
  unfold DoEndpointState
  simp only [StateWrapper.IsReading, hw.mode]
  rfl

theorem marker_then (marker : String) (g : StateWrapper → StateWrapper) (bs : List Nat)
    (hg : Emits g bs) :
    Emits (fun sw => if !(sw.DoMarker marker).1 then (sw.DoMarker marker).2
      else g (sw.DoMarker marker).2) (markerEnc marker ++ bs) := by
  refine Emits.congr (fun sw hw => ?_) ((DoMarker_emits marker).seq hg)
  have hok := DoMarker_ok sw marker hw.mode
  have hm2 := ((DoMarker_emits marker) sw hw).1
  cases he : (sw.DoMarker marker).2.error
  · simp [hok, he]
  · simp only [hok, he, Bool.not_true, Bool.not_false, if_true]
    exact ((hg _ hm2).2.2.1 he).symm

theorem DoOHCIState_emits (st : USBState) :
    Emits (fun sw => (DoOHCIState st sw).2) (ohciBytes st) := by
  refine Emits.congr (fun sw hw => ?_)
    (marker_then "USBOHCI" _ _ (doFields_emits ohciFields st))
  unfold DoOHCIState
  simp only
  split <;> rfl

theorem DoOHCIState_val (st : USBState) (sw : StateWrapper) (hm : sw.mode = Mode.Write) :
    (DoOHCIState st sw).1 = st := by
  unfold DoOHCIState
  simp only
  split
  · rfl
  · exact doFields_val _ _ _ ((DoMarker_follows sw "USBOHCI").1.trans hm)

theorem deviceRest (env : Env) (hr : env.Reapply) (d : USBDevice) (hw : d.WF)
    (sw : StateWrapper) (hm : sw.mode = Mode.Write) :
    (let r := doFields deviceFields d sw
     let d1 := keepPtr r.1 (env.usb_desc_set_config r.1 r.1.configuration)
     let a := r.2.DoBytes (encInts d1.altsetting)
     let d2 := setInterfaces env (decInts d1.altsetting.length a.1) 0 d1
     let e0 := DoEndpointState d2.ep_ctl a.2
     let e1 := doArray DoEndpointState d2.ep_in e0.2
     let e2 := doArray DoEndpointState d2.ep_out e1.2
     (({ d2 with ep_ctl := e0.1, ep_in := e1.1, ep_out := e2.1 } : USBDevice), e2.2))
      = (d, (doArray DoEndpointState d.ep_out
          (doArray DoEndpointState d.ep_in
            (DoEndpointState d.ep_ctl
              ((doFields deviceFields d sw).2.DoBytes (encInts d.altsetting)).2).2).2).2) := by
  have m1 : (doFields deviceFields d sw).2.mode = Mode.Write :=
    (doFields_follows deviceFields d sw).1.trans hm
  have m2 : ((doFields deviceFields d sw).2.DoBytes (encInts d.altsetting)).2.mode = Mode.Write :=
    (DoBytes_follows _ _).1.trans m1
  have m3 : (DoEndpointState d.ep_ctl
      ((doFields deviceFields d sw).2.DoBytes (encInts d.altsetting)).2).2.mode = Mode.Write :=
    (DoEndpointState_follows _ _).1.trans m2
  have m4 : (doArray DoEndpointState d.ep_in (DoEndpointState d.ep_ctl
      ((doFields deviceFields d sw).2.DoBytes (encInts d.altsetting)).2).2).2.mode = Mode.Write :=
    (doArray_follows _ DoEndpointState_follows _ _).1.trans m3
  simp only [doFields_val deviceFields d sw hm, hr.config d, DoBytes_val _ _ m1,
    decInts_encInts _ hw.altsetting, setInterfaces_all env hr _ d rfl,
    DoEndpointState_val _ _ m2,
    doArray_val DoEndpointState DoEndpointState_val DoEndpointState_follows _ _ m3,
    doArray_val DoEndpointState DoEndpointState_val DoEndpointState_follows _ _ m4]

theorem DoDeviceState_val (env : Env) (hr : env.Reapply) (d : USBDevice) (hw : d.WF)
    (sw : StateWrapper) (hm : sw.mode = Mode.Write) : (DoDeviceState env d sw).1 = d := by
  unfold DoDeviceState
  simp only
  split
  · rfl
  · have h := deviceRest env hr d hw (sw.DoMarker "USBDevice").2
      ((DoMarker_follows sw "USBDevice").1.trans hm)
    simp only at h
    rw [h]

theorem DoDeviceState_emits (env : Env) (hr : env.Reapply) (d : USBDevice) (hw : d.WF) :
    Emits (fun sw => (DoDeviceState env d sw).2) (devBytes d) := by
  have hrest := (((doFields_emits deviceFields d).seq (DoBytes_emits (encInts d.altsetting))).seq
    (DoEndpointState_emits d.ep_ctl)).seq
      ((doArray_emits DoEndpointState epBytes DoEndpointState_emits d.ep_in).seq
        (doArray_emits DoEndpointState epBytes DoEndpointState_emits d.ep_out))
  have hb : devBytes d = markerEnc "USBDevice" ++ (encAll deviceFields d ++ encInts d.altsetting
      ++ epBytes d.ep_ctl ++ (encList epBytes d.ep_in ++ encList epBytes d.ep_out)) := by
    simp [devBytes, List.append_assoc]
  rw [hb]
  refine Emits.congr (fun sw hw1 => ?_) (marker_then "USBDevice" _ _ hrest)
  unfold DoDeviceState
  simp only
  split
  · rfl
  · have h := deviceRest env hr d hw (sw.DoMarker "USBDevice").2
      ((DoMarker_follows sw "USBDevice").1.trans hw1.mode)
    simp only at h
    rw [h]

theorem Freeze_emits (proxy : DeviceProxy) (d : USBDevice) (hp : ProxyOf proxy d.periph) :
    Emits (fun sw => (proxy.Freeze d sw).2.2) (periphBytes d.periph) := by
  cases proxy <;> cases hd : d.periph <;> simp only [hd, ProxyOf] at hp
  · rename_i p
    refine Emits.congr (fun sw hw => ?_) (marker_then "PadDevice" _ _ (doFields_emits padFields p))
    unfold DeviceProxy.Freeze PadDevice_Freeze
    simp only [hd]
    split <;> rfl
  · rename_i g
    have hb : periphBytes (Peripheral.guncon2 g) = markerEnc "GunCon2Device"
        ++ (encAll guncon2Fields g ++ encAll guncon2LocalFields (gunLocals g)) := by
      simp [periphBytes, gunBytes, List.append_assoc]
    rw [hb]
    refine Emits.congr (fun sw hw => ?_) (marker_then "GunCon2Device" _ _
      ((doFields_emits guncon2Fields g).seq (doFields_emits guncon2LocalFields (gunLocals g))))
    unfold DeviceProxy.Freeze GunCon2Device_Freeze
    simp only [hd]
    split
    · rfl
    · simp only [doFields_val guncon2Fields g _ ((DoMarker_follows sw "GunCon2Device").1.trans
        hw.mode), gunLocals]

theorem DoPacketState_emits (st : USBState) (valid : PortArr Bool) :
    Emits (fun sw => (DoPacketState st sw valid).2) (packetBytes st valid) := by
  refine Emits.congr (fun sw hw => ?_) (marker_then "USBPacket" _ _
    (doFields_emits packetFields (st.s_qemu_ohci.usb_packet, packetLocals st valid)))
  unfold DoPacketState
  simp only [StateWrapper.IsWriting, StateWrapper.IsReading, hw.mode]
  split
  · rfl
  · simp only [decide_True, if_true, decide_False]
    rfl

theorem DoPacketState_val (st : USBState) (valid : PortArr Bool) (sw : StateWrapper)
    (hm : sw.mode = Mode.Write) : (DoPacketState st sw valid).1 = st := by
  unfold DoPacketState
  simp only [StateWrapper.IsWriting, StateWrapper.IsReading, hm]
  split
  · rfl
  · rw [doFields_val _ _ _ ((DoMarker_follows sw "USBPacket").1.trans hm)]
    have hd : decide (Mode.Write = Mode.Read) = false := by decide
    simp only [hd, Bool.false_eq_true, if_false]

theorem header_emits (hdr : PortHeader) :
    Emits (fun sw => (doField sizeField hdr
      (doFields [devtypeField, devsubtypeField] hdr sw).2).2)
      (encS 4 hdr.state_devtype ++ encU 4 hdr.state_devsubtype ++ encU 4 hdr.state_size) := by
  have h1 := doFields_emits [devtypeField, devsubtypeField] hdr
  have h2 : Emits (fun sw => (doField sizeField hdr sw).2) (encU 4 hdr.state_size) := by
    refine Emits.congr (fun sw hw => ?_) (DoBytes_emits (sizeField.enc hdr))
    unfold doField
    simp only [hw.mode]
  have h3 := h1.seq h2
  simpa [encAll, devtypeField, devsubtypeField, Field.s, Field.u] using h3

theorem savePort_fail (env : Env) (hr : env.Reapply) (x : FreezeLoop) (port : Nat)
    (hw : PortWF x.st port) (hW : x.sw.Writing)
    (h : x.sw.error = true ∨ x.sw.buf.length < x.sw.pos + (portBytes x.st port).length) :
    (savePort env x port).1 = false := by
  obtain ⟨f1, f2, f3, f4, f5⟩ := header_emits
    ⟨(x.st.EmuConfig.get port).DeviceType, (x.st.EmuConfig.get port).DeviceSubtype, 0⟩ x.sw hW
  simp only at f1 f2 f3 f4 f5
  unfold savePort
  simp only
  split
  · rfl
  · rename_i hne
    simp only [StateWrapper.HasError] at hne
    have he0 : x.sw.error = false := by
      cases he : x.sw.error
      · rfl
      · rw [f3 he] at hne
        exact absurd he hne
    have hfit : x.sw.pos + 12 ≤ x.sw.buf.length := by
      by_contra hc
      exact hne (f5 (by simp only [List.length_append, encS_length, encU_length]; omega))
    have hz := f4 he0 (by simp only [List.length_append, encS_length, encU_length]; omega)
    have hover : x.sw.buf.length < x.sw.pos + (portBytes x.st port).length := by
      rcases h with h | h
      · rw [he0] at h
        cases h
      · exact h
    rw [portBytes_length] at hover
    split
    · rename_i hd
      rw [hd] at hover
      simp only [blockBytes, List.length_nil] at hover
      omega
    · rename_i dev hd
      obtain ⟨hdw, hpw, proxy, hproxy, hpo⟩ := hw.dev dev hd
      rw [hd] at hover
      simp only [blockBytes] at hover
      have hE := ((DoDeviceState_emits env hr dev hdw).seq (Freeze_emits proxy dev hpo)) _ f1
      simp only [DoDeviceState_val env hr dev hdw _ f1.mode] at hE
      have herr := hE.2.2.2.2 (by
        rw [f2, hz]
        show x.sw.buf.length < x.sw.pos + _ + _
        simp only [List.length_append, encS_length, encU_length] at hover ⊢
        omega)
      simp only [hproxy, DoDeviceState_val env hr dev hdw _ f1.mode, StateWrapper.HasError, herr,
        Bool.or_true, if_true]

theorem put_err (sw : StateWrapper) (bs : List Nat) : (sw.put bs).error = sw.error := rfl

theorem save_small (env : Env) (hr : env.Reapply) (st : USBState) (hw : st.WF)
    (sw : StateWrapper) (hW : sw.Writing) (he : sw.error = false) (hlt : sw.buf.length < 2 ^ 32)
    (hsmall : sw.buf.length < sw.pos + (saveBytes st).length) :
    let m := sw.DoMarker "USB"
    let o := DoOHCIState st m.2
    let s1 := savePort env ⟨o.1, o.2, ⟨false, false⟩⟩ 0
    let s2 := savePort env s1.2 1
    let r := DoPacketState s2.2.st s2.2.sw s2.2.valid_devices
    m.1 = false ∨ s1.1 = false ∨ s2.1 = false ∨ r.2.error = true := by
  simp only [saveBytes, List.length_append] at hsmall
  intro m o s1 s2 r
  obtain ⟨a1, a2, a3, a4, a5⟩ := DoMarker_emits "USB" sw hW
  simp only at a1 a2 a3 a4 a5
  by_cases c1 : sw.pos + (markerEnc "USB").length ≤ sw.buf.length
  swap
  · left
    show (sw.DoMarker "USB").1 = false
    rw [DoMarker_ok sw "USB" hW.mode, a5 (by omega)]
    rfl
  have hm2 : m.2 = sw.put (markerEnc "USB") := a4 he c1
  obtain ⟨b1, b2, b3, b4, b5⟩ := DoOHCIState_emits st m.2 a1
  simp only at b1 b2 b3 b4 b5
  have ho1 : o.1 = st := DoOHCIState_val st m.2 a1.mode
  have hwf0 : PortWF (FreezeLoop.mk o.1 o.2 ⟨false, false⟩).st 0 := by
    show PortWF o.1 0
    rw [ho1]
    exact hw.port0
  by_cases c2 : sw.pos + (markerEnc "USB").length + (ohciBytes st).length ≤ sw.buf.length
  swap
  · right; left
    refine savePort_fail env hr _ 0 hwf0 b1 (Or.inl ?_)
    exact b5 (by rw [a2, hm2, StateWrapper.put_pos]; omega)
  have ho2 : o.2 = sw.put (markerEnc "USB" ++ ohciBytes st) := by
    show (DoOHCIState st m.2).2 = _
    rw [b4 (by rw [hm2]; exact he) (by rw [a2, hm2, StateWrapper.put_pos]; omega), hm2,
      StateWrapper.put_put _ _ _ c1]
  have hb1 : (sw.put (markerEnc "USB" ++ ohciBytes st)).buf.length = sw.buf.length :=
    StateWrapper.put_buf_length _ _ (by simp only [List.length_append]; omega)
  have hx0 : (FreezeLoop.mk o.1 o.2 ⟨false, false⟩)
      = FreezeLoop.mk st (sw.put (markerEnc "USB" ++ ohciBytes st)) ⟨false, false⟩ := by
    rw [ho1, ho2]
  by_cases c3 : sw.pos + (markerEnc "USB").length + (ohciBytes st).length
      + (portBytes st 0).length ≤ sw.buf.length
  swap
  · right; left
    show (savePort env ⟨o.1, o.2, ⟨false, false⟩⟩ 0).1 = false
    rw [hx0]
    refine savePort_fail env hr _ 0 hw.port0 ?_ (Or.inr ?_)
    · exact (Writing.put hW _ (by simp only [List.length_append]; omega)).1
    · show (sw.put _).buf.length < (sw.put _).pos + (portBytes st 0).length
      rw [hb1, StateWrapper.put_pos]
      simp only [List.length_append]
      omega
  have hs1 : s1 = (true, FreezeLoop.mk st
      (sw.put (markerEnc "USB" ++ ohciBytes st ++ portBytes st 0))
      ⟨(st.s_usb_device.get 0).isSome, false⟩) := by
    show savePort env ⟨o.1, o.2, ⟨false, false⟩⟩ 0 = _
    rw [hx0, savePort_ok env hr _ 0 hw.port0
      ⟨hW.mode, he, by
        show (sw.put _).pos + _ ≤ (sw.put _).buf.length
        rw [hb1, StateWrapper.put_pos]
        simp only [List.length_append]
        omega⟩ (by rw [hb1]; exact hlt)]
    simp only [StateWrapper.put_put _ _ _
      (show sw.pos + (markerEnc "USB" ++ ohciBytes st).length ≤ sw.buf.length by
        simp only [List.length_append]; omega)]
    cases hd : st.s_usb_device.get 0 <;> simp [PortArr.set]
  have hb2 : (sw.put (markerEnc "USB" ++ ohciBytes st ++ portBytes st 0)).buf.length
      = sw.buf.length :=
    StateWrapper.put_buf_length _ _ (by simp only [List.length_append]; omega)
  by_cases c4 : sw.pos + (markerEnc "USB").length + (ohciBytes st).length
      + (portBytes st 0).length + (portBytes st 1).length ≤ sw.buf.length
  swap
  · right; right; left
    show (savePort env s1.2 1).1 = false
    rw [hs1]
    refine savePort_fail env hr _ 1 hw.port1 ?_ (Or.inr ?_)
    · exact (Writing.put hW _ (by simp only [List.length_append]; omega)).1
    · show (sw.put _).buf.length < (sw.put _).pos + (portBytes st 1).length
      rw [hb2, StateWrapper.put_pos]
      simp only [List.length_append]
      omega
  have hs2 : s2 = (true, FreezeLoop.mk st
      (sw.put (markerEnc "USB" ++ ohciBytes st ++ portBytes st 0 ++ portBytes st 1))
      (validOf st)) := by
    show savePort env s1.2 1 = _
    rw [hs1, savePort_ok env hr _ 1 hw.port1
      ⟨hW.mode, he, by
        show (sw.put _).pos + _ ≤ (sw.put _).buf.length
        rw [hb2, StateWrapper.put_pos]
        simp only [List.length_append]
        omega⟩ (by rw [hb2]; exact hlt)]
    simp only [StateWrapper.put_put _ _ _
      (show sw.pos + (markerEnc "USB" ++ ohciBytes st ++ portBytes st 0).length ≤ sw.buf.length by
        simp only [List.length_append]; omega)]
    cases hd : st.s_usb_device.get 1 <;> simp [PortArr.set, validOf, hd]
  right; right; right
  show (DoPacketState s2.2.st s2.2.sw s2.2.valid_devices).2.error = true
  rw [hs2]
  have hb3 : (sw.put (markerEnc "USB" ++ ohciBytes st ++ portBytes st 0 ++ portBytes st 1)).buf.length
      = sw.buf.length :=
    StateWrapper.put_buf_length _ _ (by simp only [List.length_append]; omega)
  refine (DoPacketState_emits st (validOf st) _
    (Writing.put hW _ (by simp only [List.length_append]; omega)).1).2.2.2.2 ?_
  rw [hb3, StateWrapper.put_pos]
  simp only [List.length_append]
  omega

theorem USBfreezeSave_small (env : Env) (hr : env.Reapply) (st : USBState) (hw : st.WF)
    (data : freezeData) (hsize : data.size < (saveBytes st).length) (hlt : data.size < 2 ^ 32) :
    (USBfreezeSave env st data).1 = -1 := by
  have h := save_small env hr st hw ⟨Mode.Write, List.replicate data.size 0, 0, false⟩
    ⟨rfl, Nat.zero_le _⟩ rfl (by simpa using hlt) (by simpa using hsize)
  simp only at h
  unfold USBfreezeSave
  simp only
  split
  · rfl
  · split
    · rfl
    · split
      · rfl
      · split
        · rfl
        · rename_i h1 h2 h3 h4
          simp only [StateWrapper.HasError, Bool.not_eq_true, Bool.not_eq_true'] at h1 h2 h3 h4
          rcases h with h | h | h | h
          · exact absurd h h1
          · exact absurd h h2
          · exact absurd h h3
          · rw [h] at h4; cases h4

theorem USBfreezeSave_ret (env : Env) (st : USBState) (data : freezeData) :
    (USBfreezeSave env st data).1 = 0 ∨ (USBfreezeSave env st data).1 = -1 := by
  unfold USBfreezeSave
  simp only
  split
  · right; rfl
  · split
    · right; rfl
    · split
      · right; rfl
      · split
        · right; rfl
        · left; rfl

/-- The first component of `USBfreezeLoad` is 0 on every path of the definition, also
on a run that set `fault`, where the program has no defined return value. -/
theorem USBfreezeLoad_ret (env : Env) (st : USBState) (data : freezeData) :
    (USBfreezeLoad env st data).1 = 0 := by
  unfold USBfreezeLoad
  simp only
  split
  · rfl
  · split <;> rfl

theorem save_steps (env : Env) (hr : env.Reapply) (st : USBState) (hw : st.WF) (sw : StateWrapper)
    (h : sw.Writable (saveBytes st).length) (hlt : sw.buf.length < 2 ^ 32) :
    let o := DoOHCIState st (sw.DoMarker "USB").2
    let s1 := savePort env ⟨o.1, o.2, ⟨false, false⟩⟩ 0
    let s2 := savePort env s1.2 1
    o.2 = sw.put (markerEnc "USB" ++ ohciBytes st)
    ∧ s1.2.sw = sw.put (markerEnc "USB" ++ ohciBytes st ++ portBytes st 0)
    ∧ s2.2.sw = sw.put (markerEnc "USB" ++ ohciBytes st ++ portBytes st 0 ++ portBytes st 1) := by
  have hpos := h.2.2
  simp only [saveBytes, List.length_append] at h hpos
  intro o s1 s2
  have hm : sw.DoMarker "USB" = (true, sw.put (markerEnc "USB")) :=
    StateWrapper.DoMarker_write _ _ (h.mono (by omega))
  have ho : o = (st, sw.put (markerEnc "USB" ++ ohciBytes st)) := by
    show DoOHCIState st (sw.DoMarker "USB").2 = _
    rw [hm, DoOHCIState_write _ _ (StateWrapper.Writable.put_of _ h (by omega)),
      StateWrapper.put_put _ _ _ (by omega)]
  have hb1 : (sw.put (markerEnc "USB" ++ ohciBytes st)).buf.length = sw.buf.length :=
    StateWrapper.put_buf_length _ _ (by simp only [List.length_append]; omega)
  have hs1 : s1 = (true, FreezeLoop.mk st
      (sw.put (markerEnc "USB" ++ ohciBytes st ++ portBytes st 0))
      ⟨(st.s_usb_device.get 0).isSome, false⟩) := by
    show savePort env ⟨o.1, o.2, ⟨false, false⟩⟩ 0 = _
    rw [ho, savePort_ok env hr _ 0 hw.port0
      (StateWrapper.Writable.put_of _ h (by simp only [List.length_append]; omega))
      (by rw [hb1]; exact hlt)]
    simp only [StateWrapper.put_put _ _ _
      (show sw.pos + (markerEnc "USB" ++ ohciBytes st).length ≤ sw.buf.length by
        simp only [List.length_append]; omega)]
    cases hd : st.s_usb_device.get 0 <;> simp [PortArr.set]
  have hb2 : (sw.put (markerEnc "USB" ++ ohciBytes st ++ portBytes st 0)).buf.length
      = sw.buf.length :=
    StateWrapper.put_buf_length _ _ (by simp only [List.length_append]; omega)
  have hs2 : s2 = (true, FreezeLoop.mk st
      (sw.put (markerEnc "USB" ++ ohciBytes st ++ portBytes st 0 ++ portBytes st 1))
      (validOf st)) := by
    show savePort env s1.2 1 = _
    rw [hs1, savePort_ok env hr _ 1 hw.port1
      (StateWrapper.Writable.put_of _ h (by simp only [List.length_append]; omega))
      (by rw [hb2]; exact hlt)]
    simp only [StateWrapper.put_put _ _ _
      (show sw.pos + (markerEnc "USB" ++ ohciBytes st ++ portBytes st 0).length ≤ sw.buf.length by
        simp only [List.length_append]; omega)]
    cases hd : st.s_usb_device.get 1 <;> simp [PortArr.set, validOf, hd]
  exact ⟨by rw [ho], by rw [hs1], by rw [hs2]⟩

theorem USBfreezeSave_fits (env : Env) (hr : env.Reapply) (st : USBState) (hw : st.WF)
    (data : freezeData) (hlt : data.size < 2 ^ 32) (hret : (USBfreezeSave env st data).1 = 0) :
    (saveBytes st).length ≤ data.size := by
  by_contra hc
  rw [USBfreezeSave_small env hr st hw data (by omega) hlt] at hret
  cases hret

theorem sampleSave_ret : (USBfreeze sampleEnv FreezeAction.Save sampleState ⟨1000, []⟩).1 = 0 := by
  show (USBfreezeSave sampleEnv sampleState ⟨1000, []⟩).1 = 0
  rw [USBfreezeSave_ok sampleEnv sampleEnv_reapply sampleState sampleState_wf ⟨1000, []⟩
    sampleState_size (by decide)]

/-- C11: after a successful Save (return value 0) of a well-formed state, the buffer
holds, after the subsystem marker and the controller record, one block per port
followed directly by the packet record. The block of a port starts with the
configured device type, the configured device subtype and a four-byte length, and
the length field holds exactly the number of bytes that follow it in the block: none
for a port without a device, the device record and the record of the peripheral for
a port with one. After the iteration of a port the write position is at the end of
its block, so the next record starts there. -/
theorem Save_port_blocks (env : Env) (hr : env.Reapply) (st : USBState) (hw : st.WF)
    (data : freezeData) (hlt : data.size < 2 ^ 32)
    (hret : (USBfreeze env FreezeAction.Save st data).1 = 0) :
    let block := fun port : Nat => blockBytes (st.s_usb_device.get port)
    let header := fun port : Nat =>
      encS 4 (st.EmuConfig.get port).DeviceType ++ encU 4 (st.EmuConfig.get port).DeviceSubtype
        ++ encU 4 (block port).length
    let sw0 : StateWrapper := ⟨Mode.Write, List.replicate data.size 0, 0, false⟩
    let o := DoOHCIState st (sw0.DoMarker "USB").2
    let s1 := savePort env ⟨o.1, o.2, ⟨false, false⟩⟩ 0
    let s2 := savePort env s1.2 1
    (USBfreeze env FreezeAction.Save st data).2.2.data
        = markerEnc "USB" ++ ohciBytes st ++ (header 0 ++ block 0) ++ (header 1 ++ block 1)
          ++ packetBytes st (validOf st)
          ++ List.replicate (data.size - (saveBytes st).length) 0
    ∧ (∀ port : Nat, port = 0 ∨ port = 1 →
        decU 4 (encU 4 (block port).length) = (block port).length
        ∧ (st.s_usb_device.get port = none → (block port).length = 0)
        ∧ (∀ d, st.s_usb_device.get port = some d →
            block port = devBytes d ++ periphBytes d.periph))
    ∧ o.2.pos = (markerEnc "USB" ++ ohciBytes st).length
    ∧ s1.2.sw.pos = o.2.pos + (header 0 ++ block 0).length
    ∧ s2.2.sw.pos = s1.2.sw.pos + (header 1 ++ block 1).length := by
  intro block header sw0 o s1 s2
  have hfit := USBfreezeSave_fits env hr st hw data hlt hret
  have hW : sw0.Writable (saveBytes st).length := ⟨rfl, rfl, by simpa [sw0] using hfit⟩
  obtain ⟨h1, h2, h3⟩ := save_steps env hr st hw sw0 hW (by simpa [sw0] using hlt)
  refine ⟨?_, ?_, ?_, ?_, ?_⟩
  · show (USBfreezeSave env st data).2.2.data = _
    rw [USBfreezeSave_ok env hr st hw data hfit hlt]
    simp only [saveBytes, portBytes, header, block, List.append_assoc]
  · intro port hp
    refine ⟨decU_encU _ _ ?_, ?_, ?_⟩
    · have := blockBytes_le st port hp
      show (blockBytes (st.s_usb_device.get port)).length < 256 ^ 4
      omega
    · intro hn
      simp only [block, hn, blockBytes, List.length_nil]
    · intro d hd
      simp only [block, hd, blockBytes]
  · show o.2.pos = _
    rw [h1]
    simp [StateWrapper.put_pos, sw0]
  · show s1.2.sw.pos = o.2.pos + _
    rw [h2, h1]
    simp only [StateWrapper.put_pos, portBytes, header, block, List.length_append]
    omega
  · show s2.2.sw.pos = s1.2.sw.pos + _
    rw [h3, h2]
    simp only [StateWrapper.put_pos, portBytes, header, block, List.length_append]
    omega

theorem Save_port_blocks_witness :
    (USBfreeze sampleEnv FreezeAction.Save sampleState ⟨1000, []⟩).1 = 0
    ∧ decU 4 (encU 4 (blockBytes (sampleState.s_usb_device.get 0)).length)
      = (blockBytes (sampleState.s_usb_device.get 0)).length :=
  ⟨sampleSave_ret,
    ((Save_port_blocks sampleEnv sampleEnv_reapply sampleState sampleState_wf ⟨1000, []⟩
      (by decide) sampleSave_ret).2.1 0 (Or.inl rfl)).1⟩

theorem Freeze_false (proxy : DeviceProxy) (d : USBDevice) (sw : StateWrapper)
    (hm : sw.mode = Mode.Write) (hf : (proxy.Freeze d sw).1 = false)
    (hp : ProxyOf proxy d.periph) : (proxy.Freeze d sw).2.2.error = true := by
  cases proxy <;> cases hd : d.periph <;> simp only [hd, ProxyOf] at hp
  · rename_i p
    unfold DeviceProxy.Freeze PadDevice_Freeze at hf ⊢
    simp only [hd] at hf ⊢
    have hok := DoMarker_ok sw "PadDevice" hm
    split at hf
    · rename_i hc
      rw [if_pos hc]
      rw [hok] at hc
      simpa using hc
    · cases hf
  · rename_i g
    unfold DeviceProxy.Freeze GunCon2Device_Freeze at hf ⊢
    simp only [hd] at hf ⊢
    have hok := DoMarker_ok sw "GunCon2Device" hm
    split at hf
    · rename_i hc
      rw [if_pos hc]
      rw [hok] at hc
      simpa using hc
    · rename_i hc
      rw [if_neg hc]
      simpa [StateWrapper.HasError] using hf

/-- The return values that are as C12 says: `USBfreeze` in `Load` mode returns 0 on
every stream on which the run has a defined result (no read outside `valid_devices`).
In `Save` mode it returns 0 or -1; a proxy's `Freeze` returns false in write mode only
when the stream is in error; and for a well-formed state it returns -1 exactly when the
buffer is too small for the bytes of the state, which is the one way a write or a
seek on the stream fails, and 0 exactly when the buffer holds them. -/
theorem USBfreeze_return_value (env : Env) (st : USBState) (data : freezeData) :
    ((USBfreeze env FreezeAction.Load st data).2.1.fault = false →
      (USBfreeze env FreezeAction.Load st data).1 = 0)
    ∧ ((USBfreeze env FreezeAction.Save st data).1 = 0
        ∨ (USBfreeze env FreezeAction.Save st data).1 = -1)
    ∧ (∀ (proxy : DeviceProxy) (d : USBDevice) (sw : StateWrapper), sw.mode = Mode.Write →
        ProxyOf proxy d.periph → (proxy.Freeze d sw).1 = false →
        (proxy.Freeze d sw).2.2.error = true)
    ∧ (env.Reapply → st.WF → data.size < 2 ^ 32 →
        (((USBfreeze env FreezeAction.Save st data).1 = -1
            ↔ data.size < (saveBytes st).length)
          ∧ ((USBfreeze env FreezeAction.Save st data).1 = 0
            ↔ (saveBytes st).length ≤ data.size))) := by
  refine ⟨fun _ => USBfreezeLoad_ret env st data, USBfreezeSave_ret env st data,
    fun proxy d sw hm hp hf => Freeze_false proxy d sw hm hf hp, ?_⟩
  intro hr hw hlt
  have hsmall : data.size < (saveBytes st).length → (USBfreezeSave env st data).1 = -1 :=
    fun h => USBfreezeSave_small env hr st hw data h hlt
  have hfit : (saveBytes st).length ≤ data.size → (USBfreezeSave env st data).1 = 0 := by
    intro h
    rw [USBfreezeSave_ok env hr st hw data h hlt]
  refine ⟨⟨fun h => ?_, hsmall⟩, ⟨fun h => ?_, hfit⟩⟩
  · by_contra hc
    have h0 := hfit (by omega)
    have h1 : (USBfreezeSave env st data).1 = -1 := h
    rw [h0] at h1
    cases h1
  · by_contra hc
    have h0 := hsmall (by omega)
    have h1 : (USBfreezeSave env st data).1 = 0 := h
    rw [h0] at h1
    cases h1

theorem USBfreeze_return_value_witness :
    (USBfreeze sampleEnv FreezeAction.Save sampleState ⟨12, []⟩).1 = -1
      ↔ 12 < (saveBytes sampleState).length :=
  ((USBfreeze_return_value sampleEnv sampleState ⟨12, []⟩).2.2.2 sampleEnv_reapply
    sampleState_wf (by decide)).1
theorem markerBytes_len_USB : (markerBytes "USB").length = 3 := by decide
theorem ohciBytes_length (st : USBState) :
    (ohciBytes st).length = 204 + st.s_qemu_ohci.usb_buf.length := by
  have hm : (markerBytes "USBOHCI").length = 7 := by decide
  simp [ohciBytes, markerEnc_length, hm, ohciFields, ohciFieldsHead, ohciFieldsTail, encAll,
    Field.s, Field.u, Field.b, Field.bytes, OHCI_MAX_PORTS, List.range, List.range.loop, rhportCtrlField]
  omega
theorem devBytes_length (d : USBDevice) :
    (devBytes d).length = 44 + d.setup_buf.length + d.data_buf.length + 4 * d.altsetting.length
      + 2 * d.ep_in.length + 2 * d.ep_out.length := by
  have hm : (markerBytes "USBDevice").length = 9 := by decide
  simp [devBytes, markerEnc_length, hm, deviceFields, encAll, Field.s, Field.u, Field.b,
    Field.bytes, epBytes_length, encList_ep_length]
  omega
theorem padBytes_length (p : PadState) : (padBytes p).length = 15 + p.mFFstate.length := by
  have hm : (markerBytes "PadDevice").length = 9 := by decide
  simp [padBytes, markerEnc_length, hm, padFields, encAll, Field.s, Field.u, Field.b, Field.bytes]
  omega
theorem gunBytes_length (g : GunCon2State) : (gunBytes g).length = 54 := by
  have hm : (markerBytes "GunCon2Device").length = 13 := by decide
  simp [gunBytes, markerEnc_length, hm, guncon2Fields, guncon2LocalFields, encAll, Field.s,
    Field.u, Field.b, Field.bytes]
theorem packetBytes_length (st : USBState) (v : PortArr Bool) :
    (packetBytes st v).length = 64 := by
  have hm : (markerBytes "USBPacket").length = 9 := by decide
  simp [packetBytes, markerEnc_length, hm, packetFields, encAll, Field.s, Field.u, Field.b,
    Field.bytes]

theorem blockBytes_sized (sz : ArraySizes) (o : Option USBDevice)
    (h : ∀ d, o = some d → d.Sized sz) :
    (blockBytes o).length
      ≤ (44 + sz.setup_buf + sz.data_buf + 4 * sz.interfaces + 4 * USB_MAX_ENDPOINTS)
        + max (15 + sz.mFFstate) 54 := by
  cases o with
  | none => simp [blockBytes]
  | some d =>
    have hd := h d rfl
    have h1 := hd.setup_buf
    have h2 := hd.data_buf
    have h3 := hd.altsetting
    have h4 := hd.ep_in
    have h5 := hd.ep_out
    have hp : (periphBytes d.periph).length ≤ max (15 + sz.mFFstate) 54 := by
      cases hq : d.periph with
      | pad p =>
        have h6 := hd.mFFstate p hq
        simp only [periphBytes, padBytes_length]
        exact le_trans (by omega) (le_max_left _ _)
      | guncon2 g =>
        simp only [periphBytes, gunBytes_length]
        exact le_max_right _ _
    simp only [blockBytes, List.length_append, devBytes_length]
    omega

theorem saveBytes_sized (sz : ArraySizes) (st : USBState) (hs : st.Sized sz) :
    (saveBytes st).length ≤ sz.saveSize := by
  have h0 := blockBytes_sized sz _ hs.port0
  have h1 := blockBytes_sized sz _ hs.port1
  have hu := hs.usb_buf
  simp only [saveBytes, List.length_append, portBytes_length, ohciBytes_length, packetBytes_length,
    markerEnc_length, markerBytes_len_USB, ArraySizes.saveSize]
  omega

theorem sampleState_sized : sampleState.Sized ⟨8192, 8, 4096, 16, 64⟩ := by
  refine ⟨by decide, ?_, ?_⟩
  · intro d hd
    have hd1 : d = sampleDevice 1 (Peripheral.pad ⟨77, [1, 2, 3]⟩) := by
      simpa [sampleState, PortArr.get] using hd.symm
    subst hd1
    refine ⟨by decide, by decide, by decide, by decide, by decide, ?_⟩
    intro p hp
    have hp1 : p = ⟨77, [1, 2, 3]⟩ := by
      simpa [sampleDevice] using hp.symm
    subst hp1
    decide
  · intro d hd
    have hd1 : d = sampleDevice 2 (Peripheral.guncon2 sampleGun) := by
      simpa [sampleState, PortArr.get] using hd.symm
    subst hd1
    refine ⟨by decide, by decide, by decide, by decide, by decide, ?_⟩
    intro p hp
    simp [sampleDevice] at hp

/-- C14: the size `USBfreeze` reports in `Size` mode is 0x10000, and it bounds what
`Save` writes. The arrays of the save state are declared outside the sources; for
declared sizes whose largest save state (both ports holding a device with the
larger peripheral record) has at most 0x10000 bytes, every well-formed state with
arrays of at most these sizes is written in at most 0x10000 bytes, and a `Save`
into a buffer of the reported size returns 0. -/
theorem Size_bounds_Save (env : Env) (hr : env.Reapply) (sz : ArraySizes)
    (hsz : sz.saveSize ≤ 0x10000) (st : USBState) (hw : st.WF) (hs : st.Sized sz)
    (data : freezeData) :
    (USBfreeze env FreezeAction.Size st data).1 = 0
    ∧ (USBfreeze env FreezeAction.Size st data).2.2.size = 0x10000
    ∧ (saveBytes st).length ≤ sz.saveSize
    ∧ (saveBytes st).length ≤ (USBfreeze env FreezeAction.Size st data).2.2.size
    ∧ (USBfreeze env FreezeAction.Save st (USBfreeze env FreezeAction.Size st data).2.2).1 = 0
    ∧ (USBfreeze env FreezeAction.Save st (USBfreeze env FreezeAction.Size st data).2.2).2.2.data
        = saveBytes st ++ List.replicate (0x10000 - (saveBytes st).length) 0 := by
  have hb := saveBytes_sized sz st hs
  have hle : (saveBytes st).length ≤ 0x10000 := le_trans hb hsz
  have hsave := USBfreezeSave_ok env hr st hw ⟨0x10000, data.data⟩ hle
    (show (0x10000 : Nat) < 2 ^ 32 by decide)
  have h1 : (USBfreeze env FreezeAction.Save st
      (USBfreeze env FreezeAction.Size st data).2.2) = USBfreezeSave env st ⟨0x10000, data.data⟩ :=
    rfl
  refine ⟨rfl, rfl, hb, hle, ?_, ?_⟩
  · rw [h1, hsave]
  · rw [h1, hsave]

theorem Size_bounds_Save_witness :
    (⟨8192, 8, 4096, 16, 64⟩ : ArraySizes).saveSize ≤ 0x10000
    ∧ (USBfreeze sampleEnv FreezeAction.Save sampleState
        (USBfreeze sampleEnv FreezeAction.Size sampleState ⟨0, []⟩).2.2).1 = 0 :=
  ⟨by decide,
    (Size_bounds_Save sampleEnv sampleEnv_reapply ⟨8192, 8, 4096, 16, 64⟩ (by decide)
      sampleState sampleState_wf sampleState_sized ⟨0, []⟩).2.2.2.2.1⟩

theorem validAt_port (v : PortArr Bool) (i : Int) (h : validAt v i = some true) :
    (i.toNat = 0 ∨ i.toNat = 1) ∧ v.get i.toNat = true := by
  unfold validAt at h
  by_cases h0 : i = 0
  · subst h0
    simp only [if_true, Option.some.injEq] at h
    exact ⟨Or.inl rfl, h⟩
  · by_cases h1 : i = 1
    · subst h1
      simp only [h0, if_false, if_true, Option.some.injEq] at h
      exact ⟨Or.inr rfl, h⟩
    · simp only [h0, h1, if_false] at h
      cases h

theorem resolvePacket_attached (st : USBState) (p : USBPacket) (l : PacketLocals)
    (v : PortArr Bool) :
    (resolvePacket st p l v).s_qemu_ohci.usb_packet.ep = none
    ∨ ∃ (port : Nat) (dev : USBDevice) (slot : EpSlot), (port = 0 ∨ port = 1)
        ∧ v.get port = true
        ∧ (resolvePacket st p l v).s_usb_device.get port = some dev
        ∧ (resolvePacket st p l v).s_qemu_ohci.usb_packet.ep = some ⟨dev.ptr, slot⟩ := by
  unfold resolvePacket
  simp only
  by_cases hf : 0 ≤ l.dev_index ∧ 0 ≤ l.ep_index ∧ validAt v l.dev_index = none
  · rw [if_pos hf]
    left
    rfl
  rw [if_neg hf]
  split
  · rename_i hc
    obtain ⟨hp, hv⟩ := validAt_port v l.dev_index hc.2.2
    split
    · rename_i dev slot hd hs
      right
      refine ⟨l.dev_index.toNat, _, slot, hp, hv, PortArr.get_set_self _ _ _, ?_⟩
      simp only
      split
      · split
        · rw [setEndpoint_ptr]
        · rfl
      · rfl
    · left
      rfl
  · left
    rfl

theorem DestroyDevice_packet (st : USBState) (port : Nat) :
    (DestroyDevice st port).s_qemu_ohci.usb_packet = st.s_qemu_ohci.usb_packet := by
  unfold DestroyDevice
  split <;> rfl

theorem loadAfterPorts_failed0 (env : Env) (L : USBState) (data : freezeData)
    (h : NotRestored env (loadHead L data) 0) :
    (loadAfterPorts env L data).valid_devices.get 0 = false := by
  have h0 := loadPort_not_restored env (loadHead L data) 0 h
  have h1 := loadPort_valid env (loadPort env (loadHead L data) 0) 1
  rw [h0] at h1
  unfold loadAfterPorts
  rcases h1 with h1 | h1 <;> rw [h1] <;> rfl

theorem loadAfterPorts_failed1 (env : Env) (L : USBState) (data : freezeData)
    (h : NotRestored env (loadPort env (loadHead L data) 0) 1) :
    (loadAfterPorts env L data).valid_devices.get 1 = false := by
  have h1 := loadPort_not_restored env (loadPort env (loadHead L data) 0) 1 h
  have h0 := loadPort_valid env (loadHead L data) 0
  unfold loadAfterPorts
  rw [h1]
  rcases h0 with h0 | h0 <;> rw [h0] <;> rfl

/-- C18: `DestroyDevice` does not touch the outstanding packet, so the packet outlives
its endpoint. In the sample state the packet is on the control endpoint of the device
in guest port 1 (the object at address 2); after `DestroyDevice(1)` the port is empty,
the only device left is the object at address 1, and the packet still names the control
endpoint of the object at address 2. -/
theorem DestroyDevice_packet_dangles :
    (sampleState.s_usb_device.get 1).map USBDevice.ptr = some 2
    ∧ (DestroyDevice sampleState 1).s_qemu_ohci.usb_packet.ep = some ⟨2, EpSlot.ctl⟩
    ∧ (DestroyDevice sampleState 1).s_usb_device.get 1 = none
    ∧ ((DestroyDevice sampleState 1).s_usb_device.get 0).map USBDevice.ptr = some 1 := by
  decide

/-- The `Load` path does cancel the packet of a destroyed port (the sibling of the path
of C18). `DestroyDevice` itself leaves the outstanding packet as it is. A `Load` that
reads the packet record, with a recorded port index inside the table `valid_devices`,
leaves the packet with no endpoint or with an endpoint of a device that is attached to
a port and that this load restored; a port whose deserialize failed (the device was
destroyed) is not a restored port. -/
theorem load_packet_endpoint_attached (env : Env) (L : USBState) (data : freezeData)
    (hm : ((⟨Mode.Read, fit data.size data.data, 0, false⟩ : StateWrapper).DoMarker "USB").1
      = true)
    (hpm : ((loadAfterPorts env L data).sw.DoMarker "USBPacket").1 = true)
    (hok : (packetReadAt (loadAfterPorts env L data)).2.HasError = false)
    (_hin : (packetReadAt (loadAfterPorts env L data)).1.2.dev_index < 2) :
    (∀ (st : USBState) (port : Nat),
        (DestroyDevice st port).s_qemu_ohci.usb_packet = st.s_qemu_ohci.usb_packet)
    ∧ ((USBfreeze env FreezeAction.Load L data).2.1.s_qemu_ohci.usb_packet.ep = none
      ∨ ∃ (port : Nat) (dev : USBDevice) (slot : EpSlot), (port = 0 ∨ port = 1)
          ∧ (loadAfterPorts env L data).valid_devices.get port = true
          ∧ (USBfreeze env FreezeAction.Load L data).2.1.s_usb_device.get port = some dev
          ∧ (USBfreeze env FreezeAction.Load L data).2.1.s_qemu_ohci.usb_packet.ep
              = some ⟨dev.ptr, slot⟩)
    ∧ (FailedDeserialize env (loadHead L data) 0 →
        (loadAfterPorts env L data).valid_devices.get 0 = false)
    ∧ (FailedDeserialize env (loadPort env (loadHead L data) 0) 1 →
        (loadAfterPorts env L data).valid_devices.get 1 = false) := by
  have hmode : (loadAfterPorts env L data).sw.mode = Mode.Read :=
    ((loadHead_follows L data).trans (loadAfterPorts_follows env L data)).1
  have hfin : USBfreeze env FreezeAction.Load L data
      = (0, resolvePacket (loadAfterPorts env L data).st
          (packetReadAt (loadAfterPorts env L data)).1.1
          (packetReadAt (loadAfterPorts env L data)).1.2
          (loadAfterPorts env L data).valid_devices, data) := by
    unfold USBfreeze
    simp only [USBfreezeLoad_eq env L data hm, DoPacketState_readAt _ hmode hpm, hok,
      Bool.false_eq_true, if_false]
  refine ⟨DestroyDevice_packet, ?_, fun h => loadAfterPorts_failed0 env L data (Or.inr (Or.inr h)),
    fun h => loadAfterPorts_failed1 env L data (Or.inr (Or.inr h))⟩
  rw [hfin]
  exact resolvePacket_attached _ _ _ _

theorem load_packet_endpoint_attached_witness :
    (USBfreeze sampleEnv FreezeAction.Load sampleMismatch
        samplePacketOnPadData).2.1.s_qemu_ohci.usb_packet.ep = none
      ∨ ∃ (port : Nat) (dev : USBDevice) (slot : EpSlot), (port = 0 ∨ port = 1)
          ∧ (loadAfterPorts sampleEnv sampleMismatch samplePacketOnPadData).valid_devices.get port
              = true
          ∧ (USBfreeze sampleEnv FreezeAction.Load sampleMismatch
              samplePacketOnPadData).2.1.s_usb_device.get port = some dev
          ∧ (USBfreeze sampleEnv FreezeAction.Load sampleMismatch
              samplePacketOnPadData).2.1.s_qemu_ohci.usb_packet.ep = some ⟨dev.ptr, slot⟩ :=
  (load_packet_endpoint_attached sampleEnv sampleMismatch samplePacketOnPadData
    samplePacketOnPad_load.1
    (packetReadAt_saved _ samplePacketOnPad _ [] samplePacketOnPad_wf.packet
      samplePacketOnPad_load.2.2).1
    (packetReadAt_saved _ samplePacketOnPad _ [] samplePacketOnPad_wf.packet
      samplePacketOnPad_load.2.2).2.2
    (by
      rw [(packetReadAt_saved _ samplePacketOnPad _ [] samplePacketOnPad_wf.packet
        samplePacketOnPad_load.2.2).2.1]
      decide)).2.1

theorem DoEndpointState_read_queue (ep : USBEndpoint) (sw : StateWrapper)
    (hm : sw.mode = Mode.Read) : (DoEndpointState ep sw).1.queue = [] := by
  unfold DoEndpointState
  simp only [StateWrapper.IsReading, hm]
  rfl

theorem doArray_read_queue (eps : List USBEndpoint) :
    ∀ (sw : StateWrapper), sw.mode = Mode.Read →
      ∀ e ∈ (doArray DoEndpointState eps sw).1, e.queue = [] := by
  induction eps with
  | nil =>
    intro sw _ e he
    simp [doArray] at he
  | cons a as ih =>
    intro sw hm e he
    simp only [doArray, List.mem_cons] at he
    rcases he with he | he
    · rw [he]
      exact DoEndpointState_read_queue a sw hm
    · exact ih _ ((DoEndpointState_follows a sw).1.trans hm) e he

theorem DoDeviceState_queues (env : Env) (dev : USBDevice) (sw : StateWrapper)
    (hm : sw.mode = Mode.Read) (hd : (sw.DoMarker "USBDevice").1 = true) :
    (DoDeviceState env dev sw).1.QueuesEmpty := by
  have h1 : (sw.DoMarker "USBDevice").2.mode = Mode.Read :=
    (DoMarker_follows sw "USBDevice").1.trans hm
  have h2 : ∀ d, (doFields deviceFields d (sw.DoMarker "USBDevice").2).2.mode = Mode.Read :=
    fun d => (doFields_follows _ _ _).1.trans h1
  unfold DoDeviceState
  simp only [hd, Bool.not_true, Bool.false_eq_true, if_false]
  have h3 : ∀ bs, ((doFields deviceFields dev (sw.DoMarker "USBDevice").2).2.DoBytes bs).2.mode
      = Mode.Read := fun bs => (DoBytes_follows _ _).1.trans (h2 dev)
  intro slot e he
  cases slot with
  | ctl =>
    simp only [USBDevice.endpoint, Option.some.injEq] at he
    rw [← he]
    exact DoEndpointState_read_queue _ _ (h3 _)
  | epIn k =>
    simp only [USBDevice.endpoint] at he
    refine doArray_read_queue _ _ ?_ e (List.get?_mem he)
    exact (DoEndpointState_follows _ _).1.trans (h3 _)
  | epOut k =>
    simp only [USBDevice.endpoint] at he
    refine doArray_read_queue _ _ ?_ e (List.get?_mem he)
    exact (doArray_follows _ DoEndpointState_follows _ _).1.trans
      ((DoEndpointState_follows _ _).1.trans (h3 _))

theorem Freeze_endpoint (proxy : DeviceProxy) (d : USBDevice) (sw : StateWrapper)
    (slot : EpSlot) : (proxy.Freeze d sw).2.1.endpoint slot = d.endpoint slot := by
  unfold DeviceProxy.Freeze
  split <;> cases slot <;> rfl

theorem loadPort_restored_dev (env : Env) (x : FreezeLoop) (port : Nat) :
    (loadPort env x port).valid_devices = x.valid_devices
    ∨ ∃ (dev : USBDevice) (proxy : DeviceProxy),
        (loadPort env x port).st.s_usb_device.get port
          = some (proxy.Freeze (DoDeviceState env dev (headerAt x).2).1
              (DoDeviceState env dev (headerAt x).2).2).2.1 := by
  unfold loadPort headerAt
  simp only
  split
  · exact Or.inl rfl
  · split
    · exact Or.inl rfl
    · rename_i dev hdev
      split
      · exact Or.inl rfl
      · rename_i hf
        cases hp : x.st.s_usb_device_proxy.get port with
        | none => simp [hp] at hf
        | some proxy =>
          refine Or.inr ⟨dev, proxy, ?_⟩
          simp only [PortArr.get_set_self]

theorem loadPort_restored (env : Env) (x : FreezeLoop) (port : Nat)
    (hm : x.sw.mode = Mode.Read) (h0 : x.valid_devices.get port = false)
    (hv : (loadPort env x port).valid_devices.get port = true)
    (hd : ((headerAt x).2.DoMarker "USBDevice").1 = true) :
    ∃ d, (loadPort env x port).st.s_usb_device.get port = some d ∧ d.QueuesEmpty := by
  rcases loadPort_restored_dev env x port with h | ⟨dev, proxy, h⟩
  · rw [h, h0] at hv
    cases hv
  · refine ⟨_, h, ?_⟩
    intro slot e he
    rw [Freeze_endpoint] at he
    have hmode : (headerAt x).2.mode = Mode.Read := by
      unfold headerAt
      exact (doFields_follows _ _ _).1.trans hm
    exact DoDeviceState_queues env dev _ hmode hd slot e he

theorem reattachPort_keeps0 (env : Env) (st : USBState)
    (hw : getPortDev st.s_qemu_ohci 1 = (st.s_usb_device.get 1).map (fun d => d.ptr))
    (hdist : ∀ a, (ptrs st.s_usb_device).p0 = some a → (ptrs st.s_usb_device).p1 ≠ some a) :
    (reattachPort env st 1).s_usb_device.get 0 = st.s_usb_device.get 0 := by
  unfold reattachPort
  simp only
  cases hg : getPortDev st.s_qemu_ohci 1 with
  | none => rfl
  | some a =>
    rw [hg] at hw
    have h1 : st.s_usb_device.p1.map (fun d => d.ptr) = some a := by
      simpa [PortArr.get] using hw.symm
    have h0 : ¬ st.s_usb_device.p0.map (fun d => d.ptr) = some a := by
      intro h
      exact hdist a h h1
    simp only [h0, h1, if_true, if_false]
    cases hd : st.s_usb_device.get 1 with
    | none => rfl
    | some dev => simp [PortArr.get, PortArr.set]

theorem DestroyDevice_keeps0 (st : USBState) :
    (DestroyDevice st 1).s_usb_device.get 0 = st.s_usb_device.get 0 := by
  unfold DestroyDevice
  split
  · rfl
  · simp [PortArr.get, PortArr.set]

theorem loadPort_keeps0 (env : Env) (x : FreezeLoop)
    (hw : getPortDev x.st.s_qemu_ohci 1 = (x.st.s_usb_device.get 1).map (fun d => d.ptr))
    (hdist : ∀ a, (ptrs x.st.s_usb_device).p0 = some a → (ptrs x.st.s_usb_device).p1 ≠ some a) :
    (loadPort env x 1).st.s_usb_device.get 0 = x.st.s_usb_device.get 0 := by
  unfold loadPort
  simp only
  split
  · split
    · exact reattachPort_keeps0 env _ hw hdist
    · rfl
  · split
    · rfl
    · split
      · rw [DestroyDevice_keeps0]
        simp [PortArr.get, PortArr.set]
      · simp [PortArr.get, PortArr.set]

theorem ptrs_get (a : PortArr (Option USBDevice)) (q : Nat) :
    (ptrs a).get q = (a.get q).map (fun d => d.ptr) := by
  unfold ptrs PortArr.get
  split <;> rfl

theorem DestroyDevice_ptrs (st : USBState) (port q : Nat) :
    (ptrs (DestroyDevice st port).s_usb_device).get q = (ptrs st.s_usb_device).get q
    ∨ (ptrs (DestroyDevice st port).s_usb_device).get q = none := by
  unfold DestroyDevice
  split
  · exact Or.inl rfl
  · simp only [ptrs_get, PortArr.get_set]
    split
    · exact Or.inr rfl
    · exact Or.inl rfl

theorem loadPort_ptrs (env : Env) (x : FreezeLoop) (port q : Nat) :
    (ptrs (loadPort env x port).st.s_usb_device).get q = (ptrs x.st.s_usb_device).get q
    ∨ (ptrs (loadPort env x port).st.s_usb_device).get q = none := by
  unfold loadPort
  simp only
  split
  · split
    · left
      have h := reattachPort_wiring env
        { x.st with trace := x.st.trace ++ [Event.console_error port] } port
      have h2 := congrArg (fun w => w.2.1) h
      simp only [wiring] at h2
      rw [h2]
    · exact Or.inl rfl
  · split
    · exact Or.inl rfl
    · rename_i dev hdev
      have hp : ∀ f : Bool × USBDevice × StateWrapper, f.2.1.ptr = dev.ptr →
          ptrs (x.st.s_usb_device.set port (some f.2.1)) = ptrs x.st.s_usb_device :=
        fun f hf => ptrs_set_same _ _ dev _ hdev hf
      have hptr : (match x.st.s_usb_device_proxy.get port with
            | some proxy => proxy.Freeze
                (DoDeviceState env dev (doFields [devtypeField, devsubtypeField, sizeField]
                  (⟨0, 0, 0⟩ : PortHeader) x.sw).2).1
                (DoDeviceState env dev (doFields [devtypeField, devsubtypeField, sizeField]
                  (⟨0, 0, 0⟩ : PortHeader) x.sw).2).2
            | none => (false, DoDeviceState env dev (doFields [devtypeField, devsubtypeField,
                  sizeField] (⟨0, 0, 0⟩ : PortHeader) x.sw).2)).2.1.ptr = dev.ptr := by
        split
        · rw [Freeze_ptr, DoDeviceState_ptr]
        · exact DoDeviceState_ptr env dev _
      split
      · have h := DestroyDevice_ptrs
          { x.st with
            s_usb_device := x.st.s_usb_device.set port (some
              (match x.st.s_usb_device_proxy.get port with
              | some proxy => proxy.Freeze
                  (DoDeviceState env dev (doFields [devtypeField, devsubtypeField, sizeField]
                    (⟨0, 0, 0⟩ : PortHeader) x.sw).2).1
                  (DoDeviceState env dev (doFields [devtypeField, devsubtypeField, sizeField]
                    (⟨0, 0, 0⟩ : PortHeader) x.sw).2).2
              | none => (false, DoDeviceState env dev (doFields [devtypeField, devsubtypeField,
                    sizeField] (⟨0, 0, 0⟩ : PortHeader) x.sw).2)).2.1)
            trace := x.st.trace ++ [Event.console_error port] } port q
        rcases h with h | h
        · exact Or.inl (h.trans (congrArg (fun a => a.get q) (hp _ hptr)))
        · exact Or.inr h
      · exact Or.inl (congrArg (fun a => a.get q) (hp _ hptr))

theorem setEndpoint_endpoint (dev : USBDevice) (s s' : EpSlot) (e0 e' : USBEndpoint)
    (h0 : dev.endpoint s = some e0) :
    (dev.setEndpoint s e').endpoint s' = if s' = s then some e' else dev.endpoint s' := by
  cases s with
  | ctl => cases s' <;> simp [USBDevice.endpoint, USBDevice.setEndpoint]
  | epIn k =>
    simp only [USBDevice.endpoint, List.get?_eq_getElem?] at h0
    have hk : k < dev.ep_in.length := by
      by_contra hc
      rw [List.getElem?_eq_none (by omega)] at h0
      cases h0
    cases s' with
    | ctl => simp [USBDevice.endpoint, USBDevice.setEndpoint]
    | epIn j =>
      simp only [USBDevice.endpoint, USBDevice.setEndpoint, List.get?_eq_getElem?,
        List.getElem?_set, EpSlot.epIn.injEq]
      by_cases hkj : k = j
      · subst hkj
        simp [hk]
      · have hjk : ¬ j = k := fun h => hkj h.symm
        simp [hkj, hjk]
    | epOut j => simp [USBDevice.endpoint, USBDevice.setEndpoint]
  | epOut k =>
    simp only [USBDevice.endpoint, List.get?_eq_getElem?] at h0
    have hk : k < dev.ep_out.length := by
      by_contra hc
      rw [List.getElem?_eq_none (by omega)] at h0
      cases h0
    cases s' with
    | ctl => simp [USBDevice.endpoint, USBDevice.setEndpoint]
    | epIn j => simp [USBDevice.endpoint, USBDevice.setEndpoint]
    | epOut j =>
      simp only [USBDevice.endpoint, USBDevice.setEndpoint, List.get?_eq_getElem?,
        List.getElem?_set, EpSlot.epOut.injEq]
      by_cases hkj : k = j
      · subst hkj
        simp [hk]
      · have hjk : ¬ j = k := fun h => hkj h.symm
        simp [hkj, hjk]

theorem resolvePacket_shape (st : USBState) (p : USBPacket) (l : PacketLocals)
    (v : PortArr Bool) :
    ((resolvePacket st p l v).s_usb_device = st.s_usb_device
      ∧ (resolvePacket st p l v).s_qemu_ohci.usb_packet.ep = none)
    ∨ ∃ (q : Nat) (dev : USBDevice) (slot : EpSlot), (q = 0 ∨ q = 1)
        ∧ st.s_usb_device.get q = some dev
        ∧ (resolvePacket st p l v).s_qemu_ohci.usb_packet.ep = some ⟨dev.ptr, slot⟩
        ∧ (resolvePacket st p l v).s_usb_device
            = st.s_usb_device.set q (some
                (if l.queued = true then
                  match dev.endpoint slot with
                  | some e => dev.setEndpoint slot { e with queue := e.queue ++ [PacketPtr.usb_packet] }
                  | none => dev
                else dev)) := by
  unfold resolvePacket
  simp only
  by_cases hf : 0 ≤ l.dev_index ∧ 0 ≤ l.ep_index ∧ validAt v l.dev_index = none
  · rw [if_pos hf]
    exact Or.inl ⟨rfl, rfl⟩
  rw [if_neg hf]
  split
  · rename_i hc
    obtain ⟨hp, hv⟩ := validAt_port v l.dev_index hc.2.2
    split
    · rename_i dev slot hd hs
      exact Or.inr ⟨l.dev_index.toNat, dev, slot, hp, hd, rfl, rfl⟩
    · exact Or.inl ⟨rfl, rfl⟩
  · exact Or.inl ⟨rfl, rfl⟩

theorem resolvePacket_queues (st : USBState) (p : USBPacket) (l : PacketLocals)
    (v : PortArr Bool) (port : Nat) (hp : port = 0 ∨ port = 1) (dev : USBDevice)
    (hd : st.s_usb_device.get port = some dev) (hq : dev.QueuesEmpty)
    (hdist : ∀ a, (ptrs st.s_usb_device).p0 = some a → (ptrs st.s_usb_device).p1 ≠ some a) :
    ∃ d, (resolvePacket st p l v).s_usb_device.get port = some d ∧ d.ptr = dev.ptr
      ∧ ∀ (slot : EpSlot) (e : USBEndpoint), d.endpoint slot = some e →
          e.queue = if (resolvePacket st p l v).s_qemu_ohci.usb_packet.ep = some ⟨d.ptr, slot⟩
              ∧ l.queued = true
            then [PacketPtr.usb_packet] else [] := by
  rcases resolvePacket_shape st p l v with ⟨h1, h2⟩ | ⟨q, dev', slot0, hq01, hd', hep, hdevs⟩
  · refine ⟨dev, by rw [h1]; exact hd, rfl, ?_⟩
    intro slot e he
    rw [h2, if_neg (fun h => by cases h.1)]
    exact hq slot e he
  · by_cases hqp : q = port
    · subst hqp
      rw [hd] at hd'
      cases hd'
      rw [hdevs, hep, PortArr.get_set_self]
      by_cases hqd : l.queued = true
      · simp only [hqd, if_true, and_true]
        cases h0 : dev.endpoint slot0 with
        | none =>
          refine ⟨dev, rfl, rfl, ?_⟩
          intro slot e he
          have hne : ¬ slot0 = slot := by
            intro h
            rw [h, he] at h0
            cases h0
          simp only [Option.some.injEq, EpRef.mk.injEq, true_and, hne, if_false]
          exact hq slot e he
        | some e0 =>
          refine ⟨_, rfl, setEndpoint_ptr _ _ _, ?_⟩
          intro slot e he
          simp only [setEndpoint_ptr, Option.some.injEq, EpRef.mk.injEq, true_and]
          rw [setEndpoint_endpoint dev slot0 slot e0 _ h0] at he
          by_cases hs : slot = slot0
          · simp only [hs, if_true, Option.some.injEq] at he ⊢
            rw [← he, hq slot0 e0 h0]
            rfl
          · have hs' : ¬ slot0 = slot := fun h => hs h.symm
            simp only [hs, hs', if_false] at he ⊢
            exact hq slot e he
      · have hqf : l.queued = false := by
          cases hb : l.queued
          · rfl
          · exact absurd hb hqd
        simp only [hqf, Bool.false_eq_true, if_false, and_false]
        exact ⟨dev, rfl, rfl, fun slot e he => hq slot e he⟩
    · have hget : (resolvePacket st p l v).s_usb_device.get port = some dev := by
        rw [hdevs, PortArr.get_set]
        have : ¬ (q = 0 ↔ port = 0) := by
          rcases hq01 with h | h <;> rcases hp with h' | h' <;> subst h <;> subst h' <;> simp at hqp ⊢
        simp only [this, if_false]
        exact hd
      refine ⟨dev, hget, rfl, ?_⟩
      intro slot e he
      have hne : ¬ dev'.ptr = dev.ptr := by
        intro hpt
        have e1 := ptrs_get st.s_usb_device q
        have e2 := ptrs_get st.s_usb_device port
        rw [hd'] at e1
        rw [hd] at e2
        simp only [Option.map_some'] at e1 e2
        rcases hq01 with h | h <;> rcases hp with h' | h' <;> subst h <;> subst h'
        · exact hqp rfl
        · exact hdist dev'.ptr (by simpa [PortArr.get] using e1) (by simpa [PortArr.get, hpt] using e2)
        · exact hdist dev.ptr (by simpa [PortArr.get] using e2) (by simpa [PortArr.get, hpt] using e1)
        · exact hqp rfl
      rw [hep]
      simp only [Option.some.injEq, EpRef.mk.injEq, hne, false_and, if_false]
      exact hq slot e he

theorem distinct_sub (a b : PortArr (Option Nat))
    (h : ∀ q : Nat, b.get q = a.get q ∨ b.get q = none)
    (ha : ∀ n, a.p0 = some n → a.p1 ≠ some n) : ∀ n, b.p0 = some n → b.p1 ≠ some n := by
  intro n h0 h1
  have e0 := h 0
  have e1 := h 1
  simp only [PortArr.get, if_true, one_ne_zero, if_false] at e0 e1
  rcases e0 with e0 | e0
  · rcases e1 with e1 | e1
    · exact ha n (e0 ▸ h0) (e1 ▸ h1)
    · rw [e1] at h1
      cases h1
  · rw [e0] at h0
    cases h0

theorem loadAfterPorts_distinct (env : Env) (L : USBState) (data : freezeData)
    (hdist : ∀ d0 d1, L.s_usb_device.get 0 = some d0 → L.s_usb_device.get 1 = some d1 →
      d0.ptr ≠ d1.ptr) :
    (∀ n, (ptrs (loadHead L data).st.s_usb_device).p0 = some n →
      (ptrs (loadHead L data).st.s_usb_device).p1 ≠ some n)
    ∧ (∀ n, (ptrs (loadPort env (loadHead L data) 0).st.s_usb_device).p0 = some n →
      (ptrs (loadPort env (loadHead L data) 0).st.s_usb_device).p1 ≠ some n)
    ∧ (∀ n, (ptrs (loadAfterPorts env L data).st.s_usb_device).p0 = some n →
      (ptrs (loadAfterPorts env L data).st.s_usb_device).p1 ≠ some n) := by
  have hL : ∀ n, (ptrs L.s_usb_device).p0 = some n → (ptrs L.s_usb_device).p1 ≠ some n := by
    intro n h0 h1
    simp only [ptrs, Option.map_eq_some'] at h0 h1
    obtain ⟨d0, hd0, hp0⟩ := h0
    obtain ⟨d1, hd1, hp1⟩ := h1
    exact hdist d0 d1 (by simpa [PortArr.get] using hd0) (by simpa [PortArr.get] using hd1)
      (hp0.trans hp1.symm)
  have h0 : ptrs (loadHead L data).st.s_usb_device = ptrs L.s_usb_device := by
    have h := DoOHCIState_wiring L
      ((⟨Mode.Read, fit data.size data.data, 0, false⟩ : StateWrapper).DoMarker "USB").2
    exact congrArg (fun w => w.2.1) h
  have a0 : ∀ n, (ptrs (loadHead L data).st.s_usb_device).p0 = some n →
      (ptrs (loadHead L data).st.s_usb_device).p1 ≠ some n := by
    rw [h0]
    exact hL
  have a1 := distinct_sub _ _ (loadPort_ptrs env (loadHead L data) 0) a0
  exact ⟨a0, a1, distinct_sub _ _ (loadPort_ptrs env (loadPort env (loadHead L data) 0) 1) a1⟩

/-- Where the queues are rebuilt (the part of C20 that holds): after a `Load` that
reads the packet record, with a recorded port index inside the table `valid_devices`,
for each port that the load restored and whose device record was read (the "USBDevice"
marker was found at the start of its block), every endpoint queue of the device of that
port holds the outstanding packet exactly once when the endpoint is the one the packet
was resolved to and the stream records the packet as queued, and is empty otherwise.
The root hub ports point to the devices of their guest ports and the two devices
are distinct objects. -/
theorem load_rebuilds_queues (env : Env) (L : USBState) (data : freezeData)
    (hm : ((⟨Mode.Read, fit data.size data.data, 0, false⟩ : StateWrapper).DoMarker "USB").1
      = true)
    (hpm : ((loadAfterPorts env L data).sw.DoMarker "USBPacket").1 = true)
    (hok : (packetReadAt (loadAfterPorts env L data)).2.HasError = false)
    (_hin : (packetReadAt (loadAfterPorts env L data)).1.2.dev_index < 2)
    (hw : Wired (wiring L))
    (hdist : ∀ d0 d1, L.s_usb_device.get 0 = some d0 → L.s_usb_device.get 1 = some d1 →
      d0.ptr ≠ d1.ptr)
    (port : Nat) (hp : port = 0 ∨ port = 1)
    (hv : (loadAfterPorts env L data).valid_devices.get port = true)
    (hdm : ((headerAt (loadBefore env L data port)).2.DoMarker "USBDevice").1 = true) :
    ∃ d, (USBfreeze env FreezeAction.Load L data).2.1.s_usb_device.get port = some d
      ∧ ∀ (slot : EpSlot) (e : USBEndpoint), d.endpoint slot = some e →
          e.queue
            = if (USBfreeze env FreezeAction.Load L data).2.1.s_qemu_ohci.usb_packet.ep
                  = some ⟨d.ptr, slot⟩
                ∧ (packetReadAt (loadAfterPorts env L data)).1.2.queued = true
              then [PacketPtr.usb_packet] else [] := by
  have hmode0 : (loadHead L data).sw.mode = Mode.Read := (loadHead_follows L data).1
  have hmode1 : (loadPort env (loadHead L data) 0).sw.mode = Mode.Read :=
    (loadPort_follows env _ 0).1.trans hmode0
  have hmode : (loadAfterPorts env L data).sw.mode = Mode.Read :=
    ((loadHead_follows L data).trans (loadAfterPorts_follows env L data)).1
  have hfin : USBfreeze env FreezeAction.Load L data
      = (0, resolvePacket (loadAfterPorts env L data).st
          (packetReadAt (loadAfterPorts env L data)).1.1
          (packetReadAt (loadAfterPorts env L data)).1.2
          (loadAfterPorts env L data).valid_devices, data) := by
    unfold USBfreeze
    simp only [USBfreezeLoad_eq env L data hm, DoPacketState_readAt _ hmode hpm, hok,
      Bool.false_eq_true, if_false]
  obtain ⟨a0, a1, a2⟩ := loadAfterPorts_distinct env L data hdist
  have key : ∃ d, (loadAfterPorts env L data).st.s_usb_device.get port = some d
      ∧ d.QueuesEmpty := by
    rcases hp with hp | hp
    · subst hp
      have hv0 : (loadPort env (loadHead L data) 0).valid_devices.get 0 = true := by
        have h1 := loadPort_valid env (loadPort env (loadHead L data) 0) 1
        unfold loadAfterPorts at hv
        rcases h1 with h1 | h1
        · rw [h1] at hv
          exact hv
        · rw [h1] at hv
          exact hv
      obtain ⟨d, hd, hq⟩ := loadPort_restored env (loadHead L data) 0 hmode0 rfl hv0 hdm
      have hw0 : Wired (wiring (loadHead L data).st) :=
        wired_of_wiring _ _ (DoOHCIState_wiring L _) hw
      have hw1 := loadPort_wired env (loadHead L data) ⟨0, by decide⟩ hw0
      have hkeep := loadPort_keeps0 env (loadPort env (loadHead L data) 0)
        (by
          have h := hw1.2.2.1
          simp only [wiring, ptrs] at h
          unfold getPortDev
          simpa [GetOHCIPort, PortArr.get] using h) a1
      exact ⟨d, hkeep.trans hd, hq⟩
    · subst hp
      have h0 : (loadPort env (loadHead L data) 0).valid_devices.get 1 = false := by
        rcases loadPort_valid env (loadHead L data) 0 with h | h <;> rw [h] <;> rfl
      exact loadPort_restored env (loadPort env (loadHead L data) 0) 1 hmode1 h0 hv hdm
  obtain ⟨d, hd, hq⟩ := key
  obtain ⟨d1, h1, _, h3⟩ := resolvePacket_queues (loadAfterPorts env L data).st
    (packetReadAt (loadAfterPorts env L data)).1.1 (packetReadAt (loadAfterPorts env L data)).1.2
    (loadAfterPorts env L data).valid_devices port hp d hd hq a2
  rw [hfin]
  exact ⟨d1, h1, h3⟩

theorem loadAfterPorts_mismatch_port1 (env : Env) (hr : env.Reapply) (S L : USBState) (hS : S.WF)
    (hmis : (L.EmuConfig.get 0).DeviceType ≠ (S.EmuConfig.get 0).DeviceType
      ∨ (L.EmuConfig.get 0).DeviceSubtype ≠ (S.EmuConfig.get 0).DeviceSubtype)
    (hcfg : L.EmuConfig.get 1 = S.EmuConfig.get 1)
    (hproxy : L.s_usb_device_proxy.get 1 = S.s_usb_device_proxy.get 1)
    (hdev : match L.s_usb_device.get 1, S.s_usb_device.get 1 with
      | none, none => True
      | some d, some s => SameShape d s ∧ PeriphShape d.periph s.periph
      | _, _ => False)
    (hwire : getPortDev L.s_qemu_ohci 0 = (L.s_usb_device.get 0).map (fun d => d.ptr))
    (hrh : L.s_qemu_ohci.rhport_ctrl.length = OHCI_MAX_PORTS)
    (hbuf : L.s_qemu_ohci.usb_buf.length = S.s_qemu_ohci.usb_buf.length)
    (hb0 : (blockBytes (S.s_usb_device.get 0)).length < 2 ^ 31)
    (hb1 : (blockBytes (S.s_usb_device.get 1)).length < 2 ^ 31) (data : freezeData)
    (tl : List Nat) (hdata : fit data.size data.data = saveBytes S ++ tl)
    (src : USBDevice) (hsrc : S.s_usb_device.get 1 = some src) :
    (loadAfterPorts env L data).valid_devices.get 1 = true
    ∧ ((headerAt (loadPort env (loadHead L data) 0)).2.DoMarker "USBDevice").1 = true := by
  have hR : (⟨Mode.Read, fit data.size data.data, 0, false⟩ : StateWrapper).Readable
      (saveBytes S) tl := ⟨rfl, rfl, by simp [StateWrapper.rest, hdata], by simp⟩
  obtain ⟨sw, hsw⟩ : ∃ sw, sw = (⟨Mode.Read, fit data.size data.data, 0, false⟩ : StateWrapper) :=
    ⟨_, rfl⟩
  rw [← hsw] at hR
  simp only [saveBytes, List.append_assoc] at hR
  have h1 := hR.left
  have h2 := hR.adv
  have h3 := h2.adv
  have h4 := h3.adv
  have e0 := StateWrapper.DoMarker_read _ _ _ good_USB h1
  have e1 := DoOHCIState_read L S _ _ h2.left hS.regs hrh hbuf
  have h3l := h3.left
  rw [portBytes_eq] at h3l
  have hmis2 : ((ohciLoaded L S).EmuConfig.get 0).DeviceType ≠ (S.EmuConfig.get 0).DeviceType
      ∨ ((ohciLoaded L S).EmuConfig.get 0).DeviceSubtype ≠ (S.EmuConfig.get 0).DeviceSubtype := by
    simpa [ohciLoaded] using hmis
  have e2 := loadPort_skip env
    ⟨ohciLoaded L S, (sw.adv (markerEnc "USB").length).adv (ohciBytes S).length, ⟨false, false⟩⟩
    0 _ _ _ _ hS.port0.devtype hS.port0.devsubtype hb0
    (by
      rcases hmis2 with hm | hm
      · exact Or.inl hm
      · exact Or.inr (Or.inl hm)) h3l
  simp only at e2
  have hfr := skipState_frame env (ohciLoaded L S) (S.EmuConfig.get 0).DeviceType
    (S.EmuConfig.get 0).DeviceSubtype (by simpa [ohciLoaded] using hwire)
  obtain ⟨tr1, e3⟩ := loadPort_compat env hr
    (FreezeLoop.mk
      (skipState env (ohciLoaded L S) 0 (S.EmuConfig.get 0).DeviceType
        (S.EmuConfig.get 0).DeviceSubtype)
      (((sw.adv (markerEnc "USB").length).adv (ohciBytes S).length).adv
        (portRecord (S.EmuConfig.get 0).DeviceType (S.EmuConfig.get 0).DeviceSubtype
          (blockBytes (S.s_usb_device.get 0))).length)
      ⟨false, false⟩) S 1 _ hS.port1
    (by simp only [hfr.1]; simpa [ohciLoaded] using hcfg)
    (by simp only [hfr.2.1]; simpa [ohciLoaded] using hproxy)
    (by simp only [hfr.2.2]; simpa [ohciLoaded] using hdev) hb1
    (by rw [← portBytes_eq]; exact h4.left)
  have hh : (((sw.adv (markerEnc "USB").length).adv (ohciBytes S).length).adv
      (portBytes S 0).length).Readable
      (encS 4 (S.EmuConfig.get 1).DeviceType ++ encU 4 (S.EmuConfig.get 1).DeviceSubtype
        ++ encU 4 (blockBytes (some src)).length)
      (markerEnc "USBDevice" ++ ((encAll deviceFields src ++ encInts src.altsetting
        ++ epBytes src.ep_ctl ++ encList epBytes src.ep_in ++ encList epBytes src.ep_out)
        ++ periphBytes src.periph ++ (packetBytes S (validOf S) ++ tl))) := by
    obtain ⟨a, b, c, e⟩ := h4
    exact ⟨a, b, by rw [c]; simp [portBytes, hsrc, blockBytes, devBytes, List.append_assoc], e⟩
  have hhdr := portHeader_read _ _ _ _ _ hS.port1.devtype hS.port1.devsubtype
    (by unfold InU; rw [hsrc] at hb1; omega) hh
  have hmk := StateWrapper.DoMarker_read _ "USBDevice" _ good_USBDevice
    (show ((((sw.adv (markerEnc "USB").length).adv (ohciBytes S).length).adv
      (portBytes S 0).length).adv 12).Readable (markerEnc "USBDevice") _ by
        simpa using hh.next.left)
  refine ⟨?_, ?_⟩
  · unfold loadAfterPorts loadHead
    simp only [← hsw, e0, e1, e2, e3, hsrc]
    rfl
  · unfold headerAt loadHead
    simp only [← hsw, e0, e1, e2, ← portBytes_eq, hhdr, hmk]

theorem sampleIdle_wf : sampleIdle.WF := by
  refine ⟨⟨by decide, by decide, by decide, ?_⟩, ?_, ?_, ?_⟩
  · constructor <;> decide
  · refine ⟨by decide, by decide, ?_⟩
    intro d hd
    have : d = idleDevice 1 (Peripheral.pad ⟨77, [1, 2, 3]⟩) := by
      simpa [sampleIdle, PortArr.get] using hd.symm
    subst this
    refine ⟨?_, by simp only [idleDevice, sampleDevice, Peripheral.WF]; decide,
      DeviceProxy.PadDevice, rfl, trivial⟩
    constructor <;> decide
  · refine ⟨by decide, by decide, ?_⟩
    intro d hd
    have : d = idleDevice 2 (Peripheral.guncon2 sampleGun) := by
      simpa [sampleIdle, PortArr.get] using hd.symm
    subst this
    refine ⟨?_, by simp only [idleDevice, sampleDevice, Peripheral.WF, sampleGun]; decide,
      DeviceProxy.GunCon2Device, rfl, trivial⟩
    constructor <;> decide
  · constructor <;> decide

set_option maxRecDepth 100000 in
theorem sampleIdle_size : (saveBytes sampleIdle).length ≤ 1000 := by
  decide

theorem sampleQueuedOnPad_load :
    (((⟨Mode.Read, fit sampleIdleData.size sampleIdleData.data, 0, false⟩ :
        StateWrapper).DoMarker "USB").1 = true
      ∧ Skipped (loadHead sampleQueuedOnPad sampleIdleData) 0
      ∧ (loadAfterPorts sampleEnv sampleQueuedOnPad sampleIdleData).sw.Readable
          (packetBytes sampleIdle (validOf sampleIdle)) [])
    ∧ (loadAfterPorts sampleEnv sampleQueuedOnPad sampleIdleData).valid_devices.get 1
        = true
    ∧ ((headerAt (loadPort sampleEnv (loadHead sampleQueuedOnPad sampleIdleData)
        0)).2.DoMarker "USBDevice").1 = true := by
  have hsz := sampleIdle_size
  have hb0 := blockBytes_le sampleIdle 0 (Or.inl rfl)
  have hb1 := blockBytes_le sampleIdle 1 (Or.inr rfl)
  have hdata : fit sampleIdleData.size sampleIdleData.data = saveBytes sampleIdle ++ [] := by
    simp only [sampleIdleData, fit_self, List.append_nil]
  exact ⟨loadAfterPorts_mismatch sampleEnv sampleEnv_reapply sampleIdle sampleQueuedOnPad
      sampleIdle_wf (Or.inl (by decide)) rfl rfl ⟨⟨rfl, rfl, rfl, rfl, rfl⟩, trivial⟩
      (by decide) (by decide) rfl (by omega) (by omega) sampleIdleData [] hdata,
    loadAfterPorts_mismatch_port1 sampleEnv sampleEnv_reapply sampleIdle sampleQueuedOnPad
      sampleIdle_wf (Or.inl (by decide)) rfl rfl ⟨⟨rfl, rfl, rfl, rfl, rfl⟩, trivial⟩
      (by decide) (by decide) rfl (by omega) (by omega) sampleIdleData [] hdata
      (idleDevice 2 (Peripheral.guncon2 sampleGun)) rfl⟩

/-- A port whose block is skipped: the `Load` loop clears no queue of its device, and
what is left on them is what `usb_reattach`, whose code is outside the sources, leaves.
Under an environment whose `usb_reattach` leaves the device as it is: the stream is the
one saved from a state with no outstanding transaction, the live state has the
outstanding packet queued on the control endpoint of the pad in guest port 0, and guest
port 0 is configured for another device type than the stream records, so the block of
port 0 is skipped. After the `Load` the packet has no endpoint, as the stream records,
and the control endpoint of the pad still has the packet in its queue. -/
theorem load_leaves_stale_queue :
    ((USBfreeze sampleEnv FreezeAction.Load sampleQueuedOnPad
        sampleIdleData).2.1.s_usb_device.get 0).map (fun d => d.ep_ctl.queue)
      = some [PacketPtr.usb_packet]
    ∧ (USBfreeze sampleEnv FreezeAction.Load sampleQueuedOnPad
        sampleIdleData).2.1.s_qemu_ohci.usb_packet.ep = none := by
  have hsz := sampleIdle_size
  have hb0 := blockBytes_le sampleIdle 0 (Or.inl rfl)
  have hb1 := blockBytes_le sampleIdle 1 (Or.inr rfl)
  obtain ⟨st2, hload, _, h0⟩ := USBfreezeLoad_mismatch sampleEnv sampleEnv_reapply
    sampleIdle sampleQueuedOnPad sampleIdle_wf (Or.inl (by decide)) rfl rfl
    ⟨⟨rfl, rfl, rfl, rfl, rfl⟩, trivial⟩ (by decide) (by decide) rfl (by omega) (by omega)
    sampleIdleData []
    (by simp only [sampleIdleData, fit_self, List.append_nil])
  have hfin : (USBfreeze sampleEnv FreezeAction.Load sampleQueuedOnPad sampleIdleData).2.1
      = resolvePacket st2
          (packetLoaded sampleQueuedOnPad.s_qemu_ohci.usb_packet
            sampleIdle.s_qemu_ohci.usb_packet)
          (packetLocals sampleIdle (validOf sampleIdle))
          ⟨false, (sampleIdle.s_usb_device.get 1).isSome⟩ := by
    unfold USBfreeze
    simp only [hload]
  have hidx : (packetLocals sampleIdle (validOf sampleIdle)).dev_index = -1 := by
    decide
  rw [hfin]
  refine ⟨?_, ?_⟩
  · rw [resolvePacket_invalid0 _ _ _ _ rfl, h0]
    decide
  · rw [resolvePacket_cancel _ _ _ _ (Or.inl (by rw [hidx]; decide))]

theorem loadBefore_one (env : Env) (st : USBState) (data : freezeData) :
    loadBefore env st data 1 = loadPort env (loadHead st data) 0 := by
  unfold loadBefore
  rw [if_neg (by decide)]

theorem sampleQueuedOnPad_wired : Wired (wiring sampleQueuedOnPad) := by
  unfold Wired wiring
  decide

theorem load_rebuilds_queues_witness :
    ∃ d, (USBfreeze sampleEnv FreezeAction.Load sampleQueuedOnPad
        sampleIdleData).2.1.s_usb_device.get 1 = some d
      ∧ ∀ (slot : EpSlot) (e : USBEndpoint), d.endpoint slot = some e →
          e.queue
            = if (USBfreeze sampleEnv FreezeAction.Load sampleQueuedOnPad
                    sampleIdleData).2.1.s_qemu_ohci.usb_packet.ep = some ⟨d.ptr, slot⟩
                ∧ (packetReadAt (loadAfterPorts sampleEnv sampleQueuedOnPad
                    sampleIdleData)).1.2.queued = true
              then [PacketPtr.usb_packet] else [] :=
  load_rebuilds_queues sampleEnv sampleQueuedOnPad sampleIdleData
    sampleQueuedOnPad_load.1.1
    (packetReadAt_saved _ sampleIdle _ [] sampleIdle_wf.packet
      sampleQueuedOnPad_load.1.2.2).1
    (packetReadAt_saved _ sampleIdle _ [] sampleIdle_wf.packet
      sampleQueuedOnPad_load.1.2.2).2.2
    (by
      rw [(packetReadAt_saved _ sampleIdle _ [] sampleIdle_wf.packet
        sampleQueuedOnPad_load.1.2.2).2.1]
      decide)
    sampleQueuedOnPad_wired
    (by
      intro d0 d1 h0 h1
      have e0 : d0 = samplePad := by
        simpa [sampleQueuedOnPad, PortArr.get] using h0.symm
      have e1 : d1 = idleDevice 2 (Peripheral.guncon2 sampleGun) := by
        simpa [sampleQueuedOnPad, PortArr.get] using h1.symm
      subst e0
      subst e1
      decide)
    1 (Or.inr rfl) sampleQueuedOnPad_load.2.1
    (by rw [loadBefore_one]; exact sampleQueuedOnPad_load.2.2)

/-- C19: a control request that the generic handler `usb_desc_handle_control` rejects
(negative return value) and that the device does not recognise ends with the packet
status `USB_RET_STALL`: for the GunCon2 every request other than
`ClassInterfaceOutRequest | 0x09`, and for the pad family, whatever the pad type,
every request other than an interface GET_DESCRIPTOR of report type, SET_REPORT and
SET_IDLE. -/
theorem unknown_control_request_stalls (c : ControlEnv) (dev : USBDevice) (p : USBPacket)
    (request value index length : Int) (data : List Nat)
    (hrej : (c.usb_desc_handle_control dev p request value index length data).1 < 0) :
    (∀ us : GunCon2State,
      request ≠ ((c.ClassInterfaceOutRequest ||| 0x09 : Nat) : Int) →
      (guncon2_handle_control c dev us p request value index length data).2.p.status
        = c.USB_RET_STALL)
    ∧ (∀ type : Nat,
      ¬ (request = ((c.InterfaceRequest ||| c.USB_REQ_GET_DESCRIPTOR : Nat) : Int)
          ∧ value >>> 8 = c.USB_DT_REPORT) →
      request ≠ c.SET_REPORT → request ≠ c.SET_IDLE →
      (pad_handle_control c dev type p request value index length data).p.status
        = c.USB_RET_STALL) := by
  refine ⟨?_, ?_⟩
  · intro us hne
    unfold guncon2_handle_control
    simp only [ge_iff_le, not_le.mpr hrej, if_false, hne]
  · intro type h1 h2 h3
    unfold pad_handle_control
    simp only
    split
    · simp only [hrej, if_true]
    · split
      · rename_i hreq
        have hv : ¬ value >>> 8 = c.USB_DT_REPORT := fun h => h1 ⟨hreq, h⟩
        simp only [hv, if_false]
      · simp only [h2, h3, if_false, ge_iff_le, not_le.mpr hrej]

theorem unknown_control_request_stalls_witness :
    (sampleControl.usb_desc_handle_control samplePad blankPacket 0x4242 0 0 0 []).1 < 0
    ∧ (guncon2_handle_control sampleControl samplePad sampleGun blankPacket 0x4242 0 0 0
        []).2.p.status = sampleControl.USB_RET_STALL
    ∧ (pad_handle_control sampleControl samplePad 0 blankPacket 0x4242 0 0 0 []).p.status
        = sampleControl.USB_RET_STALL :=
  ⟨by decide,
    (unknown_control_request_stalls sampleControl samplePad blankPacket 0x4242 0 0 0 []
      (by decide)).1 sampleGun (by decide),
    (unknown_control_request_stalls sampleControl samplePad blankPacket 0x4242 0 0 0 []
      (by decide)).2 0 (by decide) (by decide) (by decide)⟩

theorem SkipBytes_inside (sw : StateWrapper) (n : Nat) (hm : sw.mode = Mode.Read)
    (he : sw.error = false) (hn : n < 2 ^ 31) (hfit : sw.pos + n ≤ sw.buf.length) :
    sw.SkipBytes n = sw.adv n := by
  unfold StateWrapper.SkipBytes
  simp only [hm, he, Bool.false_eq_true, if_false, decS_encU_small _ hn]
  unfold StateWrapper.SeekRelative
  have h1 : ¬ ((n : Int) < 0) := by omega
  have h2 : ¬ (sw.pos + n > sw.buf.length) := by omega
  simp [h1, h2, StateWrapper.adv, he]

theorem reattachPort_trace (env : Env) (st : USBState) (port : Nat) :
    (reattachPort env st port).trace = st.trace ++ [Event.reattach (GetOHCIPort port)] := by
  unfold reattachPort
  simp only
  split
  · rfl
  · split
    · rfl
    · split <;> rfl

theorem reattachPort_own (env : Env) (st : USBState) (port : Nat) (hp : port = 0 ∨ port = 1)
    (dev : USBDevice) (hd : st.s_usb_device.get port = some dev)
    (hw : getPortDev st.s_qemu_ohci port = some dev.ptr)
    (hdist : ∀ a, (ptrs st.s_usb_device).p0 = some a → (ptrs st.s_usb_device).p1 ≠ some a) :
    (reattachPort env st port).s_usb_device.get port
      = some (keepPtr dev (env.usb_reattach st.s_qemu_ohci (GetOHCIPort port) dev).2) := by
  unfold reattachPort
  simp only [hw]
  rcases hp with hp | hp
  · subst hp
    have h0 : st.s_usb_device.p0.map (fun d => d.ptr) = some dev.ptr := by
      have : st.s_usb_device.p0 = some dev := by simpa [PortArr.get] using hd
      rw [this]
      rfl
    simp only [h0, if_true, hd]
    simp [PortArr.get, PortArr.set]
  · subst hp
    have h1 : st.s_usb_device.p1.map (fun d => d.ptr) = some dev.ptr := by
      have : st.s_usb_device.p1 = some dev := by simpa [PortArr.get] using hd
      rw [this]
      rfl
    have h0 : ¬ st.s_usb_device.p0.map (fun d => d.ptr) = some dev.ptr := fun h =>
      hdist dev.ptr h h1
    simp only [h0, h1, if_true, if_false, hd]
    simp [PortArr.get, PortArr.set]

theorem loadPort_skipped (env : Env) (x : FreezeLoop) (port : Nat) (h : Skipped x port) :
    loadPort env x port
      = { st := if (x.st.s_usb_device.get port).isSome
            then reattachPort env { x.st with trace := x.st.trace ++ [Event.console_error port] }
              port
            else { x.st with trace := x.st.trace ++ [Event.console_error port] },
          sw := (headerAt x).2.SkipBytes (headerAt x).1.state_size,
          valid_devices := x.valid_devices } := by
  unfold Skipped headerAt at h
  unfold loadPort headerAt
  simp only
  rw [if_pos h]

theorem decS_encU_large (n : Nat) (h1 : 2 ^ 31 ≤ n) (h2 : n < 2 ^ 32) :
    decS 4 (encU 4 n) = (n : Int) - 2 ^ 32 := by
  have h3 : n % 256 ^ 4 = n := Nat.mod_eq_of_lt (by omega)
  unfold decS encU
  simp only [ofLE_leBytes, Nat.mod_mod, h3]
  rw [if_neg (by omega)]
  norm_num

theorem DoBytes_buf (sw : StateWrapper) (data : List Nat) (hm : sw.mode = Mode.Read) :
    (sw.DoBytes data).2.buf = sw.buf := by
  unfold StateWrapper.DoBytes
  simp only [hm, StateWrapper.streamRead]
  split
  · rfl
  · split <;> rfl

theorem doField_buf {σ : Type} (f : Field σ) (st : σ) (sw : StateWrapper)
    (hm : sw.mode = Mode.Read) : (doField f st sw).2.buf = sw.buf := by
  have h := DoBytes_buf sw (f.enc st) hm
  unfold doField
  simp only [hm]
  exact h

theorem doFields_buf {σ : Type} (fs : List (Field σ)) (st : σ) (sw : StateWrapper)
    (hm : sw.mode = Mode.Read) : (doFields fs st sw).2.buf = sw.buf := by
  induction fs generalizing st sw with
  | nil => rfl
  | cons f fs ih =>
    unfold doFields
    simp only
    rw [ih _ _ ((doField_follows f st sw).1.trans hm), doField_buf f st sw hm]

theorem doField_size (h : PortHeader) (sw : StateWrapper) :
    (doField sizeField h sw).1.state_size < 2 ^ 32
    ∨ (doField sizeField h sw).1.state_size = h.state_size := by
  unfold doField
  cases sw.mode
  · left
    simp only [sizeField, Field.u, decU]
    exact Nat.mod_lt _ (by norm_num)
  · right
    rfl

theorem doField_devtype_size (h : PortHeader) (sw : StateWrapper) :
    (doField devtypeField h sw).1.state_size = h.state_size := by
  unfold doField
  cases sw.mode <;> rfl

theorem doField_devsubtype_size (h : PortHeader) (sw : StateWrapper) :
    (doField devsubtypeField h sw).1.state_size = h.state_size := by
  unfold doField
  cases sw.mode <;> rfl

/-- The declared length a port header holds is a 32-bit value. -/
theorem headerAt_size (x : FreezeLoop) : (headerAt x).1.state_size < 2 ^ 32 := by
  unfold headerAt
  simp only [doFields]
  rcases doField_size (doField devsubtypeField (doField devtypeField ⟨0, 0, 0⟩ x.sw).1
    (doField devtypeField ⟨0, 0, 0⟩ x.sw).2).1
    (doField devsubtypeField (doField devtypeField ⟨0, 0, 0⟩ x.sw).1
      (doField devtypeField ⟨0, 0, 0⟩ x.sw).2).2 with h | h
  · exact h
  · rw [h, doField_devsubtype_size, doField_devtype_size]
    norm_num

/-- What `SkipBytes` does to a reading stream that is not in error, by the size of the
count and the room in the buffer. -/
theorem SkipBytes_cases (sw : StateWrapper) (n : Nat) (hm : sw.mode = Mode.Read)
    (he : sw.error = false) (h32 : n < 2 ^ 32) :
    (sw.SkipBytes n).buf = sw.buf ∧ (sw.SkipBytes n).mode = Mode.Read
    ∧ (n < 2 ^ 31 → sw.pos + n ≤ sw.buf.length →
        (sw.SkipBytes n).pos = sw.pos + n ∧ (sw.SkipBytes n).error = false)
    ∧ (n < 2 ^ 31 → sw.buf.length < sw.pos + n →
        (sw.SkipBytes n).pos = sw.pos ∧ (sw.SkipBytes n).error = true)
    ∧ (2 ^ 31 ≤ n → 2 ^ 32 - n ≤ sw.pos →
        (sw.SkipBytes n).pos = sw.pos - (2 ^ 32 - n) ∧ (sw.SkipBytes n).error = false)
    ∧ (2 ^ 31 ≤ n → sw.pos < 2 ^ 32 - n →
        (sw.SkipBytes n).pos = sw.pos ∧ (sw.SkipBytes n).error = true) := by
  have hb : (sw.SkipBytes n).buf = sw.buf ∧ (sw.SkipBytes n).mode = Mode.Read := by
    unfold StateWrapper.SkipBytes StateWrapper.SeekRelative
    simp only [hm, he, Bool.false_eq_true, if_false]
    split <;> split <;> first | exact ⟨rfl, hm⟩ | exact ⟨rfl, rfl⟩
  refine ⟨hb.1, hb.2, ?_, ?_, ?_, ?_⟩
  · intro hn hfit
    rw [SkipBytes_inside sw n hm he hn hfit]
    exact ⟨rfl, he⟩
  · intro hn hfit
    unfold StateWrapper.SkipBytes StateWrapper.SeekRelative
    simp only [hm, he, Bool.false_eq_true, if_false, decS_encU_small _ hn]
    rw [if_neg (by omega), if_pos (by omega)]
    exact ⟨rfl, rfl⟩
  · intro hn hfit
    unfold StateWrapper.SkipBytes StateWrapper.SeekRelative
    simp only [hm, he, Bool.false_eq_true, if_false, decS_encU_large _ hn h32]
    have e : (-((n : Int) - 2 ^ 32)).toNat = 2 ^ 32 - n := by omega
    rw [if_pos (by omega), e, if_neg (by omega)]
    exact ⟨rfl, rfl⟩
  · intro hn hfit
    unfold StateWrapper.SkipBytes StateWrapper.SeekRelative
    simp only [hm, he, Bool.false_eq_true, if_false, decS_encU_large _ hn h32]
    have e : (-((n : Int) - 2 ^ 32)).toNat = 2 ^ 32 - n := by omega
    rw [if_pos (by omega), e, if_pos (by omega)]
    exact ⟨rfl, rfl⟩

/-- C21 as stated fails in its last part: the declared length is not always the
distance skipped. `SkipBytes` takes the 32-bit length as a signed offset, so a header
that declares 0xFFFFFFF4 bytes moves the position 12 bytes back, to the start of the
header, without error; and a header that declares 100 bytes with 4 bytes left in the
stream leaves the position behind the header and puts the stream in error. -/
theorem load_skip_length_counterexample :
    ((sampleBackwardSkip.st.EmuConfig.get 0).DeviceType = 0
      ∧ (headerAt sampleBackwardSkip).1.state_devtype = 5
      ∧ (headerAt sampleBackwardSkip).1.state_size = 0xFFFFFFF4
      ∧ (headerAt sampleBackwardSkip).2.pos = 12
      ∧ (loadPort sampleEnv sampleBackwardSkip 0).sw.pos = 0
      ∧ (loadPort sampleEnv sampleBackwardSkip 0).sw.error = false)
    ∧ ((sampleShortBlock.st.EmuConfig.get 0).DeviceType = 0
      ∧ (headerAt sampleShortBlock).1.state_devtype = 5
      ∧ (headerAt sampleShortBlock).1.state_size = 100
      ∧ (headerAt sampleShortBlock).2.pos = 12
      ∧ (headerAt sampleShortBlock).2.buf.length = 16
      ∧ (loadPort sampleEnv sampleShortBlock 0).sw.pos = 12
      ∧ (loadPort sampleEnv sampleShortBlock 0).sw.error = true) := by
  decide

/-- C21: in `Load` mode, when the header of a port cannot be read, records another
device type or subtype than the configured one, or records a device while none is
attached, the iteration leaves a state that is a function of the live state alone
(nothing is read from the stream into it): the configuration, the root hub
pointers, the device objects and the proxies are the ones before, the port is not
marked restored, a re-attach on root hub port `1 - port` is the one outside call
made, after the error message, exactly when a device is attached, and the attached
device is the live object with what `usb_reattach` did to it. The stream keeps its
bytes; when the header could not be read it stays as the header left it, in error; and
otherwise the declared length n (a 32-bit value) moves the position behind the header
as follows: for n below 2^31, forward by n when n bytes are left, and not at all, with
the stream put in error, when fewer are left; for n of 2^31 or more, back by 2^32 - n
when the position is that large, and not at all, with the stream put in error, when it
is smaller. -/
theorem load_mismatch_skips (env : Env) (x : FreezeLoop) (port : Nat)
    (hp : port = 0 ∨ port = 1) (hm : x.sw.mode = Mode.Read) (h : Skipped x port) :
    (∀ x2 : FreezeLoop, x2.st = x.st → Skipped x2 port →
      (loadPort env x2 port).st = (loadPort env x port).st)
    ∧ wiring (loadPort env x port).st = wiring x.st
    ∧ (loadPort env x port).st.EmuConfig = x.st.EmuConfig
    ∧ (loadPort env x port).valid_devices = x.valid_devices
    ∧ (loadPort env x port).st.trace
        = x.st.trace ++ [Event.console_error port]
          ++ (if (x.st.s_usb_device.get port).isSome then [Event.reattach (1 - port)] else [])
    ∧ (x.st.s_usb_device.get port = none →
        (loadPort env x port).st.s_usb_device = x.st.s_usb_device
        ∧ (loadPort env x port).st.s_qemu_ohci = x.st.s_qemu_ohci)
    ∧ (∀ dev, x.st.s_usb_device.get port = some dev →
        getPortDev x.st.s_qemu_ohci port = some dev.ptr →
        (∀ a, (ptrs x.st.s_usb_device).p0 = some a → (ptrs x.st.s_usb_device).p1 ≠ some a) →
        (loadPort env x port).st.s_usb_device.get port
          = some (keepPtr dev (env.usb_reattach x.st.s_qemu_ohci (1 - port) dev).2))
    ∧ (loadPort env x port).sw.buf = x.sw.buf
    ∧ (loadPort env x port).sw.mode = Mode.Read
    ∧ ((headerAt x).2.error = true → (loadPort env x port).sw = (headerAt x).2)
    ∧ ((headerAt x).2.error = false →
        (headerAt x).1.state_size < 2 ^ 32
        ∧ ((headerAt x).1.state_size < 2 ^ 31 →
            (headerAt x).2.pos + (headerAt x).1.state_size ≤ x.sw.buf.length →
            (loadPort env x port).sw.pos = (headerAt x).2.pos + (headerAt x).1.state_size
            ∧ (loadPort env x port).sw.error = false)
        ∧ ((headerAt x).1.state_size < 2 ^ 31 →
            x.sw.buf.length < (headerAt x).2.pos + (headerAt x).1.state_size →
            (loadPort env x port).sw.pos = (headerAt x).2.pos
            ∧ (loadPort env x port).sw.error = true)
        ∧ (2 ^ 31 ≤ (headerAt x).1.state_size →
            2 ^ 32 - (headerAt x).1.state_size ≤ (headerAt x).2.pos →
            (loadPort env x port).sw.pos
              = (headerAt x).2.pos - (2 ^ 32 - (headerAt x).1.state_size)
            ∧ (loadPort env x port).sw.error = false)
        ∧ (2 ^ 31 ≤ (headerAt x).1.state_size →
            (headerAt x).2.pos < 2 ^ 32 - (headerAt x).1.state_size →
            (loadPort env x port).sw.pos = (headerAt x).2.pos
            ∧ (loadPort env x port).sw.error = true)) := by
  have hg : GetOHCIPort port = 1 - port := by
    rcases hp with hp | hp <;> subst hp <;> rfl
  have e := loadPort_skipped env x port h
  have hhm : (headerAt x).2.mode = Mode.Read :=
    (doFields_follows [devtypeField, devsubtypeField, sizeField] ⟨0, 0, 0⟩ x.sw).1.trans hm
  have hhb : (headerAt x).2.buf = x.sw.buf :=
    doFields_buf [devtypeField, devsubtypeField, sizeField] ⟨0, 0, 0⟩ x.sw hm
  have hsw : (loadPort env x port).sw = (headerAt x).2.SkipBytes (headerAt x).1.state_size := by
    rw [e]
  have herr : (headerAt x).2.error = true →
      (headerAt x).2.SkipBytes (headerAt x).1.state_size = (headerAt x).2 := by
    intro he
    unfold StateWrapper.SkipBytes
    simp only [hhm, he, if_true]
  refine ⟨?_, ?_, ?_, ?_, ?_, ?_, ?_, ?_, ?_, ?_, ?_⟩
  · intro x2 hst h2
    rw [e, loadPort_skipped env x2 port h2, hst]
  · rw [e]
    simp only
    split
    · exact reattachPort_wiring env _ port
    · rfl
  · rw [e]
    simp only
    split
    · exact (reattachPort_config env _ port).1
    · rfl
  · rw [e]
  · rw [e]
    simp only
    split
    · rw [reattachPort_trace, hg]
    · simp
  · intro hn
    rw [e]
    simp only [hn, Option.isSome_none, Bool.false_eq_true, if_false]
    exact ⟨trivial, trivial⟩
  · intro dev hd hw hdist
    rw [e]
    simp only [hd, Option.isSome_some, if_true]
    rw [← hg]
    exact reattachPort_own env _ port hp dev hd hw hdist
  · rw [hsw]
    cases he : (headerAt x).2.error
    · rw [(SkipBytes_cases _ _ hhm he (headerAt_size x)).1, hhb]
    · rw [herr he, hhb]
  · rw [hsw]
    cases he : (headerAt x).2.error
    · exact (SkipBytes_cases _ _ hhm he (headerAt_size x)).2.1
    · rw [herr he, hhm]
  · intro he
    rw [hsw, herr he]
  · intro he
    have hc := SkipBytes_cases _ _ hhm he (headerAt_size x)
    rw [hhb] at hc
    rw [hsw]
    exact ⟨headerAt_size x, hc.2.2.1, hc.2.2.2.1, hc.2.2.2.2.1, hc.2.2.2.2.2⟩

theorem load_mismatch_skips_witness :
    (loadPort sampleEnv (loadHead sampleQueuedOnPad sampleIdleData) 0).st.trace
      = (loadHead sampleQueuedOnPad sampleIdleData).st.trace ++ [Event.console_error 0]
        ++ (if ((loadHead sampleQueuedOnPad sampleIdleData).st.s_usb_device.get 0).isSome
            then [Event.reattach (1 - 0)] else [])
    ∧ (loadPort sampleEnv sampleBackwardSkip 0).st.trace
        = sampleBackwardSkip.st.trace ++ [Event.console_error 0]
          ++ (if (sampleBackwardSkip.st.s_usb_device.get 0).isSome
              then [Event.reattach (1 - 0)] else [])
    ∧ (loadPort sampleEnv sampleBackwardSkip 0).sw.buf = sampleBackwardSkip.sw.buf :=
  ⟨(load_mismatch_skips sampleEnv (loadHead sampleQueuedOnPad sampleIdleData) 0 (Or.inl rfl)
      (loadHead_follows sampleQueuedOnPad sampleIdleData).1
      sampleQueuedOnPad_load.1.2.1).2.2.2.2.1,
    (load_mismatch_skips sampleEnv sampleBackwardSkip 0 (Or.inl rfl) rfl
      (Or.inr (Or.inl (by decide)))).2.2.2.2.1,
    (load_mismatch_skips sampleEnv sampleBackwardSkip 0 (Or.inl rfl) rfl
      (Or.inr (Or.inl (by decide)))).2.2.2.2.2.2.2.1⟩

theorem frameStep_uniform (env : Env) (F : Nat)
    (hF : ∀ o, (env.ohci_frame_boundary o).eof_timer = F) (st : USBState) :
    (frameStep env st).s_qemu_ohci.eof_timer = F
    ∧ frameCount (frameStep env st) = frameCount st + 1 := by
  refine ⟨?_, ?_⟩
  · show (keepWiring _ (env.ohci_frame_boundary _)).eof_timer = F
    unfold keepWiring
    exact hF _
  · simp [frameCount, frameStep]

theorem frames_uniform (env : Env) (F : Nat) (hF0 : 0 < F) (hF1 : F < 2 ^ 63)
    (hF : ∀ o, (env.ohci_frame_boundary o).eof_timer = F) (n : Nat) :
    ∀ st : USBState, Timed st → 0 < st.s_qemu_ohci.eof_timer → st.s_usb_remaining.toNat < n →
      st.s_qemu_ohci.eof_timer ≤ st.s_usb_remaining.toNat →
      frameCount (frames env st)
          = frameCount st + 1 + (st.s_usb_remaining.toNat - st.s_qemu_ohci.eof_timer) / F
        ∧ (frames env st).s_usb_remaining
          = (((st.s_usb_remaining.toNat - st.s_qemu_ohci.eof_timer) % F : Nat) : Int)
        ∧ (frames env st).s_qemu_ohci.eof_timer = F
        ∧ Timed (frames env st) := by
  have hb : env.FrameTime := ⟨fun o => by rw [hF]; exact hF1⟩
  induction n with
  | zero => intro st _ _ h; omega
  | succ n ih =>
    intro st ht hpos hn hge
    have hu : toU64 st.s_usb_remaining = st.s_usb_remaining.toNat :=
      toU64_id _ ht.nonneg (by have := ht.below; omega)
    obtain ⟨ht1, hr1⟩ := frameStep_timed env hb st ht (by rw [hu]; exact hge)
    obtain ⟨he1, hc1⟩ := frameStep_uniform env F hF st
    have h0 := ht.nonneg
    rw [frames_step env hb st ht hpos hge, if_neg (by rw [he1]; omega)]
    have hR1 : (frameStep env st).s_usb_remaining.toNat
        = st.s_usb_remaining.toNat - st.s_qemu_ohci.eof_timer := by
      rw [hr1]; omega
    by_cases hlt : st.s_usb_remaining.toNat - st.s_qemu_ohci.eof_timer < F
    · rw [frames_short env _ ht1 (by rw [hR1, he1]; exact hlt)]
      refine ⟨?_, ?_, he1, ht1⟩
      · rw [hc1, Nat.div_eq_of_lt hlt]
      · rw [Nat.mod_eq_of_lt hlt, hr1]
        omega
    · obtain ⟨a, b, c, d⟩ := ih (frameStep env st) ht1 (by rw [he1]; exact hF0)
        (by rw [hR1]; omega) (by rw [hR1, he1]; omega)
      rw [hR1, he1] at a b
      obtain ⟨k, hk⟩ : ∃ k, st.s_usb_remaining.toNat - st.s_qemu_ohci.eof_timer = k + F :=
        ⟨st.s_usb_remaining.toNat - st.s_qemu_ohci.eof_timer - F, by omega⟩
      rw [hk] at a b ⊢
      rw [Nat.add_sub_cancel] at a b
      refine ⟨?_, ?_, c, d⟩
      · rw [a, hc1, Nat.add_div_right _ hF0]
        omega
      · rw [b, Nat.add_mod_right]

theorem postAdjust_count (st : USBState) : frameCount (postAdjust st) = frameCount st := by
  unfold postAdjust frameCount
  split
  · simp only
  · rfl

/-- C22 as stated fails for a frame timer of 2^63 or more: the timer is read into a
signed 64-bit variable. With the timer at 2^64 - 1, an empty accumulator and 10
cycles, no step is due and the call should end with the accumulator at 0 and the
timer at 2^64 - 11; it ends with the timer at 0 and 11 cycles in the accumulator. -/
theorem USBasync_timer_counterexample :
    sampleHugeTimer.s_qemu_ohci.eof_timer = 2 ^ 64 - 1
    ∧ sampleHugeTimer.s_usb_remaining = 0
    ∧ frameCount (USBasync sampleEnv sampleHugeTimer 10) = frameCount sampleHugeTimer
    ∧ (USBasync sampleEnv sampleHugeTimer 10).s_qemu_ohci.eof_timer = 0
    ∧ (USBasync sampleEnv sampleHugeTimer 10).s_usb_remaining = 11 := by
  decide

/-- C22, amended: `USBasync(c)` entered with a frame timer `e` with `0 < e < 2^63`, an
accumulator `r ≥ 0` with `t = r + c < 2^63`, and a frame-boundary step that always
reloads the timer to the same `F` with `0 < F < 2^63`, executes no step when `t < e`
and `1 + (t - e) / F` steps when `t ≥ e`; it returns with the accumulator at 0 and the
frame timer at `e - t`, respectively `F - (t - e) mod F`. The loop ends through its
condition: more fuel than the `t + 1` iterations the model hands it changes
nothing. -/
theorem USBasync_frame_steps (env : Env) (F : Nat) (hF0 : 0 < F) (hF1 : F < 2 ^ 63)
    (hF : ∀ o, (env.ohci_frame_boundary o).eof_timer = F) (st : USBState) (c : Nat)
    (he0 : 0 < st.s_qemu_ohci.eof_timer) (he1 : st.s_qemu_ohci.eof_timer < 2 ^ 63)
    (hr : 0 ≤ st.s_usb_remaining) (ht : st.s_usb_remaining + c < 2 ^ 63) :
    ((st.s_usb_remaining + c).toNat < st.s_qemu_ohci.eof_timer →
      frameCount (USBasync env st c) = frameCount st
      ∧ (USBasync env st c).s_usb_remaining = 0
      ∧ (USBasync env st c).s_qemu_ohci.eof_timer
          = st.s_qemu_ohci.eof_timer - (st.s_usb_remaining + c).toNat)
    ∧ (st.s_qemu_ohci.eof_timer ≤ (st.s_usb_remaining + c).toNat →
      frameCount (USBasync env st c)
          = frameCount st + 1 + ((st.s_usb_remaining + c).toNat - st.s_qemu_ohci.eof_timer) / F
      ∧ (USBasync env st c).s_usb_remaining = 0
      ∧ (USBasync env st c).s_qemu_ohci.eof_timer
          = F - ((st.s_usb_remaining + c).toNat - st.s_qemu_ohci.eof_timer) % F)
    ∧ (∀ fuel : Nat, (st.s_usb_remaining + c).toNat + 1 ≤ fuel →
        frameLoop env fuel (asyncEntry st c)
          = frameLoop env ((st.s_usb_remaining + c).toNat + 1) (asyncEntry st c)) := by
  have hb : env.FrameTime := ⟨fun o => by rw [hF]; exact hF1⟩
  have hE : USBasync env st c = postAdjust (frames env (asyncEntry st c)) :=
    USBasync_eq env st c
  have hw : wrapS64 (st.s_usb_remaining + c) = st.s_usb_remaining + c :=
    wrapS64_id _ (by omega) ht
  have hrem : (asyncEntry st c).s_usb_remaining = st.s_usb_remaining + c := hw
  have hee : (asyncEntry st c).s_qemu_ohci.eof_timer = st.s_qemu_ohci.eof_timer := rfl
  have hcnt : frameCount (asyncEntry st c) = frameCount st := rfl
  have hT : Timed (asyncEntry st c) := ⟨by rw [hrem]; omega, by rw [hrem]; exact ht, he1⟩
  refine ⟨fun hlt => ?_, fun hge => ?_, fun fuel hf => ?_⟩
  · have hfr := frames_short env (asyncEntry st c) hT (by rw [hrem, hee]; exact hlt)
    rw [hE, hfr, postAdjust_count, postAdjust_eq _ hT]
    refine ⟨hcnt, ?_, ?_⟩
    · show (asyncEntry st c).s_usb_remaining - _ = 0
      rw [hrem, hee]
      omega
    · show (asyncEntry st c).s_qemu_ohci.eof_timer - _ = _
      rw [hrem, hee]
      omega
  · obtain ⟨a, b, e, d⟩ := frames_uniform env F hF0 hF1 hF _ (asyncEntry st c) hT
      (by rw [hee]; exact he0) (Nat.lt_succ_self _) (by rw [hrem, hee]; exact hge)
    rw [hrem, hee] at a b
    have hm := Nat.mod_lt ((st.s_usb_remaining + c).toNat - st.s_qemu_ohci.eof_timer) hF0
    rw [hE, postAdjust_count, postAdjust_eq _ d]
    refine ⟨by rw [a, hcnt], ?_, ?_⟩
    · show (frames env (asyncEntry st c)).s_usb_remaining - _ = 0
      rw [b, e]
      omega
    · show (frames env (asyncEntry st c)).s_qemu_ohci.eof_timer - _ = _
      rw [b, e]
      omega
  · exact frameLoop_fuel env hb fuel _ (asyncEntry st c) hT (by rw [hee]; exact he0)
      (by rw [hrem]; omega) (by rw [hrem]; omega)

theorem USBasync_frame_steps_witness :
    frameCount (USBasync sampleEnv sampleState 30000)
      = frameCount sampleState + 1 + ((sampleState.s_usb_remaining + (30000 : Nat)).toNat
          - sampleState.s_qemu_ohci.eof_timer) / 12000
    ∧ (USBasync sampleEnv sampleState 30000).s_usb_remaining = 0
    ∧ (USBasync sampleEnv sampleState 30000).s_qemu_ohci.eof_timer
        = 12000 - ((sampleState.s_usb_remaining + (30000 : Nat)).toNat
            - sampleState.s_qemu_ohci.eof_timer) % 12000 :=
  (USBasync_frame_steps sampleEnv 12000 (by decide) (by decide) (fun _ => rfl) sampleState 30000
    (by decide) (by decide) (by decide) (by decide)).2.1 (by decide)

theorem frameLoop_clocks (env : Env) (fuel : Nat) :
    ∀ s : USBState, (frameLoop env fuel s).s_usb_clocks = s.s_usb_clocks := by
  induction fuel with
  | zero => intro s; rfl
  | succ n ih =>
    intro s
    rw [frameLoop_succ]
    split
    · split
      · rfl
      · rw [ih]
        rfl
    · rfl

theorem USBasync_clocks (env : Env) (st : USBState) (c : Nat) :
    usb_get_clock (USBasync env st c)
      = wrapS64 (st.s_usb_clocks + wrapS64 (st.s_usb_remaining + c)) := by
  unfold usb_get_clock
  rw [USBasync_eq]
  have h1 : ∀ s : USBState, (postAdjust s).s_usb_clocks = s.s_usb_clocks := by
    intro s
    unfold postAdjust
    split
    · simp only
    · rfl
  have h2 : ∀ s : USBState, (frames env s).s_usb_clocks = s.s_usb_clocks := by
    intro s
    unfold frames
    split
    · exact frameLoop_clocks env _ s
    · rfl
  rw [h1, h2]

/-- C23: `USBasync(c)` adds to the clock the accumulator after the cycles were added
to it, not the cycles: the clock becomes `s_usb_clocks + (s_usb_remaining + c)`. After
a `USBreset` that leaves the bus stopped (frame timer 0) the cycles stay in the
accumulator, so two calls of 1 cycle leave `usb_get_clock()` at 3, not at 2. -/
theorem usb_get_clock_after_two_calls :
    (∀ (env : Env) (st : USBState) (c : Nat),
      usb_get_clock (USBasync env st c)
        = wrapS64 (st.s_usb_clocks + wrapS64 (st.s_usb_remaining + c)))
    ∧ usb_get_clock (USBreset sampleEnv sampleStopped) = 0
    ∧ (USBreset sampleEnv sampleStopped).s_qemu_ohci.eof_timer = 0
    ∧ usb_get_clock (USBasync sampleEnv (USBreset sampleEnv sampleStopped) 1) = 1
    ∧ usb_get_clock
        (USBasync sampleEnv (USBasync sampleEnv (USBreset sampleEnv sampleStopped) 1) 1) = 3 :=
  ⟨USBasync_clocks, by decide, by decide, by decide, by decide⟩

set_option maxRecDepth 100000 in
theorem corruptPacket_read :
    (packetReadAt ⟨sampleState, ⟨Mode.Read, corruptPacketStream, 0, false⟩, ⟨true, true⟩⟩).1.2
      = ⟨2, 0, false⟩ := by
  decide

/-- C25: the read-mode tail of `DoPacketState` checks the recorded port index against
0 only. On a packet record that holds port index 2 and endpoint index 0 the stream is
read without error, the two comparisons hold, and the table `valid_devices`, which
has `NUM_PORTS = 2` entries, is read at index 2. -/
theorem DoPacketState_reads_past_table :
    ((⟨Mode.Read, corruptPacketStream, 0, false⟩ : StateWrapper).DoMarker "USBPacket").1 = true
    ∧ (packetReadAt ⟨sampleState, ⟨Mode.Read, corruptPacketStream, 0, false⟩,
        ⟨true, true⟩⟩).2.HasError = false
    ∧ validDevicesIndex (packetReadAt ⟨sampleState, ⟨Mode.Read, corruptPacketStream, 0, false⟩,
        ⟨true, true⟩⟩).1.2 = some 2
    ∧ ¬ (2 < NUM_PORTS) := by
  refine ⟨?_, ?_, ?_, by decide⟩
  · decide
  · decide
  · rw [corruptPacket_read]
    decide

theorem Freeze_val (proxy : DeviceProxy) (d : USBDevice) (sw : StateWrapper)
    (hm : sw.mode = Mode.Write) : (proxy.Freeze d sw).2.1 = d := by
  unfold DeviceProxy.Freeze
  split
  · rename_i p hp
    have h : (PadDevice_Freeze p sw).2.1 = p := by
      unfold PadDevice_Freeze
      simp only
      split
      · rfl
      · exact doFields_val _ _ _ ((DoMarker_follows sw "PadDevice").1.trans hm)
    simp only [h]
    cases d
    simp only at hp
    subst hp
    rfl
  · rename_i g hg
    have h : (GunCon2Device_Freeze g sw).2.1 = g := by
      unfold GunCon2Device_Freeze
      simp only [StateWrapper.IsReading, hm]
      split
      · rfl
      · rw [doFields_val _ _ _ ((DoMarker_follows sw "GunCon2Device").1.trans hm)]
        have hd : decide (Mode.Write = Mode.Read) = false := by decide
        simp only [hd, Bool.false_and, Bool.false_eq_true, if_false]
    simp only [h]
    cases d
    simp only at hg
    subst hg
    rfl
  · rfl

theorem SeekAbsolute_mode (sw : StateWrapper) (p : Nat) :
    (sw.SeekAbsolute p).2.mode = sw.mode := by
  unfold StateWrapper.SeekAbsolute
  split <;> rfl

theorem savePort_mode (env : Env) (x : FreezeLoop) (port : Nat) :
    (savePort env x port).2.sw.mode = x.sw.mode := by
  have h1 : ∀ (hdr : PortHeader) (sw : StateWrapper),
      (doField sizeField hdr sw).2.mode = sw.mode := fun hdr sw => (doField_follows _ _ _).1
  have h2 : ∀ (hdr : PortHeader) (sw : StateWrapper),
      (doFields [devtypeField, devsubtypeField] hdr sw).2.mode = sw.mode :=
    fun hdr sw => (doFields_follows _ _ _).1
  have h3 : ∀ (dev : USBDevice) (sw : StateWrapper),
      (match x.st.s_usb_device_proxy.get port with
        | some proxy => proxy.Freeze (DoDeviceState env dev sw).1 (DoDeviceState env dev sw).2
        | none => (false, (DoDeviceState env dev sw).1, (DoDeviceState env dev sw).2)).2.2.mode
        = sw.mode := by
    intro dev sw
    split
    · exact (Freeze_follows _ _ _).1.trans (DoDeviceState_follows env dev sw).1
    · exact (DoDeviceState_follows env dev sw).1
  have h12 : ∀ hdr : PortHeader, (doField sizeField hdr
      (doFields [devtypeField, devsubtypeField] hdr x.sw).2).2.mode = x.sw.mode :=
    fun hdr => (h1 _ _).trans (h2 _ _)
  unfold savePort
  simp only
  split
  · exact h12 _
  · split
    · exact h12 _
    · split
      · exact (h3 _ _).trans (h12 _)
      · split
        · exact (SeekAbsolute_mode _ _).trans ((h3 _ _).trans (h12 _))
        · split
          · exact (h1 _ _).trans ((SeekAbsolute_mode _ _).trans ((h3 _ _).trans (h12 _)))
          · split
            · exact (SeekAbsolute_mode _ _).trans ((h1 _ _).trans
                ((SeekAbsolute_mode _ _).trans ((h3 _ _).trans (h12 _))))
            · exact (SeekAbsolute_mode _ _).trans ((h1 _ _).trans
                ((SeekAbsolute_mode _ _).trans ((h3 _ _).trans (h12 _))))

theorem savePort_frame (env : Env) (x : FreezeLoop) (port : Nat) :
    { (savePort env x port).2.st with s_usb_device := x.st.s_usb_device } = x.st := by
  unfold savePort
  simp only
  split
  · rfl
  · split
    · rfl
    · split
      · rfl
      · split
        · rfl
        · split
          · rfl
          · split <;> rfl

theorem savePort_st (env : Env) (hr : env.Reapply) (x : FreezeLoop) (port : Nat)
    (hw : ∀ d, x.st.s_usb_device.get port = some d → d.WF) (hm : x.sw.mode = Mode.Write) :
    (savePort env x port).2.st = x.st := by
  have hf := savePort_frame env x port
  have hd : (savePort env x port).2.st.s_usb_device = x.st.s_usb_device := by
    have hmode : (doField sizeField
        (⟨(x.st.EmuConfig.get port).DeviceType, (x.st.EmuConfig.get port).DeviceSubtype, 0⟩ :
          PortHeader)
        (doFields [devtypeField, devsubtypeField]
          (⟨(x.st.EmuConfig.get port).DeviceType, (x.st.EmuConfig.get port).DeviceSubtype, 0⟩ :
            PortHeader) x.sw).2).2.mode = Mode.Write :=
      (doField_follows _ _ _).1.trans ((doFields_follows _ _ _).1.trans hm)
    have key : ∀ dev, x.st.s_usb_device.get port = some dev →
        x.st.s_usb_device.set port (some
          (match x.st.s_usb_device_proxy.get port with
            | some proxy => proxy.Freeze
                (DoDeviceState env dev (doField sizeField
                  (⟨(x.st.EmuConfig.get port).DeviceType, (x.st.EmuConfig.get port).DeviceSubtype,
                    0⟩ : PortHeader)
                  (doFields [devtypeField, devsubtypeField]
                    (⟨(x.st.EmuConfig.get port).DeviceType,
                      (x.st.EmuConfig.get port).DeviceSubtype, 0⟩ : PortHeader) x.sw).2).2).1
                (DoDeviceState env dev (doField sizeField
                  (⟨(x.st.EmuConfig.get port).DeviceType, (x.st.EmuConfig.get port).DeviceSubtype,
                    0⟩ : PortHeader)
                  (doFields [devtypeField, devsubtypeField]
                    (⟨(x.st.EmuConfig.get port).DeviceType,
                      (x.st.EmuConfig.get port).DeviceSubtype, 0⟩ : PortHeader) x.sw).2).2).2
            | none => (false, DoDeviceState env dev (doField sizeField
                  (⟨(x.st.EmuConfig.get port).DeviceType, (x.st.EmuConfig.get port).DeviceSubtype,
                    0⟩ : PortHeader)
                  (doFields [devtypeField, devsubtypeField]
                    (⟨(x.st.EmuConfig.get port).DeviceType,
                      (x.st.EmuConfig.get port).DeviceSubtype, 0⟩ : PortHeader) x.sw).2).2)).2.1)
          = x.st.s_usb_device := by
      intro dev hdev
      apply PortArr.set_get_self
      rw [hdev]
      congr 1
      have hv := DoDeviceState_val env hr dev (hw dev hdev) _ hmode
      split
      · rw [Freeze_val _ _ _ ((DoDeviceState_follows env dev _).1.trans hmode), hv]
      · exact hv.symm
    unfold savePort
    simp only
    split
    · rfl
    · split
      · rfl
      · rename_i dev hdev
        have k := key dev hdev
        split
        · exact k
        · split
          · exact k
          · split
            · exact k
            · split
              · exact k
              · exact k
  refine Eq.trans ?_ hf
  rw [← hd]

/-- What `Save` does to the live state, for every state and buffer: everything but the
device slots is left as it was, and the device slots too when the two descriptor
helpers leave a device alone on re-applying its configuration and alternate settings
and the device fields hold values of their C types. -/
theorem USBfreezeSave_st (env : Env) (st : USBState) (data : freezeData) :
    { (USBfreezeSave env st data).2.1 with s_usb_device := st.s_usb_device } = st
    ∧ (env.Reapply → (∀ port d, st.s_usb_device.get port = some d → d.WF) →
        (USBfreezeSave env st data).2.1 = st) := by
  have hm0 : ((⟨Mode.Write, List.replicate data.size 0, 0, false⟩ : StateWrapper).DoMarker
      "USB").2.mode = Mode.Write := (DoMarker_follows _ "USB").1
  have ho := DoOHCIState_val st _ hm0
  have hom : (DoOHCIState st ((⟨Mode.Write, List.replicate data.size 0, 0, false⟩ :
      StateWrapper).DoMarker "USB").2).2.mode = Mode.Write :=
    (DoOHCIState_follows _ _).1.trans hm0
  obtain ⟨x0, hx0⟩ : ∃ x0 : FreezeLoop, x0 = ⟨(DoOHCIState st
      ((⟨Mode.Write, List.replicate data.size 0, 0, false⟩ : StateWrapper).DoMarker "USB").2).1,
      (DoOHCIState st ((⟨Mode.Write, List.replicate data.size 0, 0, false⟩ :
        StateWrapper).DoMarker "USB").2).2, ⟨false, false⟩⟩ := ⟨_, rfl⟩
  have hx0s : x0.st = st := by rw [hx0]; exact ho
  have hx0m : x0.sw.mode = Mode.Write := by rw [hx0]; exact hom
  have hm1 : (savePort env x0 0).2.sw.mode = Mode.Write := (savePort_mode env x0 0).trans hx0m
  have hm2 : (savePort env (savePort env x0 0).2 1).2.sw.mode = Mode.Write :=
    (savePort_mode env _ 1).trans hm1
  have hp := DoPacketState_val (savePort env (savePort env x0 0).2 1).2.st
    (savePort env (savePort env x0 0).2 1).2.valid_devices _ hm2
  have f1 := savePort_frame env x0 0
  have f2 := savePort_frame env (savePort env x0 0).2 1
  have hfr1 : { (savePort env x0 0).2.st with s_usb_device := st.s_usb_device } = st := by
    rw [← hx0s]
    exact f1
  have hfr2 : { (savePort env (savePort env x0 0).2 1).2.st with
      s_usb_device := st.s_usb_device } = st := by
    rw [← hfr1, ← f2]
  refine ⟨?_, ?_⟩
  · unfold USBfreezeSave
    simp only [← hx0]
    split
    · rfl
    · split
      · exact hfr1
      · split
        · exact hfr2
        · split
          · rw [hp]
            exact hfr2
          · rw [hp]
            exact hfr2
  · intro hr hw
    have s1 : (savePort env x0 0).2.st = st := by
      rw [savePort_st env hr x0 0 (by rw [hx0s]; exact hw 0) hx0m, hx0s]
    have s2 : (savePort env (savePort env x0 0).2 1).2.st = st := by
      rw [savePort_st env hr _ 1 (by rw [s1]; exact hw 1) hm1, s1]
    unfold USBfreezeSave
    simp only [← hx0]
    split
    · rfl
    · split
      · exact s1
      · split
        · exact s2
        · split
          · rw [hp]
            exact s2
          · rw [hp]
            exact s2

/-- C26: a light gun with only D-pad Up held (bind index 4, so Shoot Offscreen and
Recalibrate are not held), the pointer on screen and no calibration in progress
reports position (0, 0) on an `IN` poll of endpoint 1, for every state and pointer
sample `CalculatePosition` returns (0, 0) when D-pad Up is held, and the same poll
with no button held reports (320, 120). -/
theorem dpad_up_reports_offscreen :
    (1 <<< BID_DPAD_UP) &&& (1 <<< BID_SHOOT_OFFSCREEN) = 0
    ∧ (1 <<< BID_DPAD_UP) &&& (1 <<< BID_RECALIBRATE) = 0
    ∧ newGun.calibration_timer = 0
    ∧ midScreen.x_negative = false ∧ midScreen.y_negative = false
    ∧ (guncon2_handle_data sampleData newGun (1 <<< BID_DPAD_UP) midScreen inPacket 1).out
        = some ⟨0xFFEF, 0, 0⟩
    ∧ (∀ (us : GunCon2State) (q : PointerSample),
        CalculatePosition us (1 <<< BID_DPAD_UP) q = (0, 0))
    ∧ (guncon2_handle_data sampleData newGun 0 midScreen inPacket 1).out
        = some ⟨0xFFFF, 320, 120⟩ := by
  refine ⟨by decide, by decide, rfl, rfl, rfl, by decide, ?_, by decide⟩
  intro us q
  unfold CalculatePosition
  rw [if_pos (Or.inr (Or.inr (by decide)))]

theorem trigger_cleared (x : Nat) :
    ((x &&& notU32 (1 <<< BID_TRIGGER)) % 2 ^ 16).testBit BID_TRIGGER = false := by
  rw [Nat.testBit_mod_two_pow, Nat.testBit_and]
  have h : (notU32 (1 <<< BID_TRIGGER)).testBit BID_TRIGGER = false := by decide
  rw [h]
  simp

theorem guncon2_capture (e : DataEnv) (us : GunCon2State) (bs : Nat) (q : PointerSample)
    (p : USBPacket) (hp : p.pid = e.USB_TOKEN_IN) (h0 : us.calibration_timer = 0)
    (hr : bs &&& (1 <<< BID_RECALIBRATE) ≠ 0) :
    (guncon2_handle_data e us bs q p 1).us
        = { us with
            calibration_timer := 8
            calibration_pos_x := (CalculatePosition us bs q).1
            calibration_pos_y := (CalculatePosition us bs q).2 }
    ∧ (guncon2_handle_data e us bs q p 1).out
        = some ⟨((notU32 bs % 2 ^ 16 ||| us.param_mode &&& GUNCON2_FLAG_PROGRESSIVE) % 2 ^ 16
              &&& notU32 (1 <<< BID_TRIGGER)) % 2 ^ 16,
            (CalculatePosition us bs q).1, (CalculatePosition us bs q).2⟩ := by
  unfold guncon2_handle_data
  have h1 : bs &&& (1 <<< BID_RECALIBRATE) ≠ 0 ∧ us.calibration_timer = 0 := ⟨hr, h0⟩
  have h4 : 0 < 9 := by omega
  have h2 : ¬ (9 - 1 = 0) := by omega
  rw [if_pos ⟨hp, rfl⟩]
  simp only [if_pos h1]
  simp only [GUNCON2_CALIBRATION_DELAY, if_pos h4, if_neg h2, and_self]

theorem guncon2_hold (e : DataEnv) (us : GunCon2State) (bs : Nat) (q : PointerSample)
    (p : USBPacket) (hp : p.pid = e.USB_TOKEN_IN) (t : Nat)
    (h0 : us.calibration_timer = t + 2) :
    (guncon2_handle_data e us bs q p 1).us = { us with calibration_timer := t + 1 }
    ∧ (guncon2_handle_data e us bs q p 1).out
        = some ⟨((notU32 bs % 2 ^ 16 ||| us.param_mode &&& GUNCON2_FLAG_PROGRESSIVE) % 2 ^ 16
              &&& notU32 (1 <<< BID_TRIGGER)) % 2 ^ 16,
            us.calibration_pos_x, us.calibration_pos_y⟩ := by
  unfold guncon2_handle_data
  have h1 : ¬ (bs &&& (1 <<< BID_RECALIBRATE) ≠ 0 ∧ us.calibration_timer = 0) := by
    rw [h0]
    exact fun h => by cases h.2
  have h2 : ¬ (t + 2 - 1 = 0) := by omega
  have h3 : t + 2 - 1 = t + 1 := by omega
  have h4 : 0 < t + 2 := by omega
  rw [if_pos ⟨hp, rfl⟩]
  simp only [if_neg h1]
  have h5 : ¬ (t + 1 = 0) := by omega
  simp only [h0, if_pos h4, h3, if_neg h5, and_self]

theorem guncon2_release (e : DataEnv) (us : GunCon2State) (bs : Nat) (q : PointerSample)
    (p : USBPacket) (hp : p.pid = e.USB_TOKEN_IN) (h0 : us.calibration_timer = 1) :
    (guncon2_handle_data e us bs q p 1).us = { us with calibration_timer := 0 }
    ∧ (guncon2_handle_data e us bs q p 1).out
        = some ⟨((notU32 bs % 2 ^ 16 ||| us.param_mode &&& GUNCON2_FLAG_PROGRESSIVE) % 2 ^ 16
              &&& notU32 (1 <<< BID_TRIGGER)) % 2 ^ 16, 0, 0⟩ := by
  unfold guncon2_handle_data
  have h1 : ¬ (bs &&& (1 <<< BID_RECALIBRATE) ≠ 0 ∧ us.calibration_timer = 0) := by
    rw [h0]
    exact fun h => by cases h.2
  have h4 : 0 < 1 := by omega
  rw [if_pos ⟨hp, rfl⟩]
  simp only [if_neg h1]
  simp only [h0, if_pos h4, Nat.sub_self, if_true, and_self]

theorem guncon2_idle (e : DataEnv) (us : GunCon2State) (bs : Nat) (q : PointerSample)
    (p : USBPacket) (hp : p.pid = e.USB_TOKEN_IN) (h0 : us.calibration_timer = 0)
    (hr : bs &&& (1 <<< BID_RECALIBRATE) = 0) :
    (guncon2_handle_data e us bs q p 1).us = us
    ∧ (guncon2_handle_data e us bs q p 1).out
        = some (if bs &&& (1 <<< BID_SHOOT_OFFSCREEN) ≠ 0 then
            ⟨((notU32 bs % 2 ^ 16 ||| us.param_mode &&& GUNCON2_FLAG_PROGRESSIVE) % 2 ^ 16
              &&& notU32 (1 <<< BID_TRIGGER)) % 2 ^ 16, 0, 0⟩
          else
            ⟨(notU32 bs % 2 ^ 16 ||| us.param_mode &&& GUNCON2_FLAG_PROGRESSIVE) % 2 ^ 16,
              (CalculatePosition us bs q).1, (CalculatePosition us bs q).2⟩) := by
  unfold guncon2_handle_data
  have h1 : ¬ (bs &&& (1 <<< BID_RECALIBRATE) ≠ 0 ∧ us.calibration_timer = 0) :=
    fun h => h.1 hr
  rw [if_pos ⟨hp, rfl⟩]
  simp only [if_neg h1]
  simp only [h0, Nat.lt_irrefl, if_false]
  split <;> exact ⟨rfl, rfl⟩

theorem guncon2_timer_le (e : DataEnv) (us : GunCon2State) (bs : Nat) (q : PointerSample)
    (p : USBPacket) (nr : Nat) (h : us.calibration_timer ≤ GUNCON2_CALIBRATION_DELAY) :
    (guncon2_handle_data e us bs q p nr).us.calibration_timer ≤ GUNCON2_CALIBRATION_DELAY := by
  unfold guncon2_handle_data
  simp only [GUNCON2_CALIBRATION_DELAY] at h ⊢
  split
  · split
    · simp only
      split
      · split <;> simp only <;> omega
      · split <;> simp only <;> omega
    · simp only
      split
      · split <;> simp only <;> omega
      · split <;> simp only <;> omega
  · exact h

theorem gunAfter_calibrating (e : DataEnv) (p : USBPacket) (hp : p.pid = e.USB_TOKEN_IN)
    (ins : Nat → Nat × PointerSample) (us : GunCon2State) (h0 : us.calibration_timer = 0)
    (hr : (ins 0).1 &&& (1 <<< BID_RECALIBRATE) ≠ 0) (k : Nat) (hk : k ≤ 8) :
    gunAfter e p ins us (k + 1)
      = { us with
          calibration_timer := 8 - k
          calibration_pos_x := (CalculatePosition us (ins 0).1 (ins 0).2).1
          calibration_pos_y := (CalculatePosition us (ins 0).1 (ins 0).2).2 } := by
  induction k with
  | zero => exact (guncon2_capture e us _ _ p hp h0 hr).1
  | succ k ih =>
    have ih1 := ih (by omega)
    show (guncon2_handle_data e (gunAfter e p ins us (k + 1)) _ _ p 1).us = _
    rw [ih1]
    by_cases h7 : k = 7
    · subst h7
      exact (guncon2_release e _ _ _ p hp rfl).1
    · have h := (guncon2_hold e { us with
          calibration_timer := 8 - k
          calibration_pos_x := (CalculatePosition us (ins 0).1 (ins 0).2).1
          calibration_pos_y := (CalculatePosition us (ins 0).1 (ins 0).2).2 }
        (ins (k + 1)).1 (ins (k + 1)).2 p hp (6 - k) (show 8 - k = 6 - k + 2 by omega)).1
      rw [h]
      have h8 : 6 - k + 1 = 8 - (k + 1) := by omega
      simp only [h8]

theorem gunAfter_timer_le (e : DataEnv) (p : USBPacket) (ins : Nat → Nat × PointerSample)
    (us : GunCon2State) (h : us.calibration_timer ≤ GUNCON2_CALIBRATION_DELAY) (n : Nat) :
    (gunAfter e p ins us n).calibration_timer ≤ GUNCON2_CALIBRATION_DELAY := by
  induction n with
  | zero => exact h
  | succ n ih => exact guncon2_timer_le e _ _ _ p 1 ih

/-- C27: from a light gun state with `calibration_timer = 0`, a sequence of `IN` polls
of endpoint 1 whose first poll has Recalibrate held (button states and pointer samples
of the later polls are arbitrary): polls 1 to 8 report the position computed at the
first poll with bit 13 (trigger) cleared, poll 9 reports (0, 0) with bit 13 cleared
and leaves `calibration_timer = 0`, the timer is at most `GUNCON2_CALIBRATION_DELAY`
after every poll, and when Recalibrate is not held at poll 10 that poll reports the
position `CalculatePosition` computes at that poll with the buttons as held (position
(0, 0) and the trigger bit cleared when Shoot Offscreen is held) and leaves the timer
at 0. -/
theorem calibration_sequence (e : DataEnv) (p : USBPacket) (hp : p.pid = e.USB_TOKEN_IN)
    (ins : Nat → Nat × PointerSample) (us : GunCon2State) (h0 : us.calibration_timer = 0)
    (hr : (ins 0).1 &&& (1 <<< BID_RECALIBRATE) ≠ 0) :
    (∀ n, n < 8 → ∃ b, gunReport e p ins us n
        = some ⟨b, (CalculatePosition us (ins 0).1 (ins 0).2).1,
            (CalculatePosition us (ins 0).1 (ins 0).2).2⟩ ∧ b.testBit BID_TRIGGER = false)
    ∧ (∃ b, gunReport e p ins us 8 = some ⟨b, 0, 0⟩ ∧ b.testBit BID_TRIGGER = false)
    ∧ (gunAfter e p ins us 9).calibration_timer = 0
    ∧ (∀ n, (gunAfter e p ins us n).calibration_timer ≤ GUNCON2_CALIBRATION_DELAY)
    ∧ ((ins 9).1 &&& (1 <<< BID_RECALIBRATE) = 0 →
        gunReport e p ins us 9
          = some (if (ins 9).1 &&& (1 <<< BID_SHOOT_OFFSCREEN) ≠ 0 then
              ⟨((notU32 (ins 9).1 % 2 ^ 16 ||| us.param_mode &&& GUNCON2_FLAG_PROGRESSIVE)
                  % 2 ^ 16 &&& notU32 (1 <<< BID_TRIGGER)) % 2 ^ 16, 0, 0⟩
            else
              ⟨(notU32 (ins 9).1 % 2 ^ 16 ||| us.param_mode &&& GUNCON2_FLAG_PROGRESSIVE)
                  % 2 ^ 16,
                (CalculatePosition us (ins 9).1 (ins 9).2).1,
                (CalculatePosition us (ins 9).1 (ins 9).2).2⟩)
        ∧ (gunAfter e p ins us 10).calibration_timer = 0) := by
  have hs := gunAfter_calibrating e p hp ins us h0 hr
  refine ⟨?_, ?_, ?_, ?_, ?_⟩
  · intro n hn
    cases n with
    | zero => exact ⟨_, (guncon2_capture e us _ _ p hp h0 hr).2, trigger_cleared _⟩
    | succ k =>
      refine ⟨((notU32 (ins (k + 1)).1 % 2 ^ 16 ||| us.param_mode &&& GUNCON2_FLAG_PROGRESSIVE) % 2 ^ 16
        &&& notU32 (1 <<< BID_TRIGGER)) % 2 ^ 16, ?_, trigger_cleared _⟩
      unfold gunReport
      rw [hs k (by omega)]
      exact (guncon2_hold e _ _ _ p hp (6 - k) (show 8 - k = 6 - k + 2 by omega)).2
  · refine ⟨((notU32 (ins 8).1 % 2 ^ 16 ||| us.param_mode &&& GUNCON2_FLAG_PROGRESSIVE) % 2 ^ 16
        &&& notU32 (1 <<< BID_TRIGGER)) % 2 ^ 16, ?_, trigger_cleared _⟩
    unfold gunReport
    rw [hs 7 (by omega)]
    exact (guncon2_release e _ _ _ p hp rfl).2
  · rw [hs 8 (by omega)]
  · exact gunAfter_timer_le e p ins us (by rw [h0]; exact Nat.zero_le _)
  · intro h9
    have hi := guncon2_idle e (gunAfter e p ins us 9) (ins 9).1 (ins 9).2 p hp
      (by rw [hs 8 (by omega)]) h9
    constructor
    · unfold gunReport
      rw [hi.2, hs 8 (by omega)]
      rfl
    · show (guncon2_handle_data e (gunAfter e p ins us 9) _ _ p 1).us.calibration_timer = 0
      rw [hi.1, hs 8 (by omega)]

theorem calibration_sequence_witness :
    (gunReport sampleData inPacket (fun n => (if n = 0 then 1 <<< BID_RECALIBRATE else 0,
        ⟨false, false, 320 + n, 120⟩)) newGun 9)
      = some ⟨0xFFFF, 329, 120⟩
    ∧ (gunReport sampleData inPacket (fun n => (if n = 0 then 1 <<< BID_RECALIBRATE else 0,
        ⟨false, false, 320 + n, 120⟩)) newGun 3).map (fun o => (o.pos_x, o.pos_y))
      = some (320, 120) := by
  have h := calibration_sequence sampleData inPacket rfl
    (fun n => (if n = 0 then 1 <<< BID_RECALIBRATE else 0, ⟨false, false, 320 + n, 120⟩))
    newGun rfl (by decide)
  refine ⟨(h.2.2.2.2 (by decide)).1.trans (by decide), ?_⟩
  obtain ⟨b, hb, _⟩ := h.1 3 (by decide)
  rw [hb]
  have hc : CalculatePosition newGun (1 <<< BID_RECALIBRATE) ⟨false, false, 320, 120⟩
      = (320, 120) := by decide
  exact congrArg some (Prod.ext (congrArg Prod.fst hc) (congrArg Prod.snd hc))

/-- The value `UpdateSteering` steers to. -/
theorem UpdateSteering_eq (s : PadControls) (hrange : s.steering_range < 2 ^ 15)
    (hl : 0 ≤ s.steering_left ∧ s.steering_left ≤ s.steering_range)
    (hr : 0 ≤ s.steering_right ∧ s.steering_right ≤ s.steering_range)
    (hs : s.steering ≤ 2 * s.steering_range) (target : Nat)
    (ht : (target : Int) = if 0 < s.steering_left then (s.steering_range : Int) - s.steering_left
      else (s.steering_range : Int) + s.steering_right) :
    UpdateSteering s = { s with
      steering := (if target < s.steering then
          s.steering - min (s.steering - target) (s.steering_step % 2 ^ 16)
        else s.steering + min (target - s.steering) (s.steering_step % 2 ^ 16)) } := by
  have hv : (if 0 < s.steering_left then
      toU16 (max ((s.steering_range : Int) - s.steering_left) 0)
    else
      toU16 (min ((s.steering_range : Int) + s.steering_right) ((s.steering_range : Int) * 2)))
      = target := by
    unfold toU16
    split
    · rw [if_pos (by assumption)] at ht
      omega
    · rw [if_neg (by assumption)] at ht
      omega
  unfold UpdateSteering
  simp only [hv]
  unfold toU16
  by_cases h1 : target < s.steering
  · rw [if_pos h1, if_pos h1]
    congr 1
    omega
  · rw [if_neg h1, if_neg h1]
    by_cases h2 : s.steering < target
    · rw [if_pos h2]
      congr 1
      omega
    · rw [if_neg h2]
      have h3 : target = s.steering := by omega
      cases s
      simp only at h3 ⊢
      subst h3
      congr 1
      omega

/-- The step `UpdateSettings` sets: 65535 for a percentage of 0 or less, and for a
positive percentage whose product with the range fits 32 signed bits, the quotient
steering_range*percent/100 clamped to the range 1..65535. -/
theorem UpdateSettings_step (s : PadControls) (hrange : s.steering_range < 2 ^ 15) :
    (∀ pct : Int, pct ≤ 0 → (UpdateSettings s pct).steering_step = 65535)
    ∧ (∀ pct : Int, 0 < pct → (s.steering_range : Int) * pct < 2 ^ 31 →
        ((UpdateSettings s pct).steering_step : Int)
          = min (max ((s.steering_range : Int) * pct / 100) 1) 65535)
    ∧ (∀ pct : Int, { UpdateSettings s pct with steering_step := s.steering_step } = s) := by
  refine ⟨?_, ?_, ?_⟩
  · intro pct h
    unfold UpdateSettings
    rw [if_pos h]
  · intro pct h0 h1
    have hp : 0 ≤ (s.steering_range : Int) * pct := Int.mul_nonneg (by omega) (by omega)
    have hw : toS32 ((s.steering_range : Int) * pct) = (s.steering_range : Int) * pct := by
      unfold toS32
      omega
    unfold UpdateSettings
    rw [if_neg (by omega), hw, Int.tdiv_eq_ediv hp (by decide)]
    simp only
    have hd0 : 0 ≤ (s.steering_range : Int) * pct / 100 := by omega
    generalize (s.steering_range : Int) * pct / 100 = d at hd0
    unfold clamp toU16
    split
    · omega
    · split
      · omega
      · omega
  · intro pct
    unfold UpdateSettings
    split <;> rfl

/-- C29: for a pad whose `steering_range` fits 15 bits (the constructor sets 0x1FFF,
0x7F or 0x1FF), with `steering_left` and `steering_right` in [0, steering_range],
`data.steering` in [0, 2*steering_range] and a 16-bit `steering_step`, one
`UpdateSteering` call changes `data.steering` by at most `steering_step`, moves it
towards the target `steeringTarget` without passing it (and does move it when it is
not at the target and the step is positive), keeps it in [0, 2*steering_range] and
changes no other field; `UpdateSettings` with SteeringSmoothing <= 0 sets the step to
65535 and the next `UpdateSteering` then puts `data.steering` on the target, and with
any positive percentage (the product steering_range*percent below 2^31, so the 32-bit
multiplication does not wrap) it sets the step to steering_range*percent/100 clamped to
the range 1..65535. -/
theorem steering_smoothing (s : PadControls) (hrange : s.steering_range < 2 ^ 15)
    (hl : 0 ≤ s.steering_left ∧ s.steering_left ≤ s.steering_range)
    (hr : 0 ≤ s.steering_right ∧ s.steering_right ≤ s.steering_range)
    (hs : s.steering ≤ 2 * s.steering_range) (hstep : s.steering_step ≤ 65535) :
    ((UpdateSteering s).steering ≤ s.steering + s.steering_step
      ∧ s.steering ≤ (UpdateSteering s).steering + s.steering_step)
    ∧ ((s.steering : Int) ≤ steeringTarget s →
        s.steering ≤ (UpdateSteering s).steering
        ∧ ((UpdateSteering s).steering : Int) ≤ steeringTarget s)
    ∧ (steeringTarget s ≤ (s.steering : Int) →
        steeringTarget s ≤ ((UpdateSteering s).steering : Int)
        ∧ (UpdateSteering s).steering ≤ s.steering)
    ∧ (0 < s.steering_step → (s.steering : Int) ≠ steeringTarget s →
        (UpdateSteering s).steering ≠ s.steering)
    ∧ (UpdateSteering s).steering ≤ 2 * s.steering_range
    ∧ { UpdateSteering s with steering := s.steering } = s
    ∧ (∀ pct : Int, pct ≤ 0 →
        (UpdateSettings s pct).steering_step = 65535
        ∧ ((UpdateSteering (UpdateSettings s pct)).steering : Int) = steeringTarget s)
    ∧ (∀ pct : Int, 0 < pct → (s.steering_range : Int) * pct < 2 ^ 31 →
        ((UpdateSettings s pct).steering_step : Int)
          = min (max ((s.steering_range : Int) * pct / 100) 1) 65535)
    ∧ (∀ pct : Int, { UpdateSettings s pct with steering_step := s.steering_step } = s) := by
  have ht0 : 0 ≤ steeringTarget s := by
    unfold steeringTarget
    split <;> omega
  have ht1 : steeringTarget s ≤ 2 * (s.steering_range : Int) := by
    unfold steeringTarget
    split <;> omega
  obtain ⟨T, hT⟩ : ∃ T : Nat, (T : Int) = steeringTarget s := ⟨(steeringTarget s).toNat, by omega⟩
  have hkey : ∀ s1 : PadControls, s1.steering_range = s.steering_range →
      s1.steering_left = s.steering_left → s1.steering_right = s.steering_right →
      s1.steering = s.steering →
      (UpdateSteering s1).steering
        = (if T < s.steering then s.steering - min (s.steering - T) (s1.steering_step % 2 ^ 16)
          else s.steering + min (T - s.steering) (s1.steering_step % 2 ^ 16)) := by
    intro s1 e1 e2 e3 e4
    rw [UpdateSteering_eq s1 (by rw [e1]; exact hrange) (by rw [e1, e2]; exact hl)
      (by rw [e1, e3]; exact hr) (by rw [e1, e4]; exact hs) T
      (by rw [e1, e2, e3]; exact hT)]
    simp only [e4]
  have hk := hkey s rfl rfl rfl rfl
  have hset := UpdateSettings_step s hrange
  rw [← hT]
  refine ⟨?_, ?_, ?_, ?_, ?_, ?_, ?_, hset.2.1, hset.2.2⟩
  · rw [hk]
    split <;> omega
  · intro h
    rw [hk]
    split <;> omega
  · intro h
    rw [hk]
    split <;> omega
  · intro h0 h1
    rw [hk]
    split <;> omega
  · rw [hk]
    split <;> omega
  · rw [UpdateSteering_eq s hrange hl hr hs T hT]
  · intro pct hp
    refine ⟨hset.1 pct hp, ?_⟩
    have e : ∀ pct : Int, pct ≤ 0 → UpdateSettings s pct = { s with steering_step := 65535 } := by
      intro q hq
      unfold UpdateSettings
      rw [if_pos hq]
    rw [e pct hp, hkey { s with steering_step := 65535 } rfl rfl rfl rfl]
    simp only
    split <;> omega

/-- C29 as stated fails for a percentage above 100: the setting is read without a
bound and the step is clamped to 65535 as well. For a Driving Force Pro wheel
(steering range 8191) and SteeringSmoothing 801 the step is 65535, while
steering_range*percent/100 clamped to at least 1 is 65609. -/
theorem steering_step_clamp_counterexample :
    sampleWheelPro.steering_range = 8191
    ∧ (UpdateSettings sampleWheelPro 801).steering_step = 65535
    ∧ max ((sampleWheelPro.steering_range : Int) * 801 / 100) 1 = 65609 := by
  decide

theorem steering_smoothing_witness :
    (UpdateSteering sampleSteer).steering ≤ sampleSteer.steering + 30
    ∧ (UpdateSteering sampleSteer).steering = 481
    ∧ ((UpdateSettings sampleSteer 50).steering_step : Int)
        = min (max ((sampleSteer.steering_range : Int) * 50 / 100) 1) 65535
    ∧ (UpdateSettings sampleSteer 50).steering_step = 255 :=
  ⟨(steering_smoothing sampleSteer (by decide) (by decide) (by decide) (by decide)
      (by decide)).1.1, by decide,
    (steering_smoothing sampleSteer (by decide) (by decide) (by decide) (by decide)
      (by decide)).2.2.2.2.2.2.2.1 50 (by decide) (by decide), by decide⟩

/-- C28: on a newly constructed Keyboardmania pad, with the control identifiers
numbered in the order of the `case` labels, `SetBindValue(CID_BUTTON23, 1.0)` followed by
`GetBindValue(CID_BUTTON23)` returns 0.0, and so for `CID_BUTTON24`, while for
`CID_BUTTON22` it returns 1.0; `SetBindValue` on `CID_BUTTON23` or `CID_BUTTON24`
leaves every pad state as it is, whatever the value. -/
theorem SetBindValue_ignores_button23 :
    floatOne.ge_half = true
    ∧ GetBindValue sampleIds
        (SetBindValue sampleIds sampleKeyboard (sampleIds.CID_BUTTON 23) floatOne)
        (sampleIds.CID_BUTTON 23) = BindFloat.ofInt 0
    ∧ GetBindValue sampleIds
        (SetBindValue sampleIds sampleKeyboard (sampleIds.CID_BUTTON 24) floatOne)
        (sampleIds.CID_BUTTON 24) = BindFloat.ofInt 0
    ∧ GetBindValue sampleIds
        (SetBindValue sampleIds sampleKeyboard (sampleIds.CID_BUTTON 22) floatOne)
        (sampleIds.CID_BUTTON 22) = BindFloat.ofInt 1
    ∧ (∀ (s : PadControls) (v : FloatArg),
        SetBindValue sampleIds s (sampleIds.CID_BUTTON 23) v = s
        ∧ SetBindValue sampleIds s (sampleIds.CID_BUTTON 24) v = s) := by
  refine ⟨rfl, by decide, by decide, by decide, ?_⟩
  · intro s v
    constructor
    · unfold SetBindValue
      rw [if_neg (by decide), if_neg (by decide), if_neg (by decide), if_neg (by decide),
        if_neg (by decide), if_neg (by decide), if_neg (by decide), if_neg (by decide),
        if_neg (by decide)]
    · unfold SetBindValue
      rw [if_neg (by decide), if_neg (by decide), if_neg (by decide), if_neg (by decide),
        if_neg (by decide), if_neg (by decide), if_neg (by decide), if_neg (by decide),
        if_neg (by decide)]

theorem UpdateSteering_pedals (s : PadControls) :
    (UpdateSteering s).throttle = s.throttle ∧ (UpdateSteering s).brake = s.brake
    ∧ (UpdateSteering s).type = s.type ∧ (UpdateSteering s).buttons = s.buttons := by
  unfold UpdateSteering
  simp only
  split_ifs <;> exact ⟨rfl, rfl, rfl, rfl⟩

theorem UpdateHatSwitch_pedals (s : PadControls) :
    (UpdateHatSwitch s).throttle = s.throttle ∧ (UpdateHatSwitch s).brake = s.brake
    ∧ (UpdateHatSwitch s).type = s.type ∧ (UpdateHatSwitch s).buttons = s.buttons
    ∧ (UpdateHatSwitch s).steering = s.steering := by
  unfold UpdateHatSwitch
  repeat' split
  all_goals exact ⟨rfl, rfl, rfl, rfl, rfl⟩

theorem UpdateHatSwitch_le (s : PadControls) : (UpdateHatSwitch s).hatswitch ≤ 8 := by
  unfold UpdateHatSwitch
  repeat' split
  all_goals simp only
  all_goals omega

theorem pedal_le (v : Int) : toU32 (255 - clamp v 0 255) ≤ 255 := by
  unfold toU32 clamp
  split
  · omega
  · split <;> omega

theorem SetBindValue_cases (c : PadIds) (s : PadControls) (i : Nat) (v : FloatArg)
    (P : PadControls → Prop)
    (h1 : ∀ x : Int, P (UpdateSteering { s with steering_left := x }))
    (h2 : ∀ x : Int, P (UpdateSteering { s with steering_right := x }))
    (h3 : P { s with throttle := toU32 (255 - clamp (v.lround_times 255) 0 255) })
    (h4 : P { s with brake := toU32 (255 - clamp (v.lround_times 255) 0 255) })
    (h5 : ∀ x : Nat, P (UpdateHatSwitch { s with hat_up := x }))
    (h6 : ∀ x : Nat, P (UpdateHatSwitch { s with hat_down := x }))
    (h7 : ∀ x : Nat, P (UpdateHatSwitch { s with hat_left := x }))
    (h8 : ∀ x : Nat, P (UpdateHatSwitch { s with hat_right := x }))
    (h9 : ∀ x : Nat, P { s with buttons := x })
    (h0 : P s) : P (SetBindValue c s i v) := by
  unfold SetBindValue
  by_cases c0 : i = c.CID_STEERING_L
  · rw [if_pos c0]
    exact h1 _
  rw [if_neg c0]
  by_cases c1 : i = c.CID_STEERING_R
  · rw [if_pos c1]
    exact h2 _
  rw [if_neg c1]
  by_cases c2 : i = c.CID_THROTTLE
  · rw [if_pos c2]
    exact h3
  rw [if_neg c2]
  by_cases c3 : i = c.CID_BRAKE
  · rw [if_pos c3]
    exact h4
  rw [if_neg c3]
  by_cases c4 : i = c.CID_DPAD_UP
  · rw [if_pos c4]
    exact h5 _
  rw [if_neg c4]
  by_cases c5 : i = c.CID_DPAD_DOWN
  · rw [if_pos c5]
    exact h6 _
  rw [if_neg c5]
  by_cases c6 : i = c.CID_DPAD_LEFT
  · rw [if_pos c6]
    exact h7 _
  rw [if_neg c6]
  by_cases c7 : i = c.CID_DPAD_RIGHT
  · rw [if_pos c7]
    exact h8 _
  rw [if_neg c7]
  by_cases c8 : i ∈ (List.range 23).map c.CID_BUTTON
  · rw [if_pos c8]
    by_cases c9 : v.ge_half = true
    · rw [if_pos c9]
      exact h9 _
    · rw [if_neg c9]
      exact h9 _
  · rw [if_neg c8]
    exact h0

theorem SetBindValue_pedals (c : PadIds) (s : PadControls) (i : Nat) (v : FloatArg)
    (h : s.throttle ≤ 255 ∧ s.brake ≤ 255) :
    (SetBindValue c s i v).throttle ≤ 255 ∧ (SetBindValue c s i v).brake ≤ 255 := by
  apply SetBindValue_cases c s i v (fun r => r.throttle ≤ 255 ∧ r.brake ≤ 255)
  · intro x
    rw [(UpdateSteering_pedals _).1, (UpdateSteering_pedals _).2.1]
    exact h
  · intro x
    rw [(UpdateSteering_pedals _).1, (UpdateSteering_pedals _).2.1]
    exact h
  · exact ⟨pedal_le _, h.2⟩
  · exact ⟨h.1, pedal_le _⟩
  · intro x
    rw [(UpdateHatSwitch_pedals _).1, (UpdateHatSwitch_pedals _).2.1]
    exact h
  · intro x
    rw [(UpdateHatSwitch_pedals _).1, (UpdateHatSwitch_pedals _).2.1]
    exact h
  · intro x
    rw [(UpdateHatSwitch_pedals _).1, (UpdateHatSwitch_pedals _).2.1]
    exact h
  · intro x
    rw [(UpdateHatSwitch_pedals _).1, (UpdateHatSwitch_pedals _).2.1]
    exact h
  · intro x
    exact h
  · exact h

theorem TokenIn_pedals (s : PadControls) (len : Int) :
    (TokenIn s len).1.throttle = s.throttle ∧ (TokenIn s len).1.brake = s.brake := by
  have h1 := UpdateSteering_pedals s
  have h2 := UpdateHatSwitch_pedals (UpdateSteering s)
  have h3 := UpdateHatSwitch_pedals s
  unfold TokenIn
  split
  all_goals first
    | exact ⟨h2.1.trans h1.1, h2.2.1.trans h1.2.1⟩
    | exact ⟨h3.1, h3.2.1⟩
    | exact ⟨rfl, rfl⟩

theorem PadReachable_pedals (c : PadIds) (s : PadControls) (h : PadReachable c s) :
    s.throttle ≤ 255 ∧ s.brake ≤ 255 := by
  induction h with
  | create init type => exact ⟨Nat.le_refl _, Nat.le_refl _⟩
  | bind s i v _ ih => exact SetBindValue_pedals c s i v ih
  | reset s _ ih => exact ih
  | settings s pct _ ih =>
    unfold UpdateSettings
    split <;> exact ih
  | poll s len _ ih =>
    rw [(TokenIn_pedals s len).1, (TokenIn_pedals s len).2]
    exact ih

theorem or_shiftLeft_add (a b k : Nat) (h : a < 2 ^ k) : a ||| b <<< k = a + b * 2 ^ k := by
  rw [Nat.or_comm, Nat.shiftLeft_eq, Nat.mul_comm b, ← Nat.mul_add_lt_is_or h, Nat.add_comm]

theorem and_mask14 (x : Nat) : x &&& 0x3FFF = x % 2 ^ 14 :=
  Nat.and_pow_two_sub_one_eq_mod x 14

theorem and_mask4 (x : Nat) : x &&& 0xF = x % 2 ^ 4 :=
  Nat.and_pow_two_sub_one_eq_mod x 4

theorem lo_layout (a b h : Nat) (ha : a < 2 ^ 14) (hb : b < 2 ^ 14) (hh : h < 2 ^ 4) :
    (a ||| b <<< 14 ||| h <<< 28) % 2 ^ 32 = a + b * 2 ^ 14 + h * 2 ^ 28 := by
  rw [or_shiftLeft_add a b 14 ha, or_shiftLeft_add _ h 28 (by omega)]
  omega

theorem hi_layout (t b : Nat) (ht : t < 2 ^ 6) (hb : b < 2 ^ 6) :
    (t <<< 10 ||| 1 <<< 16 ||| b <<< 17 ||| 1 <<< 23 ||| 0x11 <<< 24) % 2 ^ 32
      = t * 2 ^ 10 + 1 * 2 ^ 16 + b * 2 ^ 17 + 1 * 2 ^ 23 + 0x11 * 2 ^ 24 := by
  rw [Nat.shiftLeft_eq t 10, or_shiftLeft_add _ 1 16 (by omega),
    or_shiftLeft_add _ b 17 (by omega), or_shiftLeft_add _ 1 23 (by omega),
    or_shiftLeft_add _ 0x11 24 (by omega)]
  omega

theorem TokenIn_dfp1102 (s : PadControls) (len : Int)
    (ht : s.type = PS2WheelTypes.WT_DRIVING_FORCE_PRO_1102) (h : s.throttle ≤ 255) (hb : s.brake ≤ 255) :
    (TokenIn s len).1 = UpdateHatSwitch (UpdateSteering s)
    ∧ (TokenIn s len).2.2 = len
    ∧ (TokenIn s len).2.1.lo
        = (UpdateSteering s).steering % 2 ^ 14 + s.buttons % 2 ^ 14 * 2 ^ 14
          + (UpdateHatSwitch (UpdateSteering s)).hatswitch % 2 ^ 4 * 2 ^ 28
    ∧ (TokenIn s len).2.1.hi
        = (1 ||| s.throttle * 0x3F / 0xFF) * 2 ^ 10 + 1 * 2 ^ 16
          + (0x3F - s.brake * 0x3F / 0xFF) * 2 ^ 17 + 1 * 2 ^ 23 + 0x11 * 2 ^ 24
    ∧ (1 ||| s.throttle * 0x3F / 0xFF) < 64 := by
  have h1 := UpdateSteering_pedals s
  have h2 := UpdateHatSwitch_pedals (UpdateSteering s)
  have htf : (1 ||| s.throttle * 0x3F / 0xFF) < 2 ^ 6 :=
    Nat.or_lt_two_pow (by decide) (by omega)
  have hbf : ((0x3F - ((s.brake : Int) * 0x3F) / 0xFF) % 0x40).toNat
      = 0x3F - s.brake * 0x3F / 0xFF := by
    have hq : s.brake * 0x3F / 0xFF ≤ 63 := by omega
    have hc : ((s.brake : Int) * 0x3F) / 0xFF = ((s.brake * 0x3F / 0xFF : Nat) : Int) := by
      push_cast
      rfl
    rw [hc]
    generalize s.brake * 0x3F / 0xFF = q at hq
    omega
  have e : TokenIn s len = (UpdateHatSwitch (UpdateSteering s),
      ⟨((UpdateHatSwitch (UpdateSteering s)).steering &&& 0x3FFF
          ||| ((UpdateHatSwitch (UpdateSteering s)).buttons &&& 0x3FFF) <<< 14
          ||| ((UpdateHatSwitch (UpdateSteering s)).hatswitch &&& 0xF) <<< 28) % 2 ^ 32,
        ((1 ||| ((UpdateHatSwitch (UpdateSteering s)).throttle * 0x3F) / 0xFF) <<< 10 ||| 1 <<< 16
          ||| ((0x3F - (((UpdateHatSwitch (UpdateSteering s)).brake : Int) * 0x3F) / 0xFF)
              % 0x40).toNat <<< 17
          ||| 1 <<< 23 ||| 0x11 <<< 24) % 2 ^ 32⟩, len) := by
    unfold TokenIn
    rw [ht]
  rw [e]
  simp only [h2.1, h2.2.1, h2.2.2.2.1, h2.2.2.2.2, h1.1, h1.2.1, h1.2.2.2, hbf, and_mask14,
    and_mask4]
  refine ⟨trivial, trivial, ?_, ?_, htf⟩
  · exact lo_layout _ _ _ (Nat.mod_lt _ (by decide)) (Nat.mod_lt _ (by decide))
      (Nat.mod_lt _ (by decide))
  · exact hi_layout _ _ htf (by omega)

/-- C30: in every pad state reached from construction by `SetBindValue`, `Reset`,
`UpdateSettings` and `TokenIn`, throttle and brake are at most 255, and for type
`WT_DRIVING_FORCE_PRO_1102` the report of `TokenIn` has the high word
0x11810000 + z * 2^10 + r * 2^17 with the throttle field z = 1 | throttle*63/255 and the
brake field r = 63 - brake*63/255 both below 64: bits 0 to 9 are 0, bit 16 is 1, bit 23
is 1, bits 10 to 15 hold z, bits 17 to 22 hold r and bits 24 to 31 hold 0x11; the low
word is steering mod 2^14 in bits 0 to 13, buttons mod 2^14 in bits 14 to 27 and the hat
switch in bits 28 to 31, steering and hat switch being the values after
`UpdateSteering` and `UpdateHatSwitch`. -/
theorem dfp1102_report_layout (c : PadIds) (s : PadControls) (len : Int)
    (hr : PadReachable c s) (ht : s.type = PS2WheelTypes.WT_DRIVING_FORCE_PRO_1102) :
    (s.throttle ≤ 255 ∧ s.brake ≤ 255)
    ∧ (TokenIn s len).2.1.hi
        = 0x11810000 + (1 ||| s.throttle * 0x3F / 0xFF) * 2 ^ 10
          + (0x3F - s.brake * 0x3F / 0xFF) * 2 ^ 17
    ∧ (1 ||| s.throttle * 0x3F / 0xFF) < 64 ∧ 0x3F - s.brake * 0x3F / 0xFF < 64
    ∧ (TokenIn s len).2.1.hi % 2 ^ 10 = 0
    ∧ (TokenIn s len).2.1.hi / 2 ^ 9 % 2 = 0
    ∧ (TokenIn s len).2.1.hi / 2 ^ 16 % 2 = 1
    ∧ (TokenIn s len).2.1.hi / 2 ^ 23 % 2 = 1
    ∧ (TokenIn s len).2.1.hi / 2 ^ 10 % 2 ^ 6 = (1 ||| s.throttle * 0x3F / 0xFF)
    ∧ (TokenIn s len).2.1.hi / 2 ^ 17 % 2 ^ 6 = 0x3F - s.brake * 0x3F / 0xFF
    ∧ (TokenIn s len).2.1.hi / 2 ^ 24 = 0x11
    ∧ (TokenIn s len).2.1.lo
        = (UpdateSteering s).steering % 2 ^ 14 + s.buttons % 2 ^ 14 * 2 ^ 14
          + (UpdateHatSwitch (UpdateSteering s)).hatswitch * 2 ^ 28
    ∧ (UpdateHatSwitch (UpdateSteering s)).hatswitch ≤ 8
    ∧ (TokenIn s len).2.1.lo % 2 ^ 14 = (UpdateSteering s).steering % 2 ^ 14
    ∧ (TokenIn s len).2.1.lo / 2 ^ 14 % 2 ^ 14 = s.buttons % 2 ^ 14
    ∧ (TokenIn s len).2.1.lo / 2 ^ 28 = (UpdateHatSwitch (UpdateSteering s)).hatswitch := by
  have hp := PadReachable_pedals c s hr
  obtain ⟨_, _, hlo, hhi, htf⟩ := TokenIn_dfp1102 s len ht hp.1 hp.2
  have hh := UpdateHatSwitch_le (UpdateSteering s)
  have ha : (UpdateSteering s).steering % 2 ^ 14 < 2 ^ 14 := Nat.mod_lt _ (by decide)
  have hb : s.buttons % 2 ^ 14 < 2 ^ 14 := Nat.mod_lt _ (by decide)
  have hm : (UpdateHatSwitch (UpdateSteering s)).hatswitch % 2 ^ 4
      = (UpdateHatSwitch (UpdateSteering s)).hatswitch := Nat.mod_eq_of_lt (by omega)
  rw [hm] at hlo
  have hbf : 0x3F - s.brake * 0x3F / 0xFF < 64 := by omega
  generalize (TokenIn s len).2.1.hi = hi at hhi ⊢
  generalize (TokenIn s len).2.1.lo = lo at hlo ⊢
  generalize (1 ||| s.throttle * 0x3F / 0xFF) = z at hhi htf ⊢
  generalize 0x3F - s.brake * 0x3F / 0xFF = r at hhi hbf ⊢
  generalize (UpdateSteering s).steering % 2 ^ 14 = a at hlo ha ⊢
  generalize s.buttons % 2 ^ 14 = b at hlo hb ⊢
  generalize (UpdateHatSwitch (UpdateSteering s)).hatswitch = w at hlo hh ⊢
  refine ⟨hp, ?_, htf, hbf, ?_, ?_, ?_, ?_, ?_, ?_, ?_, hlo, hh, ?_, ?_, ?_⟩ <;> omega

theorem dfp1102_report_layout_witness :
    (TokenIn (PadState.new zeroPad PS2WheelTypes.WT_DRIVING_FORCE_PRO_1102) 8).2.1.hi
        = 0x1181FC00
    ∧ (TokenIn (PadState.new zeroPad PS2WheelTypes.WT_DRIVING_FORCE_PRO_1102) 8).2.1.hi
        / 2 ^ 16 % 2 = 1 :=
  ⟨by decide, (dfp1102_report_layout sampleIds
    (PadState.new zeroPad PS2WheelTypes.WT_DRIVING_FORCE_PRO_1102) 8
    (PadReachable.create zeroPad _) rfl).2.2.2.2.2.2.1⟩

/-! ## Loads of damaged streams -/

/-- The head of a `Load` on a stream that starts with the subsystem marker and the
controller record of `S`: the marker is found, the controller record is read into the
live state, and the stream stands behind the record. -/
theorem loadHead_read (S L : USBState) (hregs : S.WFregs)
    (hrh : L.s_qemu_ohci.rhport_ctrl.length = OHCI_MAX_PORTS)
    (hbuf : L.s_qemu_ohci.usb_buf.length = S.s_qemu_ohci.usb_buf.length)
    (data : freezeData) (rest : List Nat)
    (hdata : fit data.size data.data = markerEnc "USB" ++ (ohciBytes S ++ rest)) :
    ((⟨Mode.Read, fit data.size data.data, 0, false⟩ : StateWrapper).DoMarker "USB").1 = true
    ∧ (loadHead L data).st = ohciLoaded L S
    ∧ (loadHead L data).valid_devices = ⟨false, false⟩
    ∧ (loadHead L data).sw.Readable rest [] := by
  have hR : (⟨Mode.Read, fit data.size data.data, 0, false⟩ : StateWrapper).Readable
      (markerEnc "USB" ++ (ohciBytes S ++ rest)) [] :=
    ⟨rfl, rfl, by simp [StateWrapper.rest, hdata], by simp⟩
  obtain ⟨sw, hsw⟩ : ∃ sw, sw = (⟨Mode.Read, fit data.size data.data, 0, false⟩ : StateWrapper) :=
    ⟨_, rfl⟩
  rw [← hsw] at hR
  have h1 := hR.left
  have h2 := hR.adv
  have e0 := StateWrapper.DoMarker_read _ _ _ good_USB h1
  have e1 := DoOHCIState_read L S _ _ h2.left hregs hrh hbuf
  unfold loadHead
  simp only [← hsw, e0, e1]
  exact ⟨trivial, trivial, trivial, h2.adv⟩

/-- The port loop of a `Load` on a stream that starts as the one saved from `S`
(subsystem marker, controller record, the two port blocks), into a live state with the
configuration and the devices of `S`: both ports are read, and the stream stands
behind the block of port 1. -/
theorem loadAfterPorts_compat (env : Env) (hr : env.Reapply) (S L : USBState) (hS : S.WF)
    (hc : Compatible L S) (hb0 : (blockBytes (S.s_usb_device.get 0)).length < 2 ^ 31)
    (hb1 : (blockBytes (S.s_usb_device.get 1)).length < 2 ^ 31) (data : freezeData)
    (rest : List Nat)
    (hdata : fit data.size data.data
      = markerEnc "USB" ++ (ohciBytes S ++ (portBytes S 0 ++ (portBytes S 1 ++ rest)))) :
    ((⟨Mode.Read, fit data.size data.data, 0, false⟩ : StateWrapper).DoMarker "USB").1 = true
    ∧ (∃ tr, (loadAfterPorts env L data).st = loadedState L S tr)
    ∧ (loadAfterPorts env L data).valid_devices = validOf S
    ∧ (loadAfterPorts env L data).sw.Readable rest [] := by
  obtain ⟨hm, hst, hv, hR⟩ := loadHead_read S L hS.regs hc.rhport hc.usb_buf data _ hdata
  have hd0 := hc.dev 0
  have hd1 := hc.dev 1
  obtain ⟨tr0, e2⟩ := loadPort_compat env hr (loadHead L data) S 0 _ hS.port0
    (by rw [hst]; simp [ohciLoaded, hc.config]) (by rw [hst]; simp [ohciLoaded, hc.proxy])
    (by rw [hst]; simpa [ohciLoaded] using hd0) hb0 hR.left
  have hR1 := hR.adv
  rw [hst, hv] at e2
  obtain ⟨tr1, e3⟩ := loadPort_compat env hr (loadPort env (loadHead L data) 0) S 1 _ hS.port1
    (by rw [e2]; simp [ohciLoaded, hc.config]) (by rw [e2]; simp [ohciLoaded, hc.proxy])
    (by rw [e2]; simpa [ohciLoaded, PortArr.get, PortArr.set] using hd1) hb1
    (by rw [e2]; exact hR1.left)
  have hR2 : ((loadPort env (loadHead L data) 0).sw.adv (portBytes S 1).length).Readable rest [] := by
    rw [e2]
    exact hR1.adv
  refine ⟨hm, ⟨tr1, ?_⟩, ?_, ?_⟩
  · unfold loadAfterPorts
    rw [e3, e2]
    simp only [loadedState, ohciLoaded, PortArr.get, PortArr.set]
    simp
  · unfold loadAfterPorts
    rw [e3, e2]
    simp only [validOf]
    generalize (S.s_usb_device.get 0).isSome = a
    generalize (S.s_usb_device.get 1).isSome = b
    cases a <;> cases b <;> simp [PortArr.set]
  · unfold loadAfterPorts
    rw [e3]
    exact hR2

theorem USBfreeze_Load_state (env : Env) (st : USBState) (data : freezeData) :
    (USBfreeze env FreezeAction.Load st data).2.1 = (USBfreezeLoad env st data).2 := rfl

theorem USBfreeze_Load_ret (env : Env) (st : USBState) (data : freezeData) :
    (USBfreeze env FreezeAction.Load st data).1 = (USBfreezeLoad env st data).1 := rfl

theorem DoPacketState_no_marker (st : USBState) (sw : StateWrapper) (v : PortArr Bool)
    (h : (sw.DoMarker "USBPacket").1 = false) :
    DoPacketState st sw v = (st, (sw.DoMarker "USBPacket").2) := by
  unfold DoPacketState
  simp only [h, Bool.not_false, if_true]

/-- A `Load` whose packet marker is not found while the stream reports no error returns
0 with the state the port loop left: the packet record is not read and `USBreset` is
not run. -/
theorem USBfreezeLoad_no_packet_marker (env : Env) (L : USBState) (data : freezeData)
    (hm : ((⟨Mode.Read, fit data.size data.data, 0, false⟩ : StateWrapper).DoMarker "USB").1
      = true)
    (hpm : ((loadAfterPorts env L data).sw.DoMarker "USBPacket").1 = false)
    (he : ((loadAfterPorts env L data).sw.DoMarker "USBPacket").2.HasError = false) :
    USBfreezeLoad env L data = (0, (loadAfterPorts env L data).st) := by
  rw [USBfreezeLoad_eq env L data hm, DoPacketState_no_marker _ _ _ hpm]
  simp only [he, Bool.false_eq_true, if_false]

theorem packetReadAt_record (x : FreezeLoop) (src : USBPacket) (ls : PacketLocals)
    (tl : List Nat) (hw : src.WF) (hd : InS 4 ls.dev_index) (he : InS 4 ls.ep_index)
    (h : x.sw.Readable (markerEnc "USBPacket" ++ encAll packetFields (src, ls)) tl) :
    (x.sw.DoMarker "USBPacket").1 = true
    ∧ (packetReadAt x).1.2 = ls
    ∧ (packetReadAt x).2.HasError = false := by
  unfold packetReadAt
  rw [StateWrapper.DoMarker_read _ _ _ good_USBPacket h.left]
  rw [doFields_read _ _ (src, ls) _ tl h.adv
    (by simp [agree, packetFields, Field.u, Field.s, Field.b, encB])]
  rw [decAll_packet _ _ _ _ hw hd he]
  exact ⟨rfl, rfl, by simp [StateWrapper.HasError, StateWrapper.adv, h.2.1]⟩

theorem resolvePacket_fault (st : USBState) (p : USBPacket) (l : PacketLocals)
    (v : PortArr Bool)
    (h : 0 ≤ l.dev_index ∧ 0 ≤ l.ep_index ∧ validAt v l.dev_index = none) :
    (resolvePacket st p l v).fault = true := by
  unfold resolvePacket
  simp only
  rw [if_pos h]

theorem resolvePacket_no_fault (st : USBState) (p : USBPacket) (l : PacketLocals)
    (v : PortArr Bool)
    (h : ¬ (0 ≤ l.dev_index ∧ 0 ≤ l.ep_index ∧ validAt v l.dev_index = none)) :
    (resolvePacket st p l v).fault = st.fault := by
  unfold resolvePacket
  simp only
  rw [if_neg h]
  split
  · split <;> rfl
  · rfl

/-- A `Load` of a stream that is the one saved from `S` up to the packet record and
whose packet record holds a port index of 2 or more with an endpoint index that is not
negative reads the table `valid_devices` outside its two entries. -/
theorem USBfreezeLoad_fault (env : Env) (hr : env.Reapply) (S L : USBState) (hS : S.WF)
    (hc : Compatible L S) (hb0 : (blockBytes (S.s_usb_device.get 0)).length < 2 ^ 31)
    (hb1 : (blockBytes (S.s_usb_device.get 1)).length < 2 ^ 31) (data : freezeData)
    (src : USBPacket) (ls : PacketLocals) (tl : List Nat) (hw : src.WF)
    (hd : InS 4 ls.dev_index) (he : InS 4 ls.ep_index) (h2 : 2 ≤ ls.dev_index)
    (h0 : 0 ≤ ls.ep_index)
    (hdata : fit data.size data.data
      = markerEnc "USB" ++ (ohciBytes S ++ (portBytes S 0 ++ (portBytes S 1
          ++ (markerEnc "USBPacket" ++ encAll packetFields (src, ls) ++ tl))))) :
    (USBfreezeLoad env L data).2.fault = true := by
  obtain ⟨hm, _, _, hR⟩ := loadAfterPorts_compat env hr S L hS hc hb0 hb1 data _ hdata
  have hmode : (loadAfterPorts env L data).sw.mode = Mode.Read := hR.1
  obtain ⟨hpm, hl, hok⟩ := packetReadAt_record (loadAfterPorts env L data) src ls _ hw hd he
    hR.left
  have hf : (resolvePacket (loadAfterPorts env L data).st
      (packetReadAt (loadAfterPorts env L data)).1.1
      (packetReadAt (loadAfterPorts env L data)).1.2
      (loadAfterPorts env L data).valid_devices).fault = true := by
    apply resolvePacket_fault
    rw [hl]
    refine ⟨by omega, h0, ?_⟩
    unfold validAt
    rw [if_neg (by omega), if_neg (by omega)]
  rw [USBfreezeLoad_eq env L data hm, DoPacketState_readAt _ hmode hpm]
  simp only [hok, Bool.false_eq_true, if_false]
  exact hf

/-- C12: `USBfreeze` in `Load` mode does not return 0 on every stream. The stream is
the one a Save of the sample state produces, with a packet record that holds port index
2 and endpoint index 0, loaded into the sample state: the read-mode tail of
`DoPacketState` reads the two-entry table `valid_devices` at index 2, outside the
array, and the run has no defined result from there on (no return value is
guaranteed). -/
theorem load_reads_past_table :
    sampleState.fault = false
    ∧ validAt (validOf sampleState) 2 = none
    ∧ (USBfreeze sampleEnv FreezeAction.Load sampleState corruptIndexData).2.1.fault = true := by
  have hb0 := blockBytes_le sampleState 0 (Or.inl rfl)
  have hb1 := blockBytes_le sampleState 1 (Or.inr rfl)
  have hsz := sampleState_size
  have hw : blankPacket.WF := by constructor <;> decide
  have hdata : fit corruptIndexData.size corruptIndexData.data
      = markerEnc "USB" ++ (ohciBytes sampleState ++ (portBytes sampleState 0
          ++ (portBytes sampleState 1 ++ (markerEnc "USBPacket"
            ++ encAll packetFields (blankPacket, (⟨2, 0, false⟩ : PacketLocals)) ++ [])))) := by
    simp only [corruptIndexData, fit_self, corruptIndexStream, corruptPacketStream,
      List.append_assoc, List.append_nil]
  have h := USBfreezeLoad_fault sampleEnv sampleEnv_reapply sampleState sampleState sampleState_wf
    sampleState_compatible (by omega) (by omega) corruptIndexData blankPacket ⟨2, 0, false⟩ []
    hw (by decide) (by decide) (by decide) (by decide) hdata
  refine ⟨rfl, rfl, ?_⟩
  rw [USBfreeze_Load_state]
  exact h

theorem good_USBPackeX : GoodMarker "USBPackeX" := by
  constructor <;> decide

theorem sampleLaterOnPad_compatible : Compatible sampleLaterOnPad sampleState := by
  refine ⟨rfl, rfl, ?_, by decide, rfl⟩
  intro port
  by_cases h0 : port = 0
  · subst h0
    exact ⟨⟨rfl, rfl, rfl, rfl, rfl⟩, rfl⟩
  · simp only [sampleLaterOnPad, samplePacketOnPad, sampleState, PortArr.get, h0, if_false]
    exact ⟨⟨rfl, rfl, rfl, rfl, rfl⟩, trivial⟩

/-- C6: a packet record whose marker cannot be read does not end the load in
`USBreset`. The stream is the one a Save of the sample state produces (cycle clock
1000, outstanding packet on the device of guest port 1), with one character of the
"USBPacket" marker changed; it is loaded into a live state with the same devices, the
cycle clock at 5000 and the outstanding packet on the pad of guest port 0. The marker
check fails without a stream error, so `USBfreeze` returns 0 and leaves a partially
restored state: the cycle clock is the one of the stream (not 0, the value `USBreset`
sets), and the packet is the live one, still on the pad of guest port 0. -/
theorem load_bad_packet_marker_no_reset :
    sampleLaterOnPad.s_usb_clocks = 5000
    ∧ (packetLocals sampleState (validOf sampleState)).dev_index = 1
    ∧ (USBfreeze sampleEnv FreezeAction.Load sampleLaterOnPad badPacketMarkerData).1 = 0
    ∧ (USBfreeze sampleEnv FreezeAction.Load sampleLaterOnPad badPacketMarkerData).2.1.s_usb_clocks
        = 1000
    ∧ (∀ st, (USBreset sampleEnv st).s_usb_clocks = 0)
    ∧ (USBfreeze sampleEnv FreezeAction.Load sampleLaterOnPad
        badPacketMarkerData).2.1.s_qemu_ohci.usb_packet
        = sampleLaterOnPad.s_qemu_ohci.usb_packet
    ∧ sampleLaterOnPad.s_qemu_ohci.usb_packet.ep = some ⟨1, EpSlot.ctl⟩ := by
  have hb0 := blockBytes_le sampleState 0 (Or.inl rfl)
  have hb1 := blockBytes_le sampleState 1 (Or.inr rfl)
  have hsz := sampleState_size
  have hdata : fit badPacketMarkerData.size badPacketMarkerData.data
      = markerEnc "USB" ++ (ohciBytes sampleState ++ (portBytes sampleState 0
          ++ (portBytes sampleState 1 ++ (markerEnc "USBPackeX"
            ++ encAll packetFields (sampleState.s_qemu_ohci.usb_packet,
                packetLocals sampleState (validOf sampleState)))))) := by
    simp only [badPacketMarkerData, fit_self, badPacketMarkerStream, List.append_assoc]
  obtain ⟨hm, ⟨tr, hst⟩, _, hR⟩ := loadAfterPorts_compat sampleEnv sampleEnv_reapply sampleState
    sampleLaterOnPad sampleState_wf sampleLaterOnPad_compatible (by omega) (by omega)
    badPacketMarkerData _ hdata
  have hmk := DoMarker_other _ "USBPacket" "USBPackeX" _ good_USBPackeX (by decide) hR.left
  have hload := USBfreezeLoad_no_packet_marker sampleEnv sampleLaterOnPad badPacketMarkerData hm
    (by rw [hmk]) (by rw [hmk]; simp only [StateWrapper.HasError, StateWrapper.adv]; exact hR.2.1)
  rw [USBfreeze_Load_state, USBfreeze_Load_ret, hload, hst]
  exact ⟨rfl, by decide, rfl, rfl, fun _ => rfl, rfl, rfl⟩

/-- An iteration of the `Load` loop that does not take the skip branch leaves the
outstanding packet as it is. -/
theorem loadPort_packet (env : Env) (x : FreezeLoop) (port : Nat) (h : ¬ Skipped x port) :
    (loadPort env x port).st.s_qemu_ohci.usb_packet = x.st.s_qemu_ohci.usb_packet := by
  unfold Skipped headerAt at h
  unfold loadPort
  simp only
  rw [if_neg h]
  cases hd : x.st.s_usb_device.get port with
  | none => rfl
  | some dev =>
    simp only
    split
    · exact DestroyDevice_packet _ _
    · rfl

theorem sampleTwoPads_regs : sampleTwoPads.WFregs := by
  refine ⟨by decide, by decide, by decide, ?_⟩
  constructor <;> decide

theorem sampleTwoPads_port0 : PortWF sampleTwoPads 0 := by
  refine ⟨by decide, by decide, ?_⟩
  intro d hd
  have : d = sampleDevice 1 (Peripheral.pad ⟨77, [1, 2, 3]⟩) := by
    simpa [sampleTwoPads, samplePad, PortArr.get] using hd.symm
  subst this
  refine ⟨?_, by simp only [sampleDevice, Peripheral.WF]; decide, DeviceProxy.PadDevice, rfl,
    trivial⟩
  constructor <;> decide

theorem secondPad_wf : secondPad.WF := by
  constructor <;> decide

set_option maxRecDepth 100000 in
theorem secondPad_size : (blockBytes (some secondPad)).length ≤ 1000 := by
  decide

set_option maxRecDepth 100000 in
theorem samplePad_size : (blockBytes (some samplePad)).length ≤ 1000 := by
  decide

/-- C5: the packet keeps an endpoint of a device that the load destroyed. The stream is
the one a Save of `sampleTwoPads` produces, with one character of the pad marker of
port 1 changed, loaded into `sampleTwoPads`, whose outstanding packet is on the control
endpoint of the pad of guest port 1 (the object at address 2). The `Freeze` of that pad
fails without a stream error, the device is destroyed, and the read position stays
behind the pad marker; the packet marker is looked for there, is not found, and
`DoPacketState` returns before it touches the packet. `USBfreeze` returns 0; guest port
1 is empty, the one device left is the object at address 1, and the packet still has
the control endpoint of the object at address 2 and its buffer. -/
theorem load_destroyed_port_keeps_packet :
    (sampleTwoPads.s_usb_device.get 1).map USBDevice.ptr = some 2
    ∧ (USBfreeze sampleEnv FreezeAction.Load sampleTwoPads badSecondPadData).1 = 0
    ∧ (USBfreeze sampleEnv FreezeAction.Load sampleTwoPads badSecondPadData).2.1.s_usb_device.get 1
        = none
    ∧ ((USBfreeze sampleEnv FreezeAction.Load sampleTwoPads
          badSecondPadData).2.1.s_usb_device.get 0).map USBDevice.ptr = some 1
    ∧ (USBfreeze sampleEnv FreezeAction.Load sampleTwoPads
          badSecondPadData).2.1.s_qemu_ohci.usb_packet.ep = some ⟨2, EpSlot.ctl⟩
    ∧ (USBfreeze sampleEnv FreezeAction.Load sampleTwoPads
          badSecondPadData).2.1.s_qemu_ohci.usb_packet.buffer_size = 8 := by
  have hdata : fit badSecondPadData.size badSecondPadData.data
      = markerEnc "USB" ++ (ohciBytes sampleTwoPads ++ (portBytes sampleTwoPads 0
          ++ ((encS 4 0 ++ encU 4 0 ++ encU 4 (blockBytes (some secondPad)).length
              ++ (devBytes secondPad ++ markerEnc "XadDevice"))
            ++ (markerEnc "" ++ ([0] ++ packetBytes sampleTwoPads (validOf sampleTwoPads)))))) := by
    simp only [badSecondPadData, fit_self, badSecondPadStream, List.append_assoc]
    rfl
  obtain ⟨hm, hst, hv, hR⟩ := loadHead_read sampleTwoPads sampleTwoPads sampleTwoPads_regs
    (by decide) rfl badSecondPadData _ hdata
  have hs0 := samplePad_size
  have hs1 := secondPad_size
  obtain ⟨tr0, e2⟩ := loadPort_compat sampleEnv sampleEnv_reapply (loadHead sampleTwoPads
    badSecondPadData) sampleTwoPads 0 _ sampleTwoPads_port0 (by rw [hst]; rfl) (by rw [hst]; rfl)
    (by rw [hst]; exact ⟨⟨rfl, rfl, rfl, rfl, rfl⟩, rfl⟩)
    (by
      have : sampleTwoPads.s_usb_device.get 0 = some samplePad := rfl
      rw [this]
      omega) hR.left
  have hR1 := hR.adv
  rw [hst, hv] at e2
  have hx1 : (loadPort sampleEnv (loadHead sampleTwoPads badSecondPadData) 0).sw.Readable
      (encS 4 0 ++ encU 4 0 ++ encU 4 (blockBytes (some secondPad)).length
        ++ (devBytes secondPad ++ markerEnc "XadDevice"))
      (markerEnc "" ++ ([0] ++ packetBytes sampleTwoPads (validOf sampleTwoPads)) ++ []) := by
    rw [e2]
    exact hR1.left
  have hsz : InU 4 (blockBytes (some secondPad)).length := by
    unfold InU
    omega
  have hd1 : (loadPort sampleEnv (loadHead sampleTwoPads badSecondPadData) 0).st.s_usb_device.get 1
      = some secondPad := by
    rw [e2]
    rfl
  have hcfg1 : (loadPort sampleEnv (loadHead sampleTwoPads badSecondPadData)
      0).st.EmuConfig.get 1 = ⟨0, 0⟩ := by
    rw [e2]
    rfl
  have key := loadPort_bad_marker sampleEnv sampleEnv_reapply
    (loadPort sampleEnv (loadHead sampleTwoPads badSecondPadData) 0) 1 0 0 _ secondPad secondPad
    ⟨0, [0, 0, 0]⟩ "XadDevice" _ hcfg1 hd1 rfl (by rw [e2]; rfl) secondPad_wf
    ⟨rfl, rfl, rfl, rfl, rfl⟩ (by decide) (by decide) hsz good_XadDevice (by decide) hx1
  have hh : (loadPort sampleEnv (loadHead sampleTwoPads badSecondPadData) 0).sw.Readable
      (encS 4 0 ++ encU 4 0 ++ encU 4 (blockBytes (some secondPad)).length)
      (devBytes secondPad ++ markerEnc "XadDevice"
        ++ (markerEnc "" ++ ([0] ++ packetBytes sampleTwoPads (validOf sampleTwoPads)) ++ [])) :=
    hx1.left
  have hnot : ¬ Skipped (loadPort sampleEnv (loadHead sampleTwoPads badSecondPadData) 0) 1 := by
    unfold Skipped headerAt
    rw [portHeader_read _ 0 0 _ _ (by decide) (by decide) hsz hh]
    simp [StateWrapper.HasError, StateWrapper.adv, hh.2.1, hcfg1, hd1]
  have hpk : (loadAfterPorts sampleEnv sampleTwoPads badSecondPadData).st.s_qemu_ohci.usb_packet
      = sampleTwoPads.s_qemu_ohci.usb_packet := by
    unfold loadAfterPorts
    rw [loadPort_packet _ _ _ hnot, e2]
    rfl
  have hk0 : (loadAfterPorts sampleEnv sampleTwoPads badSecondPadData).st.s_usb_device.get 0
      = some (portLoaded samplePad samplePad) := by
    unfold loadAfterPorts
    rw [loadPort_keeps0 sampleEnv _ (by rw [e2]; rfl)
      (by
        rw [e2]
        intro a h0 h1
        have h0b : some 1 = some a := h0
        have h1b : some 2 = some a := h1
        cases h0b
        cases h1b), e2]
    rfl
  have hlen : (encS 4 0 ++ encU 4 0 ++ encU 4 (blockBytes (some secondPad)).length
        ++ (devBytes secondPad ++ markerEnc "XadDevice")).length
      = 12 + (devBytes secondPad).length + (markerEnc "XadDevice").length := by
    simp only [List.length_append, encS_length, encU_length]
    omega
  have hR2 : (loadAfterPorts sampleEnv sampleTwoPads badSecondPadData).sw.Readable
      (markerEnc "" ++ ([0] ++ packetBytes sampleTwoPads (validOf sampleTwoPads))) [] := by
    unfold loadAfterPorts
    rw [key.2, ← hlen]
    exact hx1.next
  have hmk := DoMarker_other _ "USBPacket" "" _ (by constructor <;> decide) (by decide) hR2.left
  have hload := USBfreezeLoad_no_packet_marker sampleEnv sampleTwoPads badSecondPadData hm
    (by rw [hmk]) (by rw [hmk]; simp only [StateWrapper.HasError, StateWrapper.adv]; exact hR2.2.1)
  have hnone : (loadAfterPorts sampleEnv sampleTwoPads badSecondPadData).st.s_usb_device.get 1
      = none := by
    unfold loadAfterPorts
    exact key.1
  rw [USBfreeze_Load_state, USBfreeze_Load_ret, hload]
  simp only [hnone, hpk, hk0]
  exact ⟨rfl, trivial, trivial, rfl, rfl, rfl⟩

/-- An iteration of the `Load` loop on a block that starts with another marker than
"USBDevice" and goes on with the record of the peripheral: `DoDeviceState` returns at
the marker, without a stream error and with the device as it was, the `Freeze` of the
proxy reads the peripheral record, and the port is marked restored. -/
theorem loadPort_bad_device_marker (env : Env) (x : FreezeLoop) (port : Nat) (ty : Int)
    (sub size : Nat) (d : USBDevice) (src : Peripheral) (proxy : DeviceProxy) (stored : String)
    (tl : List Nat)
    (hcfg : x.st.EmuConfig.get port = ⟨ty, sub⟩) (hd : x.st.s_usb_device.get port = some d)
    (hproxy : x.st.s_usb_device_proxy.get port = some proxy) (hpo : ProxyOf proxy d.periph)
    (hps : PeriphShape d.periph src) (hpw : src.WF) (hty : InS 4 ty) (hsub : InU 4 sub)
    (hsize : InU 4 size) (hg : GoodMarker stored)
    (hne : markerBytes stored ≠ markerBytes "USBDevice")
    (h : x.sw.Readable (encS 4 ty ++ encU 4 sub ++ encU 4 size
      ++ (markerEnc stored ++ periphBytes src)) tl) :
    loadPort env x port
      = { st := { x.st with
            s_usb_device := x.st.s_usb_device.set port
              (some { d with periph := periphLoaded d.periph src }) },
          sw := x.sw.adv (12 + (markerEnc stored).length + (periphBytes src).length),
          valid_devices := x.valid_devices.set port true } := by
  obtain ⟨st, sw, valid⟩ := x
  simp only at hcfg hd hproxy h ⊢
  have hh : sw.Readable (encS 4 ty ++ encU 4 sub ++ encU 4 size)
      (markerEnc stored ++ (periphBytes src ++ tl)) := by
    obtain ⟨a, b, c, e⟩ := h
    exact ⟨a, b, by rw [c]; simp [List.append_assoc], e⟩
  have h1 : (sw.adv 12).Readable (markerEnc stored) (periphBytes src ++ tl) := by
    simpa using hh.next
  have h2 : ((sw.adv 12).adv (markerEnc stored).length).Readable (periphBytes src) tl := h1.next
  have hdv : DoDeviceState env d (sw.adv 12) = (d, (sw.adv 12).adv (markerEnc stored).length) := by
    unfold DoDeviceState
    simp only [DoMarker_other _ "USBDevice" stored _ hg hne h1, Bool.not_false, if_true]
  have hfr := Freeze_read proxy d src hpo hps hpw _ tl h2
  have hc : ¬ ((sw.adv 12).HasError = true ∨ (st.EmuConfig.get port).DeviceType ≠ ty
      ∨ (st.EmuConfig.get port).DeviceSubtype ≠ sub
      ∨ (ty ≠ DEVTYPE_NONE ∧ (st.s_usb_device.get port).isNone = true)) := by
    simp [StateWrapper.HasError, StateWrapper.adv, h.2.1, hcfg, hd]
  unfold loadPort
  rw [portHeader_read sw ty sub size _ hty hsub hsize hh]
  dsimp only
  rw [if_neg hc]
  simp only [hd, hproxy, hdv, hfr]
  simp [StateWrapper.HasError, StateWrapper.adv, h.2.1, Nat.add_assoc]

theorem good_USBDevicX : GoodMarker "USBDevicX" := by
  constructor <;> decide

/-- C20: a `Load` can leave a stale packet on the queue of a restored device. The live
state has the outstanding packet queued on the control endpoint of the pad in guest
port 0. The stream is the one saved from a state with no outstanding transaction,
except that the block of port 0 has the marker "USBDevicX" where the device record
starts, followed by the pad record. `DoDeviceState` returns at the marker, without a
stream error and before `DoEndpointState` has cleared a queue; the `Freeze` of the pad
succeeds and port 0 is marked restored. After the `Load`, which returns 0, the packet
has no endpoint, as the stream records, and the control endpoint of the pad in guest
port 0 still has the packet in its queue; the trace of outside calls is the one before
the `Load`: no re-attach was issued on the way. -/
theorem load_keeps_queue_behind_bad_marker :
    (sampleQueuedMatch.s_usb_device.get 0).map (fun d => d.ep_ctl.queue)
      = some [PacketPtr.usb_packet]
    ∧ (packetLocals sampleIdle (validOf sampleIdle)).queued = false
    ∧ (loadAfterPorts sampleEnv sampleQueuedMatch badDeviceMarkerData).valid_devices.get 0 = true
    ∧ (USBfreeze sampleEnv FreezeAction.Load sampleQueuedMatch badDeviceMarkerData).1 = 0
    ∧ ((USBfreeze sampleEnv FreezeAction.Load sampleQueuedMatch
          badDeviceMarkerData).2.1.s_usb_device.get 0).map (fun d => d.ep_ctl.queue)
        = some [PacketPtr.usb_packet]
    ∧ (USBfreeze sampleEnv FreezeAction.Load sampleQueuedMatch
          badDeviceMarkerData).2.1.s_qemu_ohci.usb_packet.ep = none
    ∧ (USBfreeze sampleEnv FreezeAction.Load sampleQueuedMatch badDeviceMarkerData).2.1.trace
        = sampleQueuedMatch.trace := by
  have hsz := sampleIdle_size
  have hb1 : (blockBytes (some (idleDevice 2 (Peripheral.guncon2 sampleGun)))).length
      ≤ (saveBytes sampleIdle).length := blockBytes_le sampleIdle 1 (Or.inr rfl)
  have hdata : fit badDeviceMarkerData.size badDeviceMarkerData.data
      = markerEnc "USB" ++ (ohciBytes sampleIdle
          ++ ((encS 4 0 ++ encU 4 0
              ++ encU 4 (markerEnc "USBDevicX"
                  ++ periphBytes (Peripheral.pad ⟨77, [1, 2, 3]⟩)).length
              ++ (markerEnc "USBDevicX" ++ periphBytes (Peripheral.pad ⟨77, [1, 2, 3]⟩)))
            ++ (portBytes sampleIdle 1 ++ packetBytes sampleIdle (validOf sampleIdle)))) := by
    simp only [badDeviceMarkerData, fit_self, badDeviceMarkerStream, List.append_assoc]
  obtain ⟨hm, hst, hv, hR⟩ := loadHead_read sampleIdle sampleQueuedMatch sampleIdle_wf.regs
    (by decide) rfl badDeviceMarkerData _ hdata
  have hblk : InU 4 (markerEnc "USBDevicX"
      ++ periphBytes (Peripheral.pad ⟨77, [1, 2, 3]⟩)).length := by
    decide
  have e2 := loadPort_bad_device_marker sampleEnv (loadHead sampleQueuedMatch badDeviceMarkerData)
    0 0 0 _ samplePad (Peripheral.pad ⟨77, [1, 2, 3]⟩) DeviceProxy.PadDevice "USBDevicX" _
    (by rw [hst]; rfl) (by rw [hst]; rfl) (by rw [hst]; rfl) trivial rfl
    (by simp only [Peripheral.WF]; decide) (by decide) (by decide) hblk good_USBDevicX (by decide) hR.left
  have hR1 : (loadPort sampleEnv (loadHead sampleQueuedMatch badDeviceMarkerData) 0).sw.Readable
      (portBytes sampleIdle 1 ++ packetBytes sampleIdle (validOf sampleIdle)) [] := by
    have h := hR.adv
    have hlen : (encS 4 0 ++ encU 4 0
        ++ encU 4 (markerEnc "USBDevicX" ++ periphBytes (Peripheral.pad ⟨77, [1, 2, 3]⟩)).length
        ++ (markerEnc "USBDevicX" ++ periphBytes (Peripheral.pad ⟨77, [1, 2, 3]⟩))).length
        = 12 + (markerEnc "USBDevicX").length
          + (periphBytes (Peripheral.pad ⟨77, [1, 2, 3]⟩)).length := by
      simp only [List.length_append, encS_length, encU_length]
      omega
    rw [e2, ← hlen]
    exact h
  rw [hst, hv] at e2
  obtain ⟨hw1, hpw1, _⟩ := sampleIdle_wf.port1.dev (idleDevice 2 (Peripheral.guncon2 sampleGun)) rfl
  have hR1p : (loadPort sampleEnv (loadHead sampleQueuedMatch badDeviceMarkerData) 0).sw.Readable
      (portRecord 1 0 (blockBytes (some (idleDevice 2 (Peripheral.guncon2 sampleGun)))))
      (packetBytes sampleIdle (validOf sampleIdle) ++ []) := by
    have h := hR1.left
    rw [portBytes_eq] at h
    exact h
  have e3 := loadPort_match sampleEnv sampleEnv_reapply
    (loadPort sampleEnv (loadHead sampleQueuedMatch badDeviceMarkerData) 0) 1 1 0
    (idleDevice 2 (Peripheral.guncon2 sampleGun)) (idleDevice 2 (Peripheral.guncon2 sampleGun))
    DeviceProxy.GunCon2Device _ (by rw [e2]; rfl) (by rw [e2]; rfl) (by rw [e2]; rfl) trivial
    hw1 hpw1 ⟨rfl, rfl, rfl, rfl, rfl⟩ trivial (by decide) (by decide) (by omega) hR1p
  have hlen1 : (portRecord 1 0 (blockBytes (some (idleDevice 2
      (Peripheral.guncon2 sampleGun))))).length = (portBytes sampleIdle 1).length := by
    rw [portBytes_eq]
    rfl
  have hR2 : (loadAfterPorts sampleEnv sampleQueuedMatch badDeviceMarkerData).sw.Readable
      (packetBytes sampleIdle (validOf sampleIdle)) [] := by
    unfold loadAfterPorts
    rw [e3, hlen1]
    exact hR1.adv
  have hv0 : (loadAfterPorts sampleEnv sampleQueuedMatch badDeviceMarkerData).valid_devices.get 0
      = true := by
    unfold loadAfterPorts
    rw [e3, e2]
    rfl
  have hq : ((loadAfterPorts sampleEnv sampleQueuedMatch badDeviceMarkerData).st.s_usb_device.get
      0).map (fun d => d.ep_ctl.queue) = some [PacketPtr.usb_packet] := by
    unfold loadAfterPorts
    rw [e3, e2]
    rfl
  have hidx : (packetLocals sampleIdle (validOf sampleIdle)).dev_index = -1 := by
    decide
  have hload : USBfreezeLoad sampleEnv sampleQueuedMatch badDeviceMarkerData
      = (0, resolvePacket (loadAfterPorts sampleEnv sampleQueuedMatch badDeviceMarkerData).st
          (packetLoaded
            (loadAfterPorts sampleEnv sampleQueuedMatch
              badDeviceMarkerData).st.s_qemu_ohci.usb_packet
            sampleIdle.s_qemu_ohci.usb_packet)
          (packetLocals sampleIdle (validOf sampleIdle))
          (loadAfterPorts sampleEnv sampleQueuedMatch badDeviceMarkerData).valid_devices) := by
    rw [USBfreezeLoad_eq _ _ _ hm, DoPacketState_read _ sampleIdle _ _ (validOf sampleIdle) []
      sampleIdle_wf.packet hR2]
    simp only [StateWrapper.HasError, StateWrapper.adv, hR2.2.1, Bool.false_eq_true, if_false]
  have htr : (loadAfterPorts sampleEnv sampleQueuedMatch badDeviceMarkerData).st.trace
      = sampleQueuedMatch.trace := by
    unfold loadAfterPorts
    rw [e3, e2]
    rfl
  refine ⟨rfl, by decide, hv0, ?_, ?_, ?_, ?_⟩
  · rw [USBfreeze_Load_ret, hload]
  · rw [USBfreeze_Load_state, hload,
      resolvePacket_cancel _ _ _ _ (Or.inl (by rw [hidx]; decide))]
    dsimp only
    exact hq
  · rw [USBfreeze_Load_state, hload,
      resolvePacket_cancel _ _ _ _ (Or.inl (by rw [hidx]; decide))]
  · rw [USBfreeze_Load_state, hload,
      resolvePacket_cancel _ _ _ _ (Or.inl (by rw [hidx]; decide))]
    dsimp only
    exact htr

end USB
